import Mathlib

/-!
# WwiseFootsteps: a shallow embedding of the footstep synthesiser

The development follows `src/SoundEnginePlugin/FootstepsLibrary.{h,cpp}` (namespace
`nemlib`) and `src/SoundEnginePlugin/Generator.{h,cpp}`.

Modelling conventions

* `float` values are exact rationals (`ℚ`); rounding, infinities and NaN are not
  modelled.  A division by zero yields `0`, as `ℚ` defines it.
* Where rounding decides the behaviour, a second embedding of the same function, with the
  suffix `32`, computes in binary32: every `float` operation of the source is followed by
  `fl32`, the rounding to the nearest binary32 value, ties to even (`fadd`, `fsub`, `fmul`,
  `fdiv`), a `float` argument or literal is a binary32 value (`0.1f` is `fl32 (1 / 10)`), and
  a `Libm` function returns the binary32 value nearest to its result.  `Rescale32` and
  `BiquadFilter.ProcessSample32` return `none` when their divisor is zero; overflow to
  infinity is not modelled.  Theorems about the unsuffixed functions hold in exact
  arithmetic.
* `int` values are `Int`; `(int)x` on a float is truncation toward zero (`truncToInt`),
  `a / b` on two ints is `Int.tdiv`.
* `std::vector<float>` is `List ℚ`.  A read outside the vector (undefined behaviour in
  the source) yields `0`, a write outside the vector leaves the vector unchanged.
* `rand()` is an explicit source of draws: `Rand.src n` is the value of
  `float(rand()) / float(RAND_MAX)` at the `n`-th call, `Rand.pos` counts the calls.
* `sin`, `cos`, `tan`, `sqrt`, `pow` and the constant `(float)NEM_PI` are the fields of a
  parameter `Libm`; the definitions assume no property of them, and a theorem that needs
  one states it as a hypothesis.  `abs` on a float is the absolute value, and `isnan` is
  false of every value.
* A member function `T::f(args)` becomes `T.f (self) (args)` and returns the new state,
  paired with the returned value when there is one.
-/

namespace nemlib

/-! ## Numeric helpers -/

/-- Conversion `(int)x` of a float: truncation toward zero. -/
def truncToInt (x : ℚ) : Int := if 0 ≤ x then ⌊x⌋ else ⌈x⌉

/-- Read `v[i]` with an `int` index. -/
def vecGet (v : List ℚ) (i : Int) : ℚ := if 0 ≤ i then v.getD i.toNat 0 else 0

/-- Write `v[i] = x` with an `int` index. -/
def vecSet (v : List ℚ) (i : Int) (x : ℚ) : List ℚ := if 0 ≤ i then v.set i.toNat x else v

/-- The C library functions the source calls, and the constant `(float)NEM_PI`. -/
structure Libm where
  pi : ℚ
  sin : ℚ → ℚ
  cos : ℚ → ℚ
  sqrt : ℚ → ℚ
  pow : ℚ → ℚ → ℚ
  tan : ℚ → ℚ

/-- A concrete `Libm` on which the model can be run: `pi` is 355/113, `sin`, `tan` and
`sqrt` are the identity, `cos` and `pow` are constantly `1`. -/
def Libm.sample : Libm :=
  { pi := 355 / 113, sin := fun x => x, cos := fun _ => 1, sqrt := fun x => x
    pow := fun _ _ => 1, tan := fun x => x }

/-- The process-wide pseudo-random source: `src n` is `float(rand()) / float(RAND_MAX)`
at the `n`-th call of `rand()`, `pos` is the number of calls made so far. -/
structure Rand where
  src : Nat → ℚ
  pos : Nat

/-- One evaluation of `float(rand()) / float(RAND_MAX)`. -/
def Rand.next (r : Rand) : ℚ × Rand := (r.src r.pos, { r with pos := r.pos + 1 })

/-- Embeds `float Clamp(float InParam, float InMin, float InMax)`. -/
def Clamp (InParam InMin InMax : ℚ) : ℚ := min (max InParam InMin) InMax

/-- Embeds `float Vary(float InValue, float InAmount)`. -/
def Vary (InValue InAmount : ℚ) (r : Rand) : ℚ × Rand :=
  let Random := r.next
  (InValue * (1 + InAmount * (2 * Random.1 - 1)), Random.2)

/-! ## Timer -/

/-- State of `class Timer`, with the in-class initialisers of the header. -/
structure Timer where
  SampleRate : Int := 48000
  Inc : ℚ := 1 / 48000
  Counter : ℚ := 0
  Time : ℚ := 2
  Play : Bool := false
deriving DecidableEq

namespace Timer

/-- Embeds `Timer::Timer(int InSampleRate, float InTime)`. -/
def new (InSampleRate : Int) (InTime : ℚ) : Timer :=
  let SampleRate := max InSampleRate 1
  { SampleRate := SampleRate
    Inc := 1 / (SampleRate : ℚ)
    Counter := 0
    Time := max InTime 0
    Play := false }

/-- Embeds `void Timer::SetTime(float InTime)`. -/
def SetTime (t : Timer) (InTime : ℚ) : Timer := { t with Time := max InTime 0 }

/-- Embeds `void Timer::ResetTimer()`. -/
def ResetTimer (t : Timer) : Timer := { t with Counter := 0 }

/-- Embeds `void Timer::PauseTimer()`. -/
def PauseTimer (t : Timer) : Timer := { t with Play := false }

/-- Embeds `void Timer::ResumeTimer()`. -/
def ResumeTimer (t : Timer) : Timer := { t with Play := true }

/-- Embeds `bool Timer::checkTime()`: the returned flag and the timer afterwards. -/
def checkTime (t : Timer) : Bool × Timer :=
  if t.Play = true then
    if t.Counter ≥ t.Time then (true, t)
    else (false, { t with Counter := t.Counter + t.Inc })
  else (false, t)

/-- The timer after `n` successive calls of `checkTime`. -/
def calls : Nat → Timer → Timer
  | 0, t => t
  | n + 1, t => (checkTime (calls n t)).2

end Timer

/-! ## Delay -/

/-- Embeds `const float MAX_DELAY_TIME = 5.0f`. -/
def MAX_DELAY_TIME : ℚ := 5

/-- Embeds `const int MAX_DELAY_TIME_INT = (int)MAX_DELAY_TIME`. -/
def MAX_DELAY_TIME_INT : Int := truncToInt MAX_DELAY_TIME

/-- State of `class Delay`. -/
structure Delay where
  SampleRate : Int
  DelayTime : ℚ
  ReadPointer : Int := 0
  WritePointer : Int := 0
  DelayBuffer : List ℚ
deriving DecidableEq

namespace Delay

/-- Embeds `Delay::Delay(int InSampleRate, float InDelayTime)`.  `resize(n, 0.0f)` on the empty
buffer gives `n` zeros. -/
def new (InSampleRate : Int) (InDelayTime : ℚ) : Delay :=
  let DelayTime := Clamp InDelayTime 0 (MAX_DELAY_TIME - 1 / (InSampleRate : ℚ))
  { SampleRate := InSampleRate
    DelayTime := DelayTime
    DelayBuffer := List.replicate (MAX_DELAY_TIME_INT * InSampleRate).toNat 0
    ReadPointer := truncToInt ((MAX_DELAY_TIME - DelayTime) * (InSampleRate : ℚ)) - 1
    WritePointer := 0 }

/-- The loop `while (ReadPointer < 0) ReadPointer += C`, run for at most `fuel` rounds. -/
def wrapUp (C : Int) : Nat → Int → Int
  | 0, R => R
  | fuel + 1, R => if R < 0 then wrapUp C fuel (R + C) else R

/-- The loop `while (ReadPointer >= C) ReadPointer--`, run for at most `fuel` rounds. -/
def wrapDown (C : Int) : Nat → Int → Int
  | 0, R => R
  | fuel + 1, R => if R ≥ C then wrapDown C fuel (R - 1) else R

/-- Embeds `void Delay::SetDelay(float InDelayTime)`.  The first loop gets `|ReadPointer|` rounds,
which lets it finish whenever the capacity is positive (`wrapUp_nonneg`); the second gets
`ReadPointer - C + 1` rounds, which always lets it finish. -/
def SetDelay (d : Delay) (InDelayTime : ℚ) : Delay :=
  let DelayTime := Clamp InDelayTime 0 (MAX_DELAY_TIME - 1 / (d.SampleRate : ℚ))
  let C := MAX_DELAY_TIME_INT * d.SampleRate
  let R0 := d.WritePointer - truncToInt (DelayTime * (d.SampleRate : ℚ))
  let R1 := wrapUp C R0.natAbs R0
  let R2 := wrapDown C (R1 - C + 1).toNat R1
  { d with DelayTime := DelayTime, ReadPointer := R2 }

/-- Embeds `float Delay::ProcessSample(float InSample)`: the output and the delay afterwards. -/
def ProcessSample (d : Delay) (InSample : ℚ) : ℚ × Delay :=
  let Output := vecGet d.DelayBuffer d.ReadPointer
  let DelayBuffer := vecSet d.DelayBuffer d.WritePointer InSample
  let ReadPointer := d.ReadPointer + 1
  let WritePointer := d.WritePointer + 1
  let ReadPointer := if ReadPointer ≥ MAX_DELAY_TIME_INT * d.SampleRate then 0 else ReadPointer
  let WritePointer := if WritePointer ≥ MAX_DELAY_TIME_INT * d.SampleRate then 0 else WritePointer
  (Output, { d with DelayBuffer := DelayBuffer, ReadPointer := ReadPointer,
                    WritePointer := WritePointer })

/-- The delay after `n` successive `ProcessSample` calls fed `x 0, x 1, ...`. -/
def run (x : Nat → ℚ) : Nat → Delay → Delay
  | 0, d => d
  | n + 1, d => (ProcessSample (run x n d) (x n)).2

/-- The output of call number `n` (counted from 0) when the calls are fed `x 0, x 1, ...`. -/
def output (x : Nat → ℚ) (n : Nat) (d : Delay) : ℚ := (ProcessSample (run x n d) (x n)).1

end Delay

/-! ## Curve envelope -/

/-- State of `class CurveEnvelope`.  The default constructor's values stand in for the
members the header leaves uninitialised. -/
structure CurveEnvelope where
  Values : List ℚ := [0, 1, 0]
  Time : ℚ := 1 / 2
  Times : List ℚ := []
  EnvPos : ℚ := 0
  EnvPosInc : ℚ := 0
  Boundary : ℚ := (1 / 2) / 3
  HasStarted : Bool := false
  NumOfValues : Int := 3
  Counter : Int := 1
  SampleRate : Int := 48000
deriving DecidableEq

namespace CurveEnvelope

/-- Embeds `void CurveEnvelope::ResetEnvelope()`. -/
def ResetEnvelope (c : CurveEnvelope) : CurveEnvelope :=
  { c with
    EnvPos := 0
    HasStarted := true
    Counter := 1
    Boundary := if c.Times.isEmpty then c.Time / (c.NumOfValues : ℚ) else vecGet c.Times 0 }

/-- Embeds `CurveEnvelope::CurveEnvelope(int InSampleRate, std::vector<float> InValues, float InTime)`. -/
def new (InSampleRate : Int) (InValues : List ℚ) (InTime : ℚ) : CurveEnvelope :=
  let SampleRate := max InSampleRate 1
  let Values := if InValues.length < 2 then [0, 1, 0] else InValues
  let NumOfValues : Int := if InValues.length < 2 then 3 else (InValues.length : Int)
  let Time := max InTime (3 * ((Int.tdiv NumOfValues SampleRate : Int) : ℚ))
  { SampleRate := SampleRate
    EnvPosInc := 1 / (SampleRate : ℚ)
    EnvPos := 0
    HasStarted := false
    Values := Values
    NumOfValues := NumOfValues
    Time := Time
    Times := []
    Counter := 1
    Boundary := Time / (NumOfValues : ℚ) }

/-- Embeds `void CurveEnvelope::SetValues(std::vector<float> InValues)`. -/
def SetValues (c : CurveEnvelope) (InValues : List ℚ) : CurveEnvelope :=
  let Values := if InValues.length < 2 then [0, 1, 0] else InValues
  let NumOfValues : Int := if InValues.length < 2 then 3 else (InValues.length : Int)
  let Time := max c.Time (3 * ((Int.tdiv NumOfValues c.SampleRate : Int) : ℚ))
  ResetEnvelope { c with Values := Values, NumOfValues := NumOfValues, Time := Time }

/-- Embeds `void CurveEnvelope::SetTime(float InTime)`. -/
def SetTime (c : CurveEnvelope) (InTime : ℚ) : CurveEnvelope :=
  { c with Time := max InTime (3 * ((Int.tdiv c.NumOfValues c.SampleRate : Int) : ℚ)) }

/-- Embeds `void CurveEnvelope::SetTimes(std::vector<float> InTimes)`; the loop adds the
durations to `Time` from left to right, starting at `0`. -/
def SetTimes (c : CurveEnvelope) (InTimes : List ℚ) : CurveEnvelope :=
  if (InTimes.length : Int) = c.NumOfValues - 1 then
    { c with Times := InTimes, Time := InTimes.foldl (fun acc t => acc + t) 0 }
  else
    { c with Times := [], Time := 1 / 2 }

/-- Embeds `Values.back()`. -/
def back (v : List ℚ) : ℚ := v.getLastD 0

/-- Embeds `float CurveEnvelope::GetNextEnvelopePoint()`: the returned value and the envelope
afterwards. -/
def GetNextEnvelopePoint (c : CurveEnvelope) : ℚ × CurveEnvelope :=
  if c.HasStarted = true then
    if c.Times.isEmpty then
      if c.Counter ≤ c.NumOfValues - 1 then
        let r : ℚ × CurveEnvelope :=
          if c.EnvPos ≤ c.Boundary then
            (vecGet c.Values c.Counter + (c.EnvPos - c.Boundary) * (c.NumOfValues : ℚ)
              * (vecGet c.Values c.Counter - vecGet c.Values (c.Counter - 1)) / c.Time, c)
          else
            let Counter := c.Counter + 1
            let Boundary := c.Boundary + c.Time / (c.NumOfValues : ℚ)
            let c1 := { c with Counter := Counter, Boundary := Boundary }
            if Counter ≤ c.NumOfValues - 1 then
              (vecGet c.Values Counter + (c.EnvPos - Boundary) * (c.NumOfValues : ℚ)
                * (vecGet c.Values Counter - vecGet c.Values (Counter - 1)) / c.Time, c1)
            else (back c.Values, c1)
        if c.EnvPos ≤ c.Time then (r.1, { r.2 with EnvPos := c.EnvPos + c.EnvPosInc })
        else r
      else (back c.Values, c)
    else
      if c.Counter ≤ c.NumOfValues - 1 then
        let r : ℚ × CurveEnvelope :=
          if c.EnvPos ≤ c.Boundary then
            (vecGet c.Values c.Counter + (c.EnvPos - c.Boundary)
              * (vecGet c.Values c.Counter - vecGet c.Values (c.Counter - 1))
              / vecGet c.Times (c.Counter - 1), c)
          else
            let Counter := c.Counter + 1
            let Boundary := c.Boundary + vecGet c.Times (Counter - 1)
            let c1 := { c with Counter := Counter, Boundary := Boundary }
            if Counter ≤ c.NumOfValues - 1 then
              (vecGet c.Values Counter + (c.EnvPos - Boundary)
                * (vecGet c.Values Counter - vecGet c.Values (Counter - 1))
                / vecGet c.Times (Counter - 1), c1)
            else (back c.Values, c1)
        if c.EnvPos ≤ c.Time then (r.1, { r.2 with EnvPos := c.EnvPos + c.EnvPosInc })
        else r
      else (back c.Values, c)
  else (vecGet c.Values 0, c)

/-- The position of the final breakpoint as `GetNextEnvelopePoint` walks the segments: in
single-duration mode each of the `NumOfValues - 1` segments adds `Time / NumOfValues` to
`Boundary`, in per-segment mode segment `k` adds `Times[k]`. -/
def finalBreakpoint (c : CurveEnvelope) : ℚ :=
  if c.Times.isEmpty then ((c.NumOfValues : ℚ) - 1) * (c.Time / (c.NumOfValues : ℚ))
  else c.Times.sum

/-- The envelope after `n` successive `GetNextEnvelopePoint` calls. -/
def calls : Nat → CurveEnvelope → CurveEnvelope
  | 0, c => c
  | n + 1, c => (GetNextEnvelopePoint (calls n c)).2

end CurveEnvelope

/-! ## White noise and distortion -/

/-- Embeds `float WhiteNoiseGen::NextSample()`; the generator has no state besides the random
source. -/
def WhiteNoiseGen.NextSample (r : Rand) : ℚ × Rand :=
  let d := r.next
  (d.1 * 2 - 1, d.2)

/-- State of `class DistortionProcessor`, with the in-class initialisers. -/
structure DistortionProcessor where
  Amount : ℚ := 1
  Gain : ℚ := 1 / 3
deriving DecidableEq

/-- Embeds `DistortionProcessor::DistortionProcessor(float InAmount)`. -/
def DistortionProcessor.new (InAmount : ℚ) : DistortionProcessor :=
  { Amount := InAmount, Gain := 1 / 3 }

/-- Embeds `float DistortionProcessor::ProcessSample(float InSample)`. -/
def DistortionProcessor.ProcessSample (p : DistortionProcessor) (InSample : ℚ) : ℚ :=
  let Output := (3 + p.Amount) * InSample / (3 + p.Amount * |InSample|)
  p.Gain * Output

/-! ## Biquad filter -/

/-- State of `class BiquadFilter`, with the in-class initialisers; the member `Type` is
`Type_` here. -/
structure BiquadFilter where
  SampleRate : Int := 48000
  V : ℚ := 1
  W : ℚ := 3 / 2
  Q : ℚ := 1
  AQ : ℚ := 1 / 2
  AQdB : ℚ := 1 / 2
  AS : ℚ := 7 / 10
  Type_ : Int := 0
  Y1 : ℚ := 0
  Y2 : ℚ := 0
  X1 : ℚ := 0
  X2 : ℚ := 0
  B0 : ℚ := 0
  B1 : ℚ := 0
  B2 : ℚ := 0
  A0 : ℚ := 0
  A1 : ℚ := 0
  A2 : ℚ := 0
deriving DecidableEq

namespace BiquadFilter

/-- Embeds `void BiquadFilter::ComputeCoeff()`; the cases are `bq_type_lowpass = 0` up to
`bq_type_allpass = 7`, and `default` repeats the low-pass formulas. -/
def ComputeCoeff (L : Libm) (f : BiquadFilter) : BiquadFilter :=
  let Wc := L.cos f.W
  let V := f.V
  let AQ := f.AQ
  let AS := f.AS
  if f.Type_ = 0 then
    { f with B0 := (1 - Wc) / 2, B1 := 1 - Wc, B2 := (1 - Wc) / 2,
             A0 := 1 + f.AQdB, A1 := -2 * Wc, A2 := 1 - f.AQdB }
  else if f.Type_ = 1 then
    { f with B0 := (1 + Wc) / 2, B1 := -1 - Wc, B2 := (1 + Wc) / 2,
             A0 := 1 + f.AQdB, A1 := -2 * Wc, A2 := 1 - f.AQdB }
  else if f.Type_ = 2 then
    { f with B0 := AQ, B1 := 0, B2 := -AQ, A0 := 1 + AQ, A1 := -2 * Wc, A2 := 1 - AQ }
  else if f.Type_ = 3 then
    { f with B0 := 1, B1 := -2 * Wc, B2 := 1, A0 := 1 + AQ, A1 := -2 * Wc, A2 := 1 - AQ }
  else if f.Type_ = 4 then
    { f with B0 := 1 + AQ * V, B1 := -2 * Wc, B2 := 1 - AQ * V,
             A0 := 1 + AQ / V, A1 := -2 * Wc, A2 := 1 - AQ / V }
  else if f.Type_ = 5 then
    { f with B0 := V * (V + 1 + 2 * L.sqrt V * AS - (V - 1) * Wc),
             B1 := 2 * V * (V - 1 - (V + 1) * Wc),
             B2 := V * (V + 1 - 2 * L.sqrt V * AS - (V - 1) * Wc),
             A0 := V + 1 + 2 * L.sqrt V * AS + (V - 1) * Wc,
             A1 := -2 * (V - 1 + (V + 1) * Wc),
             A2 := V + 1 - 2 * L.sqrt V * AS + (V - 1) * Wc }
  else if f.Type_ = 6 then
    { f with B0 := V * (V + 1 + 2 * L.sqrt V * AS + (V - 1) * Wc),
             B1 := -2 * V * (V - 1 + (V + 1) * Wc),
             B2 := V * (V + 1 - 2 * L.sqrt V * AS + (V - 1) * Wc),
             A0 := V + 1 + 2 * L.sqrt V * AS - (V - 1) * Wc,
             A1 := -2 * (V - 1 - (V + 1) * Wc),
             A2 := V + 1 - 2 * L.sqrt V * AS - (V - 1) * Wc }
  else if f.Type_ = 7 then
    { f with B0 := 1 - AQ, B1 := -2 * Wc, B2 := 1 + AQ,
             A0 := 1 + AQ, A1 := -2 * Wc, A2 := 1 - AQ }
  else
    { f with B0 := (1 - Wc) / 2, B1 := 1 - Wc, B2 := (1 - Wc) / 2,
             A0 := 1 + f.AQdB, A1 := -2 * Wc, A2 := 1 - f.AQdB }

/-- Embeds `BiquadFilter::BiquadFilter(int, float, float, float, int)`. -/
def new (L : Libm) (InSampleRate : Int) (InFrequency InQFactor InPeakGainDB : ℚ)
    (InType : Int) : BiquadFilter :=
  let SampleRate := max InSampleRate 1
  let W := 2 * L.pi * min (max InFrequency 1 / (SampleRate : ℚ)) (499 / 1000)
  let Q := |InQFactor|
  ComputeCoeff L
    { SampleRate := SampleRate
      Type_ := InType
      V := L.pow 10 (InPeakGainDB / 40)
      W := W
      Q := Q
      AQ := L.sin W / (2 * max Q (1 / 1000))
      AQdB := L.sin W / (2 * L.pow 10 (Q / 20))
      AS := L.sin W / L.sqrt 2
      Y1 := 0, Y2 := 0, X1 := 0, X2 := 0 }

/-- Embeds `void BiquadFilter::SetFrequency(float InFrequency)`. -/
def SetFrequency (L : Libm) (f : BiquadFilter) (InFrequency : ℚ) : BiquadFilter :=
  let W := 2 * L.pi * min (max InFrequency 1 / (f.SampleRate : ℚ)) (499 / 1000)
  ComputeCoeff L
    { f with W := W
             AQ := L.sin W / (2 * max f.Q (1 / 1000))
             AQdB := L.sin W / (2 * L.pow 10 (f.Q / 20))
             AS := L.sin W / L.sqrt 2 }

/-- Embeds `void BiquadFilter::SetQFactor(float InQFactor)`. -/
def SetQFactor (L : Libm) (f : BiquadFilter) (InQFactor : ℚ) : BiquadFilter :=
  let Q := |InQFactor|
  ComputeCoeff L
    { f with Q := Q
             AQ := L.sin f.W / (2 * max Q (1 / 1000))
             AQdB := L.sin f.W / (2 * L.pow 10 (Q / 20)) }

/-- Embeds `void BiquadFilter::SetPeakGain(float InPeakGainDB)`. -/
def SetPeakGain (L : Libm) (f : BiquadFilter) (InPeakGainDB : ℚ) : BiquadFilter :=
  ComputeCoeff L { f with V := L.pow 10 (InPeakGainDB / 40) }

/-- Embeds `void BiquadFilter::SetType(int InType)`. -/
def SetType (L : Libm) (f : BiquadFilter) (InType : Int) : BiquadFilter :=
  ComputeCoeff L { f with Type_ := InType }

/-- Embeds `float BiquadFilter::ProcessSample(float InSample)`: the output and the filter
afterwards. -/
def ProcessSample (f : BiquadFilter) (InSample : ℚ) : ℚ × BiquadFilter :=
  let out := ((InSample * f.B0) + (f.X1 * f.B1) + (f.X2 * f.B2) - (f.Y1 * f.A1)
    - (f.Y2 * f.A2)) / f.A0
  (out, { f with Y2 := f.Y1, Y1 := out, X2 := f.X1, X1 := InSample })

/-- Embeds `void BiquadFilter::ResetFilter()`. -/
def ResetFilter (f : BiquadFilter) : BiquadFilter :=
  { f with Y1 := 0, Y2 := 0, X1 := 0, X2 := 0 }

end BiquadFilter

/-! ## Filter bank -/

/-- Embeds `struct Mode`. -/
structure Mode where
  nModes : Int
  Types : List Int
  Freqs : List ℚ
  Qs : List ℚ
  Gains : List ℚ
deriving DecidableEq

/-- Read `v[i]` of a `std::vector<int>`. -/
def intGet (v : List Int) (i : Int) : Int := if 0 ≤ i then v.getD i.toNat 0 else 0

/-- Apply `f` to `v[i]` in place, as `v[i].f()` does on a vector of objects. -/
def updAt {α : Type} (v : List α) (i : Int) (f : α → α) : List α :=
  if 0 ≤ i then
    match v.get? i.toNat with
    | some a => v.set i.toNat (f a)
    | none => v
  else v

/-- State of `class FilterBank`. -/
structure FilterBank where
  MuteGain : ℚ
  SampleRate : Int
  FilterBandGains : List ℚ
  Filters : List BiquadFilter
  OutputMult : ℚ
deriving DecidableEq

namespace FilterBank

/-- Embeds `FilterBank::FilterBank(int InSampleRate, int InNumFilters)`: the loop pushes
`InNumFilters` band-pass filters and as many unit gains. -/
def new (L : Libm) (InSampleRate InNumFilters : Int) : FilterBank :=
  let SampleRate := max InSampleRate 1
  { SampleRate := SampleRate
    MuteGain := 1
    Filters := List.replicate InNumFilters.toNat (BiquadFilter.new L SampleRate 200 1 0 2)
    FilterBandGains := List.replicate InNumFilters.toNat 1
    OutputMult := 0 }

/-- Body of the first loop of `InitialiseFilterBank`, at index `i`. -/
def initBand (L : Libm) (InFilterInfo : Mode) (fb : FilterBank) (i : Int) : FilterBank :=
  { fb with
    Filters := updAt fb.Filters i (fun f =>
      BiquadFilter.SetQFactor L
        (BiquadFilter.SetFrequency L
          (BiquadFilter.SetType L (BiquadFilter.ResetFilter f) (intGet InFilterInfo.Types i))
          (vecGet InFilterInfo.Freqs i))
        (vecGet InFilterInfo.Qs i))
    FilterBandGains := vecSet fb.FilterBandGains i (vecGet InFilterInfo.Gains i) }

/-- Body of the second loop of `InitialiseFilterBank`, at index `i`. -/
def zeroBand (fb : FilterBank) (i : Int) : FilterBank :=
  { fb with FilterBandGains := vecSet fb.FilterBandGains i 0 }

/-- Embeds `void FilterBank::InitialiseFilterBank(Mode InFilterInfo)`: the first loop runs over
`i = 0 .. nModes - 1`, the second over `i = nModes .. 8`. -/
def InitialiseFilterBank (L : Libm) (fb : FilterBank) (InFilterInfo : Mode) : FilterBank :=
  let fb1 := (List.range InFilterInfo.nModes.toNat).foldl
    (fun b (k : Nat) => initBand L InFilterInfo b (k : Int)) fb
  let fb2 := (List.range (9 - InFilterInfo.nModes).toNat).foldl
    (fun b (k : Nat) => zeroBand b (InFilterInfo.nModes + (k : Int))) fb1
  { fb2 with OutputMult := 0 }

/-- Body of the loop of `VaryParameters`, at index `i`: three `Vary` calls in order. -/
def varyBand (L : Libm) (InFilterInfo : Mode) (s : FilterBank × Rand) (i : Int) :
    FilterBank × Rand :=
  let vf := Vary (vecGet InFilterInfo.Freqs i) (2 / 10) s.2
  let vq := Vary (vecGet InFilterInfo.Qs i) (3 / 10) vf.2
  let vg := Vary (vecGet InFilterInfo.Gains i) (3 / 10) vq.2
  ({ s.1 with
     Filters := updAt s.1.Filters i (fun f =>
       BiquadFilter.SetQFactor L (BiquadFilter.SetFrequency L f vf.1) vq.1)
     FilterBandGains := vecSet s.1.FilterBandGains i vg.1 }, vg.2)

/-- Embeds `void FilterBank::VaryParameters(Mode InFilterInfo)`. -/
def VaryParameters (L : Libm) (fb : FilterBank) (InFilterInfo : Mode) (r : Rand) :
    FilterBank × Rand :=
  (List.range InFilterInfo.nModes.toNat).foldl
    (fun s (k : Nat) => varyBand L InFilterInfo s (k : Int)) (fb, r)

/-- Embeds `void FilterBank::ResetFilter()`. -/
def ResetFilter (fb : FilterBank) : FilterBank :=
  (List.range fb.Filters.length).foldl (fun b (k : Nat) => zeroBand b (k : Int)) fb

/-- Embeds `void FilterBank::Mute()`. -/
def Mute (fb : FilterBank) : FilterBank := { fb with MuteGain := 0 }

/-- Embeds `void FilterBank::Unmute()`. -/
def Unmute (fb : FilterBank) : FilterBank := { fb with MuteGain := 1 }

/-- Embeds `void FilterBank::Unmute(float InGain)`. -/
def UnmuteGain (fb : FilterBank) (InGain : ℚ) : FilterBank := { fb with MuteGain := InGain }

/-- Body of the loop of `ProcessSample`, at index `i`: the running `Output` and the
filters. -/
def bandOut (gains : List ℚ) (InSample : ℚ) (s : ℚ × List BiquadFilter) (i : Int) :
    ℚ × List BiquadFilter :=
  if 0 ≤ i then
    match s.2.get? i.toNat with
    | some f =>
      let o := BiquadFilter.ProcessSample f InSample
      (s.1 + o.1 * vecGet gains i, s.2.set i.toNat o.2)
    | none => s
  else s

/-- Embeds `float FilterBank::ProcessSample(float InSample)`: the output and the bank
afterwards. -/
def ProcessSample (fb : FilterBank) (InSample : ℚ) : ℚ × FilterBank :=
  let OutputMult :=
    if fb.OutputMult < 1 then fb.OutputMult + 1 / ((1 / 100) * (fb.SampleRate : ℚ))
    else fb.OutputMult
  let s := (List.range fb.Filters.length).foldl
    (fun s (k : Nat) => bandOut fb.FilterBandGains InSample s (k : Int)) (0, fb.Filters)
  (s.1 * fb.MuteGain * OutputMult * OutputMult,
   { fb with OutputMult := OutputMult, Filters := s.2 })

end FilterBank

/-- Embeds `CurveEnvelope::CurveEnvelope()`. -/
def CurveEnvelope.default : CurveEnvelope :=
  { SampleRate := 48000, EnvPosInc := 1 / 48000, EnvPos := 0, HasStarted := false
    Values := [0, 1, 0], NumOfValues := 3, Time := 1 / 2, Counter := 1
    Boundary := (1 / 2) / 3 }

/-- Embeds `Delay::Delay()`. -/
def Delay.default : Delay :=
  { SampleRate := 48000, DelayTime := 1
    DelayBuffer := List.replicate (MAX_DELAY_TIME_INT * 48000).toNat 0
    ReadPointer := truncToInt ((MAX_DELAY_TIME - 1) * 48000) - 1
    WritePointer := 0 }

/-- Embeds `FilterBank::FilterBank()`. -/
def FilterBank.default (L : Libm) : FilterBank :=
  { SampleRate := 48000, MuteGain := 1
    Filters := List.replicate 9 (BiquadFilter.new L 48000 200 1 0 2)
    FilterBandGains := List.replicate 9 1
    OutputMult := 0 }

end nemlib

/-! # Footstep model (`Generator.h`, `Generator.cpp`) -/

open nemlib

/-- Embeds `struct ShoeEnvelope`. -/
structure ShoeEnvelope where
  HeelGain : ℚ
  HeelAttack : ℚ
  HeelSustain : ℚ
  HeelDecay : ℚ
  HeelRelease : ℚ
  StepSeparation : ℚ
  BallGain : ℚ
  BallAttack : ℚ
  BallSustain : ℚ
  BallDecay : ℚ
  BallRelease : ℚ
deriving DecidableEq

/-- Embeds `struct SurfaceEnvelope`. -/
structure SurfaceEnvelope where
  HeelAttack : ℚ
  HeelSustain : ℚ
  HeelDecay : ℚ
  HeelRelease : ℚ
  BallAttack : ℚ
  BallSustain : ℚ
  BallDecay : ℚ
  BallRelease : ℚ
deriving DecidableEq

/-- State of `class Generator`, with the in-class initialisers of `Generator.h`.  The
white-noise member has no state of its own, and the table `Modes`, which no member
function assigns, is the constant `Generator.Modes`. -/
structure Generator where
  m_sampleRate : Int
  m_ShoeType : Int
  m_SurfaceType : Int
  m_Terrain : Int
  m_Pace : ℚ
  m_Firmness : ℚ
  m_Steadiness : ℚ
  m_Automated : Bool
  m_ShoeTypeChanged : Bool
  m_SurfaceTypeChanged : Bool
  m_TerrainChanged : Bool
  m_PaceChanged : Bool
  m_FirmnessChanged : Bool
  m_SteadinessChanged : Bool
  m_AutomatedChanged : Bool
  HeelEnv : CurveEnvelope
  BallEnv : CurveEnvelope
  Highpass : BiquadFilter
  Filters : FilterBank
  Distortion : DistortionProcessor
  CrunchBP : BiquadFilter
  CrunchEnv : CurveEnvelope
  SeparationDelay : Delay
  StepTimer : Timer
  CrunchTimer : Timer
  OutHP : BiquadFilter
  OutLP : BiquadFilter
  Shoe : ShoeEnvelope := ⟨1, 1, 0, 10, 1 / 10, 40, 1 / 2, 1, 0, 20, 1 / 10⟩
  Surface : SurfaceEnvelope := ⟨0, 0, 0, 0, 0, 0, 0, 0⟩
  CrunchFlag : Bool := false
  RollSpeedPercentage : ℚ := 192 / 100
  HeelToBallRatio : List ℚ := [8 / 10, 5 / 10]
  CrunchOut : ℚ := 0
  FiltersOut : ℚ := 1
  StepCounter : ℚ := 0
  Freq1 : ℚ := 0
  Freq2 : ℚ := 0
  Delay1 : ℚ := 0
  Delay2 : ℚ := 0
  LastOut : ℚ := 0

namespace Generator

/-- The member `Modes` of `Generator.h`: wood, concrete, dirt, grass, hollow wood, metal. -/
def Modes : List Mode :=
  [ { nModes := 9
      Types := [0, 2, 2, 2, 2, 2, 2, 2, 2]
      Freqs := [80, 95, 134, 139, 154, 201, 123, 156, 189]
      Qs := [20, 20, 20, 20, 20, 15, 10, 20, 20]
      Gains := [2 / 10, 1 / 10, 1 / 10, 1 / 10, 1 / 10, 2 / 10, 2 / 10, 2 / 10, 2 / 10] },
    { nModes := 5
      Types := [0, 2, 2, 2, 2]
      Freqs := [140, 234, 380, 1450, 2156]
      Qs := [10, 10, 10, 10, 10]
      Gains := [1 / 10, 2 / 10, 1 / 10, 5 / 100, 5 / 100] },
    { nModes := 4
      Types := [2, 2, 2, 0]
      Freqs := [180, 300, 650, 2200]
      Qs := [2, 2, 2, 1]
      Gains := [6 / 10, 1 / 10, 1 / 10, 1 / 10] },
    { nModes := 3
      Types := [1, 2, 0]
      Freqs := [890, 2023, 3000]
      Qs := [35 / 10, 2, 2]
      Gains := [5 / 100, 5 / 100, 5 / 100] },
    { nModes := 4
      Types := [2, 2, 2, 2]
      Freqs := [109, 230, 352, 413]
      Qs := [10, 10, 10, 10]
      Gains := [1, 1, 1, 1] },
    { nModes := 7
      Types := [2, 2, 2, 2, 2, 2, 2]
      Freqs := [124, 218, 615, 1098, 1250, 1764, 2682]
      Qs := [2, 60, 60, 60, 60, 60, 60]
      Gains := [1, 80 / 100, 65 / 100, 50 / 100, 35 / 100, 20 / 100, 5 / 100] } ]

/-- Embeds `Modes[k]` for the constant indices `0 .. 5` the source uses. -/
def mode (k : Nat) : Mode := Modes.getD k ⟨0, [], [], [], []⟩

/-- Embeds `Generator::Generator()`: the initialiser list, the in-class initialisers and the
default constructors of the library members. -/
def new (L : Libm) : Generator :=
  { m_sampleRate := 0, m_ShoeType := 0, m_SurfaceType := 0, m_Terrain := 0
    m_Pace := 82, m_Firmness := 3 / 10, m_Steadiness := 1 / 10, m_Automated := true
    m_ShoeTypeChanged := false, m_SurfaceTypeChanged := false, m_TerrainChanged := false
    m_PaceChanged := false, m_FirmnessChanged := false, m_SteadinessChanged := false
    m_AutomatedChanged := false
    HeelEnv := CurveEnvelope.default, BallEnv := CurveEnvelope.default
    Highpass := {}, Filters := FilterBank.default L, Distortion := {}
    CrunchBP := {}, CrunchEnv := CurveEnvelope.default
    SeparationDelay := Delay.default, StepTimer := {}, CrunchTimer := {}
    OutHP := {}, OutLP := {} }

/-- Embeds `void Generator::UpdatePaceModifiers(float Pace)`; the band is chosen by the member
`m_Pace`, the roll speed is computed from the argument. -/
def UpdatePaceModifiers (g : Generator) (Pace : ℚ) : Generator :=
  if g.m_Pace < 75 then
    { g with RollSpeedPercentage := 22 - (4 / 15) * Pace
             HeelToBallRatio := vecSet (vecSet g.HeelToBallRatio 0 (1 / 2)) 1 (4 / 10) }
  else if g.m_Pace < 120 then
    { g with RollSpeedPercentage := (255 - Pace) / 90
             HeelToBallRatio := vecSet (vecSet g.HeelToBallRatio 0 1) 1 (8 / 10) }
  else
    { g with RollSpeedPercentage := 15 / 10
             HeelToBallRatio := vecSet (vecSet g.HeelToBallRatio 0 1) 1 (63 / 100) }

/-- Embeds `void Generator::UpdateShoeModifiers(int ShoeType)`. -/
def UpdateShoeModifiers (g : Generator) (ShoeType : Int) : Generator :=
  if ShoeType = 0 then
    { g with Shoe := ⟨1, 1, 0, 10, 1 / 10, 40, 1 / 2, 1, 0, 20, 1 / 10⟩ }
  else if ShoeType = 1 then
    { g with Shoe := ⟨1, 1 / 10, 0, 1, 1 / 10, 20, 8 / 10, 2, 0, 5, 1 / 10⟩ }
  else if ShoeType = 2 then
    { g with Shoe := ⟨1, 1 / 10, 0, 3, 1 / 10, 40, 1, 1, 2 / 10, 5, 20⟩ }
  else if ShoeType = 3 then
    { g with Shoe := ⟨1, 127 / 100, 0, 214 / 10, 1 / 10, 40, 429 / 1000, 127 / 10, 0,
                      375 / 10, 1 / 10⟩ }
  else
    { g with Shoe := ⟨1, 1, 0, 10, 1 / 10, 40, 1 / 2, 1, 0, 20, 1 / 10⟩ }

/-- Embeds `void Generator::CrunchLoop()`: six `rand()` draws, in statement order. -/
def CrunchLoop (L : Libm) (g : Generator) (r : Rand) : Generator × Rand :=
  let d1 := r.next
  let CrunchBP := BiquadFilter.SetFrequency L g.CrunchBP (d1.1 * (g.Freq1 - g.Freq2) + g.Freq1)
  let d2 := d1.2.next
  let CrunchBP := BiquadFilter.SetQFactor L CrunchBP (d2.1 * 7 + 3)
  let CrunchEnv := g.CrunchEnv.ResetEnvelope
  let d3 := d2.2.next
  let CrunchEnv := CrunchEnv.SetValues [0, d3.1 + 7 / 10, 0]
  let d4 := d3.2.next
  let d5 := d4.2.next
  let CrunchEnv := CrunchEnv.SetTimes
    [d4.1 * (1 / 10000) + 1 / 10000, d5.1 * (342 / 10000) + 102 / 10000]
  let d6 := d5.2.next
  let CrunchTimer := g.CrunchTimer.SetTime ((g.Delay1 + d6.1 * (g.Delay1 - g.Delay2)) / 1000)
  let CrunchTimer := CrunchTimer.ResetTimer
  ({ g with CrunchBP := CrunchBP, CrunchEnv := CrunchEnv, CrunchTimer := CrunchTimer }, d6.2)

/-- Embeds `void Generator::UpdateSurfaceModifiers(int SurfaceType)`. -/
def UpdateSurfaceModifiers (L : Libm) (g : Generator) (SurfaceType : Int) (r : Rand) :
    Generator × Rand :=
  let g0 := { g with CrunchFlag := false }
  let g1 : Generator :=
    if SurfaceType = 0 then
      { g0 with Filters := g0.Filters.InitialiseFilterBank L (mode 0)
                FiltersOut := 16 / 10
                Surface := ⟨0, 0, 0, 0, 0, 0, 0, 0⟩ }
    else if SurfaceType = 1 then
      { g0 with Filters := g0.Filters.InitialiseFilterBank L (mode 1)
                FiltersOut := 8 / 10
                CrunchFlag := true
                Freq1 := 1000, Freq2 := 200, Delay1 := 20, Delay2 := 4
                CrunchOut := 1 / 10
                Surface := ⟨0, 0, 0, 0, 0, 0, 0, 0⟩ }
    else if SurfaceType = 2 then
      { g0 with Filters := g0.Filters.InitialiseFilterBank L (mode 2)
                FiltersOut := 1 / 10
                CrunchFlag := true
                Freq1 := 200, Freq2 := 50, Delay1 := 20, Delay2 := 4
                CrunchOut := 25 / 100
                Surface := ⟨20, 0, 3, 20, 5, 15 / 100, 3, 20⟩ }
    else if SurfaceType = 3 then
      { g0 with Filters := g0.Filters.InitialiseFilterBank L (mode 3)
                FiltersOut := 1 / 10
                CrunchFlag := true
                Freq1 := 1500, Freq2 := 800, Delay1 := 20, Delay2 := 4
                CrunchOut := 5 / 1000
                Surface := ⟨50, 0, 10, 20, 5, 15 / 100, 50, 20⟩ }
    else if SurfaceType = 4 then
      { g0 with Filters := g0.Filters.InitialiseFilterBank L (mode 4)
                FiltersOut := 6 / 10
                Surface := ⟨0, 0, 0, 0, 0, 0, 0, 0⟩ }
    else if SurfaceType = 5 then
      { g0 with Filters := g0.Filters.InitialiseFilterBank L (mode 5)
                FiltersOut := 6 / 10
                Surface := ⟨0, 1 / 10, 0, 10, 0, 1 / 10, 0, 10⟩ }
    else
      { g0 with Surface := ⟨0, 0, 0, 0, 0, 0, 0, 0⟩ }
  if g1.CrunchFlag = true then CrunchLoop L g1 r else (g1, r)

/-- Embeds `void Generator::VaryFilterBank()`. -/
def VaryFilterBank (L : Libm) (g : Generator) (r : Rand) : Generator × Rand :=
  let vary (k : Nat) : Generator × Rand :=
    let v := g.Filters.VaryParameters L (mode k) r
    ({ g with Filters := v.1 }, v.2)
  if g.m_SurfaceType = 0 then vary 0
  else if g.m_SurfaceType = 1 then vary 1
  else if g.m_SurfaceType = 2 then vary 2
  else if g.m_SurfaceType = 3 then vary 3
  else if g.m_SurfaceType = 4 then vary 4
  else if g.m_SurfaceType = 5 then vary 5
  else (g, r)

/-- Embeds `ShoeEnvelope Generator::AddVariation()`: eleven `Vary` calls, in the order of the
braced initialiser. -/
def AddVariation (g : Generator) (r : Rand) : ShoeEnvelope × Rand :=
  let v1 := Vary g.Shoe.HeelGain (2 / 100) r
  let v2 := Vary g.Shoe.HeelAttack (5 / 100) v1.2
  let v3 := Vary g.Shoe.HeelSustain (1 / 100) v2.2
  let v4 := Vary g.Shoe.HeelDecay (1 / 10) v3.2
  let v5 := Vary g.Shoe.HeelRelease (5 / 100) v4.2
  let v6 := Vary g.Shoe.StepSeparation (5 / 100) v5.2
  let v7 := Vary g.Shoe.BallGain (15 / 100) v6.2
  let v8 := Vary g.Shoe.BallAttack (1 / 10) v7.2
  let v9 := Vary g.Shoe.BallSustain (1 / 100) v8.2
  let v10 := Vary g.Shoe.BallDecay (1 / 10) v9.2
  let v11 := Vary g.Shoe.BallRelease (5 / 100) v10.2
  (⟨v1.1, v2.1, v3.1, v4.1, v5.1, v6.1, v7.1, v8.1, v9.1, v10.1, v11.1⟩, v11.2)

/-- Embeds `void Generator::UpdateStepEnvelope()`. -/
def UpdateStepEnvelope (L : Libm) (g : Generator) (r : Rand) : Generator × Rand :=
  let vf := VaryFilterBank L g r
  let g1 := vf.1
  let g2 : Generator :=
    if g1.m_Automated = false then
      let g1 :=
        if g1.StepCounter > 0 then
          { UpdatePaceModifiers g1 (60 / g1.StepCounter) with
            StepTimer := g1.StepTimer.SetTime g1.StepCounter }
        else g1
      { g1 with StepCounter := 0 }
    else g1
  let av := AddVariation g2 vf.2
  let NewShoeEnvelope := av.1
  if g2.m_Terrain = 0 then
    let HeelGain := NewShoeEnvelope.HeelGain * vecGet g2.HeelToBallRatio 0
    let HeelAttack := (NewShoeEnvelope.HeelAttack + g2.Surface.HeelAttack) / 1000
    let HeelDecay := (NewShoeEnvelope.HeelDecay + g2.Surface.HeelDecay) / 1000
    let s1 := Vary g2.m_Firmness g2.m_Firmness av.2
    let HeelSustain := NewShoeEnvelope.HeelSustain + g2.Surface.HeelSustain + (5 / 100) * s1.1
    let s2 := Vary g2.m_Firmness (2 / 10) s1.2
    let HeelRelease :=
      (NewShoeEnvelope.HeelRelease + g2.Surface.HeelRelease + 10 * s2.1) / 1000
    let BallGain := NewShoeEnvelope.BallGain * vecGet g2.HeelToBallRatio 1
    let BallAttack := (NewShoeEnvelope.BallAttack + g2.Surface.BallAttack) / 1000
    let BallSustain := NewShoeEnvelope.BallSustain + g2.Surface.BallSustain
    let BallDecay := (NewShoeEnvelope.BallDecay + g2.Surface.BallDecay) / 1000
    let BallRelease := (NewShoeEnvelope.BallRelease + g2.Surface.BallRelease) / 1000
    let StepSeparation := NewShoeEnvelope.StepSeparation
      * (1 + g2.RollSpeedPercentage / 10) * (15 / 10 - (5 / 10) * g2.m_Firmness) / 1000
    let HeelEnv := g2.HeelEnv.SetValues [0, HeelGain, HeelSustain, 0]
    let BallEnv := g2.BallEnv.SetValues [0, BallGain, BallSustain, 0]
    let HeelEnv := HeelEnv.SetTimes [HeelAttack, HeelDecay, HeelRelease]
    let BallEnv := BallEnv.SetTimes [BallAttack, BallDecay, BallRelease]
    let HeelEnv := HeelEnv.ResetEnvelope
    let BallEnv := BallEnv.ResetEnvelope
    ({ g2 with HeelEnv := HeelEnv, BallEnv := BallEnv
               SeparationDelay := g2.SeparationDelay.SetDelay StepSeparation }, s2.2)
  else
    let BallGain := NewShoeEnvelope.BallGain * vecGet g2.HeelToBallRatio 1
    let BallSustain := (NewShoeEnvelope.BallSustain + g2.Surface.BallSustain) / 1000
    let BallAttack := NewShoeEnvelope.BallAttack / 1000
    let BallDecay := (NewShoeEnvelope.BallDecay + g2.Surface.BallDecay) / 1000
    let BallRelease := (NewShoeEnvelope.BallRelease + g2.Surface.BallRelease) / 1000
    let HeelEnv := g2.HeelEnv.SetValues [0, BallGain, BallSustain, 0]
    let HeelEnv := HeelEnv.SetTimes [BallAttack, BallDecay, BallRelease]
    let HeelEnv := HeelEnv.ResetEnvelope
    ({ g2 with HeelEnv := HeelEnv }, av.2)

/-- Conversion of an `AkUInt32` value to `AkInt32`. -/
def toInt32 (n : Nat) : Int :=
  if n % 2 ^ 32 < 2 ^ 31 then ((n % 2 ^ 32 : Nat) : Int) else ((n % 2 ^ 32 : Nat) : Int) - 2 ^ 32

/-- The first block of `PrepareModel` ("init nemlib classes"): the sample rate is stored
and the library members are rebuilt.  In `CurveEnvelope(m_sampleRate, {}, {})` the third
`{}` is the `float` `0.0f`: overload resolution prefers the identity conversion to `float`
over the conversion to a vector. -/
def PrepareModel.init (L : Libm) (g : Generator) (sr : Int) : Generator :=
  { g with
    m_sampleRate := sr
    HeelEnv := CurveEnvelope.new sr [] 0
    BallEnv := CurveEnvelope.new sr [] 0
    Highpass := BiquadFilter.new L sr 1000 1 0 1
    OutHP := BiquadFilter.new L sr 100 1 0 1
    OutLP := BiquadFilter.new L sr 10000 1 0 0
    Filters := ((FilterBank.new L sr 9).InitialiseFilterBank L (mode 0)).UnmuteGain (6 / 10)
    Distortion := DistortionProcessor.new 200
    CrunchBP := BiquadFilter.new L sr 500 3 0 0
    CrunchEnv := CurveEnvelope.new sr [] 0
    SeparationDelay := Delay.new sr (2 / 100)
    CrunchTimer := (Timer.new sr (1 / 10)).ResumeTimer
    StepTimer := Timer.new sr (60 / g.m_Pace) }

/-- The last block of `PrepareModel`: in automated mode the step timer is reset and
started; the step counter is cleared. -/
def PrepareModel.start (g : Generator) : Generator :=
  let g6 : Generator :=
    if g.m_Automated = true then
      { g with StepTimer := g.StepTimer.ResetTimer.ResumeTimer }
    else g
  { g6 with StepCounter := 0 }

/-- Embeds `void Generator::PrepareModel(AkUInt32 in_sampleRate)`. -/
def PrepareModel (L : Libm) (g : Generator) (in_sampleRate : Nat) (r : Rand) :
    Generator × Rand :=
  let g1 := PrepareModel.init L g (toInt32 in_sampleRate)
  let g2 := UpdatePaceModifiers g1 g1.m_Pace
  let g3 := UpdateShoeModifiers g2 g2.m_ShoeType
  let s4 := UpdateSurfaceModifiers L g3 g3.m_SurfaceType r
  let s5 := UpdateStepEnvelope L s4.1 s4.2
  (PrepareModel.start s5.1, s5.2)

/-- The timer part of `IncrementTheModelChannel`: the step timer (or the manual step
counter), then the crunch timer. -/
def IncrementTheModelChannel.timers (L : Libm) (g : Generator) (r : Rand) :
    Generator × Rand :=
  let s1 : Generator × Rand :=
    if g.m_Automated = true then
      let ct := g.StepTimer.checkTime
      let g := { g with StepTimer := ct.2 }
      if ct.1 = true then
        let u := UpdateStepEnvelope L g r
        let v := Vary (60 / u.1.m_Pace) u.1.m_Steadiness u.2
        ({ u.1 with StepTimer := ((u.1.StepTimer.SetTime v.1).ResetTimer).ResumeTimer }, v.2)
      else (g, r)
    else
      ({ g with StepCounter := g.StepCounter + 1 / (g.m_sampleRate : ℚ) }, r)
  if s1.1.CrunchFlag = true then
    let ct := s1.1.CrunchTimer.checkTime
    let g := { s1.1 with CrunchTimer := ct.2 }
    if ct.1 = true then CrunchLoop L g s1.2 else (g, s1.2)
  else s1

/-- Embeds `float Generator::IncrementTheModelChannel()`: the sample, the generator and the
random source afterwards. -/
def IncrementTheModelChannel (L : Libm) (g : Generator) (r : Rand) :
    ℚ × Generator × Rand :=
  let s := IncrementTheModelChannel.timers L g r
  let g := s.1
  let n := WhiteNoiseGen.NextSample s.2
  let NoiseSample := n.1
  let fo := g.Filters.ProcessSample NoiseSample
  let FilteredNoise := g.FiltersOut * fo.1
  let ce := g.CrunchEnv.GetNextEnvelopePoint
  let cb := g.CrunchBP.ProcessSample (g.Distortion.ProcessSample NoiseSample)
  let Crunch := g.CrunchOut * ce.1 * cb.1
  let he := g.HeelEnv.GetNextEnvelopePoint
  let HeelOut := he.1 * (FilteredNoise + Crunch)
  let be := g.BallEnv.GetNextEnvelopePoint
  let hp := g.Highpass.ProcessSample (be.1 * (FilteredNoise + Crunch))
  let sd := g.SeparationDelay.ProcessSample hp.1
  let BallOut := sd.1
  let ohp := g.OutHP.ProcessSample (40 * (HeelOut + BallOut))
  let olp := g.OutLP.ProcessSample ohp.1
  let LastOut := olp.1
  let OutputSample := Clamp ((8 / 10) * LastOut) (-(1 / 2)) (1 / 2)
  (OutputSample,
   { g with Filters := fo.2, CrunchEnv := ce.2, CrunchBP := cb.2, HeelEnv := he.2
            BallEnv := be.2, Highpass := hp.2, SeparationDelay := sd.2
            OutHP := ohp.2, OutLP := olp.2, LastOut := LastOut },
   n.2)

/-- The local variables of `ExcuteModel`, with the generator, the random source and the
samples written through `pBuf` so far. -/
structure ExcuteLocals where
  g : Generator
  rnd : Rand
  pBuf : List ℚ
  m_PaceBegin : ℚ
  m_PaceEnd : ℚ
  m_PaceStep : ℚ
  m_FirmnessBegin : ℚ
  m_FirmnessEnd : ℚ
  m_FirmnessStep : ℚ
  m_SteadinessBegin : ℚ
  m_SteadinessEnd : ℚ
  m_SteadinessStep : ℚ
  uFramesProduced : Nat

/-- The shoe, surface and terrain blocks of the "Ramp Block": each pending flag is
cleared. -/
def ExcuteModel.clearFlags (g : Generator) : Generator :=
  let g := if g.m_ShoeTypeChanged = true then { g with m_ShoeTypeChanged := false } else g
  let g := if g.m_SurfaceTypeChanged = true then { g with m_SurfaceTypeChanged := false } else g
  if g.m_TerrainChanged = true then { g with m_TerrainChanged := false } else g

/-- The pace block of the "Ramp Block": the generator and the locals `m_PaceBegin`,
`m_PaceEnd`, `m_PaceStep`. -/
def ExcuteModel.rampPace (g : Generator) (in_uValidFrames : Fin 65536) :
    Generator × ℚ × ℚ × ℚ :=
  let m_PaceBegin := g.m_Pace
  if g.m_PaceChanged = true then
    let m_PaceEnd := g.m_Pace
    let m_PaceStep := (m_PaceEnd - m_PaceBegin) / ((in_uValidFrames.val : Nat) : ℚ)
    ({ g with m_PaceChanged := false }, m_PaceBegin, m_PaceEnd, m_PaceStep)
  else (g, m_PaceBegin, 0, 0)

/-- The firmness block of the "Ramp Block": the generator and the locals
`m_FirmnessBegin`, `m_FirmnessEnd`, `m_FirmnessStep`. -/
def ExcuteModel.rampFirmness (g : Generator) (in_uValidFrames : Fin 65536) :
    Generator × ℚ × ℚ × ℚ :=
  let m_FirmnessBegin := g.m_Firmness
  if g.m_FirmnessChanged = true then
    let m_FirmnessEnd := g.m_Firmness
    let m_FirmnessStep := (m_FirmnessEnd - m_FirmnessBegin) / ((in_uValidFrames.val : Nat) : ℚ)
    ({ g with m_FirmnessChanged := false }, m_FirmnessBegin, m_FirmnessEnd, m_FirmnessStep)
  else (g, m_FirmnessBegin, 0, 0)

/-- The steadiness block of the "Ramp Block": the generator and the locals
`m_SteadinessBegin`, `m_SteadinessEnd`, `m_SteadinessStep`. -/
def ExcuteModel.rampSteadiness (g : Generator) (in_uValidFrames : Fin 65536) :
    Generator × ℚ × ℚ × ℚ :=
  let m_SteadinessBegin := g.m_Steadiness
  if g.m_SteadinessChanged = true then
    let m_SteadinessBegin := g.m_Steadiness
    let m_SteadinessEnd := g.m_Steadiness
    let m_SteadinessStep :=
      (m_SteadinessEnd - m_SteadinessBegin) / ((in_uValidFrames.val : Nat) : ℚ)
    ({ g with m_SteadinessChanged := false }, m_SteadinessBegin, m_SteadinessEnd,
      m_SteadinessStep)
  else (g, m_SteadinessBegin, 0, 0)

/-- The "Ramp Block" of `ExcuteModel`: everything before the output loop.
`in_uValidFrames` is an `AkUInt16`. -/
def ExcuteModel.rampBlock (g : Generator) (in_uValidFrames : Fin 65536) (r : Rand) :
    ExcuteLocals :=
  let pace := ExcuteModel.rampPace (ExcuteModel.clearFlags g) in_uValidFrames
  let firm := ExcuteModel.rampFirmness pace.1 in_uValidFrames
  let stead := ExcuteModel.rampSteadiness firm.1 in_uValidFrames
  let g := stead.1
  let g := if g.m_AutomatedChanged = true then { g with m_AutomatedChanged := false } else g
  { g := g, rnd := r, pBuf := []
    m_PaceBegin := pace.2.1, m_PaceEnd := pace.2.2.1, m_PaceStep := pace.2.2.2
    m_FirmnessBegin := firm.2.1, m_FirmnessEnd := firm.2.2.1, m_FirmnessStep := firm.2.2.2
    m_SteadinessBegin := stead.2.1, m_SteadinessEnd := stead.2.2.1
    m_SteadinessStep := stead.2.2.2
    uFramesProduced := 0 }

/-- The generator at the moment the loop body calls `IncrementTheModelChannel`: the three
ramped members have just been assigned from the `...Begin` locals. -/
def ExcuteModel.atSample (s : ExcuteLocals) : Generator :=
  { s.g with m_Pace := s.m_PaceBegin, m_Firmness := s.m_FirmnessBegin
             m_Steadiness := s.m_SteadinessBegin }

/-- One round of the output loop of `ExcuteModel`; `++uFramesProduced` is on an
`AkUInt16`. -/
def ExcuteModel.body (L : Libm) (s : ExcuteLocals) : ExcuteLocals :=
  let o := IncrementTheModelChannel L (ExcuteModel.atSample s) s.rnd
  { s with
    g := o.2.1
    rnd := o.2.2
    pBuf := s.pBuf ++ [o.1]
    m_PaceBegin := s.m_PaceBegin + s.m_PaceStep
    m_FirmnessBegin := s.m_FirmnessBegin + s.m_FirmnessStep
    m_SteadinessBegin := s.m_SteadinessBegin + s.m_SteadinessStep
    uFramesProduced := (s.uFramesProduced + 1) % 65536 }

/-- The loop `while (uFramesProduced < in_uValidFrames)`, run for at most `fuel` rounds. -/
def ExcuteModel.loop (L : Libm) (in_uValidFrames : Fin 65536) : Nat → ExcuteLocals → ExcuteLocals
  | 0, s => s
  | fuel + 1, s =>
    if s.uFramesProduced < in_uValidFrames.val then
      ExcuteModel.loop L in_uValidFrames fuel (ExcuteModel.body L s)
    else s

/-- Embeds `void Generator::ExcuteModel(AkReal32* pBuf, AkUInt16 in_uValidFrames)`: the samples
written, the generator and the random source afterwards.  The loop gets
`in_uValidFrames` rounds, which lets it finish (`ExcuteModel.loop_finishes`). -/
def ExcuteModel (L : Libm) (g : Generator) (in_uValidFrames : Fin 65536) (r : Rand) :
    List ℚ × Generator × Rand :=
  let s := ExcuteModel.loop L in_uValidFrames in_uValidFrames.val
    (ExcuteModel.rampBlock g in_uValidFrames r)
  (s.pBuf,
   { s.g with m_Pace := s.m_PaceBegin, m_Firmness := s.m_FirmnessBegin
              m_Steadiness := s.m_SteadinessBegin },
   s.rnd)

/-- The surface configuration of the generator: the `Surface` envelope template, the
filter-bank mix gain `FiltersOut` and the crunch settings `CrunchFlag`, `Freq1`, `Freq2`,
`Delay1`, `Delay2`, `CrunchOut`; these are the members `UpdateSurfaceModifiers` assigns
besides the filter bank. -/
def surfaceConfig (g : Generator) : SurfaceEnvelope × ℚ × Bool × ℚ × ℚ × ℚ × ℚ × ℚ :=
  (g.Surface, g.FiltersOut, g.CrunchFlag, g.Freq1, g.Freq2, g.Delay1, g.Delay2, g.CrunchOut)

/-- Embeds `void Generator::SetShoeType(AkInt32 in_ShoeType)`. -/
def SetShoeType (g : Generator) (in_ShoeType : Int) : Generator :=
  if g.m_sampleRate > 0 then
    { UpdateShoeModifiers { g with m_ShoeType := in_ShoeType } in_ShoeType with
      m_ShoeTypeChanged := true }
  else g

/-- Embeds `void Generator::SetSurfaceType(AkInt32 in_SurfaceType)`. -/
def SetSurfaceType (g : Generator) (in_SurfaceType : Int) : Generator :=
  if g.m_sampleRate > 0 then
    { g with m_SurfaceType := in_SurfaceType, m_SurfaceTypeChanged := true }
  else g

/-- Embeds `void Generator::SetTerrain(AkInt32 in_Terrain)`. -/
def SetTerrain (g : Generator) (in_Terrain : Int) : Generator :=
  if g.m_sampleRate > 0 then
    { g with m_Terrain := in_Terrain, m_TerrainChanged := true }
  else g

/-- Embeds `void Generator::SetPace(AkReal32 in_Pace)`. -/
def SetPace (g : Generator) (in_Pace : ℚ) : Generator :=
  if g.m_sampleRate > 0 then
    { UpdatePaceModifiers { g with m_Pace := in_Pace } in_Pace with m_PaceChanged := true }
  else g

/-- Embeds `void Generator::SetFirmness(AkReal32 in_Firmness)`. -/
def SetFirmness (g : Generator) (in_Firmness : ℚ) : Generator :=
  if g.m_sampleRate > 0 then
    { g with m_Firmness := 1 - in_Firmness, m_FirmnessChanged := true }
  else g

/-- Embeds `void Generator::SetSteadiness(AkReal32 in_Steadiness)`. -/
def SetSteadiness (g : Generator) (in_Steadiness : ℚ) : Generator :=
  if g.m_sampleRate > 0 then
    { g with m_Steadiness := in_Steadiness, m_SteadinessChanged := true }
  else g

/-- Embeds `void Generator::SetAutomeated(bool in_Automated)`. -/
def SetAutomeated (g : Generator) (in_Automated : Bool) : Generator :=
  if g.m_sampleRate > 0 then
    { g with m_Automated := in_Automated, m_AutomatedChanged := true }
  else g

end Generator

namespace nemlib

/-! ## Call sequences on the filters -/

/-- A second concrete `Libm`, with the shape of the real functions: `pi` is 355/113, `sin` and
`cos` are the triangle waves of period `2 * pi` that agree with sine and cosine at the
multiples of `pi / 2`, `tan` is their quotient, `sqrt` is the identity and `pow b e` is
`b ^ ⌊e⌋`. -/
def Libm.triangle : Libm :=
  { pi := 355 / 113
    sin := fun x => 1 - 4 * |Int.fract (x / (2 * (355 / 113)) + 1 / 4) - 1 / 2|
    cos := fun x => 1 - 4 * |Int.fract (x / (2 * (355 / 113)) + 1 / 2) - 1 / 2|
    sqrt := fun x => x
    pow := fun b e => b ^ ⌊e⌋
    tan := fun x => (1 - 4 * |Int.fract (x / (2 * (355 / 113)) + 1 / 4) - 1 / 2|)
      / (1 - 4 * |Int.fract (x / (2 * (355 / 113)) + 1 / 2) - 1 / 2|) }

/-- The bank after `n` successive `ProcessSample` calls fed `x 0, x 1, ...`. -/
def FilterBank.run (x : Nat → ℚ) : Nat → FilterBank → FilterBank
  | 0, fb => fb
  | n + 1, fb => (FilterBank.ProcessSample (FilterBank.run x n fb) (x n)).2

/-- One call on a `BiquadFilter`: a setter with its argument, or `ProcessSample` with its
input. -/
inductive BiquadFilter.Call where
  | SetFrequency (InFrequency : ℚ)
  | SetQFactor (InQFactor : ℚ)
  | SetPeakGain (InPeakGainDB : ℚ)
  | SetType (InType : Int)
  | ProcessSample (InSample : ℚ)

/-- The filter after one call. -/
def BiquadFilter.call (L : Libm) (f : BiquadFilter) : BiquadFilter.Call → BiquadFilter
  | .SetFrequency InFrequency => f.SetFrequency L InFrequency
  | .SetQFactor InQFactor => f.SetQFactor L InQFactor
  | .SetPeakGain InPeakGainDB => f.SetPeakGain L InPeakGainDB
  | .SetType InType => f.SetType L InType
  | .ProcessSample InSample => (f.ProcessSample InSample).2

/-- The filter after a sequence of calls, made in list order. -/
def BiquadFilter.calls (L : Libm) (f : BiquadFilter) (cs : List BiquadFilter.Call) :
    BiquadFilter :=
  cs.foldl (BiquadFilter.call L) f

/-- The arguments most recently supplied to a `BiquadFilter`: frequency, Q factor, peak gain
and type. -/
structure BiquadFilter.Params where
  Frequency : ℚ
  QFactor : ℚ
  PeakGainDB : ℚ
  Type_ : Int
deriving DecidableEq

/-- The most recently supplied arguments after one more call. -/
def BiquadFilter.Params.call (p : BiquadFilter.Params) : BiquadFilter.Call → BiquadFilter.Params
  | .SetFrequency InFrequency => { p with Frequency := InFrequency }
  | .SetQFactor InQFactor => { p with QFactor := InQFactor }
  | .SetPeakGain InPeakGainDB => { p with PeakGainDB := InPeakGainDB }
  | .SetType InType => { p with Type_ := InType }
  | .ProcessSample _ => p

/-- The most recently supplied arguments after a sequence of calls. -/
def BiquadFilter.Params.calls (p : BiquadFilter.Params) (cs : List BiquadFilter.Call) :
    BiquadFilter.Params :=
  cs.foldl BiquadFilter.Params.call p

/-- The six coefficients `B0, B1, B2, A0, A1, A2` of a filter. -/
def BiquadFilter.coeffs (f : BiquadFilter) : ℚ × ℚ × ℚ × ℚ × ℚ × ℚ :=
  (f.B0, f.B1, f.B2, f.A0, f.A1, f.A2)

/-- The transfer function `(B0 + B1 z^-1 + B2 z^-2) / (A0 + A1 z^-1 + A2 z^-2)` of the
difference equation of `BiquadFilter::ProcessSample`, at a point `z` of a field. -/
def BiquadFilter.transfer {K : Type} [Field K] (f : BiquadFilter) (z : K) : K :=
  ((f.B0 : K) + (f.B1 : K) * z⁻¹ + (f.B2 : K) * z⁻¹ ^ 2) /
    ((f.A0 : K) + (f.A1 : K) * z⁻¹ + (f.A2 : K) * z⁻¹ ^ 2)

end nemlib

namespace nemlib

/-! ## Oscillators -/

/-- The call `fmod(x, 1.0f)`: the remainder of `x / 1`, which has the sign of `x`. -/
def fmod1 (x : ℚ) : ℚ := x - (truncToInt x : ℚ)

/-- The recurrence every oscillator's `NextSample` applies to its member `Phase`, wrap then
advance by the increment: the stored phase after `n` calls, starting from `p`. -/
def phaseAfter (inc : ℚ) : Nat → ℚ → ℚ
  | 0, p => p
  | n + 1, p => fmod1 (phaseAfter inc n p) + inc

/-- State of `class SineOsc`, with the in-class initialisers; `SineOsc()` leaves them
as they are. -/
structure SineOsc where
  Frequency : ℚ := 440
  SampleRate : Int := 48000
  Phase : ℚ := 0
  PhaseInc : ℚ := 440 / 48000
deriving DecidableEq

namespace SineOsc

/-- Embeds `SineOsc::SineOsc(float InFrequency, int InSampleRate)`; the phase increment is
computed from `InFrequency`, not from the clamped `Frequency`. -/
def new (InFrequency : ℚ) (InSampleRate : Int) : SineOsc :=
  let SampleRate := max InSampleRate 1
  { Frequency := max InFrequency 1
    SampleRate := SampleRate
    PhaseInc := InFrequency / (SampleRate : ℚ) }

/-- Embeds `void SineOsc::SetFrequency(float InFrequency)`. -/
def SetFrequency (o : SineOsc) (InFrequency : ℚ) : SineOsc :=
  let Frequency := max InFrequency 1
  { o with Frequency := Frequency, PhaseInc := Frequency / (o.SampleRate : ℚ) }

/-- Embeds `float SineOsc::NextSample()`: the sample and the oscillator afterwards. -/
def NextSample (L : Libm) (o : SineOsc) : ℚ × SineOsc :=
  let Phase := fmod1 o.Phase
  let Radians := 2 * Phase * L.pi - L.pi
  let Sample := L.sin (-1 * Radians)
  (Sample, { o with Phase := Phase + o.PhaseInc })

/-- The oscillator after `n` successive `NextSample` calls. -/
def calls (L : Libm) : Nat → SineOsc → SineOsc
  | 0, o => o
  | n + 1, o => (NextSample L (calls L n o)).2

/-- The value returned by call number `n` (counted from 0). -/
def output (L : Libm) (n : Nat) (o : SineOsc) : ℚ := (NextSample L (calls L n o)).1

end SineOsc

/-- State of `class SquareOsc`, with the in-class initialisers. -/
structure SquareOsc where
  Frequency : ℚ := 440
  SampleRate : Int := 48000
  Phase : ℚ := 0
  PhaseInc : ℚ := 440 / 48000
deriving DecidableEq

namespace SquareOsc

/-- Embeds `SquareOsc::SquareOsc(float InFrequency, int InSampleRate)`: the assignments are
guarded by `InSampleRate > 0 && InFrequency > 0.0f`. -/
def new (InFrequency : ℚ) (InSampleRate : Int) : SquareOsc :=
  if InSampleRate > 0 ∧ InFrequency > 0 then
    let SampleRate := max InSampleRate 1
    { Frequency := max InFrequency 1
      SampleRate := SampleRate
      PhaseInc := InFrequency / (SampleRate : ℚ) }
  else {}

/-- Embeds `void SquareOsc::SetFrequency(float InFrequency)`. -/
def SetFrequency (o : SquareOsc) (InFrequency : ℚ) : SquareOsc :=
  let Frequency := max InFrequency 1
  { o with Frequency := Frequency, PhaseInc := Frequency / (o.SampleRate : ℚ) }

/-- Embeds `float SquareOsc::NextSample()`. -/
def NextSample (o : SquareOsc) : ℚ × SquareOsc :=
  let Phase := fmod1 o.Phase
  let Sample : ℚ := if Phase ≤ 1 / 2 then -1 else 1
  (Sample, { o with Phase := Phase + o.PhaseInc })

/-- The oscillator after `n` successive `NextSample` calls. -/
def calls : Nat → SquareOsc → SquareOsc
  | 0, o => o
  | n + 1, o => (NextSample (calls n o)).2

/-- The value returned by call number `n` (counted from 0). -/
def output (n : Nat) (o : SquareOsc) : ℚ := (NextSample (calls n o)).1

end SquareOsc

/-- State of `class SawOsc`, with the in-class initialisers. -/
structure SawOsc where
  Frequency : ℚ := 440
  SampleRate : Int := 48000
  Phase : ℚ := 0
  PhaseInc : ℚ := 440 / 48000
deriving DecidableEq

namespace SawOsc

/-- Embeds `SawOsc::SawOsc(float InFrequency, int InSampleRate)`. -/
def new (InFrequency : ℚ) (InSampleRate : Int) : SawOsc :=
  let Frequency := max InFrequency 1
  let SampleRate := max InSampleRate 1
  { Frequency := Frequency, SampleRate := SampleRate, PhaseInc := Frequency / (SampleRate : ℚ) }

/-- Embeds `void SawOsc::SetFrequency(float InFrequency)`. -/
def SetFrequency (o : SawOsc) (InFrequency : ℚ) : SawOsc :=
  let Frequency := max InFrequency 1
  { o with Frequency := Frequency, PhaseInc := Frequency / (o.SampleRate : ℚ) }

/-- Embeds `float SawOsc::NextSample()`. -/
def NextSample (o : SawOsc) : ℚ × SawOsc :=
  let Phase := fmod1 o.Phase
  let Sample := 2 * Phase - 1
  (Sample, { o with Phase := Phase + o.PhaseInc })

/-- The oscillator after `n` successive `NextSample` calls. -/
def calls : Nat → SawOsc → SawOsc
  | 0, o => o
  | n + 1, o => (NextSample (calls n o)).2

/-- The value returned by call number `n` (counted from 0). -/
def output (n : Nat) (o : SawOsc) : ℚ := (NextSample (calls n o)).1

end SawOsc

/-- State of `class TriangleOsc`, with the in-class initialisers. -/
structure TriangleOsc where
  Frequency : ℚ := 440
  SampleRate : Int := 48000
  Phase : ℚ := 0
  PhaseInc : ℚ := 440 / 48000
deriving DecidableEq

namespace TriangleOsc

/-- Embeds `TriangleOsc::TriangleOsc(float InFrequency, int InSampleRate)`. -/
def new (InFrequency : ℚ) (InSampleRate : Int) : TriangleOsc :=
  let Frequency := max InFrequency 1
  let SampleRate := max InSampleRate 1
  { Frequency := Frequency, SampleRate := SampleRate, PhaseInc := Frequency / (SampleRate : ℚ) }

/-- Embeds `void TriangleOsc::SetFrequency(float InFrequency)`. -/
def SetFrequency (o : TriangleOsc) (InFrequency : ℚ) : TriangleOsc :=
  let Frequency := max InFrequency 1
  { o with Frequency := Frequency, PhaseInc := Frequency / (o.SampleRate : ℚ) }

/-- Embeds `float TriangleOsc::NextSample()`. -/
def NextSample (o : TriangleOsc) : ℚ × TriangleOsc :=
  let Phase := fmod1 o.Phase
  let Sample := if Phase ≤ 1 / 2 then 4 * Phase - 1 else -4 * Phase + 3
  (Sample, { o with Phase := Phase + o.PhaseInc })

/-- The oscillator after `n` successive `NextSample` calls. -/
def calls : Nat → TriangleOsc → TriangleOsc
  | 0, o => o
  | n + 1, o => (NextSample (calls n o)).2

/-- The value returned by call number `n` (counted from 0). -/
def output (n : Nat) (o : TriangleOsc) : ℚ := (NextSample (calls n o)).1

end TriangleOsc

/-- State of `class PWMOsc`, with the in-class initialisers. -/
structure PWMOsc where
  Frequency : ℚ := 440
  SampleRate : Int := 48000
  Phase : ℚ := 0
  PhaseInc : ℚ := 440 / 48000
  DutyCycle : ℚ := 1 / 2
deriving DecidableEq

namespace PWMOsc

/-- Embeds `PWMOsc::PWMOsc(float InFrequency, int InSampleRate, float InDutyCycle)`. -/
def new (InFrequency : ℚ) (InSampleRate : Int) (InDutyCycle : ℚ) : PWMOsc :=
  let Frequency := max InFrequency 1
  let SampleRate := max InSampleRate 1
  { Frequency := Frequency, SampleRate := SampleRate, PhaseInc := Frequency / (SampleRate : ℚ)
    DutyCycle := Clamp InDutyCycle 0 1 }

/-- Embeds `void PWMOsc::SetFrequency(float InFrequency)`. -/
def SetFrequency (o : PWMOsc) (InFrequency : ℚ) : PWMOsc :=
  let Frequency := max InFrequency 1
  { o with Frequency := Frequency, PhaseInc := Frequency / (o.SampleRate : ℚ) }

/-- Embeds `void PWMOsc::SetDutyCycle(float InDutyCycle)`. -/
def SetDutyCycle (o : PWMOsc) (InDutyCycle : ℚ) : PWMOsc :=
  { o with DutyCycle := Clamp InDutyCycle 0 1 }

/-- Embeds `float PWMOsc::NextSample()`. -/
def NextSample (o : PWMOsc) : ℚ × PWMOsc :=
  let Phase := fmod1 o.Phase
  let Sample : ℚ := if Phase ≥ o.DutyCycle then -1 else 1
  (Sample, { o with Phase := Phase + o.PhaseInc })

/-- The oscillator after `n` successive `NextSample` calls. -/
def calls : Nat → PWMOsc → PWMOsc
  | 0, o => o
  | n + 1, o => (NextSample (calls n o)).2

/-- The value returned by call number `n` (counted from 0). -/
def output (n : Nat) (o : PWMOsc) : ℚ := (NextSample (calls n o)).1

end PWMOsc

/-- State of `class PhasorGen`, with the in-class initialisers. -/
structure PhasorGen where
  Frequency : ℚ := 440
  SampleRate : Int := 48000
  Phase : ℚ := 0
  PhaseInc : ℚ := 440 / 48000
  Duty : ℚ := 1
deriving DecidableEq

namespace PhasorGen

/-- Embeds `PhasorGen::PhasorGen(int InSampleRate, float InFrequency)`. -/
def new (InSampleRate : Int) (InFrequency : ℚ) : PhasorGen :=
  let Frequency := max InFrequency 1
  let SampleRate := max InSampleRate 1
  { Frequency := Frequency, SampleRate := SampleRate, PhaseInc := Frequency / (SampleRate : ℚ)
    Phase := 0, Duty := 1 }

/-- Embeds `PhasorGen::PhasorGen(int InSampleRate, float InFrequency, float InPhase,
float InDuty)`. -/
def newPhaseDuty (InSampleRate : Int) (InFrequency InPhase InDuty : ℚ) : PhasorGen :=
  let Frequency := max InFrequency 1
  let SampleRate := max InSampleRate 1
  { Frequency := Frequency, SampleRate := SampleRate, PhaseInc := Frequency / (SampleRate : ℚ)
    Phase := InPhase, Duty := Clamp InDuty (1 / 1000) 1 }

/-- Embeds `void PhasorGen::SetFrequency(float InFrequency)`. -/
def SetFrequency (o : PhasorGen) (InFrequency : ℚ) : PhasorGen :=
  let Frequency := max InFrequency 1
  { o with Frequency := Frequency, PhaseInc := Frequency / (o.SampleRate : ℚ) }

/-- Embeds `void PhasorGen::SetPhase(float InPhase)`. -/
def SetPhase (o : PhasorGen) (InPhase : ℚ) : PhasorGen := { o with Phase := InPhase }

/-- Embeds `void PhasorGen::SetDuty(float InDuty)`. -/
def SetDuty (o : PhasorGen) (InDuty : ℚ) : PhasorGen :=
  { o with Duty := Clamp InDuty (1 / 1000) 1 }

/-- Embeds `float PhasorGen::NextSample()`: the output and the generator afterwards. -/
def NextSample (o : PhasorGen) : ℚ × PhasorGen :=
  let Output := if o.Phase > o.Duty then 0 else o.Phase / o.Duty
  (Output, { o with Phase := (o.Phase + o.PhaseInc) - (⌊o.Phase + o.PhaseInc⌋ : ℚ) })

end PhasorGen

end nemlib

namespace nemlib

/-! ## Rescale, the two-argument distortion constructor -/

/-- The lower end of the old range as `Rescale` uses it: `oldMin -= 0.01f` when
`oldMax == oldMin`. -/
def Rescale.oldMin (oldMin oldMax : ℚ) : ℚ :=
  if oldMax = oldMin then oldMin - 1 / 100 else oldMin

/-- Embeds `float Rescale(float value, float newMin, float newMax, float oldMin,
float oldMax)`. -/
def Rescale (value newMin newMax oldMin oldMax : ℚ) : ℚ :=
  let oldMin := Rescale.oldMin oldMin oldMax
  let value := if value < oldMin then oldMin else if value > oldMax then oldMax else value
  newMin + (value - oldMin) * (newMax - newMin) / (oldMax - oldMin)

/-- Embeds `DistortionProcessor::DistortionProcessor(float InAmount, float OutputGain)`. -/
def DistortionProcessor.newGain (InAmount OutputGain : ℚ) : DistortionProcessor :=
  { Amount := InAmount, Gain := OutputGain }

/-- Embeds `void DistortionProcessor::SetAmount(float InAmount)`. -/
def DistortionProcessor.SetAmount (p : DistortionProcessor) (InAmount : ℚ) :
    DistortionProcessor :=
  { p with Amount := InAmount }

/-- Embeds `void DistortionProcessor::SetGain(float OutputGain)`. -/
def DistortionProcessor.SetGain (p : DistortionProcessor) (OutputGain : ℚ) :
    DistortionProcessor :=
  { p with Gain := OutputGain }

/-! ## Linear ADSR envelope -/

/-- State of `class LinEnvelope`, with the in-class initialisers. -/
structure LinEnvelope where
  Attack : ℚ := 5 / 100
  Hold : ℚ := 1
  Decay : ℚ := 1
  Sustain : ℚ := 2 / 10
  Release : ℚ := 1 / 2
  EnvPos : ℚ := 0
  EnvPosInc : ℚ := 0
  Min : ℚ := 0
  Max : ℚ := 1
  HasStarted : Bool := false
deriving DecidableEq

namespace LinEnvelope

/-- Embeds `LinEnvelope::LinEnvelope(int, float, float, float, float, float)`. -/
def new (InSampleRate : Int) (InAttack InHold InDecay InSustain InRelease : ℚ) : LinEnvelope :=
  { Hold := max InHold 0
    EnvPosInc := 1 / ((max InSampleRate 1 : Int) : ℚ)
    Sustain := Clamp InSustain 0 1
    Attack := max InAttack (1 / 10000)
    Decay := max InDecay (1 / 10000)
    Release := max InRelease (1 / 10000)
    EnvPos := 0
    Min := 0
    Max := 1
    HasStarted := false }

/-- Embeds `LinEnvelope::LinEnvelope(int, float, float, float, float, float, float, float)`. -/
def newMinMax (InSampleRate : Int) (InAttack InHold InDecay InSustain InRelease InMin
    InMax : ℚ) : LinEnvelope :=
  { Hold := max InHold 0
    EnvPosInc := 1 / ((max InSampleRate 1 : Int) : ℚ)
    Min := InMin
    Max := InMax
    Sustain := Clamp InSustain InMin InMax
    Attack := max InAttack (1 / 10000)
    Decay := max InDecay (1 / 10000)
    Release := max InRelease (1 / 10000)
    EnvPos := 0
    HasStarted := false }

/-- Embeds `void LinEnvelope::SetAttack(float InAttack)`. -/
def SetAttack (e : LinEnvelope) (InAttack : ℚ) : LinEnvelope :=
  { e with Attack := max InAttack (1 / 10000) }

/-- Embeds `void LinEnvelope::SetHold(float InHold)`. -/
def SetHold (e : LinEnvelope) (InHold : ℚ) : LinEnvelope := { e with Hold := max InHold 0 }

/-- Embeds `void LinEnvelope::SetDecay(float InDecay)`. -/
def SetDecay (e : LinEnvelope) (InDecay : ℚ) : LinEnvelope :=
  { e with Decay := max InDecay (1 / 10000) }

/-- Embeds `void LinEnvelope::SetSustain(float InSustain)`. -/
def SetSustain (e : LinEnvelope) (InSustain : ℚ) : LinEnvelope :=
  { e with Sustain := Clamp InSustain e.Min e.Max }

/-- Embeds `void LinEnvelope::SetRelease(float InRelease)`. -/
def SetRelease (e : LinEnvelope) (InRelease : ℚ) : LinEnvelope :=
  { e with Release := max InRelease (1 / 10000) }

/-- Embeds `void LinEnvelope::SetMax(float InMax)`. -/
def SetMax (e : LinEnvelope) (InMax : ℚ) : LinEnvelope := { e with Max := InMax }

/-- Embeds `void LinEnvelope::SetMin(float InMin)`. -/
def SetMin (e : LinEnvelope) (InMin : ℚ) : LinEnvelope := { e with Min := InMin }

/-- Embeds `void LinEnvelope::ResetEnvelope()`. -/
def ResetEnvelope (e : LinEnvelope) : LinEnvelope := { e with EnvPos := 0, HasStarted := true }

/-- Embeds `float LinEnvelope::GetNextEnvelopePoint()`: the returned value and the envelope
afterwards. -/
def GetNextEnvelopePoint (e : LinEnvelope) : ℚ × LinEnvelope :=
  if e.HasStarted = true then
    let EnvReturnValue :=
      if e.EnvPos ≤ e.Attack then e.Max * e.EnvPos / e.Attack
      else if e.EnvPos ≤ e.Attack + e.Hold then e.Max
      else if e.EnvPos ≤ e.Attack + e.Hold + e.Decay then
        e.Max - (e.Sustain - e.Max) * (e.Attack + e.Hold - e.EnvPos) / e.Decay
      else if e.EnvPos ≤ e.Attack + e.Hold + e.Decay + e.Release then
        e.Sustain - (e.Min - e.Sustain)
          * (e.Attack + e.Hold + e.Decay + e.Release - e.EnvPos) / e.Release
      else e.Min
    let EnvPos :=
      if e.EnvPos ≤ e.Attack + e.Hold + e.Decay + e.Release then e.EnvPos + e.EnvPosInc
      else e.EnvPos
    (EnvReturnValue, { e with EnvPos := EnvPos })
  else (e.Min, e)

/-- The envelope after `n` successive `GetNextEnvelopePoint` calls. -/
def calls : Nat → LinEnvelope → LinEnvelope
  | 0, e => e
  | n + 1, e => (GetNextEnvelopePoint (calls n e)).2

/-- The value returned by call number `n` (counted from 0). -/
def output (n : Nat) (e : LinEnvelope) : ℚ := (GetNextEnvelopePoint (calls n e)).1

end LinEnvelope

/-! ## Linear ASR envelope -/

/-- State of `class LinASREnvelope`, with the in-class initialisers. -/
structure LinASREnvelope where
  AttackTime : ℚ := 1 / 2
  SustainTime : ℚ := 2 / 10
  ReleaseTime : ℚ := 1 / 2
  AttackLVL : ℚ := 1
  SustainLVL : ℚ := 2 / 10
  StartLVL : ℚ := 0
  EndLVL : ℚ := 0
  EnvPos : ℚ := 0
  EnvPosInc : ℚ := 0
  HasStarted : Bool := false
deriving DecidableEq

namespace LinASREnvelope

/-- Embeds `LinASREnvelope::LinASREnvelope(int, float, float, float)`. -/
def new (InSampleRate : Int) (InAttack InSustain InRelease : ℚ) : LinASREnvelope :=
  { EnvPosInc := 1 / ((max InSampleRate 1 : Int) : ℚ)
    AttackTime := max InAttack (1 / 10000)
    SustainTime := max InSustain (1 / 10000)
    ReleaseTime := max InRelease (1 / 10000)
    AttackLVL := 1
    SustainLVL := 2 / 10
    StartLVL := 0
    EndLVL := 0
    HasStarted := false
    EnvPos := 0 }

/-- Embeds `LinASREnvelope::LinASREnvelope(int, float, float, float, float, float, float,
float)`: the four levels are stored as given. -/
def newLevels (InSampleRate : Int) (InAttack InSustain InRelease InAttackLVL InSustainLVL
    InStartLVL InEndLVL : ℚ) : LinASREnvelope :=
  { EnvPosInc := 1 / ((max InSampleRate 1 : Int) : ℚ)
    AttackTime := max InAttack (1 / 10000)
    SustainTime := max InSustain (1 / 10000)
    ReleaseTime := max InRelease (1 / 10000)
    AttackLVL := InAttackLVL
    SustainLVL := InSustainLVL
    StartLVL := InStartLVL
    EndLVL := InEndLVL
    HasStarted := false
    EnvPos := 0 }

/-- Embeds `void LinASREnvelope::SetAttack(float InAttack)`. -/
def SetAttack (e : LinASREnvelope) (InAttack : ℚ) : LinASREnvelope :=
  { e with AttackTime := max InAttack (1 / 10000) }

/-- Embeds `void LinASREnvelope::SetSustain(float InSustain)`. -/
def SetSustain (e : LinASREnvelope) (InSustain : ℚ) : LinASREnvelope :=
  { e with SustainTime := max InSustain (1 / 10000) }

/-- Embeds `void LinASREnvelope::SetRelease(float InRelease)`. -/
def SetRelease (e : LinASREnvelope) (InRelease : ℚ) : LinASREnvelope :=
  { e with ReleaseTime := max InRelease (1 / 10000) }

/-- Embeds `void LinASREnvelope::SetAttackLVL(float InAttackLVL)`. -/
def SetAttackLVL (e : LinASREnvelope) (InAttackLVL : ℚ) : LinASREnvelope :=
  { e with AttackLVL := max InAttackLVL (1 / 10000) }

/-- Embeds `void LinASREnvelope::SetSustainLVL(float InSustainLVL)`. -/
def SetSustainLVL (e : LinASREnvelope) (InSustainLVL : ℚ) : LinASREnvelope :=
  { e with SustainLVL := max InSustainLVL (1 / 10000) }

/-- Embeds `void LinASREnvelope::SetStartLVL(float InStartLVL)`. -/
def SetStartLVL (e : LinASREnvelope) (InStartLVL : ℚ) : LinASREnvelope :=
  { e with StartLVL := max InStartLVL (1 / 10000) }

/-- Embeds `void LinASREnvelope::SetEndLVL(float InEndLVL)`. -/
def SetEndLVL (e : LinASREnvelope) (InEndLVL : ℚ) : LinASREnvelope :=
  { e with EndLVL := max InEndLVL (1 / 10000) }

/-- Embeds `void LinASREnvelope::ResetEnvelope()`. -/
def ResetEnvelope (e : LinASREnvelope) : LinASREnvelope :=
  { e with EnvPos := 0, HasStarted := true }

/-- Embeds `float LinASREnvelope::GetNextEnvelopePoint()`: the returned value and the envelope
afterwards. -/
def GetNextEnvelopePoint (e : LinASREnvelope) : ℚ × LinASREnvelope :=
  if e.HasStarted = true then
    let EnvReturnValue :=
      if e.EnvPos ≤ e.AttackTime then
        e.StartLVL + e.EnvPos * (e.AttackLVL - e.StartLVL) / e.AttackTime
      else if e.EnvPos ≤ e.AttackTime + e.SustainTime then e.SustainLVL
      else if e.EnvPos ≤ e.AttackTime + e.SustainTime + e.ReleaseTime then
        e.SustainLVL + (e.EnvPos - e.AttackTime - e.SustainTime) * (e.EndLVL - e.SustainLVL)
          / e.ReleaseTime
      else e.EndLVL
    let EnvPos :=
      if e.EnvPos ≤ e.AttackTime + e.SustainTime + e.ReleaseTime then e.EnvPos + e.EnvPosInc
      else e.EnvPos
    (EnvReturnValue, { e with EnvPos := EnvPos })
  else (e.StartLVL, e)

end LinASREnvelope

end nemlib

namespace nemlib

/-! ## Exponential envelope 2 -/

/-- State of `class ExpEnvelope2`, with the in-class initialisers. -/
structure ExpEnvelope2 where
  Attack : ℚ := 5 / 100
  Hold : ℚ := 1
  Decay : ℚ := 1
  Sustain : ℚ := 2 / 10
  Release : ℚ := 1 / 2
  Min : ℚ := 0
  Max : ℚ := 1
  SampleRate : Int := 48000
  HasStarted : Bool := false
  EnvPos : ℚ := 0
  EnvPosInc : ℚ := 1 / 48000
deriving DecidableEq

namespace ExpEnvelope2

/-- Embeds `ExpEnvelope2::ExpEnvelope2(int, float, float, float, float, float)`. -/
def new (InSampleRate : Int) (InAttack InHold InDecay InSustain InRelease : ℚ) : ExpEnvelope2 :=
  let SampleRate := max InSampleRate 1
  { SampleRate := SampleRate
    Hold := max InHold 0
    Attack := max InAttack (1 / 10000)
    Decay := max InDecay (1 / 10000)
    Min := 0
    Max := 1
    Sustain := Clamp InSustain 0 1
    Release := max InRelease (1 / 10000)
    EnvPosInc := 1 / (SampleRate : ℚ)
    EnvPos := 0
    HasStarted := false }

/-- Embeds `ExpEnvelope2::ExpEnvelope2(int, float, float, float, float, float, float,
float)`. -/
def newMinMax (InSampleRate : Int) (InAttack InHold InDecay InSustain InRelease InMin
    InMax : ℚ) : ExpEnvelope2 :=
  let SampleRate := max InSampleRate 1
  let Min := InMin
  let Max := max InMax Min
  { SampleRate := SampleRate
    Hold := max InHold 0
    Attack := max InAttack (1 / 10000)
    Decay := max InDecay (1 / 10000)
    Min := Min
    Max := Max
    Sustain := Clamp InSustain Min Max
    Release := max InRelease (1 / 10000)
    EnvPosInc := 1 / (SampleRate : ℚ)
    EnvPos := 0
    HasStarted := false }

/-- Embeds `void ExpEnvelope2::SetAttack(float InAttack)`. -/
def SetAttack (e : ExpEnvelope2) (InAttack : ℚ) : ExpEnvelope2 :=
  { e with Attack := max InAttack (1 / 10000) }

/-- Embeds `void ExpEnvelope2::SetHold(float InHold)`. -/
def SetHold (e : ExpEnvelope2) (InHold : ℚ) : ExpEnvelope2 := { e with Hold := max InHold 0 }

/-- Embeds `void ExpEnvelope2::SetDecay(float InDecay)`. -/
def SetDecay (e : ExpEnvelope2) (InDecay : ℚ) : ExpEnvelope2 :=
  { e with Decay := max InDecay (1 / 10000) }

/-- Embeds `void ExpEnvelope2::SetSustain(float InSustain)`. -/
def SetSustain (e : ExpEnvelope2) (InSustain : ℚ) : ExpEnvelope2 :=
  { e with Sustain := Clamp InSustain e.Min e.Max }

/-- Embeds `void ExpEnvelope2::SetRelease(float InRelease)`. -/
def SetRelease (e : ExpEnvelope2) (InRelease : ℚ) : ExpEnvelope2 :=
  { e with Release := max InRelease (1 / 10000) }

/-- Embeds `void ExpEnvelope2::SetMin(float InMin)`. -/
def SetMin (e : ExpEnvelope2) (InMin : ℚ) : ExpEnvelope2 := { e with Min := InMin }

/-- Embeds `void ExpEnvelope2::SetMax(float InMax)`. -/
def SetMax (e : ExpEnvelope2) (InMax : ℚ) : ExpEnvelope2 := { e with Max := max InMax e.Min }

/-- Embeds `void ExpEnvelope2::ResetEnvelope()`. -/
def ResetEnvelope (e : ExpEnvelope2) : ExpEnvelope2 := { e with EnvPos := 0, HasStarted := true }

/-- Embeds `float ExpEnvelope2::GetNextEnvelopePoint()`: the returned value and the envelope
afterwards. -/
def GetNextEnvelopePoint (L : Libm) (e : ExpEnvelope2) : ℚ × ExpEnvelope2 :=
  let MockMin := max e.Min (1 / 10000)
  if e.HasStarted = true then
    let EnvReturnValue :=
      if e.EnvPos ≤ e.Attack + e.Hold then
        let v := min (MockMin * L.pow (e.Max / MockMin) (e.EnvPos / e.Attack)) e.Max
        if |v - e.Max| < 5 / 1000 ∨ v ≥ e.Max then e.Max else v
      else if e.EnvPos ≤ e.Attack + e.Hold + e.Decay then
        let v := max (e.Max * L.pow (e.Sustain / e.Max)
          ((e.EnvPos - e.Attack - e.Hold) / e.Decay)) e.Sustain
        if |v - e.Sustain| < 5 / 1000 ∨ v ≤ e.Sustain then e.Sustain else v
      else
        let v := max (e.Sustain * L.pow (MockMin / e.Sustain)
          ((e.EnvPos - e.Attack - e.Hold - e.Decay) / e.Release)) e.Min
        if |v - e.Min| < 5 / 1000 ∨ v ≤ e.Min then e.Min else v
    let EnvPos :=
      if e.EnvPos ≤ e.Attack + e.Hold + e.Decay + e.Release then e.EnvPos + e.EnvPosInc
      else e.EnvPos
    (EnvReturnValue, { e with EnvPos := EnvPos })
  else (e.Min, e)

/-- The envelope after `n` successive `GetNextEnvelopePoint` calls. -/
def calls (L : Libm) : Nat → ExpEnvelope2 → ExpEnvelope2
  | 0, e => e
  | n + 1, e => (GetNextEnvelopePoint L (calls L n e)).2

/-- The value returned by call number `n` (counted from 0). -/
def output (L : Libm) (n : Nat) (e : ExpEnvelope2) : ℚ :=
  (GetNextEnvelopePoint L (calls L n e)).1

end ExpEnvelope2

/-! ## Linear ramp -/

/-- State of `class LinRamp`, with the in-class initialisers. -/
structure LinRamp where
  SampleRate : Int := 48000
  InitValue : ℚ := 0
  FinalValue : ℚ := 1
  AttackTime : ℚ := 1
  EnvPos : ℚ := 0
  EnvInc : ℚ := 1 / 48000
  HasStarted : Bool := false
deriving DecidableEq

namespace LinRamp

/-- Embeds `LinRamp::LinRamp(int InSampleRate, float InAttack, float InInitVal,
float InFinalVal)`. -/
def new (InSampleRate : Int) (InAttack InInitVal InFinalVal : ℚ) : LinRamp :=
  let SampleRate := max InSampleRate 1
  { SampleRate := SampleRate
    InitValue := InInitVal
    FinalValue := InFinalVal
    AttackTime := max InAttack (1 / 10000)
    EnvPos := 0
    EnvInc := 1 / (SampleRate : ℚ)
    HasStarted := false }

/-- Embeds `void LinRamp::SetInitValue(float InInitVal)`. -/
def SetInitValue (e : LinRamp) (InInitVal : ℚ) : LinRamp := { e with InitValue := InInitVal }

/-- Embeds `void LinRamp::SetFinalValue(float InFinalVal)`. -/
def SetFinalValue (e : LinRamp) (InFinalVal : ℚ) : LinRamp := { e with FinalValue := InFinalVal }

/-- Embeds `void LinRamp::SetAttackTime(float InAttack)`. -/
def SetAttackTime (e : LinRamp) (InAttack : ℚ) : LinRamp :=
  { e with AttackTime := max InAttack (1 / 10000) }

/-- Embeds `void LinRamp::ResetEnvelope()`. -/
def ResetEnvelope (e : LinRamp) : LinRamp := { e with EnvPos := 0, HasStarted := true }

/-- Embeds `float LinRamp::GetNextEnvelopePoint()`: the returned value and the ramp
afterwards. -/
def GetNextEnvelopePoint (e : LinRamp) : ℚ × LinRamp :=
  if e.HasStarted = true then
    let EnvReturnValue :=
      if e.EnvPos ≤ e.AttackTime then
        e.InitValue + e.EnvPos * (e.FinalValue - e.InitValue) / e.AttackTime
      else if e.EnvPos > e.AttackTime then e.FinalValue
      else e.InitValue
    let EnvPos := if e.EnvPos ≤ e.AttackTime then e.EnvPos + e.EnvInc else e.EnvPos
    (EnvReturnValue, { e with EnvPos := EnvPos })
  else (e.InitValue, e)

end LinRamp

/-! ## Overdrive -/

/-- State of `class OverDriveProcessor`, with the in-class initialisers. -/
structure OverDriveProcessor where
  Volume : ℚ := 1
  Drive : ℚ := 0
  Bias : ℚ := 0
  Knee : ℚ := 1 / 1000
  C0 : ℚ := 0
  C1 : ℚ := 0
  C2 : ℚ := 0
  Alpha : ℚ := 99 / 100
  Prev : ℚ := 0
deriving DecidableEq

namespace OverDriveProcessor

/-- Embeds `void OverDriveProcessor::ComputeCoeff()`. -/
def ComputeCoeff (o : OverDriveProcessor) : OverDriveProcessor :=
  { o with
    C2 := -o.Volume / (4 * o.Knee)
    C1 := o.Volume * (1 + o.Knee) / (2 * o.Knee)
    C0 := -o.Volume * (1 - o.Knee) * (1 - o.Knee) / (4 * o.Knee) }

/-- Embeds `OverDriveProcessor::OverDriveProcessor()`. -/
def default : OverDriveProcessor := ComputeCoeff {}

/-- Embeds `OverDriveProcessor::OverDriveProcessor(float InVolumedB, float InDrivedB,
float InBias, float InKnee)`: the knee is clamped to at least 0.001. -/
def new (L : Libm) (InVolumedB InDrivedB InBias InKnee : ℚ) : OverDriveProcessor :=
  let o := ComputeCoeff
    { Volume := L.pow 10 (InVolumedB / 20)
      Drive := L.pow 10 (InDrivedB / 20)
      Bias := InBias
      Knee := max InKnee (1 / 1000) }
  { o with Alpha := 99 / 100, Prev := 0 }

/-- Embeds `void OverDriveProcessor::SetVolume(float InVolumedB)`. -/
def SetVolume (L : Libm) (o : OverDriveProcessor) (InVolumedB : ℚ) : OverDriveProcessor :=
  ComputeCoeff { o with Volume := L.pow 10 (InVolumedB / 20) }

/-- Embeds `void OverDriveProcessor::SetDrive(float InDrivedB)`. -/
def SetDrive (L : Libm) (o : OverDriveProcessor) (InDrivedB : ℚ) : OverDriveProcessor :=
  { o with Drive := L.pow 10 (InDrivedB / 20) }

/-- Embeds `void OverDriveProcessor::SetBias(float InBias)`. -/
def SetBias (o : OverDriveProcessor) (InBias : ℚ) : OverDriveProcessor := { o with Bias := InBias }

/-- Embeds `void OverDriveProcessor::SetKnee(float InKnee)`: the knee is stored as given. -/
def SetKnee (o : OverDriveProcessor) (InKnee : ℚ) : OverDriveProcessor :=
  ComputeCoeff { o with Knee := InKnee }

/-- Embeds `float OverDriveProcessor::ProcessSample(float InSample)`: the output and the
processor afterwards. -/
def ProcessSample (o : OverDriveProcessor) (InSample : ℚ) : ℚ × OverDriveProcessor :=
  let X := InSample * o.Drive
  let Y : ℚ :=
    if X > 1 - o.Knee then
      if X ≥ 1 + o.Knee then o.Volume
      else o.C2 * X * X + o.C1 * X + o.C0
    else if X < -(1 - o.Bias) * (1 - o.Knee) then
      if X ≤ -(1 - o.Bias) * (1 + o.Knee) then -(1 - o.Bias) * o.Volume
      else -o.C2 * X * X / (1 - o.Bias) + o.C1 * X - o.C0 * (1 - o.Bias)
    else X * o.Volume
  let Output := o.Alpha * Y + (1 - o.Alpha) * o.Prev
  (Output, { o with Prev := Output })

end OverDriveProcessor

/-! ## Haas effect -/

/-- State of `class HaasEffect`. -/
structure HaasEffect where
  Separation : ℚ := 1 / 2
  Wet : Delay
deriving DecidableEq

namespace HaasEffect

/-- Embeds `HaasEffect::HaasEffect()`. -/
def default : HaasEffect := { Wet := Delay.new 48000 (25 / 1000), Separation := 1 / 2 }

/-- Embeds `HaasEffect::HaasEffect(int InSampleRate, float InDepth, float InSeparation)`: the
depth, in milliseconds, is divided by 1000 before it is given to the delay. -/
def new (InSampleRate : Int) (InDepth InSeparation : ℚ) : HaasEffect :=
  { Wet := Delay.new InSampleRate (max InDepth 1 / 1000)
    Separation := Clamp InSeparation (-1) 1 }

/-- Embeds `std::vector<float> HaasEffect::ProcessSample(float InSample)`: the pair
`{LeftSample, RightSample}` and the effect afterwards. -/
def ProcessSample (h : HaasEffect) (InSample : ℚ) : List ℚ × HaasEffect :=
  let d := h.Wet.ProcessSample InSample
  let DelayedSample := d.1
  let LeftSample := DelayedSample * ((h.Separation + 1) / 2) + InSample * ((1 - h.Separation) / 2)
  let RightSample := DelayedSample * ((1 - h.Separation) / 2) + InSample * ((h.Separation + 1) / 2)
  ([LeftSample, RightSample], { h with Wet := d.2 })

/-- Embeds `void HaasEffect::SetDepth(float InDepth)`: the argument goes to `Delay::SetDelay`
as it is. -/
def SetDepth (h : HaasEffect) (InDepth : ℚ) : HaasEffect := { h with Wet := h.Wet.SetDelay InDepth }

/-- Embeds `void HaasEffect::SetSeparation(float InSeparation)`. -/
def SetSeparation (h : HaasEffect) (InSeparation : ℚ) : HaasEffect :=
  { h with Separation := InSeparation }

end HaasEffect

end nemlib

namespace nemlib

/-! ## Checked subscripts -/

/-- Read `v[i]` with an `int` index, checked: `none` when `i` is outside the vector. -/
def vecRead (v : List ℚ) (i : Int) : Option ℚ := if 0 ≤ i then v.get? i.toNat else none

/-- Write `v[i] = x` with an `int` index, checked: `none` when `i` is outside the vector. -/
def vecWrite (v : List ℚ) (i : Int) (x : ℚ) : Option (List ℚ) :=
  if 0 ≤ i ∧ i.toNat < v.length then some (v.set i.toNat x) else none

/-- Apply `f` to `v[i]` in place, checked: `none` when `i` is outside the vector. -/
def updAtChecked {α : Type} (v : List α) (i : Int) (f : α → α) : Option (List α) :=
  if 0 ≤ i then
    match v.get? i.toNat with
    | some a => some (v.set i.toNat (f a))
    | none => none
  else none

namespace CurveEnvelope

/-- Embeds `CurveEnvelope::CurveEnvelope(int InSampleRate, std::vector<float> InValues,
std::vector<float> InTimes)`; the loop adds the durations to `Time` from left to right,
starting at `0`, and the last statement reads `Times[0]`. -/
def newTimes (InSampleRate : Int) (InValues InTimes : List ℚ) : CurveEnvelope :=
  let SampleRate := max InSampleRate 1
  let Values := if (InValues.length : Int) < 2 then [0, 1, 0] else InValues
  let NumOfValues : Int := if (InValues.length : Int) < 2 then 3 else (InValues.length : Int)
  let Times := if (InTimes.length : Int) = NumOfValues - 1 then InTimes else []
  let Time :=
    if (InTimes.length : Int) = NumOfValues - 1 then InTimes.foldl (fun acc t => acc + t) 0
    else 1 / 2
  { SampleRate := SampleRate
    EnvPosInc := 1 / (SampleRate : ℚ)
    EnvPos := 0
    HasStarted := false
    Values := Values
    NumOfValues := NumOfValues
    Times := Times
    Time := Time
    Counter := 1
    Boundary := vecGet Times 0 }

/-- The three-argument constructor `newTimes` with its subscript `Times[0]` checked. -/
def newTimesChecked (InSampleRate : Int) (InValues InTimes : List ℚ) : Option CurveEnvelope :=
  let c := newTimes InSampleRate InValues InTimes
  (vecRead c.Times 0).map (fun b => { c with Boundary := b })

/-- The function `ResetEnvelope` with its subscript `Times[0]` checked. -/
def ResetEnvelopeChecked (c : CurveEnvelope) : Option CurveEnvelope :=
  let c1 := { c with EnvPos := 0, HasStarted := true, Counter := 1 }
  if c.Times.isEmpty then some { c1 with Boundary := c.Time / (c.NumOfValues : ℚ) }
  else (vecRead c.Times 0).map (fun b => { c1 with Boundary := b })

/-- The function `GetNextEnvelopePoint` with every subscript on `Values` and `Times` checked,
and `Values.back()` checked for an empty vector: `none` as soon as one of them is outside
its vector, otherwise the returned value and the envelope afterwards. -/
def GetNextEnvelopePointChecked (c : CurveEnvelope) : Option (ℚ × CurveEnvelope) :=
  (vecRead c.Values 0).bind fun v0 =>
  if c.HasStarted = true then
    if c.Times.isEmpty then
      if c.Counter ≤ c.NumOfValues - 1 then
        let r : Option (ℚ × CurveEnvelope) :=
          if c.EnvPos ≤ c.Boundary then
            (vecRead c.Values c.Counter).bind fun a =>
            (vecRead c.Values (c.Counter - 1)).bind fun b =>
            some (a + (c.EnvPos - c.Boundary) * (c.NumOfValues : ℚ) * (a - b) / c.Time, c)
          else
            let Counter := c.Counter + 1
            let Boundary := c.Boundary + c.Time / (c.NumOfValues : ℚ)
            let c1 := { c with Counter := Counter, Boundary := Boundary }
            if Counter ≤ c.NumOfValues - 1 then
              (vecRead c.Values Counter).bind fun a =>
              (vecRead c.Values (Counter - 1)).bind fun b =>
              some (a + (c.EnvPos - Boundary) * (c.NumOfValues : ℚ) * (a - b) / c.Time, c1)
            else c.Values.getLast?.map fun l => (l, c1)
        r.map fun r =>
          if c.EnvPos ≤ c.Time then (r.1, { r.2 with EnvPos := c.EnvPos + c.EnvPosInc })
          else r
      else c.Values.getLast?.map fun l => (l, c)
    else
      if c.Counter ≤ c.NumOfValues - 1 then
        let r : Option (ℚ × CurveEnvelope) :=
          if c.EnvPos ≤ c.Boundary then
            (vecRead c.Values c.Counter).bind fun a =>
            (vecRead c.Values (c.Counter - 1)).bind fun b =>
            (vecRead c.Times (c.Counter - 1)).bind fun t =>
            some (a + (c.EnvPos - c.Boundary) * (a - b) / t, c)
          else
            let Counter := c.Counter + 1
            (vecRead c.Times (Counter - 1)).bind fun t =>
            let Boundary := c.Boundary + t
            let c1 := { c with Counter := Counter, Boundary := Boundary }
            if Counter ≤ c.NumOfValues - 1 then
              (vecRead c.Values Counter).bind fun a =>
              (vecRead c.Values (Counter - 1)).bind fun b =>
              (vecRead c.Times (Counter - 1)).bind fun t1 =>
              some (a + (c.EnvPos - Boundary) * (a - b) / t1, c1)
            else c.Values.getLast?.map fun l => (l, c1)
        r.map fun r =>
          if c.EnvPos ≤ c.Time then (r.1, { r.2 with EnvPos := c.EnvPos + c.EnvPosInc })
          else r
      else c.Values.getLast?.map fun l => (l, c)
  else some (v0, c)

end CurveEnvelope

namespace FilterBank

/-- Body of the first loop of `InitialiseFilterBank`, at index `i`, with the subscripts on
`Filters` and `FilterBandGains` checked. -/
def initBandChecked (L : Libm) (InFilterInfo : Mode) (fb : FilterBank) (i : Int) :
    Option FilterBank :=
  (updAtChecked fb.Filters i (fun f =>
      BiquadFilter.SetQFactor L
        (BiquadFilter.SetFrequency L
          (BiquadFilter.SetType L (BiquadFilter.ResetFilter f) (intGet InFilterInfo.Types i))
          (vecGet InFilterInfo.Freqs i))
        (vecGet InFilterInfo.Qs i))).bind fun Filters =>
  (vecWrite fb.FilterBandGains i (vecGet InFilterInfo.Gains i)).bind fun FilterBandGains =>
  some { fb with Filters := Filters, FilterBandGains := FilterBandGains }

/-- Body of the second loop of `InitialiseFilterBank`, at index `i`, with the subscript on
`FilterBandGains` checked. -/
def zeroBandChecked (fb : FilterBank) (i : Int) : Option FilterBank :=
  (vecWrite fb.FilterBandGains i 0).map fun FilterBandGains =>
    { fb with FilterBandGains := FilterBandGains }

/-- The function `InitialiseFilterBank` with every subscript on `Filters` and
`FilterBandGains` checked: `none` as soon as one band index is outside the bank. -/
def InitialiseFilterBankChecked (L : Libm) (fb : FilterBank) (InFilterInfo : Mode) :
    Option FilterBank :=
  let fb1 := (List.range InFilterInfo.nModes.toNat).foldl
    (fun (b : Option FilterBank) (k : Nat) =>
      b.bind fun b => initBandChecked L InFilterInfo b (k : Int)) (some fb)
  let fb2 := (List.range (9 - InFilterInfo.nModes).toNat).foldl
    (fun (b : Option FilterBank) (k : Nat) =>
      b.bind fun b => zeroBandChecked b (InFilterInfo.nModes + (k : Int))) fb1
  fb2.map fun fb2 => { fb2 with OutputMult := 0 }

end FilterBank

/-! ## One-pole filters -/

/-- State of `class OnePoleLPF`, with the in-class initialisers. -/
structure OnePoleLPF where
  SampleRate : Int := 48000
  LastOut : ℚ := 0
  Coeff : ℚ := 1
deriving DecidableEq

namespace OnePoleLPF

/-- The local `K` of the constructor and of `SetFrequency`. -/
def K (L : Libm) (SampleRate : Int) (InFrequency : ℚ) : ℚ :=
  2 * L.pi * Clamp InFrequency 1 ((SampleRate : ℚ) / 4 - 1 / 1000) / (SampleRate : ℚ)

/-- Embeds `OnePoleLPF::OnePoleLPF(int InSampleRate, float InFrequency)`. -/
def new (L : Libm) (InSampleRate : Int) (InFrequency : ℚ) : OnePoleLPF :=
  let SampleRate := max InSampleRate 1
  let K := K L SampleRate InFrequency
  { SampleRate := SampleRate
    LastOut := 0
    Coeff := min (1 - 1 / L.cos K + L.tan K) (999 / 1000) }

/-- Embeds `void OnePoleLPF::SetFrequency(float InFrequency)`. -/
def SetFrequency (L : Libm) (f : OnePoleLPF) (InFrequency : ℚ) : OnePoleLPF :=
  let K := K L f.SampleRate InFrequency
  { f with Coeff := min (1 - 1 / L.cos K + L.tan K) (999 / 1000) }

/-- Embeds `float OnePoleLPF::ProcessSample(float InSample)`. -/
def ProcessSample (f : OnePoleLPF) (InSample : ℚ) : ℚ × OnePoleLPF :=
  let LastOut := InSample * f.Coeff + (1 - f.Coeff) * f.LastOut
  (LastOut, { f with LastOut := LastOut })

end OnePoleLPF

/-- State of `class OnePoleHPF`, with the in-class initialisers. -/
structure OnePoleHPF where
  SampleRate : Int := 48000
  LastOut : ℚ := 0
  LastIn : ℚ := 0
  Coeff : ℚ := 1
deriving DecidableEq

namespace OnePoleHPF

/-- The local `K` of the constructor and of `SetFrequency`: the clamped frequency gives
`K`, and the guard that follows replaces it when the argument `InFrequency` equals a
quarter of the sample rate. -/
def K (L : Libm) (SampleRate : Int) (InFrequency : ℚ) : ℚ :=
  let K := 2 * L.pi * Clamp InFrequency 1 ((SampleRate : ℚ) / 2 - 1 / 1000) / (SampleRate : ℚ)
  if InFrequency = (SampleRate : ℚ) / 4 then 1 / 1000 + L.pi / 2 else K

/-- Embeds `OnePoleHPF::OnePoleHPF(int InSampleRate, float InFrequency)`. -/
def new (L : Libm) (InSampleRate : Int) (InFrequency : ℚ) : OnePoleHPF :=
  let SampleRate := max InSampleRate 1
  let K := K L SampleRate InFrequency
  { SampleRate := SampleRate
    LastOut := 0
    LastIn := 0
    Coeff := min (1 - 1 / L.cos K + L.tan K) (1999 / 1000) }

/-- Embeds `void OnePoleHPF::SetFrequency(float InFrequency)`. -/
def SetFrequency (L : Libm) (f : OnePoleHPF) (InFrequency : ℚ) : OnePoleHPF :=
  let K := K L f.SampleRate InFrequency
  { f with Coeff := min (1 - 1 / L.cos K + L.tan K) (1999 / 1000) }

/-- Embeds `float OnePoleHPF::ProcessSample(float InSample)`. -/
def ProcessSample (f : OnePoleHPF) (InSample : ℚ) : ℚ × OnePoleHPF :=
  let LastOut := InSample * (2 - f.Coeff) / 2 - f.LastIn * (2 - f.Coeff) / 2
    + (1 - f.Coeff) * f.LastOut
  (LastOut, { f with LastOut := LastOut, LastIn := InSample })

end OnePoleHPF

/-! ## Two-pole and high-order band-pass filters -/

/-- State of `class TwoPoleBPF`, with the in-class initialisers. -/
structure TwoPoleBPF where
  SampleRate : Int := 48000
  Frequency : ℚ := 2000
  Q : ℚ := 707 / 1000
  Z1 : ℚ := 0
  Z2 : ℚ := 0
  Coeff1 : ℚ := 0
  Coeff2 : ℚ := 0
  CompGain : ℚ := 0
deriving DecidableEq

namespace TwoPoleBPF

/-- Embeds `void TwoPoleBPF::ComputeCoeff()`; its first statement is
`Q = std::min(0.001f, Q)`. -/
def ComputeCoeff (L : Libm) (f : TwoPoleBPF) : TwoPoleBPF :=
  let Q := min (1 / 1000) f.Q
  let K := 2 * L.pi * f.Frequency / (f.SampleRate : ℚ)
  let OneMinusR := min 1 (K / Q)
  let R := 1 - OneMinusR
  { f with
    Q := Q
    Coeff1 := 2 * L.cos K * R
    Coeff2 := -R * R
    CompGain := 2 * OneMinusR * (OneMinusR + R * K) }

/-- Embeds `TwoPoleBPF::TwoPoleBPF(int InSampleRate, float InFrequency, float InQFactor)`. -/
def new (L : Libm) (InSampleRate : Int) (InFrequency InQFactor : ℚ) : TwoPoleBPF :=
  let SampleRate := max InSampleRate 1
  ComputeCoeff L
    { SampleRate := SampleRate
      Frequency := Clamp InFrequency 1 ((SampleRate : ℚ) / 2)
      Q := InQFactor
      Z1 := 0, Z2 := 0, Coeff1 := 0, Coeff2 := 0, CompGain := 0 }

/-- Embeds `void TwoPoleBPF::SetFrequency(float InFrequency)`. -/
def SetFrequency (L : Libm) (f : TwoPoleBPF) (InFrequency : ℚ) : TwoPoleBPF :=
  ComputeCoeff L { f with Frequency := Clamp InFrequency 1 ((f.SampleRate : ℚ) / 2) }

/-- Embeds `void TwoPoleBPF::SetQFactor(float InQFactor)`. -/
def SetQFactor (L : Libm) (f : TwoPoleBPF) (InQFactor : ℚ) : TwoPoleBPF :=
  ComputeCoeff L { f with Q := InQFactor }

/-- Embeds `float TwoPoleBPF::ProcessSample(float InSample)`. -/
def ProcessSample (f : TwoPoleBPF) (InSample : ℚ) : ℚ × TwoPoleBPF :=
  let Output := InSample + f.Coeff1 * f.Z1 + f.Coeff2 * f.Z2
  (f.CompGain * Output, { f with Z2 := f.Z1, Z1 := Output })

end TwoPoleBPF

/-- State of `class HighOrderBPF`, with the in-class initialisers. -/
structure HighOrderBPF where
  SampleRate : Int := 48000
  Frequency : ℚ := 2000
  Q : ℚ := 707 / 1000
  Y1 : ℚ := 0
  Y2 : ℚ := 0
  Y3 : ℚ := 0
  Y4 : ℚ := 0
  X1 : ℚ := 0
  X2 : ℚ := 0
  X3 : ℚ := 0
  X4 : ℚ := 0
  C0 : ℚ := 0
  C1 : ℚ := 0
  C2 : ℚ := 0
  C3 : ℚ := 0
  C4 : ℚ := 0
  CompGain : ℚ := 0
  Beta : ℚ := 0
deriving DecidableEq

namespace HighOrderBPF

/-- Embeds `void HighOrderBPF::ComputeCoeff()`.  The local `Norm` is computed and used by no
later statement; no statement assigns `CompGain`. -/
def ComputeCoeff (L : Libm) (f : HighOrderBPF) : HighOrderBPF :=
  let Q := min (1 / 1000) f.Q
  let K := 2 * L.pi * f.Frequency / (f.SampleRate : ℚ)
  let B := K / Q
  let Beta :=
    if 1 + L.tan (B / 2) ≠ 0 then (1 - L.tan (B / 2)) / (1 + L.tan (B / 2)) else f.Beta
  let Tan2G := L.tan (L.pi / 8) * L.tan (L.pi / 8)
  { f with
    Q := Q
    Beta := Beta
    C0 := 1 + Beta * Beta * Tan2G
    C1 := 0 - 2 * (1 + Beta) * L.cos K * (Beta * Tan2G + 1)
    C2 := (Tan2G + 1) * (2 * Beta + (1 + Beta) * (1 + Beta) * L.cos K * L.cos K)
    C3 := 0 - 2 * (1 + Beta) * L.cos K * (Beta + Tan2G)
    C4 := Beta * Beta + Tan2G }

/-- Embeds `HighOrderBPF::HighOrderBPF(int InSampleRate, float InFrequency,
float InQFactor)`; `Beta` keeps its in-class initialiser until `ComputeCoeff`. -/
def new (L : Libm) (InSampleRate : Int) (InFrequency InQFactor : ℚ) : HighOrderBPF :=
  let SampleRate := max InSampleRate 1
  ComputeCoeff L
    { SampleRate := SampleRate
      Frequency := Clamp InFrequency 1 ((SampleRate : ℚ) / 2)
      Q := InQFactor
      Y1 := 0, Y2 := 0, Y3 := 0, Y4 := 0
      X1 := 0, X2 := 0, X3 := 0, X4 := 0
      C0 := 0, C1 := 0, C2 := 0, C3 := 0, C4 := 0
      CompGain := 0 }

/-- Embeds `void HighOrderBPF::SetFrequency(float InFrequency)`. -/
def SetFrequency (L : Libm) (f : HighOrderBPF) (InFrequency : ℚ) : HighOrderBPF :=
  ComputeCoeff L { f with Frequency := Clamp InFrequency 1 ((f.SampleRate : ℚ) / 2) }

/-- Embeds `void HighOrderBPF::SetQFactor(float InQFactor)`. -/
def SetQFactor (L : Libm) (f : HighOrderBPF) (InQFactor : ℚ) : HighOrderBPF :=
  ComputeCoeff L { f with Q := InQFactor }

/-- Embeds `float HighOrderBPF::ProcessSample(float InSample)`. -/
def ProcessSample (f : HighOrderBPF) (InSample : ℚ) : ℚ × HighOrderBPF :=
  let Output := (f.CompGain * (InSample - 2 * f.X2 + f.X4) - f.C1 * f.Y1 - f.C2 * f.Y2
    - f.C3 * f.Y3 - f.C4 * f.Y4) / f.C0
  (Output, { f with X4 := f.X3, X3 := f.X2, X2 := f.X1, X1 := InSample
                    Y4 := f.Y3, Y3 := f.Y2, Y2 := f.Y1, Y1 := Output })

/-- One call on a `HighOrderBPF`: a setter with its argument, or `ProcessSample` with its
input. -/
inductive Call where
  | SetFrequency (InFrequency : ℚ)
  | SetQFactor (InQFactor : ℚ)
  | ProcessSample (InSample : ℚ)

/-- One call: the values `ProcessSample` has returned so far, and the filter. -/
def call (L : Libm) (s : List ℚ × HighOrderBPF) : Call → List ℚ × HighOrderBPF
  | .SetFrequency InFrequency => (s.1, SetFrequency L s.2 InFrequency)
  | .SetQFactor InQFactor => (s.1, SetQFactor L s.2 InQFactor)
  | .ProcessSample InSample =>
    (s.1 ++ [(ProcessSample s.2 InSample).1], (ProcessSample s.2 InSample).2)

/-- A sequence of calls, made in list order: the values returned by the `ProcessSample`
calls among them, and the filter afterwards. -/
def calls (L : Libm) (f : HighOrderBPF) (cs : List Call) : List ℚ × HighOrderBPF :=
  cs.foldl (call L) ([], f)

end HighOrderBPF

/-! ## Stereo panner -/

/-- State of `class StereoPanner`, with the in-class initialiser. -/
structure StereoPanner where
  pan : ℚ := 0
deriving DecidableEq

namespace StereoPanner

/-- Embeds `StereoPanner::StereoPanner(float InPanParam)`: two assignments to `pan`, each
from the argument. -/
def new (InPanParam : ℚ) : StereoPanner :=
  let s : StereoPanner := { pan := max (-1) InPanParam }
  { s with pan := min 1 InPanParam }

/-- Embeds `void StereoPanner::SetPan(float InPanParam)`: two assignments to `pan`, each
from the argument. -/
def SetPan (s : StereoPanner) (InPanParam : ℚ) : StereoPanner :=
  let s : StereoPanner := { s with pan := max (-1) InPanParam }
  { s with pan := min 1 InPanParam }

/-- Embeds `std::vector<float> StereoPanner::ProcessSample(float InSample)`. -/
def ProcessSample (L : Libm) (s : StereoPanner) (InSample : ℚ) : List ℚ :=
  let gainL := L.cos ((s.pan + 1) * L.pi / 4)
  let gainR := L.sin ((s.pan + 1) * L.pi / 4)
  [InSample * gainL, InSample * gainR]

/-- Embeds `std::vector<float> StereoPanner::ProcessSample(float InLeftSample,
float InRightSample)`. -/
def ProcessSampleStereo (L : Libm) (s : StereoPanner) (InLeftSample InRightSample : ℚ) :
    List ℚ :=
  let x := if s.pan ≤ 0 then s.pan + 1 else s.pan
  let gainL := L.cos (x * L.pi / 2)
  let gainR := L.sin (x * L.pi / 2)
  if s.pan ≤ 0 then [InLeftSample + InRightSample * gainL, InRightSample * gainR]
  else [InLeftSample * gainL, InRightSample + InLeftSample * gainR]

end StereoPanner

/-! ## The static curve of the overdrive -/

namespace OverDriveProcessor

/-- The quadratic branch of `ProcessSample` for `1 - Knee < X < 1 + Knee`. -/
def upperKnee (o : OverDriveProcessor) (X : ℚ) : ℚ := o.C2 * X * X + o.C1 * X + o.C0

/-- The quadratic branch of `ProcessSample` for
`-(1 - Bias) * (1 + Knee) < X < -(1 - Bias) * (1 - Knee)`. -/
def lowerKnee (o : OverDriveProcessor) (X : ℚ) : ℚ :=
  -o.C2 * X * X / (1 - o.Bias) + o.C1 * X - o.C0 * (1 - o.Bias)

/-- The local `Y` of `ProcessSample` as a function of the local `X`: the static curve. -/
def curve (o : OverDriveProcessor) (X : ℚ) : ℚ :=
  if X > 1 - o.Knee then
    if X ≥ 1 + o.Knee then o.Volume else upperKnee o X
  else if X < -(1 - o.Bias) * (1 - o.Knee) then
    if X ≤ -(1 - o.Bias) * (1 + o.Knee) then -(1 - o.Bias) * o.Volume else lowerKnee o X
  else X * o.Volume

end OverDriveProcessor

end nemlib

namespace Generator

/-- One call on a prepared `Generator`: a setter with its argument, or `ExcuteModel` with
its frame count. -/
inductive Call where
  | SetShoeType (in_ShoeType : Int)
  | SetSurfaceType (in_SurfaceType : Int)
  | SetTerrain (in_Terrain : Int)
  | SetPace (in_Pace : ℚ)
  | SetFirmness (in_Firmness : ℚ)
  | SetSteadiness (in_Steadiness : ℚ)
  | SetAutomeated (in_Automated : Bool)
  | ExcuteModel (in_uValidFrames : Fin 65536)

/-- The generator and the random source after one call. -/
def call (L : Libm) (s : Generator × Rand) : Call → Generator × Rand
  | .SetShoeType in_ShoeType => (SetShoeType s.1 in_ShoeType, s.2)
  | .SetSurfaceType in_SurfaceType => (SetSurfaceType s.1 in_SurfaceType, s.2)
  | .SetTerrain in_Terrain => (SetTerrain s.1 in_Terrain, s.2)
  | .SetPace in_Pace => (SetPace s.1 in_Pace, s.2)
  | .SetFirmness in_Firmness => (SetFirmness s.1 in_Firmness, s.2)
  | .SetSteadiness in_Steadiness => (SetSteadiness s.1 in_Steadiness, s.2)
  | .SetAutomeated in_Automated => (SetAutomeated s.1 in_Automated, s.2)
  | .ExcuteModel in_uValidFrames => (ExcuteModel L s.1 in_uValidFrames s.2).2

/-- The generator and the random source after a sequence of calls, made in list order. -/
def calls (L : Libm) (s : Generator × Rand) (cs : List Call) : Generator × Rand :=
  cs.foldl (call L) s

/-- The local `Crunch` of `IncrementTheModelChannel`: the share of the crunch layer in the
sum `FilteredNoise + Crunch` that feeds the heel and ball paths. -/
def IncrementTheModelChannel.Crunch (L : Libm) (g : Generator) (r : Rand) : ℚ :=
  let s := IncrementTheModelChannel.timers L g r
  let g := s.1
  let n := WhiteNoiseGen.NextSample s.2
  let NoiseSample := n.1
  let ce := g.CrunchEnv.GetNextEnvelopePoint
  let cb := g.CrunchBP.ProcessSample (g.Distortion.ProcessSample NoiseSample)
  g.CrunchOut * ce.1 * cb.1

/-- The crunch members of the generator: `CrunchFlag`, `CrunchOut`, the timer `CrunchTimer`
and the envelope `CrunchEnv`.  The function `CrunchLoop` resets the timer and restarts the
envelope. -/
def crunchState (g : Generator) : Bool × ℚ × Timer × CurveEnvelope :=
  (g.CrunchFlag, g.CrunchOut, g.CrunchTimer, g.CrunchEnv)

/-- The seven dirty flags of the generator. -/
def changedFlags (g : Generator) : List Bool :=
  [g.m_ShoeTypeChanged, g.m_SurfaceTypeChanged, g.m_TerrainChanged, g.m_PaceChanged,
   g.m_FirmnessChanged, g.m_SteadinessChanged, g.m_AutomatedChanged]

end Generator

namespace nemlib

/-! ## Binary32 arithmetic -/

/-- Nearest integer to `x`, a tie going to the even neighbour. -/
def roundHalfEven (x : ℚ) : Int :=
  let f := ⌊x⌋
  if x - f < 1 / 2 then f
  else if 1 / 2 < x - f then f + 1
  else if f % 2 = 0 then f else f + 1

/-- Position of the leading binary digit: `natLog2 n n` is the `L` with
`2 ^ L ≤ n < 2 ^ (L + 1)` when `1 ≤ n`; the first argument bounds the recursion. -/
def natLog2 : Nat → Nat → Nat
  | 0, _ => 0
  | fuel + 1, n => if n < 2 then 0 else natLog2 fuel (n / 2) + 1

/-- Binary exponent of a non-zero rational: the `e` with `2 ^ e ≤ |x| < 2 ^ (e + 1)`. -/
def ilog2 (x : ℚ) : Int :=
  let e0 : Int := (natLog2 x.num.natAbs x.num.natAbs : Int) - (natLog2 x.den x.den : Int)
  if (2 : ℚ) ^ e0 ≤ |x| then e0 else e0 - 1

/-- Rounding to binary32 (IEEE 754 single precision, round to nearest, ties to even): the
multiple of `2 ^ (e - 23)` nearest to `x`, where `e` is the binary exponent of `x`, or `-126`
when `x` is below the normal range.  Overflow to infinity is not modelled. -/
def fl32 (x : ℚ) : ℚ :=
  if x = 0 then 0
  else
    let q : ℚ := (2 : ℚ) ^ (max (ilog2 x) (-126) - 23)
    (roundHalfEven (x / q) : ℚ) * q

/-- Binary32 addition `x + y`. -/
def fadd (x y : ℚ) : ℚ := fl32 (x + y)

/-- Binary32 subtraction `x - y`. -/
def fsub (x y : ℚ) : ℚ := fl32 (x - y)

/-- Binary32 multiplication `x * y`. -/
def fmul (x y : ℚ) : ℚ := fl32 (x * y)

/-- Binary32 division `x / y`, for a non-zero divisor. -/
def fdiv (x y : ℚ) : ℚ := fl32 (x / y)

namespace Timer

/-- Embeds `Timer::Timer(int InSampleRate, float InTime)` with `Inc = 1.0f / (float)SampleRate`
computed in binary32; `InTime` is a binary32 value. -/
def new32 (InSampleRate : Int) (InTime : ℚ) : Timer :=
  let SampleRate := max InSampleRate 1
  { SampleRate := SampleRate
    Inc := fdiv 1 (fl32 (SampleRate : ℚ))
    Counter := 0
    Time := max InTime 0
    Play := false }

/-- Embeds `bool Timer::checkTime()` with `Counter += Inc` computed in binary32. -/
def checkTime32 (t : Timer) : Bool × Timer :=
  if t.Play = true then
    if t.Counter ≥ t.Time then (true, t)
    else (false, { t with Counter := fadd t.Counter t.Inc })
  else (false, t)

/-- The timer after `n` successive calls of `checkTime`, in binary32. -/
def calls32 : Nat → Timer → Timer
  | 0, t => t
  | n + 1, t => (checkTime32 (calls32 n t)).2

end Timer

/-- The lower end of the old range as `Rescale` uses it in binary32: `oldMin -= 0.01f` when
`oldMax == oldMin`. -/
def Rescale32.oldMin (oldMin oldMax : ℚ) : ℚ :=
  if oldMax = oldMin then fsub oldMin (fl32 (1 / 100)) else oldMin

/-- Embeds `float Rescale(float value, float newMin, float newMax, float oldMin, float oldMax)` in
binary32; `none` when the divisor `oldMax - oldMin` is zero, where the source divides by
zero. -/
def Rescale32 (value newMin newMax oldMin oldMax : ℚ) : Option ℚ :=
  let oldMin := Rescale32.oldMin oldMin oldMax
  let value := if value < oldMin then oldMin else if value > oldMax then oldMax else value
  if fsub oldMax oldMin = 0 then none
  else some (fadd newMin (fdiv (fmul (fsub value oldMin) (fsub newMax newMin))
    (fsub oldMax oldMin)))

namespace LinEnvelope

/-- Embeds `LinEnvelope::LinEnvelope(int, float, float, float, float, float)` in binary32; the
`float` arguments are binary32 values. -/
def new32 (InSampleRate : Int) (InAttack InHold InDecay InSustain InRelease : ℚ) :
    LinEnvelope :=
  { Hold := max InHold 0
    EnvPosInc := fdiv 1 (fl32 ((max InSampleRate 1 : Int) : ℚ))
    Sustain := Clamp InSustain 0 1
    Attack := max InAttack (fl32 (1 / 10000))
    Decay := max InDecay (fl32 (1 / 10000))
    Release := max InRelease (fl32 (1 / 10000))
    EnvPos := 0
    Min := 0
    Max := 1
    HasStarted := false }

/-- Embeds `float LinEnvelope::GetNextEnvelopePoint()` in binary32: the returned value and the
envelope afterwards. -/
def GetNextEnvelopePoint32 (e : LinEnvelope) : ℚ × LinEnvelope :=
  if e.HasStarted = true then
    let EnvReturnValue :=
      if e.EnvPos ≤ e.Attack then fdiv (fmul e.Max e.EnvPos) e.Attack
      else if e.EnvPos ≤ fadd e.Attack e.Hold then e.Max
      else if e.EnvPos ≤ fadd (fadd e.Attack e.Hold) e.Decay then
        fsub e.Max
          (fdiv (fmul (fsub e.Sustain e.Max) (fsub (fadd e.Attack e.Hold) e.EnvPos)) e.Decay)
      else if e.EnvPos ≤ fadd (fadd (fadd e.Attack e.Hold) e.Decay) e.Release then
        fsub e.Sustain
          (fdiv (fmul (fsub e.Min e.Sustain)
            (fsub (fadd (fadd (fadd e.Attack e.Hold) e.Decay) e.Release) e.EnvPos)) e.Release)
      else e.Min
    let EnvPos :=
      if e.EnvPos ≤ fadd (fadd (fadd e.Attack e.Hold) e.Decay) e.Release then
        fadd e.EnvPos e.EnvPosInc
      else e.EnvPos
    (EnvReturnValue, { e with EnvPos := EnvPos })
  else (e.Min, e)

/-- The envelope after `n` successive `GetNextEnvelopePoint` calls, in binary32. -/
def calls32 : Nat → LinEnvelope → LinEnvelope
  | 0, e => e
  | n + 1, e => (GetNextEnvelopePoint32 (calls32 n e)).2

/-- The value returned by call number `n` (counted from 0), in binary32. -/
def output32 (n : Nat) (e : LinEnvelope) : ℚ := (GetNextEnvelopePoint32 (calls32 n e)).1

/-- The envelope `LinEnvelope(1000, 0.1f, 0.0f, 0.1f, 0.5f, 0.1f)` in binary32, started by
`ResetEnvelope` and moved to the position `p`. -/
def adsr32 (p : ℚ) : LinEnvelope :=
  { (new32 1000 (fl32 (1 / 10)) 0 (fl32 (1 / 10)) (1 / 2) (fl32 (1 / 10))).ResetEnvelope with
    EnvPos := p }

end LinEnvelope

namespace BiquadFilter

/-- Embeds `void BiquadFilter::ComputeCoeff()` in binary32; `cos` and `sqrt` return binary32
values. -/
def ComputeCoeff32 (L : Libm) (f : BiquadFilter) : BiquadFilter :=
  let Wc := fl32 (L.cos f.W)
  let V := f.V
  let AQ := f.AQ
  let AS := f.AS
  let sqrtV := fl32 (L.sqrt V)
  if f.Type_ = 0 then
    { f with B0 := fdiv (fsub 1 Wc) 2, B1 := fsub 1 Wc, B2 := fdiv (fsub 1 Wc) 2,
             A0 := fadd 1 f.AQdB, A1 := fmul (-2) Wc, A2 := fsub 1 f.AQdB }
  else if f.Type_ = 1 then
    { f with B0 := fdiv (fadd 1 Wc) 2, B1 := fsub (-1) Wc, B2 := fdiv (fadd 1 Wc) 2,
             A0 := fadd 1 f.AQdB, A1 := fmul (-2) Wc, A2 := fsub 1 f.AQdB }
  else if f.Type_ = 2 then
    { f with B0 := AQ, B1 := 0, B2 := -AQ, A0 := fadd 1 AQ, A1 := fmul (-2) Wc,
             A2 := fsub 1 AQ }
  else if f.Type_ = 3 then
    { f with B0 := 1, B1 := fmul (-2) Wc, B2 := 1, A0 := fadd 1 AQ, A1 := fmul (-2) Wc,
             A2 := fsub 1 AQ }
  else if f.Type_ = 4 then
    { f with B0 := fadd 1 (fmul AQ V), B1 := fmul (-2) Wc, B2 := fsub 1 (fmul AQ V),
             A0 := fadd 1 (fdiv AQ V), A1 := fmul (-2) Wc, A2 := fsub 1 (fdiv AQ V) }
  else if f.Type_ = 5 then
    { f with B0 := fmul V (fsub (fadd (fadd V 1) (fmul (fmul 2 sqrtV) AS))
               (fmul (fsub V 1) Wc)),
             B1 := fmul (fmul 2 V) (fsub (fsub V 1) (fmul (fadd V 1) Wc)),
             B2 := fmul V (fsub (fsub (fadd V 1) (fmul (fmul 2 sqrtV) AS))
               (fmul (fsub V 1) Wc)),
             A0 := fadd (fadd (fadd V 1) (fmul (fmul 2 sqrtV) AS)) (fmul (fsub V 1) Wc),
             A1 := fmul (-2) (fadd (fsub V 1) (fmul (fadd V 1) Wc)),
             A2 := fadd (fsub (fadd V 1) (fmul (fmul 2 sqrtV) AS)) (fmul (fsub V 1) Wc) }
  else if f.Type_ = 6 then
    { f with B0 := fmul V (fadd (fadd (fadd V 1) (fmul (fmul 2 sqrtV) AS))
               (fmul (fsub V 1) Wc)),
             B1 := fmul (fmul (-2) V) (fadd (fsub V 1) (fmul (fadd V 1) Wc)),
             B2 := fmul V (fadd (fsub (fadd V 1) (fmul (fmul 2 sqrtV) AS))
               (fmul (fsub V 1) Wc)),
             A0 := fsub (fadd (fadd V 1) (fmul (fmul 2 sqrtV) AS)) (fmul (fsub V 1) Wc),
             A1 := fmul (-2) (fsub (fsub V 1) (fmul (fadd V 1) Wc)),
             A2 := fsub (fsub (fadd V 1) (fmul (fmul 2 sqrtV) AS)) (fmul (fsub V 1) Wc) }
  else if f.Type_ = 7 then
    { f with B0 := fsub 1 AQ, B1 := fmul (-2) Wc, B2 := fadd 1 AQ,
             A0 := fadd 1 AQ, A1 := fmul (-2) Wc, A2 := fsub 1 AQ }
  else
    { f with B0 := fdiv (fsub 1 Wc) 2, B1 := fsub 1 Wc, B2 := fdiv (fsub 1 Wc) 2,
             A0 := fadd 1 f.AQdB, A1 := fmul (-2) Wc, A2 := fsub 1 f.AQdB }

/-- Embeds `BiquadFilter::BiquadFilter(int, float, float, float, int)` in binary32; the `float`
arguments are binary32 values, `(float)NEM_PI` is `fl32 L.pi`, and `pow`, `sin` and `sqrt`
return binary32 values. -/
def new32 (L : Libm) (InSampleRate : Int) (InFrequency InQFactor InPeakGainDB : ℚ)
    (InType : Int) : BiquadFilter :=
  let SampleRate := max InSampleRate 1
  let W := fmul (fmul 2 (fl32 L.pi))
    (min (fdiv (max InFrequency 1) (fl32 (SampleRate : ℚ))) (fl32 (499 / 1000)))
  let Q := |InQFactor|
  ComputeCoeff32 L
    { SampleRate := SampleRate
      Type_ := InType
      V := fl32 (L.pow 10 (fdiv InPeakGainDB 40))
      W := W
      Q := Q
      AQ := fdiv (fl32 (L.sin W)) (fmul 2 (max Q (fl32 (1 / 1000))))
      AQdB := fdiv (fl32 (L.sin W)) (fmul 2 (fl32 (L.pow 10 (fdiv Q 20))))
      AS := fdiv (fl32 (L.sin W)) (fl32 (L.sqrt 2))
      Y1 := 0, Y2 := 0, X1 := 0, X2 := 0 }

/-- Embeds `float BiquadFilter::ProcessSample(float InSample)` in binary32: the output and the
filter afterwards; `none` when the divisor `A0` is zero, where the source divides by zero. -/
def ProcessSample32 (f : BiquadFilter) (InSample : ℚ) : Option (ℚ × BiquadFilter) :=
  if f.A0 = 0 then none
  else
    let out := fdiv (fsub (fsub (fadd (fadd (fmul InSample f.B0) (fmul f.X1 f.B1))
      (fmul f.X2 f.B2)) (fmul f.Y1 f.A1)) (fmul f.Y2 f.A2)) f.A0
    some (out, { f with Y2 := f.Y1, Y1 := out, X2 := f.X1, X1 := InSample })

end BiquadFilter

end nemlib

/-! # Theorems -/

namespace nemlib

/-! ## Timer -/

/-- While the interval has not elapsed, `j` calls after a reset leave the counter at
`j / SampleRate` and touch nothing else. -/
theorem Timer.calls_before_expiry (t : Timer) (k : Nat)
    (hplay : t.Play = true) (hinc : t.Inc = 1 / (t.SampleRate : ℚ))
    (hmin : ∀ n : Nat, n < k → (n : ℚ) / (t.SampleRate : ℚ) < t.Time) :
    ∀ j : Nat, j ≤ k →
      Timer.calls j t.ResetTimer = { t with Counter := (j : ℚ) / (t.SampleRate : ℚ) } := by
  intro j
  induction j with
  | zero => intro _; simp [Timer.calls, Timer.ResetTimer]
  | succ j ih =>
    intro hj
    have hlt := hmin j (Nat.lt_of_succ_le hj)
    rw [Timer.calls, ih (Nat.le_of_succ_le hj)]
    simp only [Timer.checkTime, hplay, if_true, ge_iff_le, not_le.mpr hlt, if_false, hinc]
    congr 1
    push_cast
    ring

/-- In exact arithmetic, with `Inc = 1 / SampleRate` and every sum unrounded: a playing
timer, counted from its last `ResetTimer`, answers `false` on every call before call `k` and
`true` on call `k`, where `k` is the least `n` with `n / SampleRate ≥ Time`; the `true` call
leaves the timer as it was, so resetting it then starts an identical interval.  The
binary32 timer is `Timer.checkTime32`. -/
theorem Timer.checkTime_true_exactly_at_expiry (t : Timer) (k : Nat)
    (hplay : t.Play = true) (hinc : t.Inc = 1 / (t.SampleRate : ℚ))
    (hk : t.Time ≤ (k : ℚ) / (t.SampleRate : ℚ))
    (hmin : ∀ n : Nat, n < k → (n : ℚ) / (t.SampleRate : ℚ) < t.Time) :
    (∀ j : Nat, j < k → (Timer.checkTime (Timer.calls j t.ResetTimer)).1 = false) ∧
    (Timer.checkTime (Timer.calls k t.ResetTimer)).1 = true ∧
    (Timer.checkTime (Timer.calls k t.ResetTimer)).2 = Timer.calls k t.ResetTimer ∧
    (Timer.checkTime (Timer.calls k t.ResetTimer)).2.ResetTimer = t.ResetTimer := by
  have hst := Timer.calls_before_expiry t k hplay hinc hmin
  refine ⟨?_, ?_, ?_, ?_⟩
  · intro j hj
    rw [hst j (Nat.le_of_lt hj)]
    simp [Timer.checkTime, hplay, not_le.mpr (hmin j hj)]
  · rw [hst k le_rfl]
    simp [Timer.checkTime, hplay, hk]
  · rw [hst k le_rfl]
    simp [Timer.checkTime, hplay, hk]
  · rw [hst k le_rfl]
    simp [Timer.checkTime, hplay, hk, Timer.ResetTimer]

/-- The exact-arithmetic timer at rate 4 and interval 1/2 s, so `k = 2`: calls 0 and 1 answer
`false`, call 2 answers `true`. -/
theorem Timer.checkTime_true_exactly_at_expiry_witness :
    (Timer.checkTime (Timer.calls 0 ((Timer.new 4 (1 / 2)).ResumeTimer).ResetTimer)).1 = false ∧
    (Timer.checkTime (Timer.calls 1 ((Timer.new 4 (1 / 2)).ResumeTimer).ResetTimer)).1 = false ∧
    (Timer.checkTime (Timer.calls 2 ((Timer.new 4 (1 / 2)).ResumeTimer).ResetTimer)).1 = true :=
  have h := Timer.checkTime_true_exactly_at_expiry ((Timer.new 4 (1 / 2)).ResumeTimer) 2 rfl
    (by norm_num [Timer.new, Timer.ResumeTimer])
    (by norm_num [Timer.new, Timer.ResumeTimer])
    (by
      intro n hn
      have h4 : (n : ℚ) < 2 := by exact_mod_cast hn
      norm_num [Timer.new, Timer.ResumeTimer]
      linarith)
  ⟨h.1 0 (by decide), h.1 1 (by decide), h.2.1⟩

end nemlib

/-! ## Output range of the footstep model -/

namespace Generator

/-- The function `Clamp` with ordered bounds lands between them. -/
theorem Clamp_mem (x a b : ℚ) (hab : a ≤ b) : a ≤ Clamp x a b ∧ Clamp x a b ≤ b := by
  unfold Clamp
  exact ⟨le_min (le_max_right _ _) hab, min_le_right _ _⟩

/-- Every sample of `IncrementTheModelChannel` is a clamped value. -/
theorem IncrementTheModelChannel_mem (L : Libm) (g : Generator) (r : Rand) :
    -(1 / 2) ≤ (IncrementTheModelChannel L g r).1 ∧
      (IncrementTheModelChannel L g r).1 ≤ 1 / 2 := by
  unfold IncrementTheModelChannel
  exact Clamp_mem _ _ _ (by norm_num)

/-- The output loop, started with `fuel` frames left to produce, stops with
`uFramesProduced = in_uValidFrames`, has appended exactly `fuel` samples, and keeps
every written sample in the clamp range. -/
theorem ExcuteModel.loop_finishes (L : Libm) (n : Fin 65536) :
    ∀ (fuel : Nat) (s : ExcuteLocals), s.uFramesProduced + fuel = n.val →
      (∀ x ∈ s.pBuf, -(1 / 2) ≤ x ∧ x ≤ 1 / 2) →
      (ExcuteModel.loop L n fuel s).uFramesProduced = n.val ∧
      (ExcuteModel.loop L n fuel s).pBuf.length = s.pBuf.length + fuel ∧
      (∀ x ∈ (ExcuteModel.loop L n fuel s).pBuf, -(1 / 2) ≤ x ∧ x ≤ 1 / 2) := by
  intro fuel
  induction fuel with
  | zero =>
    intro s hs hr
    exact ⟨by simpa [ExcuteModel.loop] using hs, by simp [ExcuteModel.loop], hr⟩
  | succ fuel ih =>
    intro s hs hr
    have hn := n.isLt
    have hlt : s.uFramesProduced < n.val := by omega
    have hcnt : (ExcuteModel.body L s).uFramesProduced = s.uFramesProduced + 1 := by
      simp only [ExcuteModel.body]
      exact Nat.mod_eq_of_lt (by omega)
    have hbuf : (ExcuteModel.body L s).pBuf
        = s.pBuf ++ [(IncrementTheModelChannel L (ExcuteModel.atSample s) s.rnd).1] := rfl
    have hr2 : ∀ x ∈ (ExcuteModel.body L s).pBuf, -(1 / 2) ≤ x ∧ x ≤ 1 / 2 := by
      intro x hx
      rw [hbuf, List.mem_append, List.mem_singleton] at hx
      rcases hx with hx | hx
      · exact hr x hx
      · rw [hx]; exact IncrementTheModelChannel_mem L _ _
    obtain ⟨h1, h2, h3⟩ := ih (ExcuteModel.body L s) (by rw [hcnt]; omega) hr2
    simp only [ExcuteModel.loop, hlt, if_true]
    refine ⟨h1, ?_, h3⟩
    rw [h2, hbuf, List.length_append, List.length_singleton]
    omega

/-- C1: whatever the generator state and the random draws, the sample returned by
`IncrementTheModelChannel` lies in [-1/2, 1/2], and `ExcuteModel` with frame count `n`
writes exactly `n` samples, each in [-1/2, 1/2]. -/
theorem output_clamped :
    (∀ (L : Libm) (g : Generator) (r : Rand),
      -(1 / 2) ≤ (IncrementTheModelChannel L g r).1 ∧
        (IncrementTheModelChannel L g r).1 ≤ 1 / 2) ∧
    (∀ (L : Libm) (g : Generator) (n : Fin 65536) (r : Rand),
      (ExcuteModel L g n r).1.length = n.val ∧
        ∀ x ∈ (ExcuteModel L g n r).1, -(1 / 2) ≤ x ∧ x ≤ 1 / 2) := by
  refine ⟨IncrementTheModelChannel_mem, ?_⟩
  intro L g n r
  have h := ExcuteModel.loop_finishes L n n.val (ExcuteModel.rampBlock g n r)
    (by simp [ExcuteModel.rampBlock]) (by simp [ExcuteModel.rampBlock])
  refine ⟨?_, h.2.2⟩
  have h2 := h.2.1
  simp only [ExcuteModel.rampBlock, List.length_nil, Nat.zero_add] at h2
  exact h2

end Generator

/-! ## Filter bank initialisation -/

namespace nemlib

/-- Reading a natural index. -/
theorem vecGet_natCast (v : List ℚ) (i : Nat) : vecGet v (i : Int) = v.getD i 0 := by
  simp [vecGet]

/-- Writing a natural index. -/
theorem vecSet_natCast (v : List ℚ) (i : Nat) (x : ℚ) : vecSet v (i : Int) x = v.set i x := by
  simp [vecSet]

/-- A run of writes `v[off + k] = val k` for `k = 0 .. n - 1`, read back. -/
theorem foldl_set_getD (off : Nat) (val : Nat → ℚ) :
    ∀ (n : Nat) (gs : List ℚ),
      ((List.range n).foldl (fun v k => v.set (off + k) (val k)) gs).length = gs.length ∧
      ∀ i : Nat, i < gs.length →
        ((List.range n).foldl (fun v k => v.set (off + k) (val k)) gs).getD i 0
          = if off ≤ i ∧ i < off + n then val (i - off) else gs.getD i 0 := by
  intro n
  induction n with
  | zero =>
    intro gs
    refine ⟨by simp, ?_⟩
    intro i _
    have : ¬ (off ≤ i ∧ i < off) := by omega
    simp [this]
  | succ n ih =>
    intro gs
    obtain ⟨hl, hg⟩ := ih gs
    rw [List.range_succ, List.foldl_append]
    refine ⟨by simp [hl], ?_⟩
    intro i hi
    simp only [List.foldl_cons, List.foldl_nil]
    rw [List.getD_eq_getElem?_getD, List.getElem?_set]
    by_cases h : off + n = i
    · have h1 : off ≤ i ∧ i < off + (n + 1) := by omega
      have h2 : i - off = n := by omega
      simp [h, h1, h2, hl, hi]
    · rw [if_neg h, ← List.getD_eq_getElem?_getD, hg i hi]
      by_cases h3 : off ≤ i ∧ i < off + n
      · have h4 : off ≤ i ∧ i < off + (n + 1) := by omega
        simp [h3, h4]
      · have h4 : ¬ (off ≤ i ∧ i < off + (n + 1)) := by omega
        simp [h3, h4]

/-- A loop over the bands whose body writes one gain acts on the gains like the
corresponding run of writes. -/
theorem FilterBank.foldl_gains (f : FilterBank → Nat → FilterBank) (off : Nat) (val : Nat → ℚ)
    (hf : ∀ b k, (f b k).FilterBandGains = b.FilterBandGains.set (off + k) (val k)) :
    ∀ (n : Nat) (b : FilterBank),
      ((List.range n).foldl f b).FilterBandGains
        = (List.range n).foldl (fun v k => v.set (off + k) (val k)) b.FilterBandGains := by
  intro n
  induction n with
  | zero => intro b; simp
  | succ n ih =>
    intro b
    rw [List.range_succ, List.foldl_append, List.foldl_append]
    simp only [List.foldl_cons, List.foldl_nil]
    rw [hf, ih]

/-- C10: on a 9-band bank, `InitialiseFilterBank` with a mode of `m ≤ 9` bands (whose
gain vector has at least `m` entries) leaves band `i` with gain `Gains[i]` for `i < m`
and with gain 0 for `m ≤ i < 9`. -/
theorem FilterBank.InitialiseFilterBank_gains (L : Libm) (fb : FilterBank) (M : Mode) (m : Nat)
    (_hbands : fb.Filters.length = 9) (hgains : fb.FilterBandGains.length = 9)
    (hm : M.nModes = (m : Int)) (hm9 : m ≤ 9) (_hlen : m ≤ M.Gains.length) :
    ∀ i : Nat, i < 9 →
      vecGet (fb.InitialiseFilterBank L M).FilterBandGains (i : Int)
        = if i < m then vecGet M.Gains (i : Int) else 0 := by
  intro i hi
  have h1 := FilterBank.foldl_gains (fun b (k : Nat) => FilterBank.initBand L M b (k : Int)) 0
    (fun k => vecGet M.Gains (k : Int))
    (by intro b k; simp [FilterBank.initBand, vecSet_natCast]) m fb
  have h2 := FilterBank.foldl_gains
    (fun b (k : Nat) => FilterBank.zeroBand b (M.nModes + (k : Int))) m (fun _ => 0)
    (by
      intro b k
      simp only [FilterBank.zeroBand, hm]
      rw [← vecSet_natCast]
      push_cast
      rfl)
    (9 - m) ((List.range m).foldl (fun b (k : Nat) => FilterBank.initBand L M b (k : Int)) fb)
  have e1 : M.nModes.toNat = m := by rw [hm]; simp
  have e2 : (9 - M.nModes).toNat = 9 - m := by rw [hm]; omega
  simp only [FilterBank.InitialiseFilterBank, e1, e2, h2, h1]
  rw [vecGet_natCast]
  obtain ⟨l1, g1⟩ := foldl_set_getD 0 (fun k => vecGet M.Gains (k : Int)) m fb.FilterBandGains
  obtain ⟨_, g2⟩ := foldl_set_getD m (fun _ => (0 : ℚ)) (9 - m)
    ((List.range m).foldl (fun v k => v.set (0 + k) (vecGet M.Gains (k : Int)))
      fb.FilterBandGains)
  rw [g2 i (by rw [l1, hgains]; exact hi), g1 i (by rw [hgains]; exact hi)]
  by_cases h : i < m
  · have h3 : ¬ (m ≤ i ∧ i < m + (9 - m)) := by omega
    have h4 : 0 ≤ i ∧ i < 0 + m := by omega
    simp [h, h3, h4]
  · have h3 : m ≤ i ∧ i < m + (9 - m) := by omega
    simp [h, h3]

/-- C10 at the grass mode (3 bands) on a fresh 9-band bank: band 0 carries the mode's
gain, bands 3 and 8 have gain 0. -/
theorem FilterBank.InitialiseFilterBank_gains_witness :
    vecGet ((FilterBank.new Libm.sample 48000 9).InitialiseFilterBank Libm.sample
      (Generator.mode 3)).FilterBandGains 0 = 5 / 100 ∧
    vecGet ((FilterBank.new Libm.sample 48000 9).InitialiseFilterBank Libm.sample
      (Generator.mode 3)).FilterBandGains 3 = 0 ∧
    vecGet ((FilterBank.new Libm.sample 48000 9).InitialiseFilterBank Libm.sample
      (Generator.mode 3)).FilterBandGains 8 = 0 :=
  have h := FilterBank.InitialiseFilterBank_gains Libm.sample (FilterBank.new Libm.sample 48000 9)
    (Generator.mode 3) 3 (by simp [FilterBank.new]) (by simp [FilterBank.new]) rfl
    (by decide) (by decide)
  ⟨by simpa [Generator.mode, Generator.Modes, vecGet] using h 0 (by decide),
   by simpa using h 3 (by decide), by simpa using h 8 (by decide)⟩

end nemlib

/-! ## Delay line -/

namespace nemlib

/-- The capacity factor is 5. -/
theorem MAX_DELAY_TIME_INT_eq : MAX_DELAY_TIME_INT = 5 := by
  norm_num [MAX_DELAY_TIME_INT, MAX_DELAY_TIME, truncToInt]

/-- With a positive capacity the first loop of `SetDelay` leaves its `|R|` rounds with a
non-negative pointer, that is, by its exit condition. -/
theorem Delay.wrapUp_nonneg (C : Int) (hC : 1 ≤ C) :
    ∀ (fuel : Nat) (R : Int), 0 ≤ R + (fuel : Int) → 0 ≤ Delay.wrapUp C fuel R := by
  intro fuel
  induction fuel with
  | zero =>
    intro R h
    simpa [Delay.wrapUp] using h
  | succ fuel ih =>
    intro R h
    unfold Delay.wrapUp
    split_ifs with hneg
    · exact ih (R + C) (by push_cast at h; omega)
    · omega

/-- One `ProcessSample` call on a delay whose pointers are inside the buffer: the output
is the cell under the read pointer, the input goes under the write pointer, and both
pointers advance modulo the capacity. -/
theorem Delay.ProcessSample_step (d : Delay) (C w rp : Nat) (v : ℚ)
    (hC : MAX_DELAY_TIME_INT * d.SampleRate = (C : Int))
    (hw : d.WritePointer = (w : Int)) (hwlt : w < C)
    (hr : d.ReadPointer = (rp : Int)) (hrlt : rp < C) :
    (d.ProcessSample v).1 = d.DelayBuffer.getD rp 0 ∧
    (d.ProcessSample v).2.SampleRate = d.SampleRate ∧
    (d.ProcessSample v).2.DelayTime = d.DelayTime ∧
    (d.ProcessSample v).2.DelayBuffer = d.DelayBuffer.set w v ∧
    (d.ProcessSample v).2.WritePointer = (((w + 1) % C : Nat) : Int) ∧
    (d.ProcessSample v).2.ReadPointer = (((rp + 1) % C : Nat) : Int) := by
  have hmod : ∀ k : Nat, k < C →
      (if (k : Int) + 1 ≥ (C : Int) then (0 : Int) else (k : Int) + 1)
        = (((k + 1) % C : Nat) : Int) := by
    intro k hk
    by_cases h : k + 1 = C
    · have h1 : (k : Int) + 1 ≥ (C : Int) := by omega
      rw [if_pos h1, h, Nat.mod_self]; rfl
    · have h1 : ¬ ((k : Int) + 1 ≥ (C : Int)) := by omega
      rw [if_neg h1, Nat.mod_eq_of_lt (by omega)]; push_cast; rfl
  refine ⟨?_, rfl, rfl, ?_, ?_, ?_⟩
  · simp [Delay.ProcessSample, hr, vecGet]
  · simp [Delay.ProcessSample, hw, vecSet]
  · simp only [Delay.ProcessSample, hC, hw]
    exact hmod w hwlt
  · simp only [Delay.ProcessSample, hC, hr]
    exact hmod rp hrlt

/-- After `n` calls the pointers have advanced by `n` modulo the capacity and the buffer
has kept its length. -/
theorem Delay.run_pointers (d : Delay) (C w rp : Nat) (x : Nat → ℚ)
    (hC : MAX_DELAY_TIME_INT * d.SampleRate = (C : Int)) (hpos : 0 < C)
    (hlen : d.DelayBuffer.length = C)
    (hw : d.WritePointer = (w : Int)) (hwlt : w < C)
    (hr : d.ReadPointer = (rp : Int)) (hrlt : rp < C) :
    ∀ n : Nat,
      (Delay.run x n d).SampleRate = d.SampleRate ∧
      (Delay.run x n d).DelayTime = d.DelayTime ∧
      (Delay.run x n d).DelayBuffer.length = C ∧
      (Delay.run x n d).WritePointer = (((w + n) % C : Nat) : Int) ∧
      (Delay.run x n d).ReadPointer = (((rp + n) % C : Nat) : Int) := by
  intro n
  induction n with
  | zero =>
    refine ⟨rfl, rfl, hlen, ?_, ?_⟩
    · simp [Delay.run, hw, Nat.mod_eq_of_lt hwlt]
    · simp [Delay.run, hr, Nat.mod_eq_of_lt hrlt]
  | succ n ih =>
    obtain ⟨h1, h2, h3, h4, h5⟩ := ih
    obtain ⟨_, s2, s3, s4, s5, s6⟩ := Delay.ProcessSample_step (Delay.run x n d) C
      ((w + n) % C) ((rp + n) % C) (x n) (by rw [h1]; exact hC) h4 (Nat.mod_lt _ hpos)
      h5 (Nat.mod_lt _ hpos)
    refine ⟨?_, ?_, ?_, ?_, ?_⟩
    · simp only [Delay.run]; rw [s2, h1]
    · simp only [Delay.run]; rw [s3, h2]
    · simp only [Delay.run]; rw [s4, List.length_set, h3]
    · simp only [Delay.run]; rw [s5]; congr 1; rw [Nat.add_mod, Nat.mod_mod, ← Nat.add_mod]; rfl
    · simp only [Delay.run]; rw [s6]; congr 1; rw [Nat.add_mod, Nat.mod_mod, ← Nat.add_mod]; rfl

/-- Call number `n` returns the cell under the read pointer and stores its input under
the write pointer. -/
theorem Delay.run_succ (d : Delay) (C w rp : Nat) (x : Nat → ℚ)
    (hC : MAX_DELAY_TIME_INT * d.SampleRate = (C : Int)) (hpos : 0 < C)
    (hlen : d.DelayBuffer.length = C)
    (hw : d.WritePointer = (w : Int)) (hwlt : w < C)
    (hr : d.ReadPointer = (rp : Int)) (hrlt : rp < C) (n : Nat) :
    Delay.output x n d = (Delay.run x n d).DelayBuffer.getD ((rp + n) % C) 0 ∧
    (Delay.run x (n + 1) d).DelayBuffer
      = (Delay.run x n d).DelayBuffer.set ((w + n) % C) (x n) := by
  obtain ⟨h1, _, _, h4, h5⟩ := Delay.run_pointers d C w rp x hC hpos hlen hw hwlt hr hrlt n
  obtain ⟨s1, _, _, s4, _, _⟩ := Delay.ProcessSample_step (Delay.run x n d) C
    ((w + n) % C) ((rp + n) % C) (x n) (by rw [h1]; exact hC) h4 (Nat.mod_lt _ hpos)
    h5 (Nat.mod_lt _ hpos)
  exact ⟨s1, s4⟩

/-- Two write positions less than a full turn apart are different cells. -/
theorem Delay.cell_ne (C a g : Nat) (hg : g + 1 < C) : (a + 1 + g) % C ≠ a % C := by
  intro h
  have h1 := Nat.sub_mod_eq_zero_of_mod_eq h
  have h2 : a + 1 + g - a = g + 1 := by omega
  rw [h2, Nat.mod_eq_of_lt hg] at h1
  omega

/-- The input of call `m` stays in its cell for the next `C` calls. -/
theorem Delay.cell_kept (d : Delay) (C w rp : Nat) (x : Nat → ℚ)
    (hC : MAX_DELAY_TIME_INT * d.SampleRate = (C : Int)) (hpos : 0 < C)
    (hlen : d.DelayBuffer.length = C)
    (hw : d.WritePointer = (w : Int)) (hwlt : w < C)
    (hr : d.ReadPointer = (rp : Int)) (hrlt : rp < C) (m : Nat) :
    ∀ g : Nat, g < C →
      (Delay.run x (m + 1 + g) d).DelayBuffer.getD ((w + m) % C) 0 = x m := by
  intro g
  induction g with
  | zero =>
    intro _
    have h := (Delay.run_succ d C w rp x hC hpos hlen hw hwlt hr hrlt m).2
    have hl := (Delay.run_pointers d C w rp x hC hpos hlen hw hwlt hr hrlt m).2.2.1
    rw [Nat.add_zero, h, List.getD_eq_getElem?_getD, List.getElem?_set]
    simp [hl, Nat.mod_lt _ hpos]
  | succ g ih =>
    intro hg
    have h := (Delay.run_succ d C w rp x hC hpos hlen hw hwlt hr hrlt (m + 1 + g)).2
    have hne : (w + (m + 1 + g)) % C ≠ (w + m) % C := by
      have := Delay.cell_ne C (w + m) g hg
      rwa [show w + m + 1 + g = w + (m + 1 + g) by omega] at this
    rw [show m + 1 + (g + 1) = (m + 1 + g) + 1 by omega, h, List.getD_eq_getElem?_getD,
      List.getElem?_set_ne hne, ← List.getD_eq_getElem?_getD]
    exact ih (by omega)

/-- A cell that none of the first `n` calls writes keeps its initial content. -/
theorem Delay.cell_untouched (d : Delay) (C w rp : Nat) (x : Nat → ℚ)
    (hC : MAX_DELAY_TIME_INT * d.SampleRate = (C : Int)) (hpos : 0 < C)
    (hlen : d.DelayBuffer.length = C)
    (hw : d.WritePointer = (w : Int)) (hwlt : w < C)
    (hr : d.ReadPointer = (rp : Int)) (hrlt : rp < C) (i : Nat) :
    ∀ n : Nat, (∀ j : Nat, j < n → (w + j) % C ≠ i) →
      (Delay.run x n d).DelayBuffer.getD i 0 = d.DelayBuffer.getD i 0 := by
  intro n
  induction n with
  | zero => intro _; rfl
  | succ n ih =>
    intro hfree
    have h := (Delay.run_succ d C w rp x hC hpos hlen hw hwlt hr hrlt n).2
    rw [h, List.getD_eq_getElem?_getD, List.getElem?_set_ne (hfree n (Nat.lt_succ_self n)),
      ← List.getD_eq_getElem?_getD]
    exact ih (fun j hj => hfree j (Nat.lt_succ_of_lt hj))

/-- A delay line that starts empty, with the write pointer at 0 and the read pointer
`Dc` cells behind it (modulo the capacity `C`, `1 ≤ Dc ≤ C`), returns 0 on calls
`0 .. Dc - 1` and from then on the input of `Dc` calls earlier. -/
theorem Delay.output_of_fresh (d : Delay) (C Dc : Nat) (x : Nat → ℚ)
    (hC : MAX_DELAY_TIME_INT * d.SampleRate = (C : Int))
    (hbuf : d.DelayBuffer = List.replicate C 0)
    (hw : d.WritePointer = 0) (hDc : 1 ≤ Dc) (hDcC : Dc ≤ C)
    (hr : d.ReadPointer = ((C - Dc : Nat) : Int)) (n : Nat) :
    Delay.output x n d = if n < Dc then 0 else x (n - Dc) := by
  have hpos : 0 < C := by omega
  have hlen : d.DelayBuffer.length = C := by rw [hbuf, List.length_replicate]
  have hw0 : d.WritePointer = ((0 : Nat) : Int) := by rw [hw]; rfl
  have hrlt : C - Dc < C := by omega
  rw [(Delay.run_succ d C 0 (C - Dc) x hC hpos hlen hw0 hpos hr hrlt n).1]
  by_cases h : n < Dc
  · rw [if_pos h, Nat.mod_eq_of_lt (by omega : C - Dc + n < C),
      Delay.cell_untouched d C 0 (C - Dc) x hC hpos hlen hw0 hpos hr hrlt (C - Dc + n) n
        (by
          intro j hj
          rw [Nat.zero_add, Nat.mod_eq_of_lt (by omega : j < C)]
          omega)]
    rw [hbuf, List.getD_eq_getElem?_getD, List.getElem?_replicate]
    split_ifs <;> rfl
  · rw [if_neg h]
    have hidx : (C - Dc + n) % C = (0 + (n - Dc)) % C := by
      rw [show C - Dc + n = (n - Dc) + C by omega, Nat.add_mod_right, Nat.zero_add]
    have hk := Delay.cell_kept d C 0 (C - Dc) x hC hpos hlen hw0 hpos hr hrlt (n - Dc)
      (Dc - 1) (by omega)
    rw [show n - Dc + 1 + (Dc - 1) = n by omega] at hk
    rw [hidx]
    exact hk

/-- The delay built by `Delay(1000, 0.1f)`: capacity 5000, read pointer 4899. -/
theorem Delay.new_1000 :
    (Delay.new 1000 (1 / 10)).SampleRate = 1000 ∧
    (Delay.new 1000 (1 / 10)).DelayTime = 1 / 10 ∧
    (Delay.new 1000 (1 / 10)).DelayBuffer = List.replicate 5000 0 ∧
    (Delay.new 1000 (1 / 10)).WritePointer = 0 ∧
    (Delay.new 1000 (1 / 10)).ReadPointer = 4899 := by
  have hdt : Clamp (1 / 10) 0 (MAX_DELAY_TIME - 1 / ((1000 : Int) : ℚ)) = 1 / 10 := by
    norm_num [Clamp, MAX_DELAY_TIME]
  refine ⟨rfl, ?_, ?_, rfl, ?_⟩
  · simp only [Delay.new, hdt]
  · simp only [Delay.new, MAX_DELAY_TIME_INT_eq]
    rfl
  · simp only [Delay.new, hdt]
    norm_num [MAX_DELAY_TIME, truncToInt]

/-- C4, evaluated at `Delay(1000, 0.1f)`, where `round(0.1 * 1000) = 100`: whatever the
input sequence, call `n` returns 0 for `n < 101` and the input of call `n - 101` from then
on; a unit impulse fed at call 0 comes out at call 101, and call 100 returns 0. -/
theorem Delay.new_1000_delays_by_101 :
    round ((Delay.new 1000 (1 / 10)).DelayTime * ((Delay.new 1000 (1 / 10)).SampleRate : ℚ))
      = 100 ∧
    (∀ (x : Nat → ℚ) (n : Nat),
      Delay.output x n (Delay.new 1000 (1 / 10)) = if n < 101 then 0 else x (n - 101)) ∧
    Delay.output (fun n => if n = 0 then 1 else 0) 100 (Delay.new 1000 (1 / 10)) = 0 ∧
    Delay.output (fun n => if n = 0 then 1 else 0) 101 (Delay.new 1000 (1 / 10)) = 1 := by
  obtain ⟨h1, h2, h3, h4, h5⟩ := Delay.new_1000
  have hall : ∀ (x : Nat → ℚ) (n : Nat),
      Delay.output x n (Delay.new 1000 (1 / 10)) = if n < 101 then 0 else x (n - 101) := by
    intro x n
    exact Delay.output_of_fresh (Delay.new 1000 (1 / 10)) 5000 101 x
      (by rw [h1, MAX_DELAY_TIME_INT_eq]; rfl) h3 h4 (by decide) (by decide)
      (by rw [h5]; rfl) n
  refine ⟨?_, hall, ?_, ?_⟩
  · rw [h1, h2]; norm_num
  · rw [hall]; rfl
  · rw [hall]; rfl

/-- C5, evaluated at `Delay(1000, 0.1f)`: right after construction both pointers are
inside the buffer of 5000 cells, but the write pointer is 101 cells ahead of the read
pointer while `floor(DelayTime * SampleRate)` is 100. -/
theorem Delay.new_1000_pointer_gap :
    0 ≤ (Delay.new 1000 (1 / 10)).ReadPointer ∧
    (Delay.new 1000 (1 / 10)).ReadPointer
      < MAX_DELAY_TIME_INT * (Delay.new 1000 (1 / 10)).SampleRate ∧
    0 ≤ (Delay.new 1000 (1 / 10)).WritePointer ∧
    (Delay.new 1000 (1 / 10)).WritePointer
      < MAX_DELAY_TIME_INT * (Delay.new 1000 (1 / 10)).SampleRate ∧
    ((Delay.new 1000 (1 / 10)).WritePointer - (Delay.new 1000 (1 / 10)).ReadPointer)
      % (MAX_DELAY_TIME_INT * (Delay.new 1000 (1 / 10)).SampleRate) = 101 ∧
    ⌊(Delay.new 1000 (1 / 10)).DelayTime * ((Delay.new 1000 (1 / 10)).SampleRate : ℚ)⌋
      = 100 := by
  obtain ⟨h1, h2, _, h4, h5⟩ := Delay.new_1000
  rw [h1, h2, h4, h5, MAX_DELAY_TIME_INT_eq]
  refine ⟨by decide, by decide, by decide, by decide, by decide, ?_⟩
  norm_num

end nemlib

namespace nemlib

/-- The first loop of `SetDelay` does nothing to a non-negative pointer. -/
theorem Delay.wrapUp_of_nonneg (C : Int) (fuel : Nat) (R : Int) (h : 0 ≤ R) :
    Delay.wrapUp C fuel R = R := by
  cases fuel with
  | zero => rfl
  | succ f => simp [Delay.wrapUp, not_lt.mpr h]

/-- The second loop of `SetDelay` does nothing to a pointer below the capacity. -/
theorem Delay.wrapDown_of_lt (C : Int) (fuel : Nat) (R : Int) (h : R < C) :
    Delay.wrapDown C fuel R = R := by
  cases fuel with
  | zero => rfl
  | succ f => simp [Delay.wrapDown, not_le.mpr h]

/-- The sibling path: after `SetDelay` on a delay with sample rate at least 1 and the write
pointer inside the buffer, the read pointer is inside the buffer and trails the write
pointer by exactly `floor(DelayTime * SampleRate)` cells modulo the capacity. -/
theorem Delay.SetDelay_gap (d : Delay) (t : ℚ) (hsr : 1 ≤ d.SampleRate)
    (hw0 : 0 ≤ d.WritePointer) (hwC : d.WritePointer < MAX_DELAY_TIME_INT * d.SampleRate) :
    0 ≤ (d.SetDelay t).ReadPointer ∧
    (d.SetDelay t).ReadPointer < MAX_DELAY_TIME_INT * d.SampleRate ∧
    (d.SetDelay t).WritePointer = d.WritePointer ∧
    ((d.SetDelay t).WritePointer - (d.SetDelay t).ReadPointer)
        % (MAX_DELAY_TIME_INT * d.SampleRate)
      = ⌊(d.SetDelay t).DelayTime * ((d.SetDelay t).SampleRate : ℚ)⌋ := by
  rw [MAX_DELAY_TIME_INT_eq] at hwC ⊢
  have hsrq : (1 : ℚ) ≤ (d.SampleRate : ℚ) := by exact_mod_cast hsr
  have hinv : 1 / (d.SampleRate : ℚ) ≤ 1 := by
    rw [div_le_one (by linarith)]; exact hsrq
  set DT := Clamp t 0 (MAX_DELAY_TIME - 1 / (d.SampleRate : ℚ)) with hDT
  have hDT0 : 0 ≤ DT := by
    rw [hDT]; unfold Clamp MAX_DELAY_TIME
    exact le_min (le_max_right _ _) (by linarith)
  have hDT1 : DT ≤ 5 - 1 / (d.SampleRate : ℚ) := by
    rw [hDT]; unfold Clamp MAX_DELAY_TIME
    exact min_le_right _ _
  have hprod0 : 0 ≤ DT * (d.SampleRate : ℚ) := mul_nonneg hDT0 (by linarith)
  have hprod1 : DT * (d.SampleRate : ℚ) ≤ 5 * (d.SampleRate : ℚ) - 1 := by
    have := mul_le_mul_of_nonneg_right hDT1 (by linarith : (0 : ℚ) ≤ (d.SampleRate : ℚ))
    have hne : (d.SampleRate : ℚ) ≠ 0 := by linarith
    rw [sub_mul, one_div, inv_mul_cancel₀ hne] at this
    exact this
  have htr : truncToInt (DT * (d.SampleRate : ℚ)) = ⌊DT * (d.SampleRate : ℚ)⌋ := by
    simp [truncToInt, hprod0]
  set D := ⌊DT * (d.SampleRate : ℚ)⌋ with hD
  have hD0 : 0 ≤ D := Int.floor_nonneg.mpr hprod0
  have hD1 : D ≤ 5 * d.SampleRate - 1 := by
    have h1 : (D : ℚ) ≤ DT * (d.SampleRate : ℚ) := Int.floor_le _
    have h2 : (D : ℚ) ≤ ((5 * d.SampleRate - 1 : Int) : ℚ) := by push_cast; linarith
    exact_mod_cast h2
  have hstate : (d.SetDelay t).SampleRate = d.SampleRate ∧ (d.SetDelay t).DelayTime = DT ∧
      (d.SetDelay t).WritePointer = d.WritePointer := ⟨rfl, rfl, rfl⟩
  have hread : (d.SetDelay t).ReadPointer
      = if 0 ≤ d.WritePointer - D then d.WritePointer - D
        else d.WritePointer - D + 5 * d.SampleRate := by
    simp only [Delay.SetDelay, ← hDT, htr, ← hD, MAX_DELAY_TIME_INT_eq]
    by_cases h : 0 ≤ d.WritePointer - D
    · rw [if_pos h, Delay.wrapUp_of_nonneg _ _ _ h, Delay.wrapDown_of_lt _ _ _ (by omega)]
    · rw [if_neg h]
      have hfuel : (d.WritePointer - D).natAbs = ((d.WritePointer - D).natAbs - 1) + 1 := by
        omega
      rw [hfuel, Delay.wrapUp, if_pos (by omega),
        Delay.wrapUp_of_nonneg _ _ _ (by omega), Delay.wrapDown_of_lt _ _ _ (by omega)]
  rw [hstate.1, hstate.2.1, hstate.2.2, hread]
  by_cases h : 0 ≤ d.WritePointer - D
  · rw [if_pos h]
    refine ⟨h, by omega, rfl, ?_⟩
    rw [show d.WritePointer - (d.WritePointer - D) = D by ring]
    exact Int.emod_eq_of_lt hD0 (by omega)
  · rw [if_neg h]
    refine ⟨by omega, by omega, rfl, ?_⟩
    rw [show d.WritePointer - (d.WritePointer - D + 5 * d.SampleRate)
      = D - 5 * d.SampleRate by ring, Int.sub_emod, Int.emod_self, sub_zero, Int.emod_emod]
    exact Int.emod_eq_of_lt hD0 (by omega)

end nemlib

/-! ## Parameter changes and the per-step cycle -/

namespace Generator

/-- The function `VaryFilterBank` changes the filter bank only. -/
theorem VaryFilterBank_frame (L : Libm) (g : Generator) (r : Rand) :
    ∃ F, (VaryFilterBank L g r).1 = { g with Filters := F } := by
  unfold VaryFilterBank
  simp only []
  split_ifs <;> exact ⟨_, rfl⟩

/-- The function `UpdatePaceModifiers` changes the roll speed and the heel-to-ball gains only. -/
theorem UpdatePaceModifiers_frame (g : Generator) (p : ℚ) :
    ∃ a b, UpdatePaceModifiers g p = { g with RollSpeedPercentage := a, HeelToBallRatio := b } := by
  unfold UpdatePaceModifiers
  split_ifs <;> exact ⟨_, _, rfl⟩

/-- The function `UpdateStepEnvelope` touches the filter bank, the pace modifiers, the step timer and
counter, the two step envelopes and the separation delay; the members listed here are
left as they were. -/
theorem UpdateStepEnvelope_keeps (L : Libm) (g : Generator) (r : Rand) :
    (UpdateStepEnvelope L g r).1.m_sampleRate = g.m_sampleRate ∧
    (UpdateStepEnvelope L g r).1.m_SurfaceType = g.m_SurfaceType ∧
    (UpdateStepEnvelope L g r).1.m_Pace = g.m_Pace ∧
    (UpdateStepEnvelope L g r).1.m_Firmness = g.m_Firmness ∧
    (UpdateStepEnvelope L g r).1.m_Steadiness = g.m_Steadiness ∧
    (UpdateStepEnvelope L g r).1.Surface = g.Surface ∧
    (UpdateStepEnvelope L g r).1.FiltersOut = g.FiltersOut ∧
    (UpdateStepEnvelope L g r).1.CrunchFlag = g.CrunchFlag ∧
    (UpdateStepEnvelope L g r).1.Freq1 = g.Freq1 ∧
    (UpdateStepEnvelope L g r).1.Freq2 = g.Freq2 ∧
    (UpdateStepEnvelope L g r).1.Delay1 = g.Delay1 ∧
    (UpdateStepEnvelope L g r).1.Delay2 = g.Delay2 ∧
    (UpdateStepEnvelope L g r).1.CrunchOut = g.CrunchOut := by
  obtain ⟨F, hF⟩ := VaryFilterBank_frame L g r
  obtain ⟨a, b, hP⟩ := UpdatePaceModifiers_frame { g with Filters := F } (60 / g.StepCounter)
  simp only [UpdateStepEnvelope, hF, hP]
  split_ifs <;> exact ⟨rfl, rfl, rfl, rfl, rfl, rfl, rfl, rfl, rfl, rfl, rfl, rfl, rfl⟩

end Generator

namespace Generator

/-- The function `UpdateShoeModifiers` changes the shoe template only. -/
theorem UpdateShoeModifiers_frame (g : Generator) (k : Int) :
    ∃ s, UpdateShoeModifiers g k = { g with Shoe := s } := by
  unfold UpdateShoeModifiers
  split_ifs <;> exact ⟨_, rfl⟩

/-- For the wood surface `UpdateSurfaceModifiers` draws nothing and sets the wood
configuration. -/
theorem UpdateSurfaceModifiers_wood (L : Libm) (g : Generator) (r : Rand) :
    UpdateSurfaceModifiers L g 0 r =
      ({ g with CrunchFlag := false
                Filters := g.Filters.InitialiseFilterBank L (mode 0)
                FiltersOut := 16 / 10
                Surface := ⟨0, 0, 0, 0, 0, 0, 0, 0⟩ }, r) := by
  simp [UpdateSurfaceModifiers]

/-- The functions `UpdatePaceModifiers`, `UpdateShoeModifiers`, `PrepareModel.init` and
`PrepareModel.start` leave the stored parameters and the surface configuration alone
(`PrepareModel.init` but for the sample rate, which it stores). -/
theorem PrepareModel.blocks_keep (L : Libm) (g : Generator) (p : ℚ) (k sr : Int) :
    ((UpdatePaceModifiers g p).m_sampleRate = g.m_sampleRate ∧
     (UpdatePaceModifiers g p).m_SurfaceType = g.m_SurfaceType ∧
     (UpdatePaceModifiers g p).m_ShoeType = g.m_ShoeType ∧
     (UpdatePaceModifiers g p).m_Pace = g.m_Pace ∧
     (UpdatePaceModifiers g p).m_Firmness = g.m_Firmness ∧
     (UpdatePaceModifiers g p).m_Steadiness = g.m_Steadiness ∧
     (UpdatePaceModifiers g p).surfaceConfig = g.surfaceConfig) ∧
    ((UpdateShoeModifiers g k).m_sampleRate = g.m_sampleRate ∧
     (UpdateShoeModifiers g k).m_SurfaceType = g.m_SurfaceType ∧
     (UpdateShoeModifiers g k).m_Pace = g.m_Pace ∧
     (UpdateShoeModifiers g k).m_Firmness = g.m_Firmness ∧
     (UpdateShoeModifiers g k).m_Steadiness = g.m_Steadiness ∧
     (UpdateShoeModifiers g k).surfaceConfig = g.surfaceConfig) ∧
    ((PrepareModel.start g).m_sampleRate = g.m_sampleRate ∧
     (PrepareModel.start g).m_SurfaceType = g.m_SurfaceType ∧
     (PrepareModel.start g).m_Pace = g.m_Pace ∧
     (PrepareModel.start g).m_Firmness = g.m_Firmness ∧
     (PrepareModel.start g).m_Steadiness = g.m_Steadiness ∧
     (PrepareModel.start g).surfaceConfig = g.surfaceConfig) ∧
    ((PrepareModel.init L g sr).m_sampleRate = sr ∧
     (PrepareModel.init L g sr).m_SurfaceType = g.m_SurfaceType ∧
     (PrepareModel.init L g sr).m_ShoeType = g.m_ShoeType ∧
     (PrepareModel.init L g sr).m_Pace = g.m_Pace ∧
     (PrepareModel.init L g sr).m_Firmness = g.m_Firmness ∧
     (PrepareModel.init L g sr).m_Steadiness = g.m_Steadiness ∧
     (PrepareModel.init L g sr).surfaceConfig = g.surfaceConfig) := by
  refine ⟨?_, ?_, ?_, ⟨rfl, rfl, rfl, rfl, rfl, rfl, rfl⟩⟩
  · unfold UpdatePaceModifiers
    split_ifs <;> exact ⟨rfl, rfl, rfl, rfl, rfl, rfl, rfl⟩
  · unfold UpdateShoeModifiers
    split_ifs <;> exact ⟨rfl, rfl, rfl, rfl, rfl, rfl⟩
  · unfold PrepareModel.start
    simp only []
    split_ifs <;> exact ⟨rfl, rfl, rfl, rfl, rfl, rfl⟩

/-- A generator whose surface type is 0 leaves `PrepareModel` with the sample rate stored,
the pace, firmness, steadiness and surface type it had, and the wood configuration. -/
theorem PrepareModel_wood (L : Libm) (g : Generator) (sr : Nat) (r : Rand)
    (h0 : g.m_SurfaceType = 0) :
    (PrepareModel L g sr r).1.m_sampleRate = toInt32 sr ∧
    (PrepareModel L g sr r).1.m_SurfaceType = 0 ∧
    (PrepareModel L g sr r).1.m_Pace = g.m_Pace ∧
    (PrepareModel L g sr r).1.m_Firmness = g.m_Firmness ∧
    (PrepareModel L g sr r).1.m_Steadiness = g.m_Steadiness ∧
    (PrepareModel L g sr r).1.surfaceConfig
      = (⟨0, 0, 0, 0, 0, 0, 0, 0⟩, 16 / 10, false, g.Freq1, g.Freq2, g.Delay1, g.Delay2,
          g.CrunchOut) := by
  have hs : (UpdateShoeModifiers
      (UpdatePaceModifiers (PrepareModel.init L g (toInt32 sr))
        (PrepareModel.init L g (toInt32 sr)).m_Pace)
      (UpdatePaceModifiers (PrepareModel.init L g (toInt32 sr))
        (PrepareModel.init L g (toInt32 sr)).m_Pace).m_ShoeType).m_SurfaceType = 0 := by
    rw [(PrepareModel.blocks_keep L _ 0 _ 0).2.1.2.1, (PrepareModel.blocks_keep L _ _ 0 0).1.2.1]
    exact h0
  have hcfg : ∀ x : Generator, (UpdateStepEnvelope L x r).1.surfaceConfig = x.surfaceConfig := by
    intro x
    obtain ⟨_, _, _, _, _, k6, k7, k8, k9, k10, k11, k12, k13⟩ := UpdateStepEnvelope_keeps L x r
    simp only [surfaceConfig, k6, k7, k8, k9, k10, k11, k12, k13]
  simp only [PrepareModel, hs, UpdateSurfaceModifiers_wood]
  refine ⟨?_, ?_, ?_, ?_, ?_, ?_⟩
  · rw [(PrepareModel.blocks_keep L _ 0 0 0).2.2.1.1, (UpdateStepEnvelope_keeps L _ _).1]
    show (UpdateShoeModifiers _ _).m_sampleRate = _
    rw [(PrepareModel.blocks_keep L _ 0 _ 0).2.1.1, (PrepareModel.blocks_keep L _ _ 0 0).1.1]
    rfl
  · rw [(PrepareModel.blocks_keep L _ 0 0 0).2.2.1.2.1, (UpdateStepEnvelope_keeps L _ _).2.1]
  · rw [(PrepareModel.blocks_keep L _ 0 0 0).2.2.1.2.2.1, (UpdateStepEnvelope_keeps L _ _).2.2.1]
    show (UpdateShoeModifiers _ _).m_Pace = _
    rw [(PrepareModel.blocks_keep L _ 0 _ 0).2.1.2.2.1,
      (PrepareModel.blocks_keep L _ _ 0 0).1.2.2.2.1]
    rfl
  · rw [(PrepareModel.blocks_keep L _ 0 0 0).2.2.1.2.2.2.1,
      (UpdateStepEnvelope_keeps L _ _).2.2.2.1]
    show (UpdateShoeModifiers _ _).m_Firmness = _
    rw [(PrepareModel.blocks_keep L _ 0 _ 0).2.1.2.2.2.1,
      (PrepareModel.blocks_keep L _ _ 0 0).1.2.2.2.2.1]
    rfl
  · rw [(PrepareModel.blocks_keep L _ 0 0 0).2.2.1.2.2.2.2.1,
      (UpdateStepEnvelope_keeps L _ _).2.2.2.2.1]
    show (UpdateShoeModifiers _ _).m_Steadiness = _
    rw [(PrepareModel.blocks_keep L _ 0 _ 0).2.1.2.2.2.2.1,
      (PrepareModel.blocks_keep L _ _ 0 0).1.2.2.2.2.2.1]
    rfl
  · rw [(PrepareModel.blocks_keep L _ 0 0 0).2.2.1.2.2.2.2.2, hcfg]
    show (_, _, _, (UpdateShoeModifiers _ _).surfaceConfig.2.2.2) = _
    rw [(PrepareModel.blocks_keep L _ 0 _ 0).2.1.2.2.2.2.2,
      (PrepareModel.blocks_keep L _ _ 0 0).1.2.2.2.2.2.2]
    rfl

end Generator

namespace Generator

/-- The freshly constructed generator, prepared at 48 kHz: sample rate 48000, surface type
0, pace 82, firmness 0.3, steadiness 0.1, and the wood configuration with no crunch. -/
theorem PrepareModel_new (L : Libm) (r : Rand) :
    (PrepareModel L (new L) 48000 r).1.m_sampleRate = 48000 ∧
    (PrepareModel L (new L) 48000 r).1.m_SurfaceType = 0 ∧
    (PrepareModel L (new L) 48000 r).1.m_Pace = 82 ∧
    (PrepareModel L (new L) 48000 r).1.m_Firmness = 3 / 10 ∧
    (PrepareModel L (new L) 48000 r).1.m_Steadiness = 1 / 10 ∧
    (PrepareModel L (new L) 48000 r).1.surfaceConfig
      = (⟨0, 0, 0, 0, 0, 0, 0, 0⟩, 16 / 10, false, 0, 0, 0, 0, 0) := by
  obtain ⟨h1, h2, h3, h4, h5, h6⟩ := PrepareModel_wood L (new L) 48000 r rfl
  refine ⟨?_, h2, h3, h4, h5, h6⟩
  rw [h1]
  decide

/-- The function `CrunchLoop` leaves the surface configuration alone. -/
theorem CrunchLoop_surfaceConfig (L : Libm) (g : Generator) (r : Rand) :
    (CrunchLoop L g r).1.surfaceConfig = g.surfaceConfig := rfl

/-- C3, evaluated on the generator prepared at 48 kHz (surface 0, wood) after
`SetSurfaceType(2)` (dirt): the stored surface type is 2, but the next
`UpdateStepEnvelope` still runs with the wood configuration (zero `Surface` template,
`FiltersOut` 1.6, no crunch), not with the one `UpdateSurfaceModifiers(2)` assigns
(`Surface` {20, 0, 3, 20, 5, 0.15, 3, 20}, `FiltersOut` 0.1, crunch on with 200, 50, 20, 4
and `CrunchOut` 0.25). -/
theorem SetSurfaceType_keeps_old_configuration (L : Libm) (r r1 r2 : Rand) :
    (SetSurfaceType (PrepareModel L (new L) 48000 r).1 2).m_SurfaceType = 2 ∧
    (UpdateStepEnvelope L (SetSurfaceType (PrepareModel L (new L) 48000 r).1 2) r1).1.surfaceConfig
      = (⟨0, 0, 0, 0, 0, 0, 0, 0⟩, 16 / 10, false, 0, 0, 0, 0, 0) ∧
    (UpdateSurfaceModifiers L (SetSurfaceType (PrepareModel L (new L) 48000 r).1 2) 2 r2).1.surfaceConfig
      = (⟨20, 0, 3, 20, 5, 15 / 100, 3, 20⟩, 1 / 10, true, 200, 50, 20, 4, 25 / 100) := by
  obtain ⟨h1, _, _, _, _, h6⟩ := PrepareModel_new L r
  have hset : SetSurfaceType (PrepareModel L (new L) 48000 r).1 2
      = { (PrepareModel L (new L) 48000 r).1 with
          m_SurfaceType := 2, m_SurfaceTypeChanged := true } := by
    unfold SetSurfaceType
    rw [if_pos (by rw [h1]; decide)]
  refine ⟨?_, ?_, ?_⟩
  · rw [hset]
  · obtain ⟨_, _, _, _, _, k6, k7, k8, k9, k10, k11, k12, k13⟩ := UpdateStepEnvelope_keeps L
      (SetSurfaceType (PrepareModel L (new L) 48000 r).1 2) r1
    simp only [surfaceConfig, k6, k7, k8, k9, k10, k11, k12, k13]
    rw [hset]
    exact h6
  · have hdirt : ∀ x : Generator, UpdateSurfaceModifiers L x 2 r2 = CrunchLoop L
        { x with CrunchFlag := true
                 Filters := x.Filters.InitialiseFilterBank L (mode 2)
                 FiltersOut := 1 / 10
                 Freq1 := 200, Freq2 := 50, Delay1 := 20, Delay2 := 4
                 CrunchOut := 25 / 100
                 Surface := ⟨20, 0, 3, 20, 5, 15 / 100, 3, 20⟩ } r2 := by
      intro x
      simp [UpdateSurfaceModifiers]
    rw [hdirt, CrunchLoop_surfaceConfig]
    rfl

end Generator

namespace Generator

/-- The blocks of the "Ramp Block" compute a zero step and hand the three ramped members
on unchanged: `...Begin` and `...End` are both read from the member the setter has already
overwritten. -/
theorem ExcuteModel.ramp_blocks (g : Generator) (n : Fin 65536) :
    ((ExcuteModel.clearFlags g).m_Pace = g.m_Pace ∧
     (ExcuteModel.clearFlags g).m_Firmness = g.m_Firmness ∧
     (ExcuteModel.clearFlags g).m_Steadiness = g.m_Steadiness) ∧
    ((ExcuteModel.rampPace g n).2.1 = g.m_Pace ∧
     (ExcuteModel.rampPace g n).2.2.2 = 0 ∧
     (ExcuteModel.rampPace g n).1.m_Firmness = g.m_Firmness ∧
     (ExcuteModel.rampPace g n).1.m_Steadiness = g.m_Steadiness) ∧
    ((ExcuteModel.rampFirmness g n).2.1 = g.m_Firmness ∧
     (ExcuteModel.rampFirmness g n).2.2.2 = 0 ∧
     (ExcuteModel.rampFirmness g n).1.m_Steadiness = g.m_Steadiness) ∧
    ((ExcuteModel.rampSteadiness g n).2.1 = g.m_Steadiness ∧
     (ExcuteModel.rampSteadiness g n).2.2.2 = 0) := by
  refine ⟨?_, ?_, ?_, ?_⟩
  · unfold ExcuteModel.clearFlags
    simp only []
    split_ifs <;> exact ⟨rfl, rfl, rfl⟩
  · unfold ExcuteModel.rampPace
    simp only []
    split_ifs
    · exact ⟨rfl, by simp, rfl, rfl⟩
    · exact ⟨rfl, rfl, rfl, rfl⟩
  · unfold ExcuteModel.rampFirmness
    simp only []
    split_ifs
    · exact ⟨rfl, by simp, rfl⟩
    · exact ⟨rfl, rfl, rfl⟩
  · unfold ExcuteModel.rampSteadiness
    simp only []
    split_ifs
    · exact ⟨rfl, by simp⟩
    · exact ⟨rfl, rfl⟩

/-- The ramp block as a whole: the `...Begin` locals are the current members and the
steps are zero. -/
theorem ExcuteModel.rampBlock_flat (g : Generator) (n : Fin 65536) (r : Rand) :
    (ExcuteModel.rampBlock g n r).m_PaceBegin = g.m_Pace ∧
    (ExcuteModel.rampBlock g n r).m_PaceStep = 0 ∧
    (ExcuteModel.rampBlock g n r).m_FirmnessBegin = g.m_Firmness ∧
    (ExcuteModel.rampBlock g n r).m_FirmnessStep = 0 ∧
    (ExcuteModel.rampBlock g n r).m_SteadinessBegin = g.m_Steadiness ∧
    (ExcuteModel.rampBlock g n r).m_SteadinessStep = 0 := by
  have c := (ExcuteModel.ramp_blocks g n).1
  have p := (ExcuteModel.ramp_blocks (ExcuteModel.clearFlags g) n).2.1
  have f := (ExcuteModel.ramp_blocks
    (ExcuteModel.rampPace (ExcuteModel.clearFlags g) n).1 n).2.2.1
  have s := (ExcuteModel.ramp_blocks (ExcuteModel.rampFirmness
    (ExcuteModel.rampPace (ExcuteModel.clearFlags g) n).1 n).1 n).2.2.2
  refine ⟨?_, ?_, ?_, ?_, ?_, ?_⟩
  · show (ExcuteModel.rampPace (ExcuteModel.clearFlags g) n).2.1 = _
    rw [p.1, c.1]
  · exact p.2.1
  · show (ExcuteModel.rampFirmness _ n).2.1 = _
    rw [f.1, p.2.2.1, c.2.1]
  · exact f.2.1
  · show (ExcuteModel.rampSteadiness _ n).2.1 = _
    rw [s.1, f.2.2, p.2.2.2, c.2.2]
  · exact s.2

/-- Each round of the output loop adds the steps to the `...Begin` locals and keeps the
steps. -/
theorem ExcuteModel.iterate_body (L : Libm) (s : ExcuteLocals) (k : Nat) :
    ((ExcuteModel.body L)^[k] s).m_PaceStep = s.m_PaceStep ∧
    ((ExcuteModel.body L)^[k] s).m_FirmnessStep = s.m_FirmnessStep ∧
    ((ExcuteModel.body L)^[k] s).m_SteadinessStep = s.m_SteadinessStep ∧
    ((ExcuteModel.body L)^[k] s).m_PaceBegin = s.m_PaceBegin + k * s.m_PaceStep ∧
    ((ExcuteModel.body L)^[k] s).m_FirmnessBegin = s.m_FirmnessBegin + k * s.m_FirmnessStep ∧
    ((ExcuteModel.body L)^[k] s).m_SteadinessBegin
      = s.m_SteadinessBegin + k * s.m_SteadinessStep := by
  induction k with
  | zero => simp
  | succ k ih =>
    obtain ⟨h1, h2, h3, h4, h5, h6⟩ := ih
    rw [Function.iterate_succ_apply']
    refine ⟨h1, h2, h3, ?_, ?_, ?_⟩
    · show _ + _ = _
      rw [h4, h1]; push_cast; ring
    · show _ + _ = _
      rw [h5, h2]; push_cast; ring
    · show _ + _ = _
      rw [h6, h3]; push_cast; ring

/-- The output loop of `ExcuteModel` is `in_uValidFrames` rounds of its body. -/
theorem ExcuteModel.loop_eq_iterate (L : Libm) (n : Fin 65536) :
    ∀ (fuel : Nat) (s : ExcuteLocals), s.uFramesProduced + fuel = n.val →
      ExcuteModel.loop L n fuel s = (ExcuteModel.body L)^[fuel] s := by
  intro fuel
  induction fuel with
  | zero => intro s _; rfl
  | succ fuel ih =>
    intro s hs
    have hn := n.isLt
    have hlt : s.uFramesProduced < n.val := by omega
    have hcnt : (ExcuteModel.body L s).uFramesProduced = s.uFramesProduced + 1 := by
      simp only [ExcuteModel.body]
      exact Nat.mod_eq_of_lt (by omega)
    simp only [ExcuteModel.loop, hlt, if_true, Function.iterate_succ_apply]
    exact ih _ (by rw [hcnt]; omega)

/-- On a generator with a positive sample rate, a value handed to `SetPace`,
`SetFirmness` or `SetSteadiness` is in effect, unramped, in every round of the output
loop of the next `ExcuteModel`. -/
theorem ExcuteModel.setter_in_effect (L : Libm) (g : Generator) (hsr : g.m_sampleRate > 0)
    (v : ℚ) (r1 : Rand) (n : Fin 65536) (k : Nat) :
    (ExcuteModel.atSample ((ExcuteModel.body L)^[k]
      (ExcuteModel.rampBlock (SetPace g v) n r1))).m_Pace = v ∧
    (ExcuteModel.atSample ((ExcuteModel.body L)^[k]
      (ExcuteModel.rampBlock (SetFirmness g v) n r1))).m_Firmness = 1 - v ∧
    (ExcuteModel.atSample ((ExcuteModel.body L)^[k]
      (ExcuteModel.rampBlock (SetSteadiness g v) n r1))).m_Steadiness = v := by
  refine ⟨?_, ?_, ?_⟩
  · obtain ⟨_, _, _, i4, _, _⟩ := ExcuteModel.iterate_body L
      (ExcuteModel.rampBlock (SetPace g v) n r1) k
    obtain ⟨f1, f2, _, _, _, _⟩ := ExcuteModel.rampBlock_flat (SetPace g v) n r1
    show ((ExcuteModel.body L)^[k] _).m_PaceBegin = _
    rw [i4, f1, f2, mul_zero, add_zero]
    unfold SetPace
    rw [if_pos hsr]
    exact (PrepareModel.blocks_keep L _ _ 0 0).1.2.2.2.1
  · obtain ⟨_, _, _, _, i5, _⟩ := ExcuteModel.iterate_body L
      (ExcuteModel.rampBlock (SetFirmness g v) n r1) k
    obtain ⟨_, _, f3, f4, _, _⟩ := ExcuteModel.rampBlock_flat (SetFirmness g v) n r1
    show ((ExcuteModel.body L)^[k] _).m_FirmnessBegin = _
    rw [i5, f3, f4, mul_zero, add_zero]
    unfold SetFirmness
    rw [if_pos hsr]
  · obtain ⟨_, _, _, _, _, i6⟩ := ExcuteModel.iterate_body L
      (ExcuteModel.rampBlock (SetSteadiness g v) n r1) k
    obtain ⟨_, _, _, _, f5, f6⟩ := ExcuteModel.rampBlock_flat (SetSteadiness g v) n r1
    show ((ExcuteModel.body L)^[k] _).m_SteadinessBegin = _
    rw [i6, f5, f6, mul_zero, add_zero]
    unfold SetSteadiness
    rw [if_pos hsr]

/-- C2, evaluated on the generator prepared at 48 kHz (pace 82, firmness 0.3, steadiness
0.1): after `SetPace(100)` every round `k` of the output loop of `ExcuteModel`, whatever
the frame count `n`, produces its sample with pace 100, not 82 + k*(100 - 82)/n; likewise
after `SetFirmness(0.5)` the firmness in effect is 0.5 throughout, not a ramp from 0.3,
and after `SetSteadiness(0.5)` the steadiness is 0.5 throughout, not a ramp from 0.1. -/
theorem ExcuteModel_applies_no_ramp (L : Libm) (r r1 : Rand) (n : Fin 65536) (k : Nat) :
    (PrepareModel L (new L) 48000 r).1.m_Pace = 82 ∧
    (PrepareModel L (new L) 48000 r).1.m_Firmness = 3 / 10 ∧
    (PrepareModel L (new L) 48000 r).1.m_Steadiness = 1 / 10 ∧
    (ExcuteModel.atSample ((ExcuteModel.body L)^[k]
      (ExcuteModel.rampBlock (SetPace (PrepareModel L (new L) 48000 r).1 100) n r1))).m_Pace
      = 100 ∧
    (ExcuteModel.atSample ((ExcuteModel.body L)^[k]
      (ExcuteModel.rampBlock (SetFirmness (PrepareModel L (new L) 48000 r).1 (1 / 2)) n
        r1))).m_Firmness = 1 / 2 ∧
    (ExcuteModel.atSample ((ExcuteModel.body L)^[k]
      (ExcuteModel.rampBlock (SetSteadiness (PrepareModel L (new L) 48000 r).1 (1 / 2)) n
        r1))).m_Steadiness = 1 / 2 := by
  obtain ⟨h1, _, h3, h4, h5, _⟩ := PrepareModel_new L r
  have hsr : (PrepareModel L (new L) 48000 r).1.m_sampleRate > 0 := by rw [h1]; decide
  generalize (PrepareModel L (new L) 48000 r).1 = g0 at *
  refine ⟨h3, h4, h5, (ExcuteModel.setter_in_effect L g0 hsr 100 r1 n k).1, ?_,
    (ExcuteModel.setter_in_effect L g0 hsr (1 / 2) r1 n k).2.2⟩
  rw [(ExcuteModel.setter_in_effect L g0 hsr (1 / 2) r1 n k).2.1]
  norm_num

end Generator

/-! ## Curve envelope -/

namespace nemlib

namespace CurveEnvelope

/-- One `GetNextEnvelopePoint` call of a started single-duration envelope whose counter
`k` is on a segment (`1 ≤ k ≤ N - 1`), spelled out by cases: position not beyond the
boundary; beyond it with a further segment to enter; beyond the last boundary. -/
theorem GetNextEnvelopePoint_single (s : CurveEnvelope) (N k : Nat)
    (hst : s.HasStarted = true) (hmode : s.Times = []) (hN : s.NumOfValues = (N : Int))
    (hc : s.Counter = (k : Int)) (hk1 : 1 ≤ k) (hkN : k ≤ N - 1) (hN2 : 2 ≤ N) :
    GetNextEnvelopePoint s =
      if s.EnvPos ≤ s.Boundary then
        (s.Values.getD k 0 + (s.EnvPos - s.Boundary) * (N : ℚ)
            * (s.Values.getD k 0 - s.Values.getD (k - 1) 0) / s.Time,
         { s with EnvPos := if s.EnvPos ≤ s.Time then s.EnvPos + s.EnvPosInc else s.EnvPos })
      else if k + 1 ≤ N - 1 then
        (s.Values.getD (k + 1) 0 + (s.EnvPos - (s.Boundary + s.Time / (N : ℚ))) * (N : ℚ)
            * (s.Values.getD (k + 1) 0 - s.Values.getD k 0) / s.Time,
         { s with EnvPos := if s.EnvPos ≤ s.Time then s.EnvPos + s.EnvPosInc else s.EnvPos
                  Counter := ((k + 1 : Nat) : Int)
                  Boundary := s.Boundary + s.Time / (N : ℚ) })
      else
        (back s.Values,
         { s with EnvPos := if s.EnvPos ≤ s.Time then s.EnvPos + s.EnvPosInc else s.EnvPos
                  Counter := ((k + 1 : Nat) : Int)
                  Boundary := s.Boundary + s.Time / (N : ℚ) }) := by
  obtain ⟨V, T, Ts, p, inc, b, st, Nv, ctr, sr⟩ := s
  simp only at hst hmode hN hc
  subst hst hmode hN hc
  have hk : ((k : Int) ≤ (N : Int) - 1) := by omega
  have hkm : vecGet V ((k : Int) - 1) = V.getD (k - 1) 0 := by
    rw [show ((k : Int) - 1) = ((k - 1 : Nat) : Int) by omega, vecGet_natCast]
  have hkp : vecGet V ((k : Int) + 1) = V.getD (k + 1) 0 := by
    rw [show ((k : Int) + 1) = ((k + 1 : Nat) : Int) by omega, vecGet_natCast]
  simp only [GetNextEnvelopePoint, List.isEmpty_nil, if_true, hk, Int.cast_natCast]
  by_cases h1 : p ≤ b
  · simp only [h1, if_true, vecGet_natCast, hkm]
    split_ifs <;> rfl
  · simp only [h1, if_false]
    by_cases h2 : k + 1 ≤ N - 1
    · have h2i : ((k : Int) + 1 ≤ (N : Int) - 1) := by omega
      simp only [h2, h2i, if_true, add_sub_cancel_right, vecGet_natCast, hkp]
      split_ifs <;> simp
    · have h2i : ¬ ((k : Int) + 1 ≤ (N : Int) - 1) := by omega
      simp only [h2, h2i, if_false]
      split_ifs <;> simp

/-- A started envelope whose counter has left the last segment returns the last value
and does not change, in either mode. -/
theorem GetNextEnvelopePoint_finished (c : CurveEnvelope) (hst : c.HasStarted = true)
    (hc : ¬ (c.Counter ≤ c.NumOfValues - 1)) :
    GetNextEnvelopePoint c = (back c.Values, c) := by
  unfold GetNextEnvelopePoint
  simp only [hst, hc, if_true, if_false]
  split_ifs <;> rfl

/-- The trace of a single-duration envelope whose segments last at least one sample.
After `j` calls following `ResetEnvelope` the envelope is either on a segment `k`, with
the position at `j` samples, at most one sample beyond the boundary `k * Time / N` and
beyond the previous boundary (or at the start), or it has left the last segment, the
position having passed `(N - 1) * Time / N`. -/
theorem single_trace (c : CurveEnvelope) (N : Nat)
    (hmode : c.Times = []) (hN : c.NumOfValues = (N : Int)) (hN2 : 2 ≤ N)
    (hinc : 0 < c.EnvPosInc) (hseg : c.EnvPosInc ≤ c.Time / (N : ℚ)) :
    ∀ j : Nat,
      (∃ k : Nat, 1 ≤ k ∧ k ≤ N - 1 ∧
        calls j c.ResetEnvelope = { c with HasStarted := true, EnvPos := (j : ℚ) * c.EnvPosInc
                                           Counter := (k : Int)
                                           Boundary := (k : ℚ) * (c.Time / (N : ℚ)) } ∧
        (j : ℚ) * c.EnvPosInc ≤ (k : ℚ) * (c.Time / (N : ℚ)) + c.EnvPosInc ∧
        ((j = 0 ∧ k = 1) ∨ ((k : ℚ) - 1) * (c.Time / (N : ℚ)) < (j : ℚ) * c.EnvPosInc)) ∨
      (∃ p b : ℚ,
        calls j c.ResetEnvelope = { c with HasStarted := true, EnvPos := p
                                           Counter := (N : Int), Boundary := b } ∧
        ((N : ℚ) - 1) * (c.Time / (N : ℚ)) < (j : ℚ) * c.EnvPosInc) := by
  have hsegpos : 0 < c.Time / (N : ℚ) := lt_of_lt_of_le hinc hseg
  have hNq : (0 : ℚ) < (N : ℚ) := by exact_mod_cast (by omega : 0 < N)
  have hT : c.Time = (N : ℚ) * (c.Time / (N : ℚ)) := by field_simp
  intro j
  induction j with
  | zero =>
    left
    refine ⟨1, le_refl 1, by omega, ?_, ?_, Or.inl ⟨rfl, rfl⟩⟩
    · simp [calls, ResetEnvelope, hmode, hN]
    · simp only [Nat.cast_zero, zero_mul, Nat.cast_one, one_mul]
      linarith
  | succ j ih =>
    rcases ih with ⟨k, hk1, hkN, hstate, hhi, hlo⟩ | ⟨p, b, hstate, hpast⟩
    · have hkq : (k : ℚ) + 1 ≤ (N : ℚ) := by
        exact_mod_cast (by omega : k + 1 ≤ N)
      have hstep := GetNextEnvelopePoint_single (calls j c.ResetEnvelope) N k
        (by rw [hstate]) (by rw [hstate]; exact hmode) (by rw [hstate]; exact hN)
        (by rw [hstate]) hk1 hkN hN2
      have hcalls : calls (j + 1) c.ResetEnvelope
          = (GetNextEnvelopePoint (calls j c.ResetEnvelope)).2 := rfl
      have hp : (calls j c.ResetEnvelope).EnvPos = (j : ℚ) * c.EnvPosInc := by rw [hstate]
      have hb : (calls j c.ResetEnvelope).Boundary = (k : ℚ) * (c.Time / (N : ℚ)) := by
        rw [hstate]
      have ht : (calls j c.ResetEnvelope).Time = c.Time := by rw [hstate]
      have hi : (calls j c.ResetEnvelope).EnvPosInc = c.EnvPosInc := by rw [hstate]
      rw [hcalls, hstep, hp, hb, ht, hi]
      by_cases h1 : (j : ℚ) * c.EnvPosInc ≤ (k : ℚ) * (c.Time / (N : ℚ))
      · have hadv : (j : ℚ) * c.EnvPosInc ≤ c.Time := by
          rw [hT]; nlinarith
        left
        refine ⟨k, hk1, hkN, ?_, ?_, ?_⟩
        · rw [if_pos h1, if_pos hadv, hstate]
          show CurveEnvelope.mk _ _ _ _ _ _ _ _ _ _ = CurveEnvelope.mk _ _ _ _ _ _ _ _ _ _
          congr 1
          push_cast; ring
        · push_cast; linarith
        · right
          rcases hlo with ⟨hj, hk⟩ | hlo
          · subst hj; subst hk
            simp only [Nat.cast_one, sub_self, zero_mul, Nat.zero_add, one_mul]
            exact hinc
          · push_cast; linarith
      · have h1' : (k : ℚ) * (c.Time / (N : ℚ)) < (j : ℚ) * c.EnvPosInc := not_le.mp h1
        by_cases h2 : k + 1 ≤ N - 1
        · have hk2 : (k : ℚ) + 1 + 1 ≤ (N : ℚ) := by
            exact_mod_cast (by omega : k + 1 + 1 ≤ N)
          have hadv : (j : ℚ) * c.EnvPosInc ≤ c.Time := by
            rw [hT]; nlinarith
          left
          refine ⟨k + 1, by omega, h2, ?_, ?_, ?_⟩
          · rw [if_neg h1, if_pos h2, if_pos hadv, hstate]
            show CurveEnvelope.mk _ _ _ _ _ _ _ _ _ _ = CurveEnvelope.mk _ _ _ _ _ _ _ _ _ _
            congr 1
            · push_cast; ring
            · push_cast; ring
          · push_cast; linarith
          · right; push_cast; linarith
        · right
          have hkeq : k + 1 = N := by omega
          refine ⟨if (j : ℚ) * c.EnvPosInc ≤ c.Time then (j : ℚ) * c.EnvPosInc + c.EnvPosInc
              else (j : ℚ) * c.EnvPosInc,
            (k : ℚ) * (c.Time / (N : ℚ)) + c.Time / (N : ℚ), ?_, ?_⟩
          · rw [if_neg h1, if_neg h2, hstate, hkeq]
          · have : (k : ℚ) = (N : ℚ) - 1 := by
              have : ((k + 1 : Nat) : ℚ) = (N : ℚ) := by rw [hkeq]
              push_cast at this; linarith
            rw [← this]; push_cast; linarith
    · right
      have hfin := GetNextEnvelopePoint_finished (calls j c.ResetEnvelope) (by rw [hstate])
        (by rw [hstate]; show ¬ ((N : Int) ≤ c.NumOfValues - 1); rw [hN]; omega)
      refine ⟨p, b, ?_, ?_⟩
      · show (GetNextEnvelopePoint (calls j c.ResetEnvelope)).2 = _
        rw [hfin, hstate]
      · push_cast; linarith

end CurveEnvelope

end nemlib

namespace nemlib

namespace CurveEnvelope

/-- Single-duration mode with segments of at least one sample: the call made at position
`j` samples, lying on segment `k` (beyond boundary `k - 1`, not beyond boundary `k`),
returns the linear interpolation that reaches `Values[k]` at `k * Time / N`. -/
theorem single_interpolation (c : CurveEnvelope) (N : Nat)
    (hmode : c.Times = []) (hN : c.NumOfValues = (N : Int)) (hN2 : 2 ≤ N)
    (hinc : 0 < c.EnvPosInc) (hseg : c.EnvPosInc ≤ c.Time / (N : ℚ))
    (j k : Nat) (hk1 : 1 ≤ k) (hkN : k ≤ N - 1)
    (hhi : (j : ℚ) * c.EnvPosInc ≤ (k : ℚ) * (c.Time / (N : ℚ)))
    (hlo : (j = 0 ∧ k = 1) ∨ ((k : ℚ) - 1) * (c.Time / (N : ℚ)) < (j : ℚ) * c.EnvPosInc) :
    (calls j c.ResetEnvelope).EnvPos = (j : ℚ) * c.EnvPosInc ∧
    (GetNextEnvelopePoint (calls j c.ResetEnvelope)).1
      = c.Values.getD k 0 + ((j : ℚ) * c.EnvPosInc - (k : ℚ) * (c.Time / (N : ℚ))) * (N : ℚ)
          * (c.Values.getD k 0 - c.Values.getD (k - 1) 0) / c.Time := by
  have hsegpos : 0 < c.Time / (N : ℚ) := lt_of_lt_of_le hinc hseg
  have hkq : (k : ℚ) + 1 ≤ (N : ℚ) := by exact_mod_cast (by omega : k + 1 ≤ N)
  have hk1q : (1 : ℚ) ≤ (k : ℚ) := by exact_mod_cast hk1
  rcases single_trace c N hmode hN hN2 hinc hseg j with
    ⟨ks, hs1, hsN, hstate, hshi, hslo⟩ | ⟨p, b, hstate, hpast⟩
  · have hs1q : (1 : ℚ) ≤ (ks : ℚ) := by exact_mod_cast hs1
    have hstep := GetNextEnvelopePoint_single (calls j c.ResetEnvelope) N ks
      (by rw [hstate]) (by rw [hstate]; exact hmode) (by rw [hstate]; exact hN)
      (by rw [hstate]) hs1 hsN hN2
    have hp : (calls j c.ResetEnvelope).EnvPos = (j : ℚ) * c.EnvPosInc := by rw [hstate]
    have hb : (calls j c.ResetEnvelope).Boundary = (ks : ℚ) * (c.Time / (N : ℚ)) := by
      rw [hstate]
    have ht : (calls j c.ResetEnvelope).Time = c.Time := by rw [hstate]
    have hv : (calls j c.ResetEnvelope).Values = c.Values := by rw [hstate]
    refine ⟨hp, ?_⟩
    rw [hstep, hp, hb, ht, hv]
    by_cases h1 : (j : ℚ) * c.EnvPosInc ≤ (ks : ℚ) * (c.Time / (N : ℚ))
    · have hle1 : ks ≤ k := by
        rcases hslo with ⟨_, hk⟩ | hslo
        · omega
        · have : ((ks : ℚ) - 1) * (c.Time / (N : ℚ)) < (k : ℚ) * (c.Time / (N : ℚ)) := by
            linarith
          have h2 : (ks : ℚ) - 1 < (k : ℚ) := lt_of_mul_lt_mul_right this hsegpos.le
          have h3 : (ks : ℚ) < (k : ℚ) + 1 := by linarith
          have : ks < k + 1 := by exact_mod_cast h3
          omega
      have hle2 : k ≤ ks := by
        rcases hlo with ⟨_, hk⟩ | hlo
        · omega
        · have : ((k : ℚ) - 1) * (c.Time / (N : ℚ)) < (ks : ℚ) * (c.Time / (N : ℚ)) := by
            linarith
          have h2 : (k : ℚ) - 1 < (ks : ℚ) := lt_of_mul_lt_mul_right this hsegpos.le
          have h3 : (k : ℚ) < (ks : ℚ) + 1 := by linarith
          have : k < ks + 1 := by exact_mod_cast h3
          omega
      have hks : ks = k := by omega
      subst hks
      rw [if_pos h1]
    · have h1' : (ks : ℚ) * (c.Time / (N : ℚ)) < (j : ℚ) * c.EnvPosInc := not_le.mp h1
      have hlt : ks < k := by
        have : (ks : ℚ) * (c.Time / (N : ℚ)) < (k : ℚ) * (c.Time / (N : ℚ)) := by linarith
        have h2 : (ks : ℚ) < (k : ℚ) := lt_of_mul_lt_mul_right this hsegpos.le
        exact_mod_cast h2
      have hle : k ≤ ks + 1 := by
        rcases hlo with ⟨hj, _⟩ | hlo
        · omega
        · have : ((k : ℚ) - 1) * (c.Time / (N : ℚ))
              < ((ks : ℚ) + 1) * (c.Time / (N : ℚ)) := by nlinarith
          have h2 : (k : ℚ) - 1 < (ks : ℚ) + 1 := lt_of_mul_lt_mul_right this hsegpos.le
          have h3 : (k : ℚ) < (ks : ℚ) + 1 + 1 := by linarith
          have : k < ks + 1 + 1 := by exact_mod_cast h3
          omega
      have hks : k = ks + 1 := by omega
      subst hks
      rw [if_neg h1, if_pos hkN]
      simp only [Nat.add_sub_cancel]
      push_cast
      ring
  · exfalso
    have : (k : ℚ) * (c.Time / (N : ℚ)) ≤ ((N : ℚ) - 1) * (c.Time / (N : ℚ)) :=
      mul_le_mul_of_nonneg_right (by linarith) hsegpos.le
    linarith

end CurveEnvelope

end nemlib

namespace nemlib

namespace CurveEnvelope

/-- The envelope built by `CurveEnvelope(4, {0, 1, 0}, 6.0f)`. -/
theorem new_4_6 :
    (new 4 [0, 1, 0] 6).Times = [] ∧ (new 4 [0, 1, 0] 6).NumOfValues = ((3 : Nat) : Int) ∧
    (new 4 [0, 1, 0] 6).Time = 6 ∧ (new 4 [0, 1, 0] 6).EnvPosInc = 1 / 4 ∧
    (new 4 [0, 1, 0] 6).Values = [0, 1, 0] := by
  refine ⟨rfl, ?_, ?_, ?_, ?_⟩
  · simp [new]
  · have h : Int.tdiv 3 4 = 0 := by decide
    simp [new, h]
  · norm_num [new]
  · simp [new]

/-- C7 as amended: in single-duration mode, with `N ≥ 2` values and segments of at least
one sample, the code walks `N - 1` equal segments of duration `Time / N`: whenever the
position `j / SampleRate` of a call after `ResetEnvelope` equals `k * Time / N` for some
`k` in `0 .. N - 1`, that call returns `Values[k]`; the final value is reached at
`(N - 1) * Time / N`. -/
theorem single_duration_breakpoints (c : CurveEnvelope) (N : Nat)
    (hmode : c.Times = []) (hN : c.NumOfValues = (N : Int)) (hN2 : 2 ≤ N)
    (hinc : 0 < c.EnvPosInc) (hseg : c.EnvPosInc ≤ c.Time / (N : ℚ))
    (j k : Nat) (hk : k ≤ N - 1)
    (hpos : (j : ℚ) * c.EnvPosInc = (k : ℚ) * (c.Time / (N : ℚ))) :
    (calls j c.ResetEnvelope).EnvPos = (k : ℚ) * (c.Time / (N : ℚ)) ∧
    (GetNextEnvelopePoint (calls j c.ResetEnvelope)).1 = c.Values.getD k 0 := by
  have hsegpos : 0 < c.Time / (N : ℚ) := lt_of_lt_of_le hinc hseg
  have hNq : (0 : ℚ) < (N : ℚ) := by exact_mod_cast (by omega : 0 < N)
  have hTpos : 0 < c.Time := by
    have := mul_pos hNq hsegpos
    rwa [mul_div_cancel₀ _ hNq.ne'] at this
  rcases Nat.eq_zero_or_pos k with hk0 | hkpos
  · subst hk0
    have hj : j = 0 := by
      rw [Nat.cast_zero, zero_mul] at hpos
      rcases mul_eq_zero.mp hpos with h | h
      · exact_mod_cast h
      · exact absurd h hinc.ne'
    subst hj
    obtain ⟨h1, h2⟩ := single_interpolation c N hmode hN hN2 hinc hseg 0 1 (le_refl 1)
      (by omega) (by simp only [Nat.cast_zero, zero_mul, Nat.cast_one, one_mul]; exact hsegpos.le)
      (Or.inl ⟨rfl, rfl⟩)
    refine ⟨by rw [h1]; simp, ?_⟩
    rw [h2]
    simp only [Nat.cast_zero, zero_mul, Nat.cast_one, one_mul, Nat.sub_self]
    field_simp
    ring
  · obtain ⟨h1, h2⟩ := single_interpolation c N hmode hN hN2 hinc hseg j k hkpos hk
      hpos.le (Or.inr (by rw [hpos]; nlinarith))
    refine ⟨by rw [h1, hpos], ?_⟩
    rw [h2, hpos]
    simp

/-- C7 as amended, at `CurveEnvelope(4, {0, 1, 0}, 6.0f)`: the segments last 6/3 = 2 s, and
the call at position 2 s (call 8) returns `Values[1] = 1`. -/
theorem single_duration_breakpoints_witness :
    (calls 8 (new 4 [0, 1, 0] 6).ResetEnvelope).EnvPos = 2 ∧
    (GetNextEnvelopePoint (calls 8 (new 4 [0, 1, 0] 6).ResetEnvelope)).1 = 1 := by
  obtain ⟨h1, h2, h3, h4, h5⟩ := new_4_6
  have h := single_duration_breakpoints (new 4 [0, 1, 0] 6) 3 h1 h2 (by decide)
    (by rw [h4]; norm_num) (by rw [h3, h4]; norm_num) 8 1 (by decide)
    (by rw [h3, h4]; norm_num)
  rw [h3, h5] at h
  refine ⟨by rw [h.1]; norm_num, by rw [h.2]; rfl⟩

/-- C7 as stated fails at `CurveEnvelope(4, {0, 1, 0}, 6.0f)` (`N = 3`, `T = 6`): at
position `1 * T / (N - 1) = 3` s (call 12) the envelope returns 1/2, not `Values[1] = 1`. -/
theorem single_duration_not_N_minus_1_segments :
    (new 4 [0, 1, 0] 6).Time = 6 ∧ (new 4 [0, 1, 0] 6).NumOfValues = 3 ∧
    (calls 12 (new 4 [0, 1, 0] 6).ResetEnvelope).EnvPos = 1 * (6 / (3 - 1)) ∧
    (GetNextEnvelopePoint (calls 12 (new 4 [0, 1, 0] 6).ResetEnvelope)).1 = 1 / 2 ∧
    (new 4 [0, 1, 0] 6).Values.getD 1 0 = 1 := by
  obtain ⟨h1, h2, h3, h4, h5⟩ := new_4_6
  have h := single_interpolation (new 4 [0, 1, 0] 6) 3 h1 h2 (by decide)
    (by rw [h4]; norm_num) (by rw [h3, h4]; norm_num) 12 2 (by decide) (by decide)
    (by rw [h3, h4]; norm_num) (Or.inr (by rw [h3, h4]; norm_num))
  rw [h3, h4, h5] at h
  refine ⟨h3, h2, by rw [h.1]; norm_num, ?_, by rw [h5]; rfl⟩
  rw [h.2]
  norm_num

end CurveEnvelope

end nemlib

namespace nemlib

namespace CurveEnvelope

/-- C9 as stated fails for `SetValues`: on `CurveEnvelope(4, {0, 1, 0}, 6.0f)`, reset and
advanced by one call, the position is 1/4 and `SetValues` puts it back to 0; on the
freshly built envelope, not yet started, `SetValues` sets `HasStarted`. -/
theorem SetValues_resets_position :
    (calls 1 (new 4 [0, 1, 0] 6).ResetEnvelope).EnvPos = 1 / 4 ∧
    ((calls 1 (new 4 [0, 1, 0] 6).ResetEnvelope).SetValues [0, 1, 0]).EnvPos = 0 ∧
    (new 4 [0, 1, 0] 6).HasStarted = false ∧
    ((new 4 [0, 1, 0] 6).SetValues [0, 1, 0]).HasStarted = true := by
  obtain ⟨h1, h2, h3, h4, _⟩ := new_4_6
  have h := single_interpolation (new 4 [0, 1, 0] 6) 3 h1 h2 (by decide)
    (by rw [h4]; norm_num) (by rw [h3, h4]; norm_num) 1 1 (by decide) (by decide)
    (by rw [h3, h4]; norm_num) (Or.inr (by rw [h3, h4]; norm_num))
  refine ⟨by rw [h.1, h4]; norm_num, rfl, rfl, rfl⟩

/-- C9 as amended: `SetTimes` and `SetTime` leave `EnvPos`, `Counter`, `Boundary` and
`HasStarted` as they are; `SetValues` ends with a call of `ResetEnvelope`, so after it the
position is 0, the counter is 1, the envelope is started, the boundary is that of the
first segment, and a further `ResetEnvelope` changes nothing. -/
theorem setters_and_running_position (c : CurveEnvelope) (InValues InTimes : List ℚ)
    (InTime : ℚ) :
    ((c.SetTimes InTimes).EnvPos = c.EnvPos ∧ (c.SetTimes InTimes).Counter = c.Counter ∧
      (c.SetTimes InTimes).Boundary = c.Boundary ∧
      (c.SetTimes InTimes).HasStarted = c.HasStarted) ∧
    ((c.SetTime InTime).EnvPos = c.EnvPos ∧ (c.SetTime InTime).Counter = c.Counter ∧
      (c.SetTime InTime).Boundary = c.Boundary ∧
      (c.SetTime InTime).HasStarted = c.HasStarted) ∧
    ((c.SetValues InValues).EnvPos = 0 ∧ (c.SetValues InValues).Counter = 1 ∧
      (c.SetValues InValues).HasStarted = true ∧
      (c.SetValues InValues).Boundary
        = (if (c.SetValues InValues).Times.isEmpty
            then (c.SetValues InValues).Time / ((c.SetValues InValues).NumOfValues : ℚ)
            else vecGet (c.SetValues InValues).Times 0) ∧
      (c.SetValues InValues).ResetEnvelope = c.SetValues InValues) := by
  refine ⟨?_, ⟨rfl, rfl, rfl, rfl⟩, ⟨rfl, rfl, rfl, rfl, rfl⟩⟩
  unfold SetTimes
  split_ifs <;> exact ⟨rfl, rfl, rfl, rfl⟩

end CurveEnvelope

end nemlib

namespace nemlib

namespace CurveEnvelope

/-- One `GetNextEnvelopePoint` call of a started per-segment envelope whose counter `k` is
on a segment (`1 ≤ k ≤ N - 1`): the envelope afterwards, and the returned value when
the position is beyond the last boundary. -/
theorem GetNextEnvelopePoint_segments (s : CurveEnvelope) (N k : Nat)
    (hst : s.HasStarted = true) (hmode : s.Times ≠ []) (hN : s.NumOfValues = (N : Int))
    (hc : s.Counter = (k : Int)) (hk1 : 1 ≤ k) (hkN : k ≤ N - 1) (hN2 : 2 ≤ N) :
    (GetNextEnvelopePoint s).2 =
      (if s.EnvPos ≤ s.Boundary then
        { s with EnvPos := if s.EnvPos ≤ s.Time then s.EnvPos + s.EnvPosInc else s.EnvPos }
      else
        { s with EnvPos := if s.EnvPos ≤ s.Time then s.EnvPos + s.EnvPosInc else s.EnvPos
                 Counter := ((k + 1 : Nat) : Int)
                 Boundary := s.Boundary + s.Times.getD k 0 }) ∧
    (¬ s.EnvPos ≤ s.Boundary → ¬ k + 1 ≤ N - 1 →
      (GetNextEnvelopePoint s).1 = back s.Values) := by
  obtain ⟨V, T, Ts, p, inc, b, st, Nv, ctr, sr⟩ := s
  simp only at hst hmode hN hc
  subst hst hN hc
  have hk : ((k : Int) ≤ (N : Int) - 1) := by omega
  have hemp : Ts.isEmpty = false := by
    cases Ts with
    | nil => exact absurd rfl hmode
    | cons a l => rfl
  have hkp : vecGet Ts ((k : Int) + 1 - 1) = Ts.getD k 0 := by
    rw [show ((k : Int) + 1 - 1) = ((k : Nat) : Int) by omega, vecGet_natCast]
  simp only [GetNextEnvelopePoint, hemp, if_true, hk, Bool.false_eq_true, if_false]
  by_cases h1 : p ≤ b
  · simp only [h1, if_true, not_true_eq_false, false_implies, and_true]
    split_ifs <;> rfl
  · simp only [h1, if_false, not_false_eq_true, true_implies]
    by_cases h2 : k + 1 ≤ N - 1
    · have h2i : ((k : Int) + 1 ≤ (N : Int) - 1) := by omega
      simp only [h2, h2i, if_true, hkp, not_true_eq_false, false_implies, and_true]
      split_ifs <;> simp
    · have h2i : ¬ ((k : Int) + 1 ≤ (N : Int) - 1) := by omega
      simp only [h2, h2i, if_false, hkp, not_false_eq_true, true_implies]
      split_ifs <;> simp

/-- Once the counter has left the last segment the envelope stays as it is. -/
theorem calls_finished (c : CurveEnvelope) (j : Nat)
    (hst : (calls j c).HasStarted = true)
    (hfin : ¬ ((calls j c).Counter ≤ (calls j c).NumOfValues - 1)) :
    ∀ i : Nat, j ≤ i → calls i c = calls j c := by
  intro i hi
  induction i with
  | zero =>
    have : j = 0 := by omega
    rw [this]
  | succ i ih =>
    rcases Nat.eq_or_lt_of_le hi with h | h
    · rw [h]
    · have hprev := ih (by omega)
      show (GetNextEnvelopePoint (calls i c)).2 = _
      rw [hprev, GetNextEnvelopePoint_finished _ hst hfin]

/-- Durations of at least one sample add up to at least their number of samples. -/
theorem length_mul_le_sum (inc : ℚ) (l : List ℚ) (h : ∀ t ∈ l, inc ≤ t) :
    (l.length : ℚ) * inc ≤ l.sum := by
  induction l with
  | nil => simp
  | cons a l ih =>
    have h1 := h a (List.mem_cons_self a l)
    have h2 := ih (fun t ht => h t (List.mem_cons_of_mem a ht))
    simp only [List.length_cons, List.sum_cons]
    push_cast
    linarith

/-- The trace of a per-segment envelope whose segments last at least one sample.  After
`j` calls following `ResetEnvelope` the envelope is either on a segment `k`, with the
boundary at the end of that segment and the position at most one sample beyond it, or it
has left the last segment. -/
theorem segments_trace (c : CurveEnvelope) (N : Nat)
    (hN : c.NumOfValues = (N : Int)) (hN2 : 2 ≤ N) (hinc : 0 < c.EnvPosInc)
    (hlen : c.Times.length = N - 1) (hdur : ∀ t ∈ c.Times, c.EnvPosInc ≤ t) :
    ∀ j : Nat,
      (∃ (k : Nat) (p : ℚ), 1 ≤ k ∧ k ≤ N - 1 ∧
        calls j c.ResetEnvelope = { c with HasStarted := true, EnvPos := p
                                           Counter := (k : Int)
                                           Boundary := (c.Times.take k).sum } ∧
        p ≤ (c.Times.take k).sum + c.EnvPosInc) ∨
      (∃ p b : ℚ,
        calls j c.ResetEnvelope = { c with HasStarted := true, EnvPos := p
                                           Counter := (N : Int), Boundary := b }) := by
  have hne : c.Times ≠ [] := by
    intro h
    rw [h] at hlen
    simp at hlen
    omega
  intro j
  induction j with
  | zero =>
    left
    refine ⟨1, 0, le_refl 1, by omega, ?_, ?_⟩
    · have hemp : c.Times.isEmpty = false := by
        cases hT : c.Times with
        | nil => exact absurd hT hne
        | cons a l => rfl
      have hb : vecGet c.Times 0 = (c.Times.take 1).sum := by
        cases hT : c.Times with
        | nil => exact absurd hT hne
        | cons a l => simp [vecGet]
      simp only [calls, ResetEnvelope, hemp, Bool.false_eq_true, if_false, hb]
      rfl
    · have h1 : (c.Times.take 1).sum = (c.Times.take 0).sum + c.Times[0] :=
        List.sum_take_succ c.Times 0 (by omega)
      have h2 := hdur _ (List.getElem_mem (l := c.Times) (n := 0) (by omega))
      rw [h1]
      simp only [List.take_zero, List.sum_nil, zero_add]
      linarith
  | succ j ih =>
    rcases ih with ⟨k, p, hk1, hkN, hstate, hhi⟩ | ⟨p, b, hstate⟩
    · have hstep := (GetNextEnvelopePoint_segments (calls j c.ResetEnvelope) N k
        (by rw [hstate]) (by rw [hstate]; exact hne) (by rw [hstate]; exact hN)
        (by rw [hstate]) hk1 hkN hN2).1
      have hcalls : calls (j + 1) c.ResetEnvelope
          = (GetNextEnvelopePoint (calls j c.ResetEnvelope)).2 := rfl
      rw [hcalls, hstep, hstate]
      simp only []
      by_cases h1 : p ≤ (c.Times.take k).sum
      · left
        refine ⟨k, if p ≤ c.Time then p + c.EnvPosInc else p, hk1, hkN, ?_, ?_⟩
        · rw [if_pos h1]
        · split_ifs <;> linarith
      · have h1' : (c.Times.take k).sum < p := not_le.mp h1
        by_cases h2 : k + 1 ≤ N - 1
        · left
          have hklen : k < c.Times.length := by omega
          have hsum : (c.Times.take (k + 1)).sum = (c.Times.take k).sum + c.Times.getD k 0 := by
            rw [List.sum_take_succ c.Times k hklen, List.getD_eq_getElem c.Times 0 hklen]
          have hd : c.EnvPosInc ≤ c.Times.getD k 0 := by
            rw [List.getD_eq_getElem c.Times 0 hklen]
            exact hdur _ (List.getElem_mem hklen)
          refine ⟨k + 1, if p ≤ c.Time then p + c.EnvPosInc else p, by omega, h2, ?_, ?_⟩
          · rw [if_neg h1, hsum]
          · rw [hsum]
            split_ifs <;> linarith
        · right
          have hkeq : k + 1 = N := by omega
          refine ⟨if p ≤ c.Time then p + c.EnvPosInc else p,
            (c.Times.take k).sum + c.Times.getD k 0, ?_⟩
          rw [if_neg h1, hkeq]
    · right
      have hfin := GetNextEnvelopePoint_finished (calls j c.ResetEnvelope) (by rw [hstate])
        (by rw [hstate]; show ¬ ((N : Int) ≤ c.NumOfValues - 1); rw [hN]; omega)
      refine ⟨p, b, ?_⟩
      show (GetNextEnvelopePoint (calls j c.ResetEnvelope)).2 = _
      rw [hfin, hstate]

end CurveEnvelope

end nemlib

namespace nemlib

namespace CurveEnvelope

/-- From the call at which the counter has left the last segment on, every call returns
the last value and leaves the envelope as it is. -/
theorem holds_after_leaving (c : CurveEnvelope) (j : Nat)
    (hst : (calls j c).HasStarted = true)
    (hfin : ¬ ((calls j c).Counter ≤ (calls j c).NumOfValues - 1)) :
    ∀ i : Nat, j ≤ i →
      GetNextEnvelopePoint (calls i c) = (back (calls j c).Values, calls i c) := by
  intro i hi
  rw [calls_finished c j hst hfin i hi, GetNextEnvelopePoint_finished _ hst hfin]

/-- In exact arithmetic and with a read outside `Times` yielding 0 (the unchecked model):
for a started envelope with `N ≥ 2` values in which no segment is shorter than one sample
(single-duration mode with `Time / N ≥ EnvPosInc`; per-segment mode with `N - 1` durations,
each at least `EnvPosInc`), a call made with the position past the final breakpoint returns
the last element of `Values`, and every later call returns the last element and leaves the
envelope state unchanged.  In per-segment mode the first of these calls is the one that
reads `Times[NumOfValues - 1]`, see `GetNextEnvelopePointChecked_last_segment`. -/
theorem holds_last_value (c : CurveEnvelope) (N : Nat)
    (hN : c.NumOfValues = (N : Int)) (hN2 : 2 ≤ N) (hinc : 0 < c.EnvPosInc)
    (hmode : (c.Times = [] ∧ c.EnvPosInc ≤ c.Time / (N : ℚ)) ∨
      (c.Times.length = N - 1 ∧ ∀ t ∈ c.Times, c.EnvPosInc ≤ t))
    (j : Nat) (hpast : c.finalBreakpoint < (calls j c.ResetEnvelope).EnvPos) :
    (GetNextEnvelopePoint (calls j c.ResetEnvelope)).1 = back c.Values ∧
    ∀ i : Nat, j < i →
      GetNextEnvelopePoint (calls i c.ResetEnvelope)
        = (back c.Values, calls i c.ResetEnvelope) := by
  have hNi : ¬ ((N : Int) ≤ (N : Int) - 1) := by omega
  -- the two ways the call `j` can find the envelope: already finished, or about to finish
  have finished : ∀ p b : ℚ,
      calls j c.ResetEnvelope = { c with HasStarted := true, EnvPos := p
                                         Counter := (N : Int), Boundary := b } →
      (GetNextEnvelopePoint (calls j c.ResetEnvelope)).1 = back c.Values ∧
      ∀ i : Nat, j < i →
        GetNextEnvelopePoint (calls i c.ResetEnvelope)
          = (back c.Values, calls i c.ResetEnvelope) := by
    intro p b hstate
    have hst : (calls j c.ResetEnvelope).HasStarted = true := by rw [hstate]
    have hfin : ¬ ((calls j c.ResetEnvelope).Counter
        ≤ (calls j c.ResetEnvelope).NumOfValues - 1) := by
      rw [hstate]; show ¬ ((N : Int) ≤ c.NumOfValues - 1); rw [hN]; exact hNi
    have hv : (calls j c.ResetEnvelope).Values = c.Values := by rw [hstate]
    have h := holds_after_leaving c.ResetEnvelope j hst hfin
    rw [hv] at h
    exact ⟨by rw [h j le_rfl], fun i hi => h i hi.le⟩
  have leaving : (GetNextEnvelopePoint (calls j c.ResetEnvelope)).1 = back c.Values →
      (calls (j + 1) c.ResetEnvelope).HasStarted = true →
      (calls (j + 1) c.ResetEnvelope).Counter = (N : Int) →
      (calls (j + 1) c.ResetEnvelope).NumOfValues = (N : Int) →
      (calls (j + 1) c.ResetEnvelope).Values = c.Values →
      (GetNextEnvelopePoint (calls j c.ResetEnvelope)).1 = back c.Values ∧
      ∀ i : Nat, j < i →
        GetNextEnvelopePoint (calls i c.ResetEnvelope)
          = (back c.Values, calls i c.ResetEnvelope) := by
    intro hout hst hctr hnum hv
    have hfin : ¬ ((calls (j + 1) c.ResetEnvelope).Counter
        ≤ (calls (j + 1) c.ResetEnvelope).NumOfValues - 1) := by
      rw [hctr, hnum]; exact hNi
    have h := holds_after_leaving c.ResetEnvelope (j + 1) hst hfin
    rw [hv] at h
    exact ⟨hout, fun i hi => h i hi⟩
  rcases hmode with ⟨hmode, hseg⟩ | ⟨hlen, hdur⟩
  · -- single-duration mode
    have hsegpos : 0 < c.Time / (N : ℚ) := lt_of_lt_of_le hinc hseg
    have hfb : c.finalBreakpoint = ((N : ℚ) - 1) * (c.Time / (N : ℚ)) := by
      simp [finalBreakpoint, hmode, hN]
    rw [hfb] at hpast
    rcases single_trace c N hmode hN hN2 hinc hseg j with
      ⟨k, hk1, hkN, hstate, hhi, _⟩ | ⟨p, b, hstate, _⟩
    · have hp : (calls j c.ResetEnvelope).EnvPos = (j : ℚ) * c.EnvPosInc := by rw [hstate]
      have hb : (calls j c.ResetEnvelope).Boundary = (k : ℚ) * (c.Time / (N : ℚ)) := by
        rw [hstate]
      have hv : (calls j c.ResetEnvelope).Values = c.Values := by rw [hstate]
      rw [hp] at hpast
      have hkq : (k : ℚ) + 1 ≤ (N : ℚ) := by exact_mod_cast (by omega : k + 1 ≤ N)
      have hk : k + 1 = N := by
        have h1 : ((N : ℚ) - 1) * (c.Time / (N : ℚ))
            < ((k : ℚ) + 1) * (c.Time / (N : ℚ)) := by nlinarith
        have h2 : (N : ℚ) - 1 < (k : ℚ) + 1 := lt_of_mul_lt_mul_right h1 hsegpos.le
        have h3 : (N : ℚ) < ((k + 1 + 1 : Nat) : ℚ) := by push_cast; linarith
        have : N < k + 1 + 1 := by exact_mod_cast h3
        omega
      have hnot1 : ¬ ((calls j c.ResetEnvelope).EnvPos ≤ (calls j c.ResetEnvelope).Boundary) := by
        rw [hp, hb]
        have : (k : ℚ) * (c.Time / (N : ℚ)) ≤ ((N : ℚ) - 1) * (c.Time / (N : ℚ)) :=
          mul_le_mul_of_nonneg_right (by linarith) hsegpos.le
        linarith
      have hnot2 : ¬ (k + 1 ≤ N - 1) := by omega
      have hstep := GetNextEnvelopePoint_single (calls j c.ResetEnvelope) N k
        (by rw [hstate]) (by rw [hstate]; exact hmode) (by rw [hstate]; exact hN)
        (by rw [hstate]) hk1 hkN hN2
      rw [if_neg hnot1, if_neg hnot2] at hstep
      have hnext : calls (j + 1) c.ResetEnvelope
          = (GetNextEnvelopePoint (calls j c.ResetEnvelope)).2 := rfl
      rw [hstep] at hnext
      refine leaving (by rw [hstep, hv]) ?_ ?_ ?_ ?_
      · rw [hnext, hstate]
      · rw [hnext, hk]
      · rw [hnext, hstate]; exact hN
      · rw [hnext, hstate]
    · exact finished p b hstate
  · -- per-segment mode
    have hne : c.Times ≠ [] := by
      intro h
      rw [h] at hlen
      simp at hlen
      omega
    have hfb : c.finalBreakpoint = c.Times.sum := by
      cases hT : c.Times with
      | nil => exact absurd hT hne
      | cons a l => simp [finalBreakpoint, hT]
    rw [hfb] at hpast
    rcases segments_trace c N hN hN2 hinc hlen hdur j with
      ⟨k, p, hk1, hkN, hstate, hhi⟩ | ⟨p, b, hstate⟩
    · have hp : (calls j c.ResetEnvelope).EnvPos = p := by rw [hstate]
      have hb : (calls j c.ResetEnvelope).Boundary = (c.Times.take k).sum := by rw [hstate]
      have hv : (calls j c.ResetEnvelope).Values = c.Values := by rw [hstate]
      rw [hp] at hpast
      have hrest : ((c.Times.drop k).length : ℚ) * c.EnvPosInc ≤ (c.Times.drop k).sum :=
        length_mul_le_sum c.EnvPosInc (c.Times.drop k)
          (fun t ht => hdur t (List.mem_of_mem_drop ht))
      have hsplit := List.sum_take_add_sum_drop c.Times k
      have hdl : (c.Times.drop k).length = N - 1 - k := by rw [List.length_drop, hlen]
      have hk : k + 1 = N := by
        by_contra hcon
        have h1 : 1 ≤ N - 1 - k := by omega
        have h2 : (1 : ℚ) ≤ ((N - 1 - k : Nat) : ℚ) := by exact_mod_cast h1
        rw [hdl] at hrest
        nlinarith
      have hnot1 : ¬ ((calls j c.ResetEnvelope).EnvPos ≤ (calls j c.ResetEnvelope).Boundary) := by
        rw [hp, hb]
        have h0 : 0 ≤ (c.Times.drop k).sum := by
          have : (0 : ℚ) ≤ ((c.Times.drop k).length : ℚ) * c.EnvPosInc :=
            mul_nonneg (Nat.cast_nonneg _) hinc.le
          linarith
        linarith
      have hnot2 : ¬ (k + 1 ≤ N - 1) := by omega
      obtain ⟨hstep2, hstep1⟩ := GetNextEnvelopePoint_segments (calls j c.ResetEnvelope) N k
        (by rw [hstate]) (by rw [hstate]; exact hne) (by rw [hstate]; exact hN)
        (by rw [hstate]) hk1 hkN hN2
      rw [if_neg hnot1] at hstep2
      have hnext : calls (j + 1) c.ResetEnvelope
          = (GetNextEnvelopePoint (calls j c.ResetEnvelope)).2 := rfl
      rw [hstep2] at hnext
      refine leaving (by rw [hstep1 hnot1 hnot2, hv]) ?_ ?_ ?_ ?_
      · rw [hnext, hstate]
      · rw [hnext, hk]
      · rw [hnext, hstate]; exact hN
      · rw [hnext, hstate]
    · exact finished p b hstate

end CurveEnvelope

end nemlib

namespace nemlib

namespace CurveEnvelope

/-- The single-duration envelope `CurveEnvelope(4, {0, 1, 0}, 0.75f)`, whose segments last
one sample each, in exact arithmetic: the call at position 3/4 s, past the final breakpoint
1/2 s, returns the last value 0, and the call after it returns 0 and changes nothing. -/
theorem holds_last_value_witness :
    (new 4 [0, 1, 0] (3 / 4)).finalBreakpoint
      < (calls 3 (new 4 [0, 1, 0] (3 / 4)).ResetEnvelope).EnvPos ∧
    (GetNextEnvelopePoint (calls 3 (new 4 [0, 1, 0] (3 / 4)).ResetEnvelope)).1 = 0 ∧
    GetNextEnvelopePoint (calls 4 (new 4 [0, 1, 0] (3 / 4)).ResetEnvelope)
      = (0, calls 4 (new 4 [0, 1, 0] (3 / 4)).ResetEnvelope) := by
  have h : Int.tdiv 3 4 = 0 := by decide
  have hc : new 4 [0, 1, 0] (3 / 4) =
      { Values := [0, 1, 0], Time := 3 / 4, Times := [], EnvPos := 0, EnvPosInc := 1 / 4
        Boundary := 1 / 4, HasStarted := false, NumOfValues := 3, Counter := 1
        SampleRate := 4 } := by
    simp only [new]
    norm_num [h]
  have hpast : (new 4 [0, 1, 0] (3 / 4)).finalBreakpoint
      < (calls 3 (new 4 [0, 1, 0] (3 / 4)).ResetEnvelope).EnvPos := by
    rw [hc]
    norm_num [finalBreakpoint, calls, GetNextEnvelopePoint, ResetEnvelope, vecGet]
  have hthm := holds_last_value (new 4 [0, 1, 0] (3 / 4)) 3 (by rw [hc]; rfl) (by decide)
    (by rw [hc]; norm_num) (Or.inl ⟨by rw [hc], by rw [hc]; norm_num⟩) 3 hpast
  have hb : back (new 4 [0, 1, 0] (3 / 4)).Values = 0 := by rw [hc]; rfl
  rw [hb] at hthm
  exact ⟨hpast, hthm.1, hthm.2 4 (by decide)⟩

end CurveEnvelope

end nemlib

/-! ## Random variation, the output ramp of the filter bank, fall-back selectors -/

namespace nemlib

/-- C13: with `U` the draw it consumes, `Vary v a` is `v * (1 + a * (2 * U - 1))`; and when
`U` is in [0, 1], `v ≥ 0` and `a ≥ 0`, the result lies between `v * (1 - a)` and
`v * (1 + a)`. -/
theorem Vary_shape_and_range (v a : ℚ) (r : Rand) :
    (Vary v a r).1 = v * (1 + a * (2 * r.src r.pos - 1)) ∧
    (0 ≤ r.src r.pos → r.src r.pos ≤ 1 → 0 ≤ v → 0 ≤ a →
      v * (1 - a) ≤ (Vary v a r).1 ∧ (Vary v a r).1 ≤ v * (1 + a)) := by
  have hshape : (Vary v a r).1 = v * (1 + a * (2 * r.src r.pos - 1)) := rfl
  refine ⟨hshape, fun hU0 hU1 hv ha => ?_⟩
  rw [hshape]
  constructor
  · apply mul_le_mul_of_nonneg_left _ hv
    nlinarith [mul_nonneg ha hU0]
  · apply mul_le_mul_of_nonneg_left _ hv
    nlinarith [mul_nonneg ha (sub_nonneg.mpr hU1)]

/-- C13, evaluated at `v = 2`, `a = 1/2` and the draw `U = 1/4`: the result `3/2` lies
between `1` and `3`. -/
theorem Vary_shape_and_range_witness :
    (Vary 2 (1 / 2) ⟨fun _ => 1 / 4, 0⟩).1 = 3 / 2 ∧
    2 * (1 - 1 / 2) ≤ (Vary 2 (1 / 2) ⟨fun _ => 1 / 4, 0⟩).1 ∧
    (Vary 2 (1 / 2) ⟨fun _ => 1 / 4, 0⟩).1 ≤ 2 * (1 + 1 / 2) :=
  ⟨by rw [(Vary_shape_and_range 2 (1 / 2) ⟨fun _ => 1 / 4, 0⟩).1]; norm_num,
   (Vary_shape_and_range 2 (1 / 2) ⟨fun _ => 1 / 4, 0⟩).2
     (by norm_num) (by norm_num) (by norm_num) (by norm_num)⟩

/-- One `ProcessSample` call adds `1 / (0.01 * SampleRate)` to `OutputMult` when it is below
1 and leaves it alone otherwise; the sample rate and the mute gain are kept. -/
theorem FilterBank.ProcessSample_ramp (fb : FilterBank) (v : ℚ) :
    (fb.ProcessSample v).2.OutputMult =
      (if fb.OutputMult < 1 then fb.OutputMult + 1 / ((1 / 100) * (fb.SampleRate : ℚ))
       else fb.OutputMult) ∧
    (fb.ProcessSample v).2.SampleRate = fb.SampleRate ∧
    (fb.ProcessSample v).2.MuteGain = fb.MuteGain :=
  ⟨rfl, rfl, rfl⟩

/-- Successive `ProcessSample` calls keep the sample rate and the mute gain. -/
theorem FilterBank.run_frame (fb : FilterBank) (x : Nat → ℚ) (n : Nat) :
    (FilterBank.run x n fb).SampleRate = fb.SampleRate ∧
    (FilterBank.run x n fb).MuteGain = fb.MuteGain := by
  induction n with
  | zero => exact ⟨rfl, rfl⟩
  | succ n ih =>
    rw [FilterBank.run, (FilterBank.ProcessSample_ramp _ _).2.1,
      (FilterBank.ProcessSample_ramp _ _).2.2]
    exact ih

/-- The increment of the ramp is positive when the sample rate is at least 1. -/
theorem FilterBank.ramp_step_pos (fb : FilterBank) (hsr : 1 ≤ fb.SampleRate) :
    0 < 1 / ((1 / 100) * (fb.SampleRate : ℚ)) := by
  have h : (1 : ℚ) ≤ (fb.SampleRate : ℚ) := by exact_mod_cast hsr
  positivity

/-- Started from 0, the ramp after `k` calls is `k / (0.01 * SampleRate)`, as long as the
value before the last call was below 1. -/
theorem FilterBank.run_ramp (fb : FilterBank) (x : Nat → ℚ) (hsr : 1 ≤ fb.SampleRate)
    (h0 : fb.OutputMult = 0) (k : Nat)
    (hk : ((k : ℚ) - 1) * (1 / ((1 / 100) * (fb.SampleRate : ℚ))) < 1) :
    (FilterBank.run x k fb).OutputMult = (k : ℚ) * (1 / ((1 / 100) * (fb.SampleRate : ℚ))) := by
  have hpos := FilterBank.ramp_step_pos fb hsr
  induction k with
  | zero => simp [FilterBank.run, h0]
  | succ k ih =>
    have hk1 : (k : ℚ) * (1 / ((1 / 100) * (fb.SampleRate : ℚ))) < 1 := by
      have : ((k + 1 : Nat) : ℚ) - 1 = (k : ℚ) := by push_cast; ring
      rwa [this] at hk
    have hk0 : ((k : ℚ) - 1) * (1 / ((1 / 100) * (fb.SampleRate : ℚ))) < 1 := by
      nlinarith
    rw [FilterBank.run, (FilterBank.ProcessSample_ramp _ _).1, ih hk0,
      (FilterBank.run_frame fb x k).1, if_pos hk1]
    push_cast
    ring

end nemlib

namespace nemlib

/-- C11 as stated fails at `FilterBank(22050, 9)`: the increment is `1 / 220.5`, so after 220
`ProcessSample` calls `OutputMult` is `440/441`, still below 1, and call 221 raises it to
`442/441`, above 1. -/
theorem FilterBank.OutputMult_exceeds_one_at_22050 :
    (FilterBank.run (fun _ => 0) 221 (FilterBank.new Libm.sample 22050 9)).OutputMult
      = 442 / 441 ∧
    (1 : ℚ) < (FilterBank.run (fun _ => 0) 221 (FilterBank.new Libm.sample 22050 9)).OutputMult := by
  have h := FilterBank.run_ramp (FilterBank.new Libm.sample 22050 9) (fun _ => 0)
    (by decide) rfl 221 (by
      have : (FilterBank.new Libm.sample 22050 9).SampleRate = 22050 := by decide
      rw [this]; norm_num)
  have hsr : (FilterBank.new Libm.sample 22050 9).SampleRate = 22050 := by decide
  rw [hsr] at h
  rw [h]
  norm_num

/-- C11 as amended: for every sample rate at least 1 and every sequence of `ProcessSample`
calls on a bank whose `OutputMult` starts at or below 1 (it starts at 0), `OutputMult` never
decreases and stays below `1 + 1 / (0.01 * SampleRate)`; it stops changing at the first
value that is at least 1. -/
theorem FilterBank.OutputMult_monotone_and_bounded (fb : FilterBank) (x : Nat → ℚ)
    (hsr : 1 ≤ fb.SampleRate) (h0 : fb.OutputMult ≤ 1) (n : Nat) :
    (FilterBank.run x n fb).OutputMult ≤ (FilterBank.run x (n + 1) fb).OutputMult ∧
    (FilterBank.run x n fb).OutputMult < 1 + 1 / ((1 / 100) * (fb.SampleRate : ℚ)) ∧
    (1 ≤ (FilterBank.run x n fb).OutputMult →
      (FilterBank.run x (n + 1) fb).OutputMult = (FilterBank.run x n fb).OutputMult) := by
  have hpos := FilterBank.ramp_step_pos fb hsr
  have hstep : ∀ m, (FilterBank.run x (m + 1) fb).OutputMult =
      (if (FilterBank.run x m fb).OutputMult < 1
       then (FilterBank.run x m fb).OutputMult + 1 / ((1 / 100) * (fb.SampleRate : ℚ))
       else (FilterBank.run x m fb).OutputMult) := by
    intro m
    rw [FilterBank.run, (FilterBank.ProcessSample_ramp _ _).1, (FilterBank.run_frame fb x m).1]
  have hbound : ∀ m, (FilterBank.run x m fb).OutputMult
      < 1 + 1 / ((1 / 100) * (fb.SampleRate : ℚ)) := by
    intro m
    induction m with
    | zero => show fb.OutputMult < _; linarith
    | succ m ih =>
      rw [hstep m]
      split_ifs with h
      · linarith
      · exact ih
  refine ⟨?_, hbound n, ?_⟩
  · rw [hstep n]
    split_ifs with h
    · linarith
    · exact le_refl _
  · intro h1
    rw [hstep n, if_neg (not_lt.mpr h1)]

/-- C11 as amended, evaluated at `FilterBank(22050, 9)` and the call that crosses 1. -/
theorem FilterBank.OutputMult_monotone_and_bounded_witness :
    (FilterBank.run (fun _ => 0) 220 (FilterBank.new Libm.sample 22050 9)).OutputMult
      ≤ (FilterBank.run (fun _ => 0) (220 + 1) (FilterBank.new Libm.sample 22050 9)).OutputMult ∧
    (FilterBank.run (fun _ => 0) 220 (FilterBank.new Libm.sample 22050 9)).OutputMult
      < 1 + 1 / ((1 / 100) * (((FilterBank.new Libm.sample 22050 9).SampleRate : Int) : ℚ)) ∧
    (1 ≤ (FilterBank.run (fun _ => 0) 220 (FilterBank.new Libm.sample 22050 9)).OutputMult →
      (FilterBank.run (fun _ => 0) (220 + 1) (FilterBank.new Libm.sample 22050 9)).OutputMult
        = (FilterBank.run (fun _ => 0) 220 (FilterBank.new Libm.sample 22050 9)).OutputMult) :=
  FilterBank.OutputMult_monotone_and_bounded (FilterBank.new Libm.sample 22050 9) (fun _ => 0)
    (by decide) (by decide) 220

end nemlib

namespace nemlib

/-- C12 as stated fails at `FilterBank(48000, 9)`: after 480 `ProcessSample` calls the ramp
`OutputMult` is 1, and it is still 1, not 0, after `Mute()` followed by `Unmute()` or by
`Unmute(1/2)`. -/
theorem FilterBank.Unmute_does_not_restart_ramp :
    (FilterBank.run (fun _ => 0) 480 (FilterBank.new Libm.sample 48000 9)).OutputMult = 1 ∧
    (FilterBank.Unmute (FilterBank.Mute
      (FilterBank.run (fun _ => 0) 480 (FilterBank.new Libm.sample 48000 9)))).OutputMult = 1 ∧
    (FilterBank.UnmuteGain (FilterBank.Mute
      (FilterBank.run (fun _ => 0) 480 (FilterBank.new Libm.sample 48000 9))) (1 / 2)).OutputMult
      = 1 := by
  have hsr : (FilterBank.new Libm.sample 48000 9).SampleRate = 48000 := by decide
  have h := FilterBank.run_ramp (FilterBank.new Libm.sample 48000 9) (fun _ => 0)
    (by decide) rfl 480 (by rw [hsr]; norm_num)
  rw [hsr] at h
  have h1 : (FilterBank.run (fun _ => 0) 480 (FilterBank.new Libm.sample 48000 9)).OutputMult
      = 1 := by
    rw [h]; norm_num
  have hU : ∀ b : FilterBank, (FilterBank.Unmute (FilterBank.Mute b)).OutputMult
      = b.OutputMult := fun _ => rfl
  have hG : ∀ (b : FilterBank) (g : ℚ), (FilterBank.UnmuteGain (FilterBank.Mute b) g).OutputMult
      = b.OutputMult := fun _ _ => rfl
  refine ⟨h1, ?_, ?_⟩
  · rw [hU]; exact h1
  · rw [hG]; exact h1

/-- C12 as amended: `Mute()`, `Unmute()` and `Unmute(g)` leave the output ramp where it is;
the ramp is put back to 0 by the constructor and by `InitialiseFilterBank`.  On a bank whose
ramp is at 0 and whose sample rate is at least 1, call number `k` (from 0) of
`ProcessSample` finds the ramp at `k / (0.01 * SampleRate)` and, while that is below 1,
scales the sum of the bands by the mute gain and by the square of
`(k + 1) / (0.01 * SampleRate)`: the ramp reaches 1 after `0.01 * SampleRate` calls. -/
theorem FilterBank.ramp_restarts_on_initialise (L : Libm) (fb : FilterBank) (x : Nat → ℚ)
    (hsr : 1 ≤ fb.SampleRate) (h0 : fb.OutputMult = 0) :
    (∀ (b : FilterBank) (g : ℚ), b.Mute.OutputMult = b.OutputMult ∧
      b.Unmute.OutputMult = b.OutputMult ∧ (b.UnmuteGain g).OutputMult = b.OutputMult) ∧
    (∀ (b : FilterBank) (M : Mode), (b.InitialiseFilterBank L M).OutputMult = 0) ∧
    (∀ sr n : Int, (FilterBank.new L sr n).OutputMult = 0) ∧
    (∀ k : Nat, (k : ℚ) * (1 / ((1 / 100) * (fb.SampleRate : ℚ))) < 1 →
      (FilterBank.run x k fb).OutputMult = (k : ℚ) * (1 / ((1 / 100) * (fb.SampleRate : ℚ))) ∧
      (FilterBank.run x (k + 1) fb).OutputMult
        = ((k : ℚ) + 1) * (1 / ((1 / 100) * (fb.SampleRate : ℚ))) ∧
      ((FilterBank.run x k fb).ProcessSample (x k)).1
        = ((List.range (FilterBank.run x k fb).Filters.length).foldl
            (fun s (i : Nat) =>
              FilterBank.bandOut (FilterBank.run x k fb).FilterBandGains (x k) s (i : Int))
            (0, (FilterBank.run x k fb).Filters)).1 * fb.MuteGain
          * (((k : ℚ) + 1) * (1 / ((1 / 100) * (fb.SampleRate : ℚ)))) ^ 2) := by
  have hpos := FilterBank.ramp_step_pos fb hsr
  refine ⟨fun b g => ⟨rfl, rfl, rfl⟩, fun b M => rfl, fun sr n => rfl, fun k hk => ?_⟩
  have hk0 : ((k : ℚ) - 1) * (1 / ((1 / 100) * (fb.SampleRate : ℚ))) < 1 := by nlinarith
  have hk1 : (((k + 1 : Nat) : ℚ) - 1) * (1 / ((1 / 100) * (fb.SampleRate : ℚ))) < 1 := by
    have : ((k + 1 : Nat) : ℚ) - 1 = (k : ℚ) := by push_cast; ring
    rwa [this]
  have hA := FilterBank.run_ramp fb x hsr h0 k hk0
  have hB := FilterBank.run_ramp fb x hsr h0 (k + 1) hk1
  have hB1 : (FilterBank.run x (k + 1) fb).OutputMult
      = ((k : ℚ) + 1) * (1 / ((1 / 100) * (fb.SampleRate : ℚ))) := by
    rw [hB]; push_cast; ring
  refine ⟨hA, hB1, ?_⟩
  have hout : ((FilterBank.run x k fb).ProcessSample (x k)).1
      = ((List.range (FilterBank.run x k fb).Filters.length).foldl
            (fun s (i : Nat) =>
              FilterBank.bandOut (FilterBank.run x k fb).FilterBandGains (x k) s (i : Int))
            (0, (FilterBank.run x k fb).Filters)).1 * (FilterBank.run x k fb).MuteGain
          * (FilterBank.run x (k + 1) fb).OutputMult
          * (FilterBank.run x (k + 1) fb).OutputMult := rfl
  rw [hout, hB1, (FilterBank.run_frame fb x k).2]
  ring

/-- C12 as amended, evaluated at `FilterBank(48000, 9)` and call number 479, the last one
of the ramp. -/
theorem FilterBank.ramp_restarts_on_initialise_witness :
    (FilterBank.run (fun _ => 0) 479 (FilterBank.new Libm.sample 48000 9)).OutputMult
      = 479 / 480 ∧
    (FilterBank.run (fun _ => 0) (479 + 1) (FilterBank.new Libm.sample 48000 9)).OutputMult
      = 1 := by
  have hsr : (FilterBank.new Libm.sample 48000 9).SampleRate = 48000 := by decide
  have h := (FilterBank.ramp_restarts_on_initialise Libm.sample
    (FilterBank.new Libm.sample 48000 9) (fun _ => 0) (by decide) rfl).2.2.2 479
    (by rw [hsr]; norm_num)
  rw [hsr] at h
  refine ⟨?_, ?_⟩
  · rw [h.1]; norm_num
  · rw [h.2.1]; norm_num

end nemlib

namespace Generator

/-- The coefficients computed for a type outside 0..7 are those computed for type 0 from
the same `W` and `AQdB`. -/
theorem ComputeCoeff_default (L : Libm) (f g : BiquadFilter)
    (hk : f.Type_ < 0 ∨ 7 < f.Type_) (hg : g.Type_ = 0) (hW : f.W = g.W)
    (hAQdB : f.AQdB = g.AQdB) :
    (BiquadFilter.ComputeCoeff L f).coeffs = (BiquadFilter.ComputeCoeff L g).coeffs := by
  have h0 : f.Type_ ≠ 0 := by omega
  have h1 : f.Type_ ≠ 1 := by omega
  have h2 : f.Type_ ≠ 2 := by omega
  have h3 : f.Type_ ≠ 3 := by omega
  have h4 : f.Type_ ≠ 4 := by omega
  have h5 : f.Type_ ≠ 5 := by omega
  have h6 : f.Type_ ≠ 6 := by omega
  have h7 : f.Type_ ≠ 7 := by omega
  simp [BiquadFilter.ComputeCoeff, BiquadFilter.coeffs, h0, h1, h2, h3, h4, h5, h6, h7, hg,
    hW, hAQdB]

/-- C17: selectors out of range take the default entry.  A `BiquadFilter` type outside 0..7,
given to the constructor or to `SetType`, yields the coefficients of the low-pass (type 0)
for the same parameters; `UpdateShoeModifiers(k)` with `k` outside 0..3 does what
`UpdateShoeModifiers(0)` (trainer) does; `UpdateSurfaceModifiers(k)` with `k` outside 0..5
sets the all-zero `Surface` envelope, clears `CrunchFlag` and changes nothing else. -/
theorem out_of_range_selectors_fall_back (L : Libm) (k : Int) :
    ((k < 0 ∨ 7 < k) →
      (∀ (sr : Int) (fr q gdB : ℚ),
        (BiquadFilter.new L sr fr q gdB k).coeffs = (BiquadFilter.new L sr fr q gdB 0).coeffs) ∧
      (∀ f : BiquadFilter, (f.SetType L k).coeffs = (f.SetType L 0).coeffs)) ∧
    ((k < 0 ∨ 3 < k) →
      ∀ g : Generator, g.UpdateShoeModifiers k = g.UpdateShoeModifiers 0 ∧
        (g.UpdateShoeModifiers k).Shoe = ⟨1, 1, 0, 10, 1 / 10, 40, 1 / 2, 1, 0, 20, 1 / 10⟩) ∧
    ((k < 0 ∨ 5 < k) →
      ∀ (g : Generator) (r : Rand), g.UpdateSurfaceModifiers L k r
        = ({ g with CrunchFlag := false, Surface := ⟨0, 0, 0, 0, 0, 0, 0, 0⟩ }, r)) := by
  refine ⟨fun hk => ⟨fun sr fr q gdB => ?_, fun f => ?_⟩, fun hk g => ?_, fun hk g r => ?_⟩
  · exact ComputeCoeff_default L _ _ hk rfl rfl rfl
  · exact ComputeCoeff_default L _ _ hk rfl rfl rfl
  · have h0 : k ≠ 0 := by omega
    have h1 : k ≠ 1 := by omega
    have h2 : k ≠ 2 := by omega
    have h3 : k ≠ 3 := by omega
    simp [UpdateShoeModifiers, h0, h1, h2, h3]
  · have h0 : k ≠ 0 := by omega
    have h1 : k ≠ 1 := by omega
    have h2 : k ≠ 2 := by omega
    have h3 : k ≠ 3 := by omega
    have h4 : k ≠ 4 := by omega
    have h5 : k ≠ 5 := by omega
    simp [UpdateSurfaceModifiers, h0, h1, h2, h3, h4, h5]

/-- C17, evaluated at the selector 9 on a filter `BiquadFilter(48000, 1000, 1, 0, 9)`, on
`SetType(9)`, and on a freshly constructed generator. -/
theorem out_of_range_selectors_fall_back_witness :
    (BiquadFilter.new Libm.sample 48000 1000 1 0 9).coeffs
      = (BiquadFilter.new Libm.sample 48000 1000 1 0 0).coeffs ∧
    (Generator.new Libm.sample).UpdateShoeModifiers 9
      = (Generator.new Libm.sample).UpdateShoeModifiers 0 ∧
    ((Generator.new Libm.sample).UpdateSurfaceModifiers Libm.sample 9 ⟨fun _ => 0, 0⟩).1.Surface
      = ⟨0, 0, 0, 0, 0, 0, 0, 0⟩ :=
  ⟨((out_of_range_selectors_fall_back Libm.sample 9).1 (by decide)).1 48000 1000 1 0,
   (((out_of_range_selectors_fall_back Libm.sample 9).2.1 (by decide))
      (Generator.new Libm.sample)).1,
   by rw [(out_of_range_selectors_fall_back Libm.sample 9).2.2 (by decide)]⟩

end Generator

/-! ## Biquad filter: coefficients as a function of the parameters -/

namespace nemlib

namespace BiquadFilter

/-- The function `ComputeCoeff` writes the six coefficients and nothing else. -/
theorem ComputeCoeff_writes (L : Libm) (f : BiquadFilter) :
    ∃ b0 b1 b2 a0 a1 a2 : ℚ,
      ComputeCoeff L f = { f with B0 := b0, B1 := b1, B2 := b2, A0 := a0, A1 := a1, A2 := a2 } := by
  unfold ComputeCoeff
  dsimp only
  by_cases t0 : f.Type_ = 0
  · rw [if_pos t0]; exact ⟨_, _, _, _, _, _, rfl⟩
  rw [if_neg t0]
  by_cases t1 : f.Type_ = 1
  · rw [if_pos t1]; exact ⟨_, _, _, _, _, _, rfl⟩
  rw [if_neg t1]
  by_cases t2 : f.Type_ = 2
  · rw [if_pos t2]; exact ⟨_, _, _, _, _, _, rfl⟩
  rw [if_neg t2]
  by_cases t3 : f.Type_ = 3
  · rw [if_pos t3]; exact ⟨_, _, _, _, _, _, rfl⟩
  rw [if_neg t3]
  by_cases t4 : f.Type_ = 4
  · rw [if_pos t4]; exact ⟨_, _, _, _, _, _, rfl⟩
  rw [if_neg t4]
  by_cases t5 : f.Type_ = 5
  · rw [if_pos t5]; exact ⟨_, _, _, _, _, _, rfl⟩
  rw [if_neg t5]
  by_cases t6 : f.Type_ = 6
  · rw [if_pos t6]; exact ⟨_, _, _, _, _, _, rfl⟩
  rw [if_neg t6]
  by_cases t7 : f.Type_ = 7
  · rw [if_pos t7]; exact ⟨_, _, _, _, _, _, rfl⟩
  rw [if_neg t7]
  exact ⟨_, _, _, _, _, _, rfl⟩

/-- The fields that `ComputeCoeff` keeps. -/
theorem ComputeCoeff_frame (L : Libm) (f : BiquadFilter) :
    (ComputeCoeff L f).SampleRate = f.SampleRate ∧ (ComputeCoeff L f).V = f.V ∧
    (ComputeCoeff L f).W = f.W ∧ (ComputeCoeff L f).Q = f.Q ∧
    (ComputeCoeff L f).AQ = f.AQ ∧ (ComputeCoeff L f).AQdB = f.AQdB ∧
    (ComputeCoeff L f).AS = f.AS ∧ (ComputeCoeff L f).Type_ = f.Type_ ∧
    (ComputeCoeff L f).Y1 = f.Y1 ∧ (ComputeCoeff L f).Y2 = f.Y2 ∧
    (ComputeCoeff L f).X1 = f.X1 ∧ (ComputeCoeff L f).X2 = f.X2 := by
  obtain ⟨b0, b1, b2, a0, a1, a2, h⟩ := ComputeCoeff_writes L f
  rw [h]
  exact ⟨rfl, rfl, rfl, rfl, rfl, rfl, rfl, rfl, rfl, rfl, rfl, rfl⟩

/-- The function `ComputeCoeff` does not read the coefficients it overwrites. -/
theorem ComputeCoeff_congr (L : Libm) (f g : BiquadFilter)
    (h : { f with B0 := 0, B1 := 0, B2 := 0, A0 := 0, A1 := 0, A2 := 0 }
       = { g with B0 := 0, B1 := 0, B2 := 0, A0 := 0, A1 := 0, A2 := 0 }) :
    ComputeCoeff L f = ComputeCoeff L g := by
  obtain ⟨a1, a2, a3, a4, a5, a6, a7, a8, a9, a10, a11, a12, b0, b1, b2, c0, c1, c2⟩ := f
  obtain ⟨d1, d2, d3, d4, d5, d6, d7, d8, d9, d10, d11, d12, e0, e1, e2, g0, g1, g2⟩ := g
  simp only [BiquadFilter.mk.injEq, and_true] at h
  obtain ⟨h1, h2, h3, h4, h5, h6, h7, h8, h9, h10, h11, h12⟩ := h
  subst h1 h2 h3 h4 h5 h6 h7 h8 h9 h10 h11 h12
  rfl

end BiquadFilter

end nemlib

namespace nemlib

namespace BiquadFilter

/-- A setter applied to a freshly constructed filter gives the filter freshly constructed
with the new argument in its place. -/
theorem setter_on_new (L : Libm) (r t : Int) (fr q gdB : ℚ) :
    (∀ x : ℚ, SetFrequency L (new L r fr q gdB t) x = new L r x q gdB t) ∧
    (∀ x : ℚ, SetQFactor L (new L r fr q gdB t) x = new L r fr x gdB t) ∧
    (∀ x : ℚ, SetPeakGain L (new L r fr q gdB t) x = new L r fr q x t) ∧
    (∀ k : Int, SetType L (new L r fr q gdB t) k = new L r fr q gdB k) := by
  refine ⟨fun x => ?_, fun x => ?_, fun x => ?_, fun k => ?_⟩
  · unfold SetFrequency new
    apply ComputeCoeff_congr
    simp only [ComputeCoeff_frame]
  · unfold SetQFactor new
    apply ComputeCoeff_congr
    simp only [ComputeCoeff_frame]
  · unfold SetPeakGain new
    apply ComputeCoeff_congr
    simp only [ComputeCoeff_frame]
  · unfold SetType new
    apply ComputeCoeff_congr
    simp only [ComputeCoeff_frame]

end BiquadFilter

end nemlib

namespace nemlib

namespace BiquadFilter

/-- The function `ComputeCoeff` neither reads nor writes the four taps. -/
theorem ComputeCoeff_taps (L : Libm) (f : BiquadFilter) (y1 y2 x1 x2 : ℚ) :
    ComputeCoeff L { f with Y1 := y1, Y2 := y2, X1 := x1, X2 := x2 }
      = { ComputeCoeff L f with Y1 := y1, Y2 := y2, X1 := x1, X2 := x2 } := by
  unfold ComputeCoeff
  dsimp only
  by_cases t0 : f.Type_ = 0
  · rw [if_pos t0, if_pos t0]
  rw [if_neg t0, if_neg t0]
  by_cases t1 : f.Type_ = 1
  · rw [if_pos t1, if_pos t1]
  rw [if_neg t1, if_neg t1]
  by_cases t2 : f.Type_ = 2
  · rw [if_pos t2, if_pos t2]
  rw [if_neg t2, if_neg t2]
  by_cases t3 : f.Type_ = 3
  · rw [if_pos t3, if_pos t3]
  rw [if_neg t3, if_neg t3]
  by_cases t4 : f.Type_ = 4
  · rw [if_pos t4, if_pos t4]
  rw [if_neg t4, if_neg t4]
  by_cases t5 : f.Type_ = 5
  · rw [if_pos t5, if_pos t5]
  rw [if_neg t5, if_neg t5]
  by_cases t6 : f.Type_ = 6
  · rw [if_pos t6, if_pos t6]
  rw [if_neg t6, if_neg t6]
  by_cases t7 : f.Type_ = 7
  · rw [if_pos t7, if_pos t7]
  rw [if_neg t7, if_neg t7]

end BiquadFilter

end nemlib

namespace nemlib

namespace BiquadFilter

/-- Clearing the taps commutes with every setter, and `ProcessSample` changes the taps only. -/
theorem ResetFilter_call (L : Libm) (f : BiquadFilter) (c : Call) :
    ResetFilter (call L f c) = ResetFilter (call L (ResetFilter f) c) := by
  have h : ∀ g : BiquadFilter, ResetFilter (ComputeCoeff L g) = ComputeCoeff L (ResetFilter g) :=
    fun g => (ComputeCoeff_taps L g 0 0 0 0).symm
  cases c with
  | SetFrequency x => simp only [call, SetFrequency, h]; rfl
  | SetQFactor x => simp only [call, SetQFactor, h]; rfl
  | SetPeakGain x => simp only [call, SetPeakGain, h]; rfl
  | SetType k => simp only [call, SetType, h]; rfl
  | ProcessSample v => rfl

/-- A freshly constructed filter has its taps cleared. -/
theorem ResetFilter_new (L : Libm) (r t : Int) (fr q gdB : ℚ) :
    ResetFilter (new L r fr q gdB t) = new L r fr q gdB t := by
  exact (ComputeCoeff_taps L _ 0 0 0 0).symm

/-- Up to the taps, a filter that has gone through a sequence of calls is the filter freshly
constructed with the arguments most recently supplied. -/
theorem calls_eq_new (L : Libm) (r : Int) (cs : List Call) :
    ∀ (f : BiquadFilter) (p : Params),
      ResetFilter f = new L r p.Frequency p.QFactor p.PeakGainDB p.Type_ →
      ResetFilter (calls L f cs)
        = new L r (p.calls cs).Frequency (p.calls cs).QFactor (p.calls cs).PeakGainDB
            (p.calls cs).Type_ := by
  induction cs with
  | nil => intro f p h; exact h
  | cons c cs ih =>
    intro f p h
    have hstep : ResetFilter (call L f c)
        = new L r (p.call c).Frequency (p.call c).QFactor (p.call c).PeakGainDB
            (p.call c).Type_ := by
      rw [ResetFilter_call, h]
      cases c with
      | SetFrequency x =>
        show ResetFilter (SetFrequency L _ x) = _
        rw [(setter_on_new L r _ _ _ _).1, ResetFilter_new]; rfl
      | SetQFactor x =>
        show ResetFilter (SetQFactor L _ x) = _
        rw [(setter_on_new L r _ _ _ _).2.1, ResetFilter_new]; rfl
      | SetPeakGain x =>
        show ResetFilter (SetPeakGain L _ x) = _
        rw [(setter_on_new L r _ _ _ _).2.2.1, ResetFilter_new]; rfl
      | SetType k =>
        show ResetFilter (SetType L _ k) = _
        rw [(setter_on_new L r _ _ _ _).2.2.2, ResetFilter_new]; rfl
      | ProcessSample v =>
        show ResetFilter (ProcessSample _ v).2 = _
        exact ResetFilter_new L r _ _ _ _
    exact ih (call L f c) (p.call c) hstep

/-- C16: a filter constructed at sample rate `r` with `fr, q, gdB, t` and then taken through
any sequence of `SetFrequency`, `SetQFactor`, `SetPeakGain`, `SetType` (and `ProcessSample`)
calls has the coefficients `B0, B1, B2, A0, A1, A2` of the filter freshly constructed at `r`
with the most recently supplied frequency, Q, peak gain and type. -/
theorem coefficients_follow_latest_arguments (L : Libm) (r t : Int) (fr q gdB : ℚ)
    (cs : List Call) :
    (calls L (new L r fr q gdB t) cs).coeffs
      = (new L r (Params.calls ⟨fr, q, gdB, t⟩ cs).Frequency
          (Params.calls ⟨fr, q, gdB, t⟩ cs).QFactor
          (Params.calls ⟨fr, q, gdB, t⟩ cs).PeakGainDB
          (Params.calls ⟨fr, q, gdB, t⟩ cs).Type_).coeffs := by
  have h := calls_eq_new L r cs (new L r fr q gdB t) ⟨fr, q, gdB, t⟩ (ResetFilter_new L r t fr q gdB)
  rw [← h]
  rfl

end BiquadFilter

end nemlib

/-! ## Biquad filter: response at the cutoff, sign of `A0` -/

namespace nemlib

namespace BiquadFilter

/-- On the unit circle, at the point `z = c + j s` with `s ≠ 0`, the low-pass transfer
function with `alpha = s / (2 p)`, `p > 0`, has magnitude `p`. -/
theorem lowpass_response (c s p : ℝ) (hcs : c ^ 2 + s ^ 2 = 1) (hs : s ≠ 0) (hp : 0 < p) :
    Complex.abs
      (((((1 - c) / 2 : ℝ) : ℂ) + ((1 - c : ℝ) : ℂ) * (⟨c, s⟩ : ℂ)⁻¹
          + (((1 - c) / 2 : ℝ) : ℂ) * (⟨c, s⟩ : ℂ)⁻¹ ^ 2) /
        (((1 + s / (2 * p) : ℝ) : ℂ) + ((-2 * c : ℝ) : ℂ) * (⟨c, s⟩ : ℂ)⁻¹
          + ((1 - s / (2 * p) : ℝ) : ℂ) * (⟨c, s⟩ : ℂ)⁻¹ ^ 2)) = p := by
  have hw : (⟨c, s⟩ : ℂ)⁻¹ = ⟨c, -s⟩ := by
    rw [Complex.inv_def]
    have hn : Complex.normSq (⟨c, s⟩ : ℂ) = 1 := by
      rw [Complex.normSq_mk]; nlinarith
    rw [hn]
    apply Complex.ext <;> simp
  rw [hw, map_div₀]
  have hs2 : 0 < s ^ 2 := by positivity
  have hNre : ((((1 - c) / 2 : ℝ) : ℂ) + ((1 - c : ℝ) : ℂ) * (⟨c, -s⟩ : ℂ)
      + (((1 - c) / 2 : ℝ) : ℂ) * (⟨c, -s⟩ : ℂ) ^ 2).re = c * s ^ 2 := by
    simp only [pow_two, Complex.add_re, Complex.add_im, Complex.mul_re, Complex.mul_im,
      Complex.ofReal_re, Complex.ofReal_im]
    linear_combination (-(1 + c) / 2) * hcs
  have hNim : ((((1 - c) / 2 : ℝ) : ℂ) + ((1 - c : ℝ) : ℂ) * (⟨c, -s⟩ : ℂ)
      + (((1 - c) / 2 : ℝ) : ℂ) * (⟨c, -s⟩ : ℂ) ^ 2).im = -s ^ 3 := by
    simp only [pow_two, Complex.add_re, Complex.add_im, Complex.mul_re, Complex.mul_im,
      Complex.ofReal_re, Complex.ofReal_im]
    linear_combination s * hcs
  have hDre : (((1 + s / (2 * p) : ℝ) : ℂ) + ((-2 * c : ℝ) : ℂ) * (⟨c, -s⟩ : ℂ)
      + ((1 - s / (2 * p) : ℝ) : ℂ) * (⟨c, -s⟩ : ℂ) ^ 2).re = 2 * (s / (2 * p)) * s ^ 2 := by
    simp only [pow_two, Complex.add_re, Complex.add_im, Complex.mul_re, Complex.mul_im,
      Complex.ofReal_re, Complex.ofReal_im]
    linear_combination (-(1 + s / (2 * p))) * hcs
  have hDim : (((1 + s / (2 * p) : ℝ) : ℂ) + ((-2 * c : ℝ) : ℂ) * (⟨c, -s⟩ : ℂ)
      + ((1 - s / (2 * p) : ℝ) : ℂ) * (⟨c, -s⟩ : ℂ) ^ 2).im = 2 * (s / (2 * p)) * c * s := by
    simp only [pow_two, Complex.add_re, Complex.add_im, Complex.mul_re, Complex.mul_im,
      Complex.ofReal_re, Complex.ofReal_im]
    ring
  have hN : Complex.abs ((((1 - c) / 2 : ℝ) : ℂ) + ((1 - c : ℝ) : ℂ) * (⟨c, -s⟩ : ℂ)
      + (((1 - c) / 2 : ℝ) : ℂ) * (⟨c, -s⟩ : ℂ) ^ 2) = s ^ 2 := by
    rw [Complex.abs_apply, Complex.normSq_apply, hNre, hNim]
    rw [show c * s ^ 2 * (c * s ^ 2) + -s ^ 3 * -s ^ 3 = s ^ 2 * s ^ 2 by
      linear_combination (s ^ 4) * hcs]
    exact Real.sqrt_mul_self hs2.le
  have hD : Complex.abs (((1 + s / (2 * p) : ℝ) : ℂ) + ((-2 * c : ℝ) : ℂ) * (⟨c, -s⟩ : ℂ)
      + ((1 - s / (2 * p) : ℝ) : ℂ) * (⟨c, -s⟩ : ℂ) ^ 2) = s ^ 2 / p := by
    rw [Complex.abs_apply, Complex.normSq_apply, hDre, hDim]
    rw [show 2 * (s / (2 * p)) * s ^ 2 * (2 * (s / (2 * p)) * s ^ 2)
        + 2 * (s / (2 * p)) * c * s * (2 * (s / (2 * p)) * c * s)
        = s ^ 2 / p * (s ^ 2 / p) by
      have h1 : 2 * (s / (2 * p)) * s ^ 2 * (2 * (s / (2 * p)) * s ^ 2)
          + 2 * (s / (2 * p)) * c * s * (2 * (s / (2 * p)) * c * s)
          = 4 * (s / (2 * p)) ^ 2 * s ^ 2 := by
        linear_combination (4 * (s / (2 * p)) ^ 2 * s ^ 2) * hcs
      rw [h1]
      field_simp
      ring]
    exact Real.sqrt_mul_self (by positivity)
  rw [hN, hD]
  field_simp

end BiquadFilter

end nemlib

namespace nemlib

namespace BiquadFilter

/-- The coefficients the constructor computes for the low-pass type, in terms of the `W` it
stores. -/
theorem new_lowpass (L : Libm) (r : Int) (fr q gdB : ℚ) :
    (new L r fr q gdB 0).B0 = (1 - L.cos (new L r fr q gdB 0).W) / 2 ∧
    (new L r fr q gdB 0).B1 = 1 - L.cos (new L r fr q gdB 0).W ∧
    (new L r fr q gdB 0).B2 = (1 - L.cos (new L r fr q gdB 0).W) / 2 ∧
    (new L r fr q gdB 0).A0
      = 1 + L.sin (new L r fr q gdB 0).W / (2 * L.pow 10 (|q| / 20)) ∧
    (new L r fr q gdB 0).A1 = -2 * L.cos (new L r fr q gdB 0).W ∧
    (new L r fr q gdB 0).A2
      = 1 - L.sin (new L r fr q gdB 0).W / (2 * L.pow 10 (|q| / 20)) ∧
    (new L r fr q gdB 0).W = 2 * L.pi * min (max fr 1 / ((max r 1 : Int) : ℚ)) (499 / 1000) :=
  ⟨rfl, rfl, rfl, rfl, rfl, rfl, rfl⟩

/-- The magnitude of the low-pass transfer function at `z = cos W + j sin W` is the value
`pow(10, Q / 20)` used by the constructor, whenever that is positive, `sin W` is not 0 and
`cos W, sin W` lie on the unit circle. -/
theorem lowpass_gain (L : Libm) (r : Int) (fr q gdB : ℚ)
    (hcs : L.cos (new L r fr q gdB 0).W ^ 2 + L.sin (new L r fr q gdB 0).W ^ 2 = 1)
    (hs : L.sin (new L r fr q gdB 0).W ≠ 0) (hp : 0 < L.pow 10 (|q| / 20)) :
    Complex.abs (transfer (new L r fr q gdB 0)
      (⟨((L.cos (new L r fr q gdB 0).W : ℚ) : ℝ), ((L.sin (new L r fr q gdB 0).W : ℚ) : ℝ)⟩ : ℂ))
      = ((L.pow 10 (|q| / 20) : ℚ) : ℝ) := by
  obtain ⟨h0, h1, h2, h3, h4, h5, -⟩ := new_lowpass L r fr q gdB
  generalize hW : (new L r fr q gdB 0).W = W at *
  have hcs' : ((L.cos W : ℚ) : ℝ) ^ 2 + ((L.sin W : ℚ) : ℝ) ^ 2 = 1 := by exact_mod_cast hcs
  have hs' : ((L.sin W : ℚ) : ℝ) ≠ 0 := by exact_mod_cast hs
  have hp' : (0 : ℝ) < ((L.pow 10 (|q| / 20) : ℚ) : ℝ) := by exact_mod_cast hp
  have h := lowpass_response _ _ _ hcs' hs' hp'
  unfold transfer
  rw [h0, h1, h2, h3, h4, h5]
  rw [← h]
  push_cast
  rfl

end BiquadFilter

end nemlib

namespace nemlib

/-- The triangle-wave `Libm` is exact at the quarter turn: `sin(pi/2) = 1`, `cos(pi/2) = 0`,
and `pow(10, 0) = 1`. -/
theorem Libm.triangle_quarter_turn :
    Libm.triangle.sin (2 * Libm.triangle.pi * (1 / 4)) = 1 ∧
    Libm.triangle.cos (2 * Libm.triangle.pi * (1 / 4)) = 0 ∧
    Libm.triangle.pow 10 0 = 1 := by
  have h1 : Int.fract ((1 : ℚ) / 2) = 1 / 2 := by
    rw [Int.fract_eq_iff]; refine ⟨by norm_num, by norm_num, 0, by norm_num⟩
  have h2 : Int.fract ((3 : ℚ) / 4) = 3 / 4 := by
    rw [Int.fract_eq_iff]; refine ⟨by norm_num, by norm_num, 0, by norm_num⟩
  refine ⟨?_, ?_, ?_⟩
  · show 1 - 4 * |Int.fract (2 * (355 / 113 : ℚ) * (1 / 4) / (2 * (355 / 113)) + 1 / 4) - 1 / 2|
      = 1
    rw [show 2 * (355 / 113 : ℚ) * (1 / 4) / (2 * (355 / 113)) + 1 / 4 = 1 / 2 by norm_num, h1]
    norm_num
  · show 1 - 4 * |Int.fract (2 * (355 / 113 : ℚ) * (1 / 4) / (2 * (355 / 113)) + 1 / 2) - 1 / 2|
      = 0
    rw [show 2 * (355 / 113 : ℚ) * (1 / 4) / (2 * (355 / 113)) + 1 / 2 = 3 / 4 by norm_num, h2]
    norm_num [abs_of_pos]
  · show (10 : ℚ) ^ ⌊(0 : ℚ)⌋ = 1
    simp

/-- The triangle-wave `Libm` has the sign and range properties of the real functions: `pi`
is positive, `sin` is positive on `(0, pi)` and within [-1, 1], `cos` is within [-1, 1],
`pow(10, y)` is positive and `sqrt` of a non-negative number is non-negative. -/
theorem Libm.triangle_signs :
    0 < Libm.triangle.pi ∧
    (∀ x : ℚ, 0 < x → x < Libm.triangle.pi → 0 < Libm.triangle.sin x) ∧
    (∀ x : ℚ, -1 ≤ Libm.triangle.sin x ∧ Libm.triangle.sin x ≤ 1) ∧
    (∀ x : ℚ, -1 ≤ Libm.triangle.cos x ∧ Libm.triangle.cos x ≤ 1) ∧
    (∀ y : ℚ, 0 < Libm.triangle.pow 10 y) ∧
    (∀ x : ℚ, 0 ≤ x → 0 ≤ Libm.triangle.sqrt x) := by
  have hr : ∀ u : ℚ, -1 ≤ 1 - 4 * |Int.fract u - 1 / 2| ∧ 1 - 4 * |Int.fract u - 1 / 2| ≤ 1 := by
    intro u
    have h0 := Int.fract_nonneg u
    have h1 := Int.fract_lt_one u
    have ha : |Int.fract u - 1 / 2| ≤ 1 / 2 := by rw [abs_le]; constructor <;> linarith
    have hb := abs_nonneg (Int.fract u - 1 / 2)
    constructor <;> linarith
  refine ⟨by norm_num [Libm.triangle], ?_, fun x => hr _, fun x => hr _, ?_, fun x hx => hx⟩
  · intro x hx0 hxpi
    have hpi : Libm.triangle.pi = 355 / 113 := rfl
    rw [hpi] at hxpi
    show 0 < 1 - 4 * |Int.fract (x / (2 * (355 / 113)) + 1 / 4) - 1 / 2|
    have hu0 : 0 < x / (2 * (355 / 113)) := by positivity
    have hu1 : x / (2 * (355 / 113)) < 1 / 2 := by
      rw [div_lt_iff₀ (by norm_num)]; linarith
    have hf : Int.fract (x / (2 * (355 / 113)) + 1 / 4) = x / (2 * (355 / 113)) + 1 / 4 := by
      rw [Int.fract_eq_iff]
      refine ⟨by linarith, by linarith, 0, by simp⟩
    rw [hf]
    have ha : |x / (2 * (355 / 113)) + 1 / 4 - 1 / 2| < 1 / 4 := by
      rw [abs_lt]; constructor <;> linarith
    linarith
  · intro y
    show (0 : ℚ) < 10 ^ ⌊y⌋
    positivity

end nemlib

namespace nemlib

namespace BiquadFilter

/-- The filter `BiquadFilter(48000, 12000, 0, 0, bq_type_lowpass)` on the triangle-wave
`Libm`: `W` is `pi / 2`, where that `Libm` is exact. -/
theorem new_quarter_rate :
    (new Libm.triangle 48000 12000 0 0 0).W = 2 * Libm.triangle.pi * (1 / 4) ∧
    (new Libm.triangle 48000 12000 0 0 0).coeffs = (1 / 2, 1, 1 / 2, 3 / 2, 0, 1 / 2) := by
  have hW : (new Libm.triangle 48000 12000 0 0 0).W = 2 * Libm.triangle.pi * (1 / 4) := by
    rw [(new_lowpass Libm.triangle 48000 12000 0 0).2.2.2.2.2.2]
    norm_num
  obtain ⟨h0, h1, h2, h3, h4, h5, -⟩ := new_lowpass Libm.triangle 48000 12000 0 0
  obtain ⟨hs, hc, hp⟩ := Libm.triangle_quarter_turn
  refine ⟨hW, ?_⟩
  unfold coeffs
  rw [h0, h1, h2, h3, h4, h5, hW, hs, hc]
  have hq : |(0 : ℚ)| / 20 = 0 := by norm_num
  rw [hq, hp]
  norm_num

/-- C14 as stated fails at its own witness `BiquadFilter(48000, 12000, 0, 0,
bq_type_lowpass)`: the coefficients are `B = (1/2, 1, 1/2)`, `A = (3/2, 0, 1/2)`, and the
magnitude of the transfer function at `z = e^{j pi/2} = j` is 1, not `1/sqrt(2)`. -/
theorem lowpass_not_minus_3dB_at_cutoff :
    (new Libm.triangle 48000 12000 0 0 0).coeffs = (1 / 2, 1, 1 / 2, 3 / 2, 0, 1 / 2) ∧
    Complex.abs (transfer (new Libm.triangle 48000 12000 0 0 0) Complex.I) = 1 ∧
    Complex.abs (transfer (new Libm.triangle 48000 12000 0 0 0) Complex.I)
      ≠ 1 / Real.sqrt 2 := by
  have hc := new_quarter_rate.2
  have habs : Complex.abs (transfer (new Libm.triangle 48000 12000 0 0 0) Complex.I) = 1 := by
    unfold coeffs at hc
    simp only [Prod.mk.injEq] at hc
    obtain ⟨h0, h1, h2, h3, h4, h5⟩ := hc
    unfold transfer
    rw [h0, h1, h2, h3, h4, h5]
    have hI : (Complex.I)⁻¹ ^ 2 = -1 := by
      rw [Complex.inv_I]; simp
    rw [hI, Complex.inv_I]
    have : (((1 / 2 : ℚ) : ℂ) + ((1 : ℚ) : ℂ) * -Complex.I + ((1 / 2 : ℚ) : ℂ) * -1) /
        (((3 / 2 : ℚ) : ℂ) + ((0 : ℚ) : ℂ) * -Complex.I + ((1 / 2 : ℚ) : ℂ) * -1)
        = -Complex.I := by
      push_cast
      ring
    rw [this]
    simp
  refine ⟨hc, habs, ?_⟩
  rw [habs]
  intro h
  have h2 : Real.sqrt 2 = 1 := by
    have hpos : (0 : ℝ) < Real.sqrt 2 := Real.sqrt_pos.mpr (by norm_num)
    rw [eq_div_iff hpos.ne'] at h
    linarith
  have h3 : (2 : ℝ) = 1 := by
    have := Real.sq_sqrt (show (0 : ℝ) ≤ 2 by norm_num)
    rw [h2] at this
    linarith
  norm_num at h3

/-- C14 as amended: a `BiquadFilter` low-pass whose Q is 0 dB has a 0 dB response at its
cutoff.  With `pow(10, 0) = 1`, `sin W` not 0 and `(cos W, sin W)` on the unit circle, the
magnitude of the transfer function `(B0 + B1 z^-1 + B2 z^-2) / (A0 + A1 z^-1 + A2 z^-2)` at
`z = cos W + j sin W` equals 1. -/
theorem lowpass_0dB_at_cutoff (L : Libm) (r : Int) (fr gdB : ℚ)
    (hcs : L.cos (new L r fr 0 gdB 0).W ^ 2 + L.sin (new L r fr 0 gdB 0).W ^ 2 = 1)
    (hs : L.sin (new L r fr 0 gdB 0).W ≠ 0) (hp : L.pow 10 0 = 1) :
    Complex.abs (transfer (new L r fr 0 gdB 0)
      (⟨((L.cos (new L r fr 0 gdB 0).W : ℚ) : ℝ), ((L.sin (new L r fr 0 gdB 0).W : ℚ) : ℝ)⟩ : ℂ))
      = 1 := by
  have hq : |(0 : ℚ)| / 20 = 0 := by norm_num
  have h := lowpass_gain L r fr 0 gdB hcs hs (by rw [hq, hp]; norm_num)
  rw [h, hq, hp]
  norm_num

/-- C14 as amended, evaluated at `BiquadFilter(48000, 12000, 0, 0, bq_type_lowpass)` on the
triangle-wave `Libm`, where `cos W = 0` and `sin W = 1`. -/
theorem lowpass_0dB_at_cutoff_witness :
    Complex.abs (transfer (new Libm.triangle 48000 12000 0 0 0)
      (⟨((Libm.triangle.cos (new Libm.triangle 48000 12000 0 0 0).W : ℚ) : ℝ),
        ((Libm.triangle.sin (new Libm.triangle 48000 12000 0 0 0).W : ℚ) : ℝ)⟩ : ℂ)) = 1 :=
  lowpass_0dB_at_cutoff Libm.triangle 48000 12000 0
    (by rw [new_quarter_rate.1, Libm.triangle_quarter_turn.1, Libm.triangle_quarter_turn.2.1]
        norm_num)
    (by rw [new_quarter_rate.1, Libm.triangle_quarter_turn.1]; norm_num)
    Libm.triangle_quarter_turn.2.2

end BiquadFilter

end nemlib

namespace nemlib

namespace BiquadFilter

/-- Whatever the type, `ComputeCoeff` gives a positive `A0` when `V`, `AQ` and `AQdB` are
positive, `AS` is non-negative, `cos` stays within [-1, 1] and `sqrt` is non-negative. -/
theorem ComputeCoeff_A0_pos (L : Libm) (f : BiquadFilter)
    (hcos : ∀ x : ℚ, -1 ≤ L.cos x ∧ L.cos x ≤ 1) (hsqrt : ∀ x : ℚ, 0 ≤ x → 0 ≤ L.sqrt x)
    (hV : 0 < f.V) (hAQ : 0 < f.AQ) (hAQdB : 0 < f.AQdB) (hAS : 0 ≤ f.AS) :
    0 < (ComputeCoeff L f).A0 := by
  have hc := hcos f.W
  have hsq := hsqrt f.V hV.le
  have hdiv : 0 < f.AQ / f.V := div_pos hAQ hV
  have hprod : 0 ≤ 2 * L.sqrt f.V * f.AS := by positivity
  have hshelf1 : 0 < f.V + 1 + 2 * L.sqrt f.V * f.AS + (f.V - 1) * L.cos f.W := by
    rcases le_total 1 f.V with h | h
    · nlinarith [mul_nonneg (sub_nonneg.mpr h) (by linarith [hc.1] : 0 ≤ L.cos f.W + 1)]
    · nlinarith [mul_nonneg (sub_nonneg.mpr h) (by linarith [hc.2] : 0 ≤ 1 - L.cos f.W)]
  have hshelf2 : 0 < f.V + 1 + 2 * L.sqrt f.V * f.AS - (f.V - 1) * L.cos f.W := by
    rcases le_total 1 f.V with h | h
    · nlinarith [mul_nonneg (sub_nonneg.mpr h) (by linarith [hc.2] : 0 ≤ 1 - L.cos f.W)]
    · nlinarith [mul_nonneg (sub_nonneg.mpr h) (by linarith [hc.1] : 0 ≤ L.cos f.W + 1)]
  unfold ComputeCoeff
  dsimp only
  by_cases t0 : f.Type_ = 0
  · rw [if_pos t0]; show 0 < 1 + f.AQdB; linarith
  rw [if_neg t0]
  by_cases t1 : f.Type_ = 1
  · rw [if_pos t1]; show 0 < 1 + f.AQdB; linarith
  rw [if_neg t1]
  by_cases t2 : f.Type_ = 2
  · rw [if_pos t2]; show 0 < 1 + f.AQ; linarith
  rw [if_neg t2]
  by_cases t3 : f.Type_ = 3
  · rw [if_pos t3]; show 0 < 1 + f.AQ; linarith
  rw [if_neg t3]
  by_cases t4 : f.Type_ = 4
  · rw [if_pos t4]; show 0 < 1 + f.AQ / f.V; linarith
  rw [if_neg t4]
  by_cases t5 : f.Type_ = 5
  · rw [if_pos t5]; exact hshelf1
  rw [if_neg t5]
  by_cases t6 : f.Type_ = 6
  · rw [if_pos t6]; exact hshelf2
  rw [if_neg t6]
  by_cases t7 : f.Type_ = 7
  · rw [if_pos t7]; show 0 < 1 + f.AQ; linarith
  rw [if_neg t7]
  show 0 < 1 + f.AQdB
  linarith

end BiquadFilter

end nemlib

namespace nemlib

namespace BiquadFilter

/-- The constructor stores a `W` in `(0, pi)` and computes a positive `A0`, for a `Libm` with
the sign and range properties of the real functions. -/
theorem new_A0_pos (L : Libm) (hpi : 0 < L.pi)
    (hsin : ∀ x : ℚ, 0 < x → x < L.pi → 0 < L.sin x)
    (hcos : ∀ x : ℚ, -1 ≤ L.cos x ∧ L.cos x ≤ 1)
    (hpow : ∀ y : ℚ, 0 < L.pow 10 y) (hsqrt : ∀ x : ℚ, 0 ≤ x → 0 ≤ L.sqrt x)
    (r t : Int) (fr q gdB : ℚ) :
    0 < (new L r fr q gdB t).A0 ∧ 0 < (new L r fr q gdB t).W ∧
    (new L r fr q gdB t).W < L.pi := by
  have hsr : (1 : ℚ) ≤ ((max r 1 : Int) : ℚ) := by exact_mod_cast le_max_right r 1
  have hm0 : 0 < min (max fr 1 / ((max r 1 : Int) : ℚ)) (499 / 1000) := by
    apply lt_min
    · have : (1 : ℚ) ≤ max fr 1 := le_max_right fr 1
      positivity
    · norm_num
  have hm1 : min (max fr 1 / ((max r 1 : Int) : ℚ)) (499 / 1000) ≤ 499 / 1000 := min_le_right _ _
  have hW0 : 0 < 2 * L.pi * min (max fr 1 / ((max r 1 : Int) : ℚ)) (499 / 1000) := by positivity
  have hW1 : 2 * L.pi * min (max fr 1 / ((max r 1 : Int) : ℚ)) (499 / 1000) < L.pi := by
    nlinarith
  have hs := hsin _ hW0 hW1
  have hWeq : (new L r fr q gdB t).W
      = 2 * L.pi * min (max fr 1 / ((max r 1 : Int) : ℚ)) (499 / 1000) := by
    unfold new
    simp only [ComputeCoeff_frame]
  refine ⟨?_, by rw [hWeq]; exact hW0, by rw [hWeq]; exact hW1⟩
  unfold new
  apply ComputeCoeff_A0_pos L _ hcos hsqrt
  · exact hpow _
  · show 0 < L.sin _ / (2 * max |q| (1 / 1000))
    have : (0 : ℚ) < max |q| (1 / 1000) := lt_max_of_lt_right (by norm_num)
    exact div_pos hs (by positivity)
  · show 0 < L.sin _ / (2 * L.pow 10 (|q| / 20))
    have := hpow (|q| / 20)
    exact div_pos hs (by positivity)
  · show 0 ≤ L.sin _ / L.sqrt 2
    exact div_nonneg hs.le (hsqrt 2 (by norm_num))

/-- In exact arithmetic: for a `Libm` with the sign and range properties of the real
functions (`pi > 0`, `sin > 0` on `(0, pi)`, `cos` within [-1, 1], `pow(10, y) > 0`,
`sqrt ≥ 0`), a filter built by the 5-argument constructor with any sample rate, frequency, Q,
peak gain and type, and taken through any sequence of setter and `ProcessSample` calls, has
`A0 > 0`, and its `W` lies in `(0, pi)`.  The binary32 filter is `BiquadFilter.new32`. -/
theorem A0_positive (L : Libm) (hpi : 0 < L.pi)
    (hsin : ∀ x : ℚ, 0 < x → x < L.pi → 0 < L.sin x)
    (hcos : ∀ x : ℚ, -1 ≤ L.cos x ∧ L.cos x ≤ 1)
    (hpow : ∀ y : ℚ, 0 < L.pow 10 y) (hsqrt : ∀ x : ℚ, 0 ≤ x → 0 ≤ L.sqrt x)
    (r t : Int) (fr q gdB : ℚ) (cs : List Call) :
    0 < (calls L (new L r fr q gdB t) cs).A0 ∧
    0 < (calls L (new L r fr q gdB t) cs).W ∧
    (calls L (new L r fr q gdB t) cs).W < L.pi := by
  have h := calls_eq_new L r cs (new L r fr q gdB t) ⟨fr, q, gdB, t⟩ (ResetFilter_new L r t fr q gdB)
  have hA : (calls L (new L r fr q gdB t) cs).A0
      = (ResetFilter (calls L (new L r fr q gdB t) cs)).A0 := rfl
  have hW : (calls L (new L r fr q gdB t) cs).W
      = (ResetFilter (calls L (new L r fr q gdB t) cs)).W := rfl
  rw [hA, hW, h]
  exact new_A0_pos L hpi hsin hcos hpow hsqrt r _ _ _ _

/-- The exact-arithmetic filter on the triangle-wave `Libm` at
`BiquadFilter(48000, 1000, 1, 6, 5)` (low shelf) followed by `SetFrequency(200)`,
`SetType(4)`, `SetPeakGain(-12)`, `SetQFactor(0)`. -/
theorem A0_positive_witness :
    0 < (calls Libm.triangle (new Libm.triangle 48000 1000 1 6 5)
      [Call.SetFrequency 200, Call.SetType 4, Call.SetPeakGain (-12), Call.SetQFactor 0]).A0 :=
  (A0_positive Libm.triangle Libm.triangle_signs.1 Libm.triangle_signs.2.1
    Libm.triangle_signs.2.2.2.1 Libm.triangle_signs.2.2.2.2.1 Libm.triangle_signs.2.2.2.2.2
    48000 5 1000 1 6
    [Call.SetFrequency 200, Call.SetType 4, Call.SetPeakGain (-12), Call.SetQFactor 0]).1

end BiquadFilter

end nemlib

/-! ## Oscillators: the wrapped phase -/

namespace nemlib

/-- On a non-negative argument `fmod(x, 1.0f)` is the fractional part. -/
theorem fmod1_of_nonneg (x : ℚ) (h : 0 ≤ x) : fmod1 x = Int.fract x := by
  unfold fmod1 truncToInt
  rw [if_pos h]
  rfl

/-- On a non-negative argument `fmod(x, 1.0f)` lies in [0, 1). -/
theorem fmod1_mem (x : ℚ) (h : 0 ≤ x) : 0 ≤ fmod1 x ∧ fmod1 x < 1 := by
  rw [fmod1_of_nonneg x h]
  exact ⟨Int.fract_nonneg x, Int.fract_lt_one x⟩

/-- With a non-negative increment, a phase that starts non-negative stays non-negative. -/
theorem phaseAfter_nonneg (inc p : ℚ) (hinc : 0 ≤ inc) (hp : 0 ≤ p) (n : Nat) :
    0 ≤ phaseAfter inc n p := by
  induction n with
  | zero => exact hp
  | succ n ih =>
    show 0 ≤ fmod1 (phaseAfter inc n p) + inc
    have := (fmod1_mem _ ih).1
    linarith

/-- With a non-negative increment and start, the wrapped phase at call `n` lies in [0, 1)
and differs from `p + n * inc` by a whole number. -/
theorem phaseAfter_wrapped (inc p : ℚ) (hinc : 0 ≤ inc) (hp : 0 ≤ p) (n : Nat) :
    0 ≤ fmod1 (phaseAfter inc n p) ∧ fmod1 (phaseAfter inc n p) < 1 ∧
    ∃ k : ℤ, fmod1 (phaseAfter inc n p) = p + (n : ℚ) * inc - (k : ℚ) := by
  have hm := fmod1_mem _ (phaseAfter_nonneg inc p hinc hp n)
  refine ⟨hm.1, hm.2, ?_⟩
  induction n with
  | zero =>
    refine ⟨⌊p⌋, ?_⟩
    rw [fmod1_of_nonneg _ (phaseAfter_nonneg inc p hinc hp 0)]
    show Int.fract p = _
    rw [Int.fract]; push_cast; ring
  | succ n ih =>
    obtain ⟨k, hk⟩ := ih (fmod1_mem _ (phaseAfter_nonneg inc p hinc hp n))
    refine ⟨k + ⌊phaseAfter inc (n + 1) p⌋, ?_⟩
    rw [fmod1_of_nonneg _ (phaseAfter_nonneg inc p hinc hp (n + 1))]
    rw [Int.fract]
    have hstep : phaseAfter inc (n + 1) p = fmod1 (phaseAfter inc n p) + inc := rfl
    rw [hstep, hk]
    push_cast
    ring

/-- The five oscillators follow the phase recurrence and keep their increment. -/
theorem oscillator_phase (L : Libm) (n : Nat) :
    (∀ o : SineOsc, (SineOsc.calls L n o).Phase = phaseAfter o.PhaseInc n o.Phase ∧
      (SineOsc.calls L n o).PhaseInc = o.PhaseInc) ∧
    (∀ o : SquareOsc, (SquareOsc.calls n o).Phase = phaseAfter o.PhaseInc n o.Phase ∧
      (SquareOsc.calls n o).PhaseInc = o.PhaseInc) ∧
    (∀ o : SawOsc, (SawOsc.calls n o).Phase = phaseAfter o.PhaseInc n o.Phase ∧
      (SawOsc.calls n o).PhaseInc = o.PhaseInc) ∧
    (∀ o : TriangleOsc, (TriangleOsc.calls n o).Phase = phaseAfter o.PhaseInc n o.Phase ∧
      (TriangleOsc.calls n o).PhaseInc = o.PhaseInc) ∧
    (∀ o : PWMOsc, (PWMOsc.calls n o).Phase = phaseAfter o.PhaseInc n o.Phase ∧
      (PWMOsc.calls n o).PhaseInc = o.PhaseInc ∧
      (PWMOsc.calls n o).DutyCycle = o.DutyCycle) := by
  induction n with
  | zero =>
    exact ⟨fun o => ⟨rfl, rfl⟩, fun o => ⟨rfl, rfl⟩, fun o => ⟨rfl, rfl⟩, fun o => ⟨rfl, rfl⟩,
      fun o => ⟨rfl, rfl, rfl⟩⟩
  | succ n ih =>
    obtain ⟨h1, h2, h3, h4, h5⟩ := ih
    refine ⟨fun o => ?_, fun o => ?_, fun o => ?_, fun o => ?_, fun o => ?_⟩
    · have hp : (SineOsc.calls L (n + 1) o).Phase
          = fmod1 (SineOsc.calls L n o).Phase + (SineOsc.calls L n o).PhaseInc := rfl
      have hi : (SineOsc.calls L (n + 1) o).PhaseInc = (SineOsc.calls L n o).PhaseInc := rfl
      rw [hp, hi, (h1 o).1, (h1 o).2]
      exact ⟨rfl, rfl⟩
    · have hp : (SquareOsc.calls (n + 1) o).Phase
          = fmod1 (SquareOsc.calls n o).Phase + (SquareOsc.calls n o).PhaseInc := rfl
      have hi : (SquareOsc.calls (n + 1) o).PhaseInc = (SquareOsc.calls n o).PhaseInc := rfl
      rw [hp, hi, (h2 o).1, (h2 o).2]
      exact ⟨rfl, rfl⟩
    · have hp : (SawOsc.calls (n + 1) o).Phase
          = fmod1 (SawOsc.calls n o).Phase + (SawOsc.calls n o).PhaseInc := rfl
      have hi : (SawOsc.calls (n + 1) o).PhaseInc = (SawOsc.calls n o).PhaseInc := rfl
      rw [hp, hi, (h3 o).1, (h3 o).2]
      exact ⟨rfl, rfl⟩
    · have hp : (TriangleOsc.calls (n + 1) o).Phase
          = fmod1 (TriangleOsc.calls n o).Phase + (TriangleOsc.calls n o).PhaseInc := rfl
      have hi : (TriangleOsc.calls (n + 1) o).PhaseInc = (TriangleOsc.calls n o).PhaseInc := rfl
      rw [hp, hi, (h4 o).1, (h4 o).2]
      exact ⟨rfl, rfl⟩
    · have hp : (PWMOsc.calls (n + 1) o).Phase
          = fmod1 (PWMOsc.calls n o).Phase + (PWMOsc.calls n o).PhaseInc := rfl
      have hi : (PWMOsc.calls (n + 1) o).PhaseInc = (PWMOsc.calls n o).PhaseInc := rfl
      have hd : (PWMOsc.calls (n + 1) o).DutyCycle = (PWMOsc.calls n o).DutyCycle := rfl
      rw [hp, hi, hd, (h5 o).1, (h5 o).2.1, (h5 o).2.2]
      exact ⟨rfl, rfl, rfl⟩

end nemlib

namespace nemlib

/-- The triangle-wave `sin` has the two symmetries of the sine used by `SineOsc`:
`sin(pi - y) = sin y` and `sin(y + 2 pi k) = sin y` for whole `k`. -/
theorem Libm.triangle_symmetries :
    (∀ y : ℚ, Libm.triangle.sin (Libm.triangle.pi - y) = Libm.triangle.sin y) ∧
    (∀ (y : ℚ) (k : ℤ), Libm.triangle.sin (y + 2 * Libm.triangle.pi * (k : ℚ))
      = Libm.triangle.sin y) := by
  constructor
  · intro y
    show 1 - 4 * |Int.fract ((355 / 113 - y) / (2 * (355 / 113)) + 1 / 4) - 1 / 2|
      = 1 - 4 * |Int.fract (y / (2 * (355 / 113)) + 1 / 4) - 1 / 2|
    have he : (355 / 113 - y) / (2 * (355 / 113)) + 1 / 4
        = ((1 : ℤ) : ℚ) + -(y / (2 * (355 / 113)) + 1 / 4) := by
      push_cast; field_simp; ring
    rw [he, Int.fract_int_add]
    by_cases h0 : Int.fract (y / (2 * (355 / 113)) + 1 / 4) = 0
    · rw [Int.fract_neg_eq_zero.mpr h0, h0]
    · rw [Int.fract_neg h0]
      congr 2
      rw [show 1 - Int.fract (y / (2 * (355 / 113)) + 1 / 4) - 1 / 2
        = -(Int.fract (y / (2 * (355 / 113)) + 1 / 4) - 1 / 2) by ring, abs_neg]
  · intro y k
    show 1 - 4 * |Int.fract ((y + 2 * (355 / 113) * (k : ℚ)) / (2 * (355 / 113)) + 1 / 4) - 1 / 2|
      = 1 - 4 * |Int.fract (y / (2 * (355 / 113)) + 1 / 4) - 1 / 2|
    have he : (y + 2 * (355 / 113) * (k : ℚ)) / (2 * (355 / 113)) + 1 / 4
        = (y / (2 * (355 / 113)) + 1 / 4) + (k : ℚ) := by
      field_simp; ring
    rw [he, Int.fract_add_int]

/-- C18: for a `Libm` whose `sin` has the symmetries `sin(pi - y) = sin y` and
`sin(y + 2 pi k) = sin y` (whole `k`) of the sine, every frequency `f ≥ 1` and sample rate
`r ≥ 1`, the value returned by call number `n` (from 0) of `NextSample` on `SineOsc(f, r)`
is `sin(2 * pi * n * f / r)`, in exact arithmetic. -/
theorem SineOsc.output_eq_sin (L : Libm) (hrefl : ∀ y : ℚ, L.sin (L.pi - y) = L.sin y)
    (hper : ∀ (y : ℚ) (k : ℤ), L.sin (y + 2 * L.pi * (k : ℚ)) = L.sin y)
    (f : ℚ) (r : Int) (hf : 1 ≤ f) (hr : 1 ≤ r) (n : Nat) :
    SineOsc.output L n (SineOsc.new f r) = L.sin (2 * L.pi * (n : ℚ) * f / (r : ℚ)) := by
  have hr' : (1 : ℚ) ≤ (r : ℚ) := by exact_mod_cast hr
  have hinc : (SineOsc.new f r).PhaseInc = f / (r : ℚ) := by
    show f / ((max r 1 : Int) : ℚ) = _
    rw [max_eq_left hr]
  have hp0 : (SineOsc.new f r).Phase = 0 := rfl
  have hincnn : 0 ≤ f / (r : ℚ) := by positivity
  obtain ⟨-, -, k, hk⟩ := phaseAfter_wrapped (f / (r : ℚ)) 0 hincnn (le_refl 0) n
  have hout : SineOsc.output L n (SineOsc.new f r)
      = L.sin (-1 * (2 * fmod1 (SineOsc.calls L n (SineOsc.new f r)).Phase * L.pi - L.pi)) := rfl
  rw [hout, ((oscillator_phase L n).1 (SineOsc.new f r)).1, hinc, hp0, hk]
  have h1 : -1 * (2 * (0 + (n : ℚ) * (f / (r : ℚ)) - (k : ℚ)) * L.pi - L.pi)
      = L.pi - (2 * L.pi * (n : ℚ) * f / (r : ℚ) + 2 * L.pi * ((-k : ℤ) : ℚ)) := by
    push_cast; ring
  rw [h1, hrefl, hper]

/-- C18, evaluated on the triangle-wave `Libm` at `SineOsc(12000, 48000)` and call number 3,
where the phase is 3/4. -/
theorem SineOsc.output_eq_sin_witness :
    SineOsc.output Libm.triangle 3 (SineOsc.new 12000 48000)
      = Libm.triangle.sin (2 * Libm.triangle.pi * ((3 : Nat) : ℚ) * 12000 / ((48000 : Int) : ℚ)) :=
  SineOsc.output_eq_sin Libm.triangle Libm.triangle_symmetries.1 Libm.triangle_symmetries.2
    12000 48000 (by norm_num) (by norm_num) 3

end nemlib

namespace nemlib

/-- C19: for `SineOsc`, `SquareOsc`, `SawOsc`, `TriangleOsc` and `PWMOsc` constructed with a
frequency `f ≥ 1` and a sample rate `r ≥ 1`, the wrapped phase used at every call of
`NextSample` lies in [0, 1) and the value returned lies in [-1, 1], for any number of
consecutive calls; for `SineOsc` the `sin` of the `Libm` is taken to stay within [-1, 1]. -/
theorem oscillators_stay_in_range (L : Libm) (hsin : ∀ x : ℚ, -1 ≤ L.sin x ∧ L.sin x ≤ 1)
    (f d : ℚ) (r : Int) (hf : 1 ≤ f) (hr : 1 ≤ r) (n : Nat) :
    (0 ≤ fmod1 (SineOsc.calls L n (SineOsc.new f r)).Phase ∧
      fmod1 (SineOsc.calls L n (SineOsc.new f r)).Phase < 1 ∧
      -1 ≤ SineOsc.output L n (SineOsc.new f r) ∧ SineOsc.output L n (SineOsc.new f r) ≤ 1) ∧
    (0 ≤ fmod1 (SquareOsc.calls n (SquareOsc.new f r)).Phase ∧
      fmod1 (SquareOsc.calls n (SquareOsc.new f r)).Phase < 1 ∧
      -1 ≤ SquareOsc.output n (SquareOsc.new f r) ∧ SquareOsc.output n (SquareOsc.new f r) ≤ 1) ∧
    (0 ≤ fmod1 (SawOsc.calls n (SawOsc.new f r)).Phase ∧
      fmod1 (SawOsc.calls n (SawOsc.new f r)).Phase < 1 ∧
      -1 ≤ SawOsc.output n (SawOsc.new f r) ∧ SawOsc.output n (SawOsc.new f r) ≤ 1) ∧
    (0 ≤ fmod1 (TriangleOsc.calls n (TriangleOsc.new f r)).Phase ∧
      fmod1 (TriangleOsc.calls n (TriangleOsc.new f r)).Phase < 1 ∧
      -1 ≤ TriangleOsc.output n (TriangleOsc.new f r) ∧
      TriangleOsc.output n (TriangleOsc.new f r) ≤ 1) ∧
    (0 ≤ fmod1 (PWMOsc.calls n (PWMOsc.new f r d)).Phase ∧
      fmod1 (PWMOsc.calls n (PWMOsc.new f r d)).Phase < 1 ∧
      -1 ≤ PWMOsc.output n (PWMOsc.new f r d) ∧ PWMOsc.output n (PWMOsc.new f r d) ≤ 1) := by
  have hr' : (1 : ℚ) ≤ (r : ℚ) := by exact_mod_cast hr
  have hf0 : (0 : ℚ) < f := by linarith
  have hrpos : (0 : Int) < r := by omega
  have hincnn : 0 ≤ f / (r : ℚ) := by positivity
  have hmaxr : max r 1 = r := max_eq_left hr
  have hmaxf : max f 1 = f := max_eq_left hf
  have hw := phaseAfter_wrapped (f / (r : ℚ)) 0 hincnn (le_refl 0) n
  obtain ⟨hS, hQ, hA, hT, hP⟩ := oscillator_phase L n
  refine ⟨?_, ?_, ?_, ?_, ?_⟩
  · have hinc : (SineOsc.new f r).PhaseInc = f / (r : ℚ) := by
      show f / ((max r 1 : Int) : ℚ) = _
      rw [hmaxr]
    have hph : fmod1 (SineOsc.calls L n (SineOsc.new f r)).Phase
        = fmod1 (phaseAfter (f / (r : ℚ)) n 0) := by
      rw [(hS _).1, hinc]; rfl
    rw [hph]
    exact ⟨hw.1, hw.2.1, (hsin _).1, (hsin _).2⟩
  · have hnew : SquareOsc.new f r
        = { Frequency := max f 1, SampleRate := max r 1, PhaseInc := f / ((max r 1 : Int) : ℚ) } := by
      unfold SquareOsc.new
      rw [if_pos ⟨hrpos, hf0⟩]
    have hinc : (SquareOsc.new f r).PhaseInc = f / (r : ℚ) := by
      rw [hnew, hmaxr]
    have hp0 : (SquareOsc.new f r).Phase = 0 := by rw [hnew]
    have hph : fmod1 (SquareOsc.calls n (SquareOsc.new f r)).Phase
        = fmod1 (phaseAfter (f / (r : ℚ)) n 0) := by
      rw [(hQ _).1, hinc, hp0]
    have hout : SquareOsc.output n (SquareOsc.new f r)
        = if fmod1 (SquareOsc.calls n (SquareOsc.new f r)).Phase ≤ 1 / 2 then -1 else 1 := rfl
    rw [hout, hph]
    refine ⟨hw.1, hw.2.1, ?_, ?_⟩ <;> split_ifs <;> norm_num
  · have hinc : (SawOsc.new f r).PhaseInc = f / (r : ℚ) := by
      show max f 1 / ((max r 1 : Int) : ℚ) = _
      rw [hmaxr, hmaxf]
    have hph : fmod1 (SawOsc.calls n (SawOsc.new f r)).Phase
        = fmod1 (phaseAfter (f / (r : ℚ)) n 0) := by
      rw [(hA _).1, hinc]; rfl
    have hout : SawOsc.output n (SawOsc.new f r)
        = 2 * fmod1 (SawOsc.calls n (SawOsc.new f r)).Phase - 1 := rfl
    rw [hout, hph]
    refine ⟨hw.1, hw.2.1, ?_, ?_⟩ <;> linarith [hw.1, hw.2.1]
  · have hinc : (TriangleOsc.new f r).PhaseInc = f / (r : ℚ) := by
      show max f 1 / ((max r 1 : Int) : ℚ) = _
      rw [hmaxr, hmaxf]
    have hph : fmod1 (TriangleOsc.calls n (TriangleOsc.new f r)).Phase
        = fmod1 (phaseAfter (f / (r : ℚ)) n 0) := by
      rw [(hT _).1, hinc]; rfl
    have hout : TriangleOsc.output n (TriangleOsc.new f r)
        = if fmod1 (TriangleOsc.calls n (TriangleOsc.new f r)).Phase ≤ 1 / 2
          then 4 * fmod1 (TriangleOsc.calls n (TriangleOsc.new f r)).Phase - 1
          else -4 * fmod1 (TriangleOsc.calls n (TriangleOsc.new f r)).Phase + 3 := rfl
    rw [hout, hph]
    refine ⟨hw.1, hw.2.1, ?_, ?_⟩ <;> split_ifs with h <;> linarith [hw.1, hw.2.1]
  · have hinc : (PWMOsc.new f r d).PhaseInc = f / (r : ℚ) := by
      show max f 1 / ((max r 1 : Int) : ℚ) = _
      rw [hmaxr, hmaxf]
    have hph : fmod1 (PWMOsc.calls n (PWMOsc.new f r d)).Phase
        = fmod1 (phaseAfter (f / (r : ℚ)) n 0) := by
      rw [(hP _).1, hinc]; rfl
    have hout : PWMOsc.output n (PWMOsc.new f r d)
        = if fmod1 (PWMOsc.calls n (PWMOsc.new f r d)).Phase
            ≥ (PWMOsc.calls n (PWMOsc.new f r d)).DutyCycle then -1 else 1 := rfl
    rw [hout, hph]
    refine ⟨hw.1, hw.2.1, ?_, ?_⟩ <;> split_ifs <;> norm_num

/-- C19, evaluated on the triangle-wave `Libm` at frequency 440, sample rate 48000, duty
cycle 1/4 and call number 10000. -/
theorem oscillators_stay_in_range_witness :
    (-1 ≤ SineOsc.output Libm.triangle 10000 (SineOsc.new 440 48000) ∧
      SineOsc.output Libm.triangle 10000 (SineOsc.new 440 48000) ≤ 1) ∧
    (-1 ≤ SquareOsc.output 10000 (SquareOsc.new 440 48000) ∧
      SquareOsc.output 10000 (SquareOsc.new 440 48000) ≤ 1) ∧
    (-1 ≤ SawOsc.output 10000 (SawOsc.new 440 48000) ∧
      SawOsc.output 10000 (SawOsc.new 440 48000) ≤ 1) ∧
    (-1 ≤ TriangleOsc.output 10000 (TriangleOsc.new 440 48000) ∧
      TriangleOsc.output 10000 (TriangleOsc.new 440 48000) ≤ 1) ∧
    (-1 ≤ PWMOsc.output 10000 (PWMOsc.new 440 48000 (1 / 4)) ∧
      PWMOsc.output 10000 (PWMOsc.new 440 48000 (1 / 4)) ≤ 1) :=
  have h := oscillators_stay_in_range Libm.triangle Libm.triangle_signs.2.2.1 440 (1 / 4) 48000
    (by norm_num) (by norm_num) 10000
  ⟨h.1.2.2, h.2.1.2.2, h.2.2.1.2.2, h.2.2.2.1.2.2, h.2.2.2.2.2.2⟩

end nemlib

/-! ## Phasor generator -/

namespace nemlib

/-- A `NextSample` call of `PhasorGen` on a non-negative phase and a positive duty returns a
value in [0, 1]; after any call the stored phase lies in [0, 1). -/
theorem PhasorGen.NextSample_mem (o : PhasorGen) :
    (0 ≤ o.Phase → 0 < o.Duty → 0 ≤ o.NextSample.1 ∧ o.NextSample.1 ≤ 1) ∧
    0 ≤ o.NextSample.2.Phase ∧ o.NextSample.2.Phase < 1 := by
  refine ⟨fun hp hd => ?_, ?_, ?_⟩
  · show 0 ≤ (if o.Phase > o.Duty then 0 else o.Phase / o.Duty) ∧
      (if o.Phase > o.Duty then 0 else o.Phase / o.Duty) ≤ 1
    split_ifs with h
    · exact ⟨le_refl 0, zero_le_one⟩
    · exact ⟨div_nonneg hp hd.le, (div_le_one hd).mpr (not_lt.mp h)⟩
  · exact Int.fract_nonneg (o.Phase + o.PhaseInc)
  · exact Int.fract_lt_one (o.Phase + o.PhaseInc)

/-- C20, evaluated at `PhasorGen(48000, 440, -0.5, 1)` and at `PhasorGen(48000, 440)` after
`SetPhase(-0.5)`: the next `NextSample` returns `-1/2`, which is below 0. -/
theorem PhasorGen.negative_phase_leaves_range :
    (PhasorGen.NextSample (PhasorGen.newPhaseDuty 48000 440 (-1 / 2) 1)).1 = -1 / 2 ∧
    (PhasorGen.NextSample (PhasorGen.SetPhase (PhasorGen.new 48000 440) (-1 / 2))).1 = -1 / 2 ∧
    (-1 / 2 : ℚ) < 0 := by
  refine ⟨?_, ?_, by norm_num⟩
  · show (if (-1 / 2 : ℚ) > Clamp 1 (1 / 1000) 1 then 0 else (-1 / 2 : ℚ) / Clamp 1 (1 / 1000) 1)
      = -1 / 2
    have hc : Clamp 1 (1 / 1000) 1 = 1 := by unfold Clamp; norm_num
    rw [hc]
    norm_num
  · show (if (-1 / 2 : ℚ) > 1 then 0 else (-1 / 2 : ℚ) / 1) = -1 / 2
    norm_num

end nemlib

/-! ## Rescale -/

namespace nemlib

/-- A point `a + t * (b - a)` with `t` in [0, 1] lies between `a` and `b`. -/
theorem between_of_unit (a b t : ℚ) (h0 : 0 ≤ t) (h1 : t ≤ 1) :
    min a b ≤ a + t * (b - a) ∧ a + t * (b - a) ≤ max a b := by
  rcases le_total a b with h | h
  · rw [min_eq_left h, max_eq_right h]
    constructor <;> nlinarith
  · rw [min_eq_right h, max_eq_left h]
    constructor <;> nlinarith

/-- In exact arithmetic `Rescale` does not divide by zero and its result is clamped: the
denominator `oldMax - oldMin` it uses (after `oldMin` has been moved down by 0.01 when the
old range is empty) is not 0, the result lies between `newMin` and `newMax` inclusive, and
when `oldMin < oldMax` the result is `newMin` for `value ≤ oldMin` and `newMax` for
`value ≥ oldMax`.  The binary32 function is `Rescale32`. -/
theorem Rescale_clamped_linear (value newMin newMax oldMin oldMax : ℚ) :
    oldMax - Rescale.oldMin oldMin oldMax ≠ 0 ∧
    min newMin newMax ≤ Rescale value newMin newMax oldMin oldMax ∧
    Rescale value newMin newMax oldMin oldMax ≤ max newMin newMax ∧
    (oldMin < oldMax →
      (value ≤ oldMin → Rescale value newMin newMax oldMin oldMax = newMin) ∧
      (oldMax ≤ value → Rescale value newMin newMax oldMin oldMax = newMax)) := by
  have hden : oldMax - Rescale.oldMin oldMin oldMax ≠ 0 := by
    unfold Rescale.oldMin
    split_ifs with h
    · rw [h]; norm_num
    · exact sub_ne_zero.mpr h
  have hform : ∀ v : ℚ, newMin + (v - Rescale.oldMin oldMin oldMax) * (newMax - newMin)
      / (oldMax - Rescale.oldMin oldMin oldMax)
      = newMin + ((v - Rescale.oldMin oldMin oldMax) / (oldMax - Rescale.oldMin oldMin oldMax))
        * (newMax - newMin) := by
    intro v; ring
  have hlo : newMin + (Rescale.oldMin oldMin oldMax - Rescale.oldMin oldMin oldMax)
      * (newMax - newMin) / (oldMax - Rescale.oldMin oldMin oldMax) = newMin := by
    rw [sub_self, zero_mul, zero_div, add_zero]
  have hhi : newMin + (oldMax - Rescale.oldMin oldMin oldMax)
      * (newMax - newMin) / (oldMax - Rescale.oldMin oldMin oldMax) = newMax := by
    rw [mul_div_assoc, mul_comm, div_mul_cancel₀ _ hden]; ring
  have hmin : min newMin newMax ≤ newMin ∧ newMin ≤ max newMin newMax :=
    ⟨min_le_left _ _, le_max_left _ _⟩
  have hmax : min newMin newMax ≤ newMax ∧ newMax ≤ max newMin newMax :=
    ⟨min_le_right _ _, le_max_right _ _⟩
  have hval : Rescale value newMin newMax oldMin oldMax
      = newMin + ((if value < Rescale.oldMin oldMin oldMax then Rescale.oldMin oldMin oldMax
          else if value > oldMax then oldMax else value) - Rescale.oldMin oldMin oldMax)
        * (newMax - newMin) / (oldMax - Rescale.oldMin oldMin oldMax) := rfl
  have hrange : min newMin newMax ≤ Rescale value newMin newMax oldMin oldMax ∧
      Rescale value newMin newMax oldMin oldMax ≤ max newMin newMax := by
    rw [hval]
    split_ifs with h1 h2
    · rw [hlo]; exact hmin
    · rw [hhi]; exact hmax
    · rw [hform]
      have hle : Rescale.oldMin oldMin oldMax ≤ value := not_lt.mp h1
      have hge : value ≤ oldMax := not_lt.mp h2
      have hd : 0 < oldMax - Rescale.oldMin oldMin oldMax :=
        lt_of_le_of_ne (by linarith) (Ne.symm hden)
      exact between_of_unit _ _ _ (div_nonneg (by linarith) hd.le)
        ((div_le_one hd).mpr (by linarith))
  refine ⟨hden, hrange.1, hrange.2, fun hlt => ?_⟩
  have ho : Rescale.oldMin oldMin oldMax = oldMin := by
    unfold Rescale.oldMin
    rw [if_neg (ne_of_gt hlt)]
  rw [hval, ho]
  rw [ho] at hlo hhi
  constructor
  · intro hv
    rcases lt_or_eq_of_le hv with h | h
    · rw [if_pos h]; exact hlo
    · rw [if_neg (by rw [h]; exact lt_irrefl _), if_neg (by rw [h]; exact not_lt.mpr hlt.le), h]
      exact hlo
  · intro hv
    rw [if_neg (not_lt.mpr (by linarith))]
    rcases lt_or_eq_of_le hv with h | h
    · rw [if_pos h]; exact hhi
    · rw [if_neg (by rw [h]; exact lt_irrefl _), ← h]
      exact hhi

/-- The exact-arithmetic `Rescale` at the old range [0, 10] and the new range [0, 1]: 15
maps to 1 and -3 to 0; and at the empty old range [2, 2], where the denominator is not 0. -/
theorem Rescale_clamped_linear_witness :
    Rescale 15 0 1 0 10 = 1 ∧ Rescale (-3) 0 1 0 10 = 0 ∧
    (2 : ℚ) - Rescale.oldMin 2 2 ≠ 0 :=
  ⟨((Rescale_clamped_linear 15 0 1 0 10).2.2.2 (by norm_num)).2 (by norm_num),
   ((Rescale_clamped_linear (-3) 0 1 0 10).2.2.2 (by norm_num)).1 (by norm_num),
   (Rescale_clamped_linear 0 0 1 2 2).1⟩

end nemlib

/-! ## Distortion -/

namespace nemlib

/-- C24 as stated fails at amount 1, output gain 0: `ProcessSample(0)` is 0, so
`|ProcessSample(x)| = g` holds at `x = 0`, where `|x|` is not 1. -/
theorem DistortionProcessor.zero_gain_equality_everywhere :
    |(DistortionProcessor.newGain 1 0).ProcessSample 0| = 0 ∧ |(0 : ℚ)| ≠ 1 := by
  constructor
  · show |(0 : ℚ) * ((3 + 1) * 0 / (3 + 1 * |(0 : ℚ)|))| = 0
    norm_num
  · norm_num

/-- C24 as amended: for a `DistortionProcessor` with amount `a ≥ 0` and output gain `g ≥ 0`,
`ProcessSample(x) = g * (3 + a) * x / (3 + a * |x|)` with a non-zero denominator, for every
`|x| ≤ 1` the output satisfies `|ProcessSample(x)| ≤ g`, and when `g > 0` equality holds
exactly at `|x| = 1`. -/
theorem DistortionProcessor.ProcessSample_bound (a g x : ℚ) (ha : 0 ≤ a) (hg : 0 ≤ g) :
    3 + a * |x| ≠ 0 ∧
    (DistortionProcessor.newGain a g).ProcessSample x = g * (3 + a) * x / (3 + a * |x|) ∧
    (|x| ≤ 1 → |(DistortionProcessor.newGain a g).ProcessSample x| ≤ g) ∧
    (|x| ≤ 1 → 0 < g → (|(DistortionProcessor.newGain a g).ProcessSample x| = g ↔ |x| = 1)) := by
  have hx := abs_nonneg x
  have hden : 0 < 3 + a * |x| := by positivity
  have hval : (DistortionProcessor.newGain a g).ProcessSample x
      = g * (3 + a) * x / (3 + a * |x|) := by
    show g * ((3 + a) * x / (3 + a * |x|)) = _
    ring
  have habs : |(DistortionProcessor.newGain a g).ProcessSample x|
      = g * ((3 + a) * |x| / (3 + a * |x|)) := by
    rw [hval, abs_div, abs_mul, abs_mul, abs_of_nonneg hg, abs_of_nonneg (by linarith : 0 ≤ 3 + a),
      abs_of_pos hden]
    ring
  have hratio : |x| ≤ 1 → (3 + a) * |x| / (3 + a * |x|) ≤ 1 := by
    intro h1
    rw [div_le_one hden]
    nlinarith
  refine ⟨hden.ne', hval, fun h1 => ?_, fun h1 hgpos => ?_⟩
  · rw [habs]
    have := hratio h1
    nlinarith
  · rw [habs]
    constructor
    · intro h
      have h2 : (3 + a) * |x| / (3 + a * |x|) = 1 := by
        have := mul_right_cancel₀ hgpos.ne' (by rw [mul_comm, h, one_mul] :
          (3 + a) * |x| / (3 + a * |x|) * g = 1 * g)
        exact this
      rw [div_eq_one_iff_eq hden.ne'] at h2
      nlinarith
    · intro h
      rw [h]
      have : (3 + a) * 1 / (3 + a * 1) = 1 := by
        rw [mul_one, mul_one]
        exact div_self (by positivity)
      rw [this, mul_one]

/-- C24 as amended, evaluated at amount 1 and gain 1/3 (the defaults) and `x = 1`. -/
theorem DistortionProcessor.ProcessSample_bound_witness :
    |(DistortionProcessor.newGain 1 (1 / 3)).ProcessSample 1| = 1 / 3 :=
  ((DistortionProcessor.ProcessSample_bound 1 (1 / 3) 1 (by norm_num) (by norm_num)).2.2.2
    (by norm_num) (by norm_num)).mpr (by norm_num)

end nemlib

/-! ## Haas effect, pace modifiers, oscillator constructors, envelope durations -/

namespace nemlib

/-- C25, evaluated at `HaasEffect(48000, 25, 0.5)`: the constructor sets the wet delay time
to `25 / 1000` s, while `SetDepth(25)` sets it to `5 - 1/48000` s, the largest delay the
line allows, because the argument reaches `Delay::SetDelay` undivided. -/
theorem HaasEffect.SetDepth_takes_seconds :
    (HaasEffect.new 48000 25 (1 / 2)).Wet.DelayTime = 25 / 1000 ∧
    ((HaasEffect.new 48000 25 (1 / 2)).SetDepth 25).Wet.DelayTime = 5 - 1 / 48000 ∧
    (∀ (h : HaasEffect) (d : ℚ), (h.SetDepth d).Wet.DelayTime
      = Clamp d 0 (MAX_DELAY_TIME - 1 / (h.Wet.SampleRate : ℚ))) := by
  refine ⟨?_, ?_, fun h d => rfl⟩
  · show Clamp (max 25 1 / 1000) 0 (MAX_DELAY_TIME - 1 / ((48000 : Int) : ℚ)) = 25 / 1000
    norm_num [Clamp, MAX_DELAY_TIME]
  · show Clamp 25 0 (MAX_DELAY_TIME - 1 / ((48000 : Int) : ℚ)) = 5 - 1 / 48000
    norm_num [Clamp, MAX_DELAY_TIME]

/-- C29, evaluated at `SineOsc(0.5, 48000)`, `SquareOsc(0.5, 48000)` and
`SquareOsc(0, 100)`: the first two store `Frequency = 1` and `PhaseInc = 0.5 / 48000`, which
is not `Frequency / SampleRate`; the third keeps the initialisers `Frequency = 440`,
`SampleRate = 48000`, which are not `max(0, 1)` and `max(100, 1)`. -/
theorem oscillator_constructors_break_invariant :
    ((SineOsc.new (1 / 2) 48000).Frequency = 1 ∧ (SineOsc.new (1 / 2) 48000).SampleRate = 48000 ∧
      (SineOsc.new (1 / 2) 48000).PhaseInc = (1 / 2) / 48000 ∧
      (SineOsc.new (1 / 2) 48000).PhaseInc
        ≠ (SineOsc.new (1 / 2) 48000).Frequency / ((SineOsc.new (1 / 2) 48000).SampleRate : ℚ)) ∧
    ((SquareOsc.new (1 / 2) 48000).Frequency = 1 ∧
      (SquareOsc.new (1 / 2) 48000).SampleRate = 48000 ∧
      (SquareOsc.new (1 / 2) 48000).PhaseInc = (1 / 2) / 48000 ∧
      (SquareOsc.new (1 / 2) 48000).PhaseInc
        ≠ (SquareOsc.new (1 / 2) 48000).Frequency
          / ((SquareOsc.new (1 / 2) 48000).SampleRate : ℚ)) ∧
    ((SquareOsc.new 0 100).Frequency = 440 ∧ (SquareOsc.new 0 100).SampleRate = 48000 ∧
      max (0 : ℚ) 1 = 1 ∧ max (100 : Int) 1 = 100) := by
  have hS : SineOsc.new (1 / 2) 48000
      = { Frequency := 1, SampleRate := 48000, Phase := 0, PhaseInc := (1 / 2) / 48000 } := by
    unfold SineOsc.new
    norm_num
  have hQ : SquareOsc.new (1 / 2) 48000
      = { Frequency := 1, SampleRate := 48000, Phase := 0, PhaseInc := (1 / 2) / 48000 } := by
    unfold SquareOsc.new
    norm_num
  have hZ : SquareOsc.new 0 100 = {} := by
    unfold SquareOsc.new
    norm_num
  rw [hS, hQ, hZ]
  refine ⟨⟨rfl, rfl, rfl, ?_⟩, ⟨rfl, rfl, rfl, ?_⟩, rfl, rfl, by norm_num, by norm_num⟩
  · norm_num
  · norm_num

/-- The constructors of `SawOsc`, `TriangleOsc`, `PWMOsc` and `PhasorGen`, and `SetFrequency`
of all six classes, store `Frequency = max(f, 1)` and `PhaseInc = Frequency / SampleRate`;
the four constructors store `SampleRate = max(r, 1)`. -/
theorem oscillator_invariant_elsewhere (f d p : ℚ) (r : Int) :
    ((SawOsc.new f r).Frequency = max f 1 ∧ (SawOsc.new f r).SampleRate = max r 1 ∧
      (SawOsc.new f r).PhaseInc = max f 1 / ((max r 1 : Int) : ℚ)) ∧
    ((TriangleOsc.new f r).Frequency = max f 1 ∧ (TriangleOsc.new f r).SampleRate = max r 1 ∧
      (TriangleOsc.new f r).PhaseInc = max f 1 / ((max r 1 : Int) : ℚ)) ∧
    ((PWMOsc.new f r d).Frequency = max f 1 ∧ (PWMOsc.new f r d).SampleRate = max r 1 ∧
      (PWMOsc.new f r d).PhaseInc = max f 1 / ((max r 1 : Int) : ℚ)) ∧
    ((PhasorGen.new r f).Frequency = max f 1 ∧ (PhasorGen.new r f).SampleRate = max r 1 ∧
      (PhasorGen.new r f).PhaseInc = max f 1 / ((max r 1 : Int) : ℚ)) ∧
    ((PhasorGen.newPhaseDuty r f p d).Frequency = max f 1 ∧
      (PhasorGen.newPhaseDuty r f p d).SampleRate = max r 1 ∧
      (PhasorGen.newPhaseDuty r f p d).PhaseInc = max f 1 / ((max r 1 : Int) : ℚ)) ∧
    (∀ o : SineOsc, (o.SetFrequency f).Frequency = max f 1 ∧
      (o.SetFrequency f).SampleRate = o.SampleRate ∧
      (o.SetFrequency f).PhaseInc = max f 1 / (o.SampleRate : ℚ)) ∧
    (∀ o : SquareOsc, (o.SetFrequency f).Frequency = max f 1 ∧
      (o.SetFrequency f).SampleRate = o.SampleRate ∧
      (o.SetFrequency f).PhaseInc = max f 1 / (o.SampleRate : ℚ)) ∧
    (∀ o : SawOsc, (o.SetFrequency f).Frequency = max f 1 ∧
      (o.SetFrequency f).SampleRate = o.SampleRate ∧
      (o.SetFrequency f).PhaseInc = max f 1 / (o.SampleRate : ℚ)) ∧
    (∀ o : TriangleOsc, (o.SetFrequency f).Frequency = max f 1 ∧
      (o.SetFrequency f).SampleRate = o.SampleRate ∧
      (o.SetFrequency f).PhaseInc = max f 1 / (o.SampleRate : ℚ)) ∧
    (∀ o : PWMOsc, (o.SetFrequency f).Frequency = max f 1 ∧
      (o.SetFrequency f).SampleRate = o.SampleRate ∧
      (o.SetFrequency f).PhaseInc = max f 1 / (o.SampleRate : ℚ)) ∧
    (∀ o : PhasorGen, (o.SetFrequency f).Frequency = max f 1 ∧
      (o.SetFrequency f).SampleRate = o.SampleRate ∧
      (o.SetFrequency f).PhaseInc = max f 1 / (o.SampleRate : ℚ)) :=
  ⟨⟨rfl, rfl, rfl⟩, ⟨rfl, rfl, rfl⟩, ⟨rfl, rfl, rfl⟩, ⟨rfl, rfl, rfl⟩, ⟨rfl, rfl, rfl⟩,
   fun _ => ⟨rfl, rfl, rfl⟩, fun _ => ⟨rfl, rfl, rfl⟩, fun _ => ⟨rfl, rfl, rfl⟩,
   fun _ => ⟨rfl, rfl, rfl⟩, fun _ => ⟨rfl, rfl, rfl⟩, fun _ => ⟨rfl, rfl, rfl⟩⟩

/-- C30, evaluated at `CurveEnvelope(48000, {0, 1, 0}, 0)`, at the same constructor with
duration -1, at `SetTime(0)` and at `SetTimes({0, 0})`: the stored total time is 0 (the
lower bound `3 * (NumOfValues / SampleRate)` is an integer division, here `3 / 48000 = 0`),
and `SetTimes` stores the segment durations as given. -/
theorem CurveEnvelope.stored_time_can_be_zero :
    (CurveEnvelope.new 48000 [0, 1, 0] 0).Time = 0 ∧
    (CurveEnvelope.new 48000 [0, 1, 0] (-1)).Time = 0 ∧
    ((CurveEnvelope.new 48000 [0, 1, 0] 1).SetTime 0).Time = 0 ∧
    ((CurveEnvelope.new 48000 [0, 1, 0] 1).SetTimes [0, 0]).Times = [0, 0] ∧
    ((CurveEnvelope.new 48000 [0, 1, 0] 1).SetTimes [0, 0]).Time = 0 := by
  have ht : Int.tdiv 3 (max 48000 1) = 0 := by decide
  have ht' : Int.tdiv 3 48000 = 0 := by decide
  refine ⟨?_, ?_, ?_, ?_, ?_⟩
  · show max (0 : ℚ) (3 * ((Int.tdiv 3 (max 48000 1) : Int) : ℚ)) = 0
    rw [ht]; norm_num
  · show max (-1 : ℚ) (3 * ((Int.tdiv 3 (max 48000 1) : Int) : ℚ)) = 0
    rw [ht]; norm_num
  · show max (0 : ℚ) (3 * ((Int.tdiv 3 (max 48000 1) : Int) : ℚ)) = 0
    rw [ht]; norm_num
  · rfl
  · show ([0, 0] : List ℚ).foldl (fun acc t => acc + t) 0 = 0
    norm_num [List.foldl]

end nemlib

namespace nemlib

/-- The time constructors and time setters of `LinEnvelope`, `LinASREnvelope`,
`ExpEnvelope2` and `LinRamp` store `max(x, 0.0001)`, which is positive whatever `x` is. -/
theorem envelope_durations_pos (sr : Int) (a h d s r mn mx x : ℚ) :
    (0 < (LinEnvelope.new sr a h d s r).Attack ∧ 0 < (LinEnvelope.new sr a h d s r).Decay ∧
      0 < (LinEnvelope.new sr a h d s r).Release) ∧
    (0 < (LinEnvelope.newMinMax sr a h d s r mn mx).Attack ∧
      0 < (LinEnvelope.newMinMax sr a h d s r mn mx).Decay ∧
      0 < (LinEnvelope.newMinMax sr a h d s r mn mx).Release) ∧
    (∀ e : LinEnvelope, 0 < (e.SetAttack x).Attack ∧ 0 < (e.SetDecay x).Decay ∧
      0 < (e.SetRelease x).Release) ∧
    (0 < (LinASREnvelope.new sr a s r).AttackTime ∧ 0 < (LinASREnvelope.new sr a s r).ReleaseTime) ∧
    (∀ l1 l2 l3 l4 : ℚ, 0 < (LinASREnvelope.newLevels sr a s r l1 l2 l3 l4).AttackTime ∧
      0 < (LinASREnvelope.newLevels sr a s r l1 l2 l3 l4).ReleaseTime) ∧
    (∀ e : LinASREnvelope, 0 < (e.SetAttack x).AttackTime ∧ 0 < (e.SetRelease x).ReleaseTime) ∧
    (0 < (ExpEnvelope2.new sr a h d s r).Attack ∧ 0 < (ExpEnvelope2.new sr a h d s r).Decay ∧
      0 < (ExpEnvelope2.new sr a h d s r).Release) ∧
    (0 < (ExpEnvelope2.newMinMax sr a h d s r mn mx).Attack ∧
      0 < (ExpEnvelope2.newMinMax sr a h d s r mn mx).Decay ∧
      0 < (ExpEnvelope2.newMinMax sr a h d s r mn mx).Release) ∧
    (∀ e : ExpEnvelope2, 0 < (e.SetAttack x).Attack ∧ 0 < (e.SetDecay x).Decay ∧
      0 < (e.SetRelease x).Release) ∧
    0 < (LinRamp.new sr a mn mx).AttackTime ∧
    (∀ e : LinRamp, 0 < (e.SetAttackTime x).AttackTime) := by
  have hpos : ∀ y : ℚ, 0 < max y (1 / 10000) := fun y => lt_max_of_lt_right (by norm_num)
  exact ⟨⟨hpos _, hpos _, hpos _⟩, ⟨hpos _, hpos _, hpos _⟩, fun _ => ⟨hpos _, hpos _, hpos _⟩,
    ⟨hpos _, hpos _⟩, fun _ _ _ _ => ⟨hpos _, hpos _⟩, fun _ => ⟨hpos _, hpos _⟩,
    ⟨hpos _, hpos _, hpos _⟩, ⟨hpos _, hpos _, hpos _⟩, fun _ => ⟨hpos _, hpos _, hpos _⟩,
    hpos _, fun _ => hpos _⟩

end nemlib


namespace Generator

/-- In Manual mode with a step duration observed, `UpdateStepEnvelope` leaves the pace
modifiers that `UpdatePaceModifiers(60 / StepCounter)` computes on the entry state. -/
theorem UpdateStepEnvelope_manual (L : Libm) (g : Generator) (r : Rand)
    (ha : g.m_Automated = false) (hs : 0 < g.StepCounter) :
    (UpdateStepEnvelope L g r).1.RollSpeedPercentage
      = (UpdatePaceModifiers g (60 / g.StepCounter)).RollSpeedPercentage ∧
    (UpdateStepEnvelope L g r).1.HeelToBallRatio
      = (UpdatePaceModifiers g (60 / g.StepCounter)).HeelToBallRatio := by
  obtain ⟨F, hF⟩ := VaryFilterBank_frame L g r
  have hP : (UpdatePaceModifiers { g with Filters := F } (60 / g.StepCounter)).RollSpeedPercentage
        = (UpdatePaceModifiers g (60 / g.StepCounter)).RollSpeedPercentage ∧
      (UpdatePaceModifiers { g with Filters := F } (60 / g.StepCounter)).HeelToBallRatio
        = (UpdatePaceModifiers g (60 / g.StepCounter)).HeelToBallRatio := by
    unfold UpdatePaceModifiers
    dsimp only
    split_ifs <;> exact ⟨rfl, rfl⟩
  rw [← hP.1, ← hP.2]
  simp only [UpdateStepEnvelope, hF, ha, hs, gt_iff_lt, if_true]
  split_ifs <;> exact ⟨rfl, rfl⟩


/-- C28, evaluated on a freshly constructed generator, whose `m_Pace` is 82:
`UpdatePaceModifiers(60)` takes the walking band, `((255 - 60) / 90, 1.0, 0.8)`, not the
creeping band `(22 - 4 * 60 / 15, 0.5, 0.4) = (6, 0.5, 0.4)` of the pace 60 passed in; with
`m_Pace = 60` stored, `UpdatePaceModifiers(82)` takes the creeping band; and in Manual mode
with `StepCounter = 1`, an observed pace of 60, `UpdateStepEnvelope` leaves the walking
band. -/
theorem UpdatePaceModifiers_band_from_member (L : Libm) (r : Rand) :
    (Generator.new L).m_Pace = 82 ∧
    (UpdateStepEnvelope L { Generator.new L with m_Automated := false, StepCounter := 1 }
      r).1.RollSpeedPercentage = 13 / 6 ∧
    (UpdateStepEnvelope L { Generator.new L with m_Automated := false, StepCounter := 1 }
      r).1.HeelToBallRatio = [1, 8 / 10] ∧
    ((Generator.new L).UpdatePaceModifiers 60).RollSpeedPercentage = 13 / 6 ∧
    ((Generator.new L).UpdatePaceModifiers 60).HeelToBallRatio = [1, 8 / 10] ∧
    (22 : ℚ) - 4 * 60 / 15 = 6 ∧
    (UpdatePaceModifiers { Generator.new L with m_Pace := 60 } 82).RollSpeedPercentage
      = 22 - (4 / 15) * 82 ∧
    (UpdatePaceModifiers { Generator.new L with m_Pace := 60 } 82).HeelToBallRatio
      = [1 / 2, 4 / 10] := by
  have h1 : (Generator.new L).UpdatePaceModifiers 60
      = { Generator.new L with RollSpeedPercentage := (255 - 60) / 90
                               HeelToBallRatio := [1, 8 / 10] } := by
    unfold UpdatePaceModifiers
    have hp : (Generator.new L).m_Pace = 82 := rfl
    rw [hp, if_neg (by norm_num), if_pos (by norm_num)]
    rfl
  have h2 : UpdatePaceModifiers { Generator.new L with m_Pace := 60 } 82
      = { Generator.new L with m_Pace := 60, RollSpeedPercentage := 22 - (4 / 15) * 82
                               HeelToBallRatio := [1 / 2, 4 / 10] } := by
    unfold UpdatePaceModifiers
    rw [if_pos (by show (60 : ℚ) < 75; norm_num)]
    rfl
  have h3 : UpdatePaceModifiers { Generator.new L with m_Automated := false, StepCounter := 1 }
      (60 / 1)
      = { Generator.new L with m_Automated := false, StepCounter := 1
                               RollSpeedPercentage := (255 - 60 / 1) / 90
                               HeelToBallRatio := [1, 8 / 10] } := by
    unfold UpdatePaceModifiers
    rw [if_neg (by show ¬ (82 : ℚ) < 75; norm_num), if_pos (by show (82 : ℚ) < 120; norm_num)]
    rfl
  have hm := UpdateStepEnvelope_manual L
    { Generator.new L with m_Automated := false, StepCounter := 1 } r rfl
    (by show (0 : ℚ) < 1; norm_num)
  have hsc : ({ Generator.new L with m_Automated := false, StepCounter := 1 } :
      Generator).StepCounter = 1 := rfl
  rw [hsc, h3] at hm
  rw [h1, h2, hm.1, hm.2]
  refine ⟨rfl, ?_, rfl, ?_, rfl, by norm_num, rfl, rfl⟩
  · show ((255 : ℚ) - 60 / 1) / 90 = 13 / 6
    norm_num
  · show ((255 : ℚ) - 60) / 90 = 13 / 6
    norm_num

end Generator

/-! ## Setters called with the value already held -/

namespace nemlib

/-- The delay `Delay(1000, 0.1f)` after `SetDelay(0.1f)`: same buffer and write pointer, read
pointer 4900 instead of 4899. -/
theorem Delay.new_1000_SetDelay :
    ((Delay.new 1000 (1 / 10)).SetDelay (1 / 10)).SampleRate = 1000 ∧
    ((Delay.new 1000 (1 / 10)).SetDelay (1 / 10)).DelayBuffer = List.replicate 5000 0 ∧
    ((Delay.new 1000 (1 / 10)).SetDelay (1 / 10)).WritePointer = 0 ∧
    ((Delay.new 1000 (1 / 10)).SetDelay (1 / 10)).ReadPointer = 4900 := by
  obtain ⟨h1, h2, h3, h4, h5⟩ := Delay.new_1000
  have hsr : ((Delay.new 1000 (1 / 10)).SetDelay (1 / 10)).SampleRate = 1000 := h1
  have hbuf : ((Delay.new 1000 (1 / 10)).SetDelay (1 / 10)).DelayBuffer
      = List.replicate 5000 0 := h3
  have hdt : ((Delay.new 1000 (1 / 10)).SetDelay (1 / 10)).DelayTime = 1 / 10 := by
    show Clamp (1 / 10) 0 (MAX_DELAY_TIME - 1 / ((Delay.new 1000 (1 / 10)).SampleRate : ℚ))
      = 1 / 10
    rw [h1]
    norm_num [Clamp, MAX_DELAY_TIME]
  obtain ⟨g1, g2, g3, g4⟩ := Delay.SetDelay_gap (Delay.new 1000 (1 / 10)) (1 / 10)
    (by rw [h1]; norm_num) (by rw [h4]) (by rw [h4, h1, MAX_DELAY_TIME_INT_eq]; norm_num)
  rw [h4] at g3
  rw [g3, hdt, hsr, h1, MAX_DELAY_TIME_INT_eq] at g4
  rw [h1, MAX_DELAY_TIME_INT_eq] at g2
  have hfl : ⌊(1 / 10 : ℚ) * ((1000 : Int) : ℚ)⌋ = 100 := by
    rw [Int.floor_eq_iff]; norm_num
  rw [hfl] at g4
  refine ⟨hsr, hbuf, g3, ?_⟩
  omega

/-- C26, evaluated at its three witnesses.  `Delay(1000, 0.1f)` fed a unit impulse returns 0
at call 100, and 1 at call 100 if `SetDelay(0.1f)` is called first.  A `LinASREnvelope`
constructed with start level 0 returns 0 from `GetNextEnvelopePoint`, before and after
`ResetEnvelope`, and `0.0001` if `SetStartLVL(0)` is called first.
`OverDriveProcessor(0, 0, 0, 0)` returns `1583109/1600000` for the input `0.9995`, and
`0.99 * 0.9995` if `SetKnee(0)` is called first. -/
theorem setters_not_idempotent :
    (Delay.output (fun n => if n = 0 then 1 else 0) 100 (Delay.new 1000 (1 / 10)) = 0 ∧
      Delay.output (fun n => if n = 0 then 1 else 0) 100
        ((Delay.new 1000 (1 / 10)).SetDelay (1 / 10)) = 1) ∧
    ((LinASREnvelope.newLevels 1000 (1 / 10) (1 / 10) (1 / 10) 1 (2 / 10) 0 0).GetNextEnvelopePoint.1
        = 0 ∧
      ((LinASREnvelope.newLevels 1000 (1 / 10) (1 / 10) (1 / 10) 1 (2 / 10) 0 0).SetStartLVL
        0).GetNextEnvelopePoint.1 = 1 / 10000 ∧
      (LinASREnvelope.newLevels 1000 (1 / 10) (1 / 10) (1 / 10) 1 (2 / 10) 0
        0).ResetEnvelope.GetNextEnvelopePoint.1 = 0 ∧
      ((LinASREnvelope.newLevels 1000 (1 / 10) (1 / 10) (1 / 10) 1 (2 / 10) 0 0).SetStartLVL
        0).ResetEnvelope.GetNextEnvelopePoint.1 = 1 / 10000) ∧
    (((OverDriveProcessor.new Libm.triangle 0 0 0 0).ProcessSample (9995 / 10000)).1
        = 1583109 / 1600000 ∧
      (((OverDriveProcessor.new Libm.triangle 0 0 0 0).SetKnee 0).ProcessSample
        (9995 / 10000)).1 = 99 / 100 * (9995 / 10000)) := by
  refine ⟨⟨?_, ?_⟩, ⟨?_, ?_, ?_, ?_⟩, ?_, ?_⟩
  · obtain ⟨h1, h2, h3, h4, h5⟩ := Delay.new_1000
    rw [Delay.output_of_fresh (Delay.new 1000 (1 / 10)) 5000 101 _
      (by rw [h1, MAX_DELAY_TIME_INT_eq]; rfl) h3 h4 (by decide) (by decide)
      (by rw [h5]; rfl) 100]
    rfl
  · obtain ⟨h1, h3, h4, h5⟩ := Delay.new_1000_SetDelay
    rw [Delay.output_of_fresh ((Delay.new 1000 (1 / 10)).SetDelay (1 / 10)) 5000 100 _
      (by rw [h1, MAX_DELAY_TIME_INT_eq]; rfl) h3 h4 (by decide) (by decide)
      (by rw [h5]; rfl) 100]
    rfl
  · rfl
  · show max (0 : ℚ) (1 / 10000) = 1 / 10000
    norm_num
  · show (if (0 : ℚ) ≤ max (1 / 10) (1 / 10000) then (0 : ℚ) + 0 * (1 - 0) / max (1 / 10) (1 / 10000)
      else _) = 0
    norm_num
  · show (if (0 : ℚ) ≤ max (1 / 10) (1 / 10000)
      then max (0 : ℚ) (1 / 10000) + 0 * (1 - max (0 : ℚ) (1 / 10000)) / max (1 / 10) (1 / 10000)
      else _) = 1 / 10000
    norm_num
  · have hp : Libm.triangle.pow 10 (0 / 20) = 1 := by
      show (10 : ℚ) ^ ⌊(0 / 20 : ℚ)⌋ = 1
      norm_num
    have hnew : OverDriveProcessor.new Libm.triangle 0 0 0 0
        = { Volume := 1, Drive := 1, Bias := 0, Knee := 1 / 1000
            C2 := -250, C1 := 1001 / 2, C0 := -998001 / 4000, Alpha := 99 / 100, Prev := 0 } := by
      unfold OverDriveProcessor.new OverDriveProcessor.ComputeCoeff
      rw [hp]
      norm_num
    rw [hnew]
    unfold OverDriveProcessor.ProcessSample
    norm_num
  · have hp : Libm.triangle.pow 10 (0 / 20) = 1 := by
      show (10 : ℚ) ^ ⌊(0 / 20 : ℚ)⌋ = 1
      norm_num
    have hnew : (OverDriveProcessor.new Libm.triangle 0 0 0 0).SetKnee 0
        = { Volume := 1, Drive := 1, Bias := 0, Knee := 0
            C2 := 0, C1 := 0, C0 := 0, Alpha := 99 / 100, Prev := 0 } := by
      unfold OverDriveProcessor.SetKnee OverDriveProcessor.new OverDriveProcessor.ComputeCoeff
      rw [hp]
      norm_num
    rw [hnew]
    unfold OverDriveProcessor.ProcessSample
    norm_num

end nemlib

/-! ## Linear ADSR envelope: breakpoints and release segment -/

namespace nemlib

namespace LinEnvelope

/-- After `ResetEnvelope`, call number `n` finds the position `n * EnvPosInc`, as long as the
position of the call before it had not passed the end of the release. -/
theorem calls_after_reset (e : LinEnvelope) (hinc : 0 ≤ e.EnvPosInc) (n : Nat)
    (hn : ((n : ℚ) - 1) * e.EnvPosInc ≤ e.Attack + e.Hold + e.Decay + e.Release) :
    calls n e.ResetEnvelope = { e with EnvPos := (n : ℚ) * e.EnvPosInc, HasStarted := true } := by
  induction n with
  | zero =>
    show ({ e with EnvPos := 0, HasStarted := true } : LinEnvelope) = _
    simp
  | succ n ih =>
    have hn' : (n : ℚ) * e.EnvPosInc ≤ e.Attack + e.Hold + e.Decay + e.Release := by
      have : ((n + 1 : Nat) : ℚ) - 1 = (n : ℚ) := by push_cast; ring
      rwa [this] at hn
    have hprev : ((n : ℚ) - 1) * e.EnvPosInc ≤ e.Attack + e.Hold + e.Decay + e.Release := by
      nlinarith
    show (GetNextEnvelopePoint (calls n e.ResetEnvelope)).2 = _
    rw [ih hprev]
    unfold GetNextEnvelopePoint
    simp only [if_true]
    rw [if_pos hn']
    show ({ e with EnvPos := (n : ℚ) * e.EnvPosInc + e.EnvPosInc, HasStarted := true } :
      LinEnvelope) = _
    have : (n : ℚ) * e.EnvPosInc + e.EnvPosInc = ((n + 1 : Nat) : ℚ) * e.EnvPosInc := by
      push_cast; ring
    rw [this]

/-- The value returned by call number `n` after `ResetEnvelope`, segment by segment, with
`p = n * EnvPosInc` the position the call finds. -/
theorem output_reset (e : LinEnvelope) (hinc : 0 ≤ e.EnvPosInc) (n : Nat)
    (hn : ((n : ℚ) - 1) * e.EnvPosInc ≤ e.Attack + e.Hold + e.Decay + e.Release) :
    output n e.ResetEnvelope =
      if (n : ℚ) * e.EnvPosInc ≤ e.Attack then e.Max * ((n : ℚ) * e.EnvPosInc) / e.Attack
      else if (n : ℚ) * e.EnvPosInc ≤ e.Attack + e.Hold then e.Max
      else if (n : ℚ) * e.EnvPosInc ≤ e.Attack + e.Hold + e.Decay then
        e.Max - (e.Sustain - e.Max) * (e.Attack + e.Hold - (n : ℚ) * e.EnvPosInc) / e.Decay
      else if (n : ℚ) * e.EnvPosInc ≤ e.Attack + e.Hold + e.Decay + e.Release then
        e.Sustain - (e.Min - e.Sustain)
          * (e.Attack + e.Hold + e.Decay + e.Release - (n : ℚ) * e.EnvPosInc) / e.Release
      else e.Min := by
  unfold output
  rw [calls_after_reset e hinc n hn]
  rfl

end LinEnvelope

end nemlib

namespace nemlib

namespace LinEnvelope

/-- The envelope `LinEnvelope(1000, 0.1, 0, 0.1, s, 0.1)` for a sustain level `s` in [0, 1]. -/
theorem new_adsr_1000 (s : ℚ) (h0 : 0 ≤ s) (h1 : s ≤ 1) :
    new 1000 (1 / 10) 0 (1 / 10) s (1 / 10)
      = { Attack := 1 / 10, Hold := 0, Decay := 1 / 10, Sustain := s, Release := 1 / 10
          EnvPos := 0, EnvPosInc := 1 / 1000, Min := 0, Max := 1, HasStarted := false } := by
  unfold new Clamp
  rw [max_eq_left h0, min_eq_left h1]
  norm_num

/-- In exact arithmetic: after `ResetEnvelope`, a `LinEnvelope` with positive attack, decay
and release times, a non-negative hold time and a positive position increment returns 0 at
position 0, `Max` at a call whose position is exactly `Attack`, `Sustain` at a call whose
position is exactly `Attack + Hold + Decay`, and `Min` at the first call whose position is
past `Attack + Hold + Decay + Release`, which exists and is less than one sample later.  The
binary32 envelope is `LinEnvelope.GetNextEnvelopePoint32`. -/
theorem passes_through_breakpoints (e : LinEnvelope) (hA : 0 < e.Attack) (hH : 0 ≤ e.Hold)
    (hD : 0 < e.Decay) (hR : 0 < e.Release) (hinc : 0 < e.EnvPosInc) :
    output 0 e.ResetEnvelope = 0 ∧
    (∀ n : Nat, (n : ℚ) * e.EnvPosInc = e.Attack → output n e.ResetEnvelope = e.Max) ∧
    (∀ n : Nat, (n : ℚ) * e.EnvPosInc = e.Attack + e.Hold + e.Decay →
      output n e.ResetEnvelope = e.Sustain) ∧
    (∀ n : Nat, e.Attack + e.Hold + e.Decay + e.Release < (n : ℚ) * e.EnvPosInc →
      (n : ℚ) * e.EnvPosInc ≤ e.Attack + e.Hold + e.Decay + e.Release + e.EnvPosInc →
      output n e.ResetEnvelope = e.Min) ∧
    (∃ n : Nat, e.Attack + e.Hold + e.Decay + e.Release < (n : ℚ) * e.EnvPosInc ∧
      (n : ℚ) * e.EnvPosInc ≤ e.Attack + e.Hold + e.Decay + e.Release + e.EnvPosInc) := by
  refine ⟨?_, fun n hn => ?_, fun n hn => ?_, fun n hlo hhi => ?_, ?_⟩
  · rw [output_reset e hinc.le 0 (by push_cast; nlinarith)]
    rw [if_pos (by push_cast; linarith)]
    push_cast
    simp
  · rw [output_reset e hinc.le n (by nlinarith)]
    rw [if_pos hn.le, hn]
    field_simp
  · rw [output_reset e hinc.le n (by nlinarith)]
    rw [if_neg (by rw [hn]; linarith), if_neg (by rw [hn]; linarith), if_pos hn.le, hn]
    field_simp
    ring
  · rw [output_reset e hinc.le n (by nlinarith)]
    rw [if_neg (by linarith), if_neg (by linarith), if_neg (by linarith), if_neg (by linarith)]
  · have hT : 0 ≤ (e.Attack + e.Hold + e.Decay + e.Release) / e.EnvPosInc := by positivity
    refine ⟨⌊(e.Attack + e.Hold + e.Decay + e.Release) / e.EnvPosInc⌋₊ + 1, ?_, ?_⟩
    · have h := Nat.lt_floor_add_one ((e.Attack + e.Hold + e.Decay + e.Release) / e.EnvPosInc)
      rw [div_lt_iff₀ hinc] at h
      push_cast
      linarith
    · have h := Nat.floor_le hT
      rw [le_div_iff₀ hinc] at h
      push_cast
      linarith

/-- The exact-arithmetic values of `LinEnvelope(1000, 0.1, 0, 0.1, 0.5, 0.1)`: 0 at call
0, 1 at call 100, 0.5 at call 200 and 0 at call 301. -/
theorem passes_through_breakpoints_witness :
    output 0 (new 1000 (1 / 10) 0 (1 / 10) (1 / 2) (1 / 10)).ResetEnvelope = 0 ∧
    output 100 (new 1000 (1 / 10) 0 (1 / 10) (1 / 2) (1 / 10)).ResetEnvelope = 1 ∧
    output 200 (new 1000 (1 / 10) 0 (1 / 10) (1 / 2) (1 / 10)).ResetEnvelope = 1 / 2 ∧
    output 301 (new 1000 (1 / 10) 0 (1 / 10) (1 / 2) (1 / 10)).ResetEnvelope = 0 := by
  have h := passes_through_breakpoints (new 1000 (1 / 10) 0 (1 / 10) (1 / 2) (1 / 10))
    (by rw [new_adsr_1000 _ (by norm_num) (by norm_num)]; norm_num)
    (by rw [new_adsr_1000 _ (by norm_num) (by norm_num)])
    (by rw [new_adsr_1000 _ (by norm_num) (by norm_num)]; norm_num)
    (by rw [new_adsr_1000 _ (by norm_num) (by norm_num)]; norm_num)
    (by rw [new_adsr_1000 _ (by norm_num) (by norm_num)]; norm_num)
  rw [new_adsr_1000 _ (by norm_num) (by norm_num)] at h ⊢
  exact ⟨h.1, h.2.1 100 (by norm_num), h.2.2.1 200 (by norm_num),
    h.2.2.2.1 301 (by norm_num) (by norm_num)⟩

/-- C22, evaluated at `LinEnvelope(1000, 0.1, 0, 0.1, 0.5, 0.1)` and at the same envelope
with sustain level 0.8, after `ResetEnvelope`.  In the release segment, positions 0.2 to 0.3,
the first returns 0.995 at call 201, 0.75 at call 250 (where the ramp from 0.5 to 0 is at
0.25) and 0.5 at call 300; the second returns 1.592 at call 201, above `Max = 1`. -/
theorem release_ramp_starts_above_sustain :
    output 201 (new 1000 (1 / 10) 0 (1 / 10) (1 / 2) (1 / 10)).ResetEnvelope = 199 / 200 ∧
    output 250 (new 1000 (1 / 10) 0 (1 / 10) (1 / 2) (1 / 10)).ResetEnvelope = 3 / 4 ∧
    (1 / 2 : ℚ) + (250 / 1000 - (1 / 10 + 0 + 1 / 10)) * (0 - 1 / 2) / (1 / 10) = 1 / 4 ∧
    output 300 (new 1000 (1 / 10) 0 (1 / 10) (1 / 2) (1 / 10)).ResetEnvelope = 1 / 2 ∧
    output 201 (new 1000 (1 / 10) 0 (1 / 10) (8 / 10) (1 / 10)).ResetEnvelope = 199 / 125 ∧
    (new 1000 (1 / 10) 0 (1 / 10) (8 / 10) (1 / 10)).Max = 1 := by
  rw [new_adsr_1000 (1 / 2) (by norm_num) (by norm_num),
    new_adsr_1000 (8 / 10) (by norm_num) (by norm_num)]
  refine ⟨?_, ?_, by norm_num, ?_, ?_, rfl⟩
  · rw [output_reset _ (by norm_num) 201 (by norm_num)]
    norm_num
  · rw [output_reset _ (by norm_num) 250 (by norm_num)]
    norm_num
  · rw [output_reset _ (by norm_num) 300 (by norm_num)]
    norm_num
  · rw [output_reset _ (by norm_num) 201 (by norm_num)]
    norm_num

end LinEnvelope

end nemlib

/-! ## Exponential envelope 2 -/

namespace nemlib

namespace ExpEnvelope2

/-- After `ResetEnvelope`, call number `n` finds the position `n * EnvPosInc`, as long as the
position of the call before it had not passed the end of the release. -/
theorem calls_after_reset_exp (L : Libm) (e : ExpEnvelope2) (hinc : 0 ≤ e.EnvPosInc) (n : Nat)
    (hn : ((n : ℚ) - 1) * e.EnvPosInc ≤ e.Attack + e.Hold + e.Decay + e.Release) :
    calls L n e.ResetEnvelope
      = { e with EnvPos := (n : ℚ) * e.EnvPosInc, HasStarted := true } := by
  induction n with
  | zero =>
    show ({ e with EnvPos := 0, HasStarted := true } : ExpEnvelope2) = _
    simp
  | succ n ih =>
    have hn' : (n : ℚ) * e.EnvPosInc ≤ e.Attack + e.Hold + e.Decay + e.Release := by
      have : ((n + 1 : Nat) : ℚ) - 1 = (n : ℚ) := by push_cast; ring
      rwa [this] at hn
    have hprev : ((n : ℚ) - 1) * e.EnvPosInc ≤ e.Attack + e.Hold + e.Decay + e.Release := by
      nlinarith
    show (GetNextEnvelopePoint L (calls L n e.ResetEnvelope)).2 = _
    rw [ih hprev]
    unfold GetNextEnvelopePoint
    simp only [if_true]
    rw [if_pos hn']
    show ({ e with EnvPos := (n : ℚ) * e.EnvPosInc + e.EnvPosInc, HasStarted := true } :
      ExpEnvelope2) = _
    have : (n : ℚ) * e.EnvPosInc + e.EnvPosInc = ((n + 1 : Nat) : ℚ) * e.EnvPosInc := by
      push_cast; ring
    rw [this]

/-- The envelope `ExpEnvelope2(500, 0.002, 0, 0.002, 0.00005, 0)`: the release time 0 is
raised to 0.0001, the position increment is 0.002. -/
theorem new_500 :
    new 500 (2 / 1000) 0 (2 / 1000) (5 / 100000) 0
      = { Attack := 2 / 1000, Hold := 0, Decay := 2 / 1000, Sustain := 5 / 100000
          Release := 1 / 10000, Min := 0, Max := 1, SampleRate := 500, HasStarted := false
          EnvPos := 0, EnvPosInc := 1 / 500 } := by
  unfold new Clamp
  norm_num

/-- C23, evaluated at `ExpEnvelope2(500, 0.002, 0, 0.002, 0.00005, 0)`, where
`0 = Min ≤ Sustain = 0.00005 ≤ Max = 1`, after `ResetEnvelope`, with `pow(b, k) = b ^ k` at
the whole exponents 0, 1 and 20 that occur: the calls return 0.0001, 1, 0.00005 and then
`0.00005 * 2 ^ 20 = 52.4288`, which is above `Max` although the release time has elapsed;
the position no longer advances, so every later call returns 52.4288 too. -/
theorem release_overshoots_for_tiny_sustain :
    output Libm.triangle 0 (new 500 (2 / 1000) 0 (2 / 1000) (5 / 100000) 0).ResetEnvelope
      = 1 / 10000 ∧
    output Libm.triangle 1 (new 500 (2 / 1000) 0 (2 / 1000) (5 / 100000) 0).ResetEnvelope = 1 ∧
    output Libm.triangle 2 (new 500 (2 / 1000) 0 (2 / 1000) (5 / 100000) 0).ResetEnvelope
      = 5 / 100000 ∧
    output Libm.triangle 3 (new 500 (2 / 1000) 0 (2 / 1000) (5 / 100000) 0).ResetEnvelope
      = 32768 / 625 ∧
    (calls Libm.triangle 4 (new 500 (2 / 1000) 0 (2 / 1000) (5 / 100000) 0).ResetEnvelope
      = calls Libm.triangle 3 (new 500 (2 / 1000) 0 (2 / 1000) (5 / 100000) 0).ResetEnvelope) ∧
    (new 500 (2 / 1000) 0 (2 / 1000) (5 / 100000) 0).Max = 1 := by
  have hpow : ∀ b e : ℚ, Libm.triangle.pow b e = b ^ ⌊e⌋ := fun _ _ => rfl
  have hf0 : ⌊(0 : ℚ)⌋ = 0 := Int.floor_zero
  have hf1 : ⌊(1 : ℚ)⌋ = 1 := Int.floor_one
  have hf20 : ⌊(20 : ℚ)⌋ = 20 := by
    rw [Int.floor_eq_iff]; norm_num
  rw [new_500]
  have hc : ∀ n : Nat, ((n : ℚ) - 1) * (1 / 500) ≤ 2 / 1000 + 0 + 2 / 1000 + 1 / 10000 →
      calls Libm.triangle n
        ({ Attack := 2 / 1000, Hold := 0, Decay := 2 / 1000, Sustain := 5 / 100000
           Release := 1 / 10000, Min := 0, Max := 1, SampleRate := 500, HasStarted := false
           EnvPos := 0, EnvPosInc := 1 / 500 } : ExpEnvelope2).ResetEnvelope
        = { Attack := 2 / 1000, Hold := 0, Decay := 2 / 1000, Sustain := 5 / 100000
            Release := 1 / 10000, Min := 0, Max := 1, SampleRate := 500, HasStarted := true
            EnvPos := (n : ℚ) * (1 / 500), EnvPosInc := 1 / 500 } := by
    intro n hn
    exact calls_after_reset_exp Libm.triangle _ (by norm_num) n hn
  have h3 := hc 3 (by norm_num)
  refine ⟨?_, ?_, ?_, ?_, ?_, rfl⟩
  · unfold output
    rw [hc 0 (by norm_num)]
    unfold GetNextEnvelopePoint
    simp only [hpow]
    norm_num [hf0]
    rw [abs_of_pos (by norm_num)]
    norm_num
  · unfold output
    rw [hc 1 (by norm_num)]
    unfold GetNextEnvelopePoint
    simp only [hpow]
    norm_num [hf1]
  · unfold output
    rw [hc 2 (by norm_num)]
    unfold GetNextEnvelopePoint
    simp only [hpow]
    norm_num [hf1]
  · unfold output
    rw [h3]
    unfold GetNextEnvelopePoint
    simp only [hpow]
    norm_num [hf20]
    rw [abs_of_pos (by norm_num)]
    norm_num
  · show (GetNextEnvelopePoint Libm.triangle (calls Libm.triangle 3 _)).2 = _
    rw [h3]
    unfold GetNextEnvelopePoint
    norm_num

end ExpEnvelope2

end nemlib

namespace nemlib

/-- The `pow` of the triangle-wave `Libm`, `pow(b, t) = b ^ ⌊t⌋`, has the four order
properties of the real power function that `ExpEnvelope2.value_in_range` asks for. -/
theorem Libm.triangle_pow :
    (∀ b t : ℚ, 1 ≤ b → 0 ≤ t → 1 ≤ Libm.triangle.pow b t) ∧
    (∀ b t : ℚ, 1 ≤ b → 1 ≤ t → b ≤ Libm.triangle.pow b t) ∧
    (∀ b t : ℚ, 0 < b → b ≤ 1 → 0 ≤ t → Libm.triangle.pow b t ≤ 1) ∧
    (∀ b t : ℚ, 0 < b → b ≤ 1 → 1 ≤ t → Libm.triangle.pow b t ≤ b) := by
  have hnat : ∀ t : ℚ, 0 ≤ t → ∃ k : ℕ, ⌊t⌋ = (k : ℤ) :=
    fun t ht => Int.eq_ofNat_of_zero_le (Int.floor_nonneg.mpr ht)
  have hnat1 : ∀ t : ℚ, 1 ≤ t → ∃ k : ℕ, ⌊t⌋ = ((k + 1 : ℕ) : ℤ) := by
    intro t ht
    have h1 : (1 : ℤ) ≤ ⌊t⌋ := Int.le_floor.mpr (by exact_mod_cast ht)
    obtain ⟨k, hk⟩ := Int.eq_ofNat_of_zero_le (by omega : 0 ≤ ⌊t⌋ - 1)
    exact ⟨k, by push_cast; omega⟩
  refine ⟨fun b t hb ht => ?_, fun b t hb ht => ?_, fun b t hb0 hb1 ht => ?_,
    fun b t hb0 hb1 ht => ?_⟩
  · obtain ⟨k, hk⟩ := hnat t ht
    show 1 ≤ b ^ ⌊t⌋
    rw [hk, zpow_natCast]
    exact one_le_pow₀ hb
  · obtain ⟨k, hk⟩ := hnat1 t ht
    show b ≤ b ^ ⌊t⌋
    rw [hk, zpow_natCast, pow_succ]
    have := one_le_pow₀ hb (n := k)
    nlinarith
  · obtain ⟨k, hk⟩ := hnat t ht
    show b ^ ⌊t⌋ ≤ 1
    rw [hk, zpow_natCast]
    exact pow_le_one₀ hb0.le hb1
  · obtain ⟨k, hk⟩ := hnat1 t ht
    show b ^ ⌊t⌋ ≤ b
    rw [hk, zpow_natCast, pow_succ]
    have h1 := pow_le_one₀ hb0.le hb1 (n := k)
    have h0 : 0 ≤ b ^ k := by positivity
    nlinarith

end nemlib

namespace nemlib

namespace ExpEnvelope2

/-- One call on a started envelope whose sustain level is at least `max(Min, 0.0001)`, for a
`pow` that is at least 1 on bases at least 1, at least the base when the exponent is also at
least 1, at most 1 on bases in (0, 1], and at most the base when the exponent is also at
least 1: the value lies in [Min, Max], is `Max` from position `Attack` on in the attack and
hold phase, is at least `Sustain` in the decay phase, and is `Min` once the release time has
elapsed. -/
theorem value_in_range (L : Libm)
    (hp1 : ∀ b t : ℚ, 1 ≤ b → 0 ≤ t → 1 ≤ L.pow b t)
    (hp2 : ∀ b t : ℚ, 1 ≤ b → 1 ≤ t → b ≤ L.pow b t)
    (hp3 : ∀ b t : ℚ, 0 < b → b ≤ 1 → 0 ≤ t → L.pow b t ≤ 1)
    (hp4 : ∀ b t : ℚ, 0 < b → b ≤ 1 → 1 ≤ t → L.pow b t ≤ b)
    (e : ExpEnvelope2) (hA : 0 < e.Attack) (hD : 0 < e.Decay)
    (hR : 0 < e.Release) (hMin : 0 ≤ e.Min) (hMS : e.Min ≤ e.Sustain)
    (hS : 1 / 10000 ≤ e.Sustain) (hSM : e.Sustain ≤ e.Max) (hpos : 0 ≤ e.EnvPos)
    (hst : e.HasStarted = true) :
    e.Min ≤ (GetNextEnvelopePoint L e).1 ∧ (GetNextEnvelopePoint L e).1 ≤ e.Max ∧
    (e.EnvPos ≤ e.Attack + e.Hold → e.Attack ≤ e.EnvPos → (GetNextEnvelopePoint L e).1 = e.Max) ∧
    (e.Attack + e.Hold < e.EnvPos → e.EnvPos ≤ e.Attack + e.Hold + e.Decay →
      e.Sustain ≤ (GetNextEnvelopePoint L e).1) ∧
    (e.Attack + e.Hold + e.Decay + e.Release ≤ e.EnvPos → (GetNextEnvelopePoint L e).1 = e.Min) := by
  have hM0 : (0 : ℚ) < max e.Min (1 / 10000) := lt_max_of_lt_right (by norm_num)
  have hMmin : e.Min ≤ max e.Min (1 / 10000) := le_max_left _ _
  have hMS' : max e.Min (1 / 10000) ≤ e.Sustain := max_le hMS hS
  have hS0 : 0 < e.Sustain := lt_of_lt_of_le hM0 hMS'
  have hMax0 : 0 < e.Max := lt_of_lt_of_le hS0 hSM
  have hval : (GetNextEnvelopePoint L e).1 =
      if e.EnvPos ≤ e.Attack + e.Hold then
        if |min (max e.Min (1 / 10000) * L.pow (e.Max / max e.Min (1 / 10000))
              (e.EnvPos / e.Attack)) e.Max - e.Max| < 5 / 1000 ∨
            min (max e.Min (1 / 10000) * L.pow (e.Max / max e.Min (1 / 10000))
              (e.EnvPos / e.Attack)) e.Max ≥ e.Max
        then e.Max
        else min (max e.Min (1 / 10000) * L.pow (e.Max / max e.Min (1 / 10000))
              (e.EnvPos / e.Attack)) e.Max
      else if e.EnvPos ≤ e.Attack + e.Hold + e.Decay then
        if |max (e.Max * L.pow (e.Sustain / e.Max)
              ((e.EnvPos - e.Attack - e.Hold) / e.Decay)) e.Sustain - e.Sustain| < 5 / 1000 ∨
            max (e.Max * L.pow (e.Sustain / e.Max)
              ((e.EnvPos - e.Attack - e.Hold) / e.Decay)) e.Sustain ≤ e.Sustain
        then e.Sustain
        else max (e.Max * L.pow (e.Sustain / e.Max)
              ((e.EnvPos - e.Attack - e.Hold) / e.Decay)) e.Sustain
      else
        if |max (e.Sustain * L.pow (max e.Min (1 / 10000) / e.Sustain)
              ((e.EnvPos - e.Attack - e.Hold - e.Decay) / e.Release)) e.Min - e.Min| < 5 / 1000 ∨
            max (e.Sustain * L.pow (max e.Min (1 / 10000) / e.Sustain)
              ((e.EnvPos - e.Attack - e.Hold - e.Decay) / e.Release)) e.Min ≤ e.Min
        then e.Min
        else max (e.Sustain * L.pow (max e.Min (1 / 10000) / e.Sustain)
              ((e.EnvPos - e.Attack - e.Hold - e.Decay) / e.Release)) e.Min := by
    unfold GetNextEnvelopePoint
    rw [if_pos hst]
  rw [hval]
  by_cases h1 : e.EnvPos ≤ e.Attack + e.Hold
  · rw [if_pos h1]
    have hb : 1 ≤ e.Max / max e.Min (1 / 10000) := by
      rw [le_div_iff₀ hM0]; linarith
    have hp := hp1 _ (e.EnvPos / e.Attack) hb (div_nonneg hpos hA.le)
    have hw1 : min (max e.Min (1 / 10000) * L.pow (e.Max / max e.Min (1 / 10000))
        (e.EnvPos / e.Attack)) e.Max ≤ e.Max := min_le_right _ _
    have hw0 : e.Min ≤ min (max e.Min (1 / 10000) * L.pow (e.Max / max e.Min (1 / 10000))
        (e.EnvPos / e.Attack)) e.Max := by
      apply le_min
      · nlinarith
      · linarith
    refine ⟨?_, ?_, fun _ hAp => ?_, fun h => absurd h1 (not_le.mpr h), fun h => ?_⟩
    · split_ifs
      · linarith
      · exact hw0
    · split_ifs
      · exact le_refl _
      · exact hw1
    · have ht : 1 ≤ e.EnvPos / e.Attack := by rw [le_div_iff₀ hA]; linarith
      have hp' := hp2 _ _ hb ht
      have hge : e.Max ≤ max e.Min (1 / 10000) * L.pow (e.Max / max e.Min (1 / 10000))
          (e.EnvPos / e.Attack) := by
        calc e.Max = max e.Min (1 / 10000) * (e.Max / max e.Min (1 / 10000)) := by
              field_simp
          _ ≤ _ := mul_le_mul_of_nonneg_left hp' hM0.le
      rw [if_pos (Or.inr (le_min hge (le_refl _)))]
    · exfalso; linarith
  · rw [if_neg h1]
    by_cases h2 : e.EnvPos ≤ e.Attack + e.Hold + e.Decay
    · rw [if_pos h2]
      have hb0 : 0 < e.Sustain / e.Max := div_pos hS0 hMax0
      have hb1 : e.Sustain / e.Max ≤ 1 := (div_le_one hMax0).mpr hSM
      have ht : 0 ≤ (e.EnvPos - e.Attack - e.Hold) / e.Decay :=
        div_nonneg (by linarith [not_le.mp h1]) hD.le
      have hq := hp3 _ _ hb0 hb1 ht
      have hw0 : e.Sustain ≤ max (e.Max * L.pow (e.Sustain / e.Max)
          ((e.EnvPos - e.Attack - e.Hold) / e.Decay)) e.Sustain := le_max_right _ _
      have hw1 : max (e.Max * L.pow (e.Sustain / e.Max)
          ((e.EnvPos - e.Attack - e.Hold) / e.Decay)) e.Sustain ≤ e.Max := by
        apply max_le
        · nlinarith
        · exact hSM
      refine ⟨?_, ?_, fun h => absurd h h1, fun _ _ => ?_, fun h => ?_⟩
      · split_ifs <;> linarith
      · split_ifs <;> linarith
      · split_ifs
        · exact le_refl _
        · exact hw0
      · exfalso; linarith
    · rw [if_neg h2]
      have hb0 : 0 < max e.Min (1 / 10000) / e.Sustain := div_pos hM0 hS0
      have hb1 : max e.Min (1 / 10000) / e.Sustain ≤ 1 := (div_le_one hS0).mpr hMS'
      have ht : 0 ≤ (e.EnvPos - e.Attack - e.Hold - e.Decay) / e.Release :=
        div_nonneg (by linarith [not_le.mp h2]) hR.le
      have hu := hp3 _ _ hb0 hb1 ht
      have hw0 : e.Min ≤ max (e.Sustain * L.pow (max e.Min (1 / 10000) / e.Sustain)
          ((e.EnvPos - e.Attack - e.Hold - e.Decay) / e.Release)) e.Min := le_max_right _ _
      have hw1 : max (e.Sustain * L.pow (max e.Min (1 / 10000) / e.Sustain)
          ((e.EnvPos - e.Attack - e.Hold - e.Decay) / e.Release)) e.Min ≤ e.Max := by
        apply max_le
        · nlinarith
        · linarith
      refine ⟨?_, ?_, fun h => absurd h h1, fun _ h => absurd h h2, fun hT => ?_⟩
      · split_ifs
        · exact le_refl _
        · exact hw0
      · split_ifs
        · linarith
        · exact hw1
      · have ht1 : 1 ≤ (e.EnvPos - e.Attack - e.Hold - e.Decay) / e.Release := by
          rw [le_div_iff₀ hR]; linarith
        have hu' := hp4 _ _ hb0 hb1 ht1
        have hle : e.Sustain * L.pow (max e.Min (1 / 10000) / e.Sustain)
            ((e.EnvPos - e.Attack - e.Hold - e.Decay) / e.Release) ≤ max e.Min (1 / 10000) := by
          calc _ ≤ e.Sustain * (max e.Min (1 / 10000) / e.Sustain) :=
                mul_le_mul_of_nonneg_left hu' hS0.le
            _ = max e.Min (1 / 10000) := by field_simp
        have hwM : max (e.Sustain * L.pow (max e.Min (1 / 10000) / e.Sustain)
            ((e.EnvPos - e.Attack - e.Hold - e.Decay) / e.Release)) e.Min
            ≤ max e.Min (1 / 10000) := max_le hle hMmin
        rw [if_pos]
        rcases le_total (1 / 10000) e.Min with hc | hc
        · right
          exact hwM.trans (le_of_eq (max_eq_left hc))
        · left
          have hw2 := hwM.trans (le_of_eq (max_eq_right hc))
          rw [abs_lt]
          constructor <;> linarith

/-- Calls after `ResetEnvelope` change the position only, and keep it non-negative when the
increment is non-negative. -/
theorem calls_frame (L : Libm) (e : ExpEnvelope2) (hinc : 0 ≤ e.EnvPosInc) (n : Nat) :
    ∃ p : ℚ, 0 ≤ p ∧ calls L n e.ResetEnvelope = { e with EnvPos := p, HasStarted := true } := by
  induction n with
  | zero => exact ⟨0, le_refl 0, rfl⟩
  | succ n ih =>
    obtain ⟨p, hp, h⟩ := ih
    refine ⟨if p ≤ e.Attack + e.Hold + e.Decay + e.Release then p + e.EnvPosInc else p, ?_, ?_⟩
    · split_ifs <;> linarith
    · show (GetNextEnvelopePoint L (calls L n e.ResetEnvelope)).2 = _
      rw [h]
      unfold GetNextEnvelopePoint
      simp only [if_true]

/-- For the same `pow`, an envelope with positive attack, decay and release times,
`0 ≤ Min ≤ Sustain ≤ Max` and `Sustain ≥ 0.0001` returns a value in [Min, Max] at every
call after `ResetEnvelope`. -/
theorem stays_in_range (L : Libm)
    (hp1 : ∀ b t : ℚ, 1 ≤ b → 0 ≤ t → 1 ≤ L.pow b t)
    (hp2 : ∀ b t : ℚ, 1 ≤ b → 1 ≤ t → b ≤ L.pow b t)
    (hp3 : ∀ b t : ℚ, 0 < b → b ≤ 1 → 0 ≤ t → L.pow b t ≤ 1)
    (hp4 : ∀ b t : ℚ, 0 < b → b ≤ 1 → 1 ≤ t → L.pow b t ≤ b)
    (e : ExpEnvelope2) (hA : 0 < e.Attack) (hD : 0 < e.Decay)
    (hR : 0 < e.Release) (hMin : 0 ≤ e.Min) (hMS : e.Min ≤ e.Sustain)
    (hS : 1 / 10000 ≤ e.Sustain) (hSM : e.Sustain ≤ e.Max) (hinc : 0 ≤ e.EnvPosInc)
    (n : Nat) :
    e.Min ≤ output L n e.ResetEnvelope ∧ output L n e.ResetEnvelope ≤ e.Max := by
  obtain ⟨p, hp, h⟩ := calls_frame L e hinc n
  unfold output
  rw [h]
  have hv := value_in_range L hp1 hp2 hp3 hp4 { e with EnvPos := p, HasStarted := true }
    hA hD hR hMin hMS hS hSM hp rfl
  exact ⟨hv.1, hv.2.1⟩

end ExpEnvelope2

end nemlib

/-! ## Two-pole band-pass filter -/

namespace nemlib

namespace TwoPoleBPF

/-- The function `ComputeCoeff`, on a filter whose `Q` is at least 0.001 and whose
`2 * pi * Frequency / SampleRate` is at least 0.001: `Q` becomes 0.001, `Coeff1` and
`Coeff2` become 0, `CompGain` becomes 2, and every other member is kept. -/
theorem ComputeCoeff_flat (L : Libm) (f : TwoPoleBPF) (hQ : 1 / 1000 ≤ f.Q)
    (hK : 1 / 1000 ≤ 2 * L.pi * f.Frequency / (f.SampleRate : ℚ)) :
    ComputeCoeff L f = { f with Q := 1 / 1000, Coeff1 := 0, Coeff2 := 0, CompGain := 2 } := by
  have h1 : min (1 / 1000) f.Q = 1 / 1000 := min_eq_left hQ
  have h2 : min 1 (2 * L.pi * f.Frequency / (f.SampleRate : ℚ) / (1 / 1000)) = 1 := by
    apply min_eq_left
    rw [le_div_iff₀ (by norm_num)]
    linarith
  unfold ComputeCoeff
  simp only [h1, h2]
  norm_num

/-- A filter with `Coeff1 = Coeff2 = 0` and `CompGain = 2` returns twice its input, whatever
its taps `Z1`, `Z2`. -/
theorem ProcessSample_doubles (f : TwoPoleBPF) (h1 : f.Coeff1 = 0) (h2 : f.Coeff2 = 0)
    (hg : f.CompGain = 2) (x : ℚ) : (ProcessSample f x).1 = 2 * x := by
  simp only [ProcessSample, h1, h2, hg]
  ring

/-- C37: let a `TwoPoleBPF` be built with a Q factor `q ≥ 0.001` and a frequency whose
clamped value `F` has `2 * pi * F / SampleRate ≥ 0.001`, and then possibly given another
such Q factor by `SetQFactor` or another such frequency by `SetFrequency`.  In each of the
three cases `Coeff1 = Coeff2 = 0` and `CompGain = 2`, and `ProcessSample` returns `2 * x`
for every input `x` and every content `z1`, `z2` of the taps. -/
theorem Q_clamp_makes_gain_of_two (L : Libm) (sr : Int) (F q F2 q2 : ℚ)
    (hQ : 1 / 1000 ≤ q)
    (hK : 1 / 1000 ≤ 2 * L.pi * Clamp F 1 (((max sr 1 : Int) : ℚ) / 2)
      / ((max sr 1 : Int) : ℚ))
    (hQ2 : 1 / 1000 ≤ q2)
    (hK2 : 1 / 1000 ≤ 2 * L.pi * Clamp F2 1 (((max sr 1 : Int) : ℚ) / 2)
      / ((max sr 1 : Int) : ℚ)) :
    ∀ g ∈ [new L sr F q, SetQFactor L (new L sr F q) q2, SetFrequency L (new L sr F q) F2],
      g.Coeff1 = 0 ∧ g.Coeff2 = 0 ∧ g.CompGain = 2 ∧
      ∀ z1 z2 x : ℚ, (ProcessSample { g with Z1 := z1, Z2 := z2 } x).1 = 2 * x := by
  have hn : new L sr F q =
      { SampleRate := max sr 1
        Frequency := Clamp F 1 (((max sr 1 : Int) : ℚ) / 2)
        Q := 1 / 1000
        Z1 := 0, Z2 := 0, Coeff1 := 0, Coeff2 := 0, CompGain := 2 } :=
    ComputeCoeff_flat L
      { SampleRate := max sr 1
        Frequency := Clamp F 1 (((max sr 1 : Int) : ℚ) / 2)
        Q := q
        Z1 := 0, Z2 := 0, Coeff1 := 0, Coeff2 := 0, CompGain := 0 } hQ hK
  have hq : SetQFactor L (new L sr F q) q2 = _ :=
    ComputeCoeff_flat L { new L sr F q with Q := q2 } hQ2 (by rw [hn]; exact hK)
  have hf : SetFrequency L (new L sr F q) F2 = _ :=
    ComputeCoeff_flat L
      { new L sr F q with Frequency := Clamp F2 1 (((new L sr F q).SampleRate : ℚ) / 2) }
      (by rw [hn]) (by rw [hn]; exact hK2)
  intro g hg
  simp only [List.mem_cons, List.mem_singleton, List.not_mem_nil, or_false] at hg
  rcases hg with rfl | rfl | rfl
  · rw [hn]
    exact ⟨rfl, rfl, rfl, fun z1 z2 x => ProcessSample_doubles _ rfl rfl rfl x⟩
  · rw [hq]
    exact ⟨rfl, rfl, rfl, fun z1 z2 x => ProcessSample_doubles _ rfl rfl rfl x⟩
  · rw [hf]
    exact ⟨rfl, rfl, rfl, fun z1 z2 x => ProcessSample_doubles _ rfl rfl rfl x⟩

/-- C37, evaluated with `pi = 355/113` at `TwoPoleBPF(48000, 1000, 1)`, then
`SetQFactor(5)` or `SetFrequency(440)`: each of the three filters has zero `Coeff1`,
`Coeff2`, gain 2, and returns `2 * x`. -/
theorem Q_clamp_makes_gain_of_two_witness :
    (1 : ℚ) / 1000 ≤ 1 ∧ (1 : ℚ) / 1000 ≤ 5 ∧
    ∀ g ∈ [new Libm.sample 48000 1000 1, SetQFactor Libm.sample (new Libm.sample 48000 1000 1) 5,
        SetFrequency Libm.sample (new Libm.sample 48000 1000 1) 440],
      g.Coeff1 = 0 ∧ g.Coeff2 = 0 ∧ g.CompGain = 2 ∧
      ∀ z1 z2 x : ℚ, (ProcessSample { g with Z1 := z1, Z2 := z2 } x).1 = 2 * x :=
  ⟨by norm_num, by norm_num,
    Q_clamp_makes_gain_of_two Libm.sample 48000 1000 1 440 5 (by norm_num)
      (by
        have h : ((max 48000 1 : Int) : ℚ) = 48000 := by norm_num
        rw [h]; norm_num [Clamp, Libm.sample])
      (by norm_num)
      (by
        have h : ((max 48000 1 : Int) : ℚ) = 48000 := by norm_num
        rw [h]; norm_num [Clamp, Libm.sample])⟩

end TwoPoleBPF

end nemlib

/-! ## High-order band-pass filter -/

namespace nemlib

namespace HighOrderBPF

/-- The function `ComputeCoeff` keeps `CompGain` and the eight taps, and computes a `C0` of at
least 1. -/
theorem ComputeCoeff_keeps (L : Libm) (f : HighOrderBPF) :
    (ComputeCoeff L f).CompGain = f.CompGain ∧
    (ComputeCoeff L f).SampleRate = f.SampleRate ∧
    ((ComputeCoeff L f).Y1 = f.Y1 ∧ (ComputeCoeff L f).Y2 = f.Y2 ∧
     (ComputeCoeff L f).Y3 = f.Y3 ∧ (ComputeCoeff L f).Y4 = f.Y4) ∧
    ((ComputeCoeff L f).X1 = f.X1 ∧ (ComputeCoeff L f).X2 = f.X2 ∧
     (ComputeCoeff L f).X3 = f.X3 ∧ (ComputeCoeff L f).X4 = f.X4) ∧
    1 ≤ (ComputeCoeff L f).C0 := by
  refine ⟨rfl, rfl, ⟨rfl, rfl, rfl, rfl⟩, ⟨rfl, rfl, rfl, rfl⟩, ?_⟩
  simp only [ComputeCoeff]
  have h := mul_nonneg (mul_self_nonneg
    (if 1 + L.tan (2 * L.pi * f.Frequency / (f.SampleRate : ℚ) / min (1 / 1000) f.Q / 2) ≠ 0
      then (1 - L.tan (2 * L.pi * f.Frequency / (f.SampleRate : ℚ) / min (1 / 1000) f.Q / 2))
        / (1 + L.tan (2 * L.pi * f.Frequency / (f.SampleRate : ℚ) / min (1 / 1000) f.Q / 2))
      else f.Beta))
    (mul_self_nonneg (L.tan (L.pi / 8)))
  linarith

/-- With `CompGain = 0` and the four output taps at 0, `ProcessSample` returns 0 and leaves
the output taps at 0; it keeps `CompGain` and `C0`. -/
theorem ProcessSample_silent (f : HighOrderBPF) (x : ℚ) (hg : f.CompGain = 0)
    (h1 : f.Y1 = 0) (h2 : f.Y2 = 0) (h3 : f.Y3 = 0) (h4 : f.Y4 = 0) :
    (ProcessSample f x).1 = 0 ∧
    (ProcessSample f x).2.CompGain = 0 ∧
    (ProcessSample f x).2.C0 = f.C0 ∧
    (ProcessSample f x).2.Y1 = 0 ∧ (ProcessSample f x).2.Y2 = 0 ∧
    (ProcessSample f x).2.Y3 = 0 ∧ (ProcessSample f x).2.Y4 = 0 := by
  have h : (ProcessSample f x).1 = 0 := by
    simp only [ProcessSample, hg, h1, h2, h3, h4]
    norm_num
  refine ⟨h, hg, rfl, h, h1, h2, h3⟩

/-- The invariant of a filter built by the three-argument constructor, along any sequence
of calls: `CompGain = 0`, `C0 ≥ 1`, the output taps are 0, and every value returned so far
is 0. -/
theorem calls_silent (L : Libm) (cs : List Call) :
    ∀ s : List ℚ × HighOrderBPF,
      (∀ y ∈ s.1, y = 0) → s.2.CompGain = 0 → 1 ≤ s.2.C0 →
      s.2.Y1 = 0 → s.2.Y2 = 0 → s.2.Y3 = 0 → s.2.Y4 = 0 →
      (∀ y ∈ (cs.foldl (call L) s).1, y = 0) ∧ (cs.foldl (call L) s).2.CompGain = 0 ∧
      1 ≤ (cs.foldl (call L) s).2.C0 := by
  induction cs with
  | nil => intro s hy hg hc _ _ _ _; exact ⟨hy, hg, hc⟩
  | cons c cs ih =>
    intro s hy hg hc h1 h2 h3 h4
    rw [List.foldl_cons]
    cases c with
    | SetFrequency v =>
      obtain ⟨k1, _, ⟨k2, k3, k4, k5⟩, _, k6⟩ := ComputeCoeff_keeps L
        { s.2 with Frequency := Clamp v 1 ((s.2.SampleRate : ℚ) / 2) }
      exact ih (s.1, SetFrequency L s.2 v) hy (k1.trans hg) k6 (k2.trans h1) (k3.trans h2)
        (k4.trans h3) (k5.trans h4)
    | SetQFactor v =>
      obtain ⟨k1, _, ⟨k2, k3, k4, k5⟩, _, k6⟩ := ComputeCoeff_keeps L { s.2 with Q := v }
      exact ih (s.1, SetQFactor L s.2 v) hy (k1.trans hg) k6 (k2.trans h1) (k3.trans h2)
        (k4.trans h3) (k5.trans h4)
    | ProcessSample x =>
      obtain ⟨p0, p1, p2, p3, p4, p5, p6⟩ := ProcessSample_silent s.2 x hg h1 h2 h3 h4
      refine ih (s.1 ++ [(ProcessSample s.2 x).1], (ProcessSample s.2 x).2) ?_ p1
        (by rw [p2]; exact hc) p3 p4 p5 p6
      intro y hy2
      rw [List.mem_append, List.mem_singleton] at hy2
      rcases hy2 with hy2 | hy2
      · exact hy y hy2
      · rw [hy2]; exact p0

/-- C38: a `HighOrderBPF` built by the three-argument constructor, whatever its arguments,
has `CompGain = 0` and `C0 ≥ 1`, keeps both properties under every sequence of
`SetFrequency`, `SetQFactor` and `ProcessSample` calls, and returns exactly 0 from every
`ProcessSample` call of the sequence, whatever the inputs. -/
theorem output_always_zero (L : Libm) (sr : Int) (InFrequency InQFactor : ℚ)
    (cs : List Call) :
    (calls L (new L sr InFrequency InQFactor) cs).2.CompGain = 0 ∧
    1 ≤ (calls L (new L sr InFrequency InQFactor) cs).2.C0 ∧
    ∀ y ∈ (calls L (new L sr InFrequency InQFactor) cs).1, y = 0 := by
  obtain ⟨k1, _, ⟨k2, k3, k4, k5⟩, _, k6⟩ := ComputeCoeff_keeps L
    { SampleRate := max sr 1
      Frequency := Clamp InFrequency 1 (((max sr 1 : Int) : ℚ) / 2)
      Q := InQFactor
      Y1 := 0, Y2 := 0, Y3 := 0, Y4 := 0
      X1 := 0, X2 := 0, X3 := 0, X4 := 0
      C0 := 0, C1 := 0, C2 := 0, C3 := 0, C4 := 0
      CompGain := 0 }
  obtain ⟨h1, h2, h3⟩ := calls_silent L cs ([], new L sr InFrequency InQFactor)
    (by intro y hy; simp at hy) k1 k6 k2 k3 k4 k5
  exact ⟨h2, h3, h1⟩

end HighOrderBPF

end nemlib

/-! ## Overdrive: the static curve -/

namespace nemlib

namespace OverDriveProcessor

/-- The function `ProcessSample` smooths the static curve: its output is
`Alpha * curve(X) + (1 - Alpha) * Prev` with `X = InSample * Drive`. -/
theorem ProcessSample_eq_curve (o : OverDriveProcessor) (x : ℚ) :
    (ProcessSample o x).1 = o.Alpha * curve o (x * o.Drive) + (1 - o.Alpha) * o.Prev := rfl

/-- Between the knee boundaries the static curve is the quadratic branch: `upperKnee` on
`(1 - Knee, 1 + Knee)` and, for a bias and a knee below 1, `lowerKnee` on
`(-(1 - Bias)(1 + Knee), -(1 - Bias)(1 - Knee))`. -/
theorem curve_on_knees (o : OverDriveProcessor) (X : ℚ) (hk1 : o.Knee < 1)
    (hb : o.Bias < 1) :
    (1 - o.Knee < X → X < 1 + o.Knee → curve o X = upperKnee o X) ∧
    (-(1 - o.Bias) * (1 + o.Knee) < X → X < -(1 - o.Bias) * (1 - o.Knee) →
      curve o X = lowerKnee o X) := by
  constructor
  · intro h1 h2
    unfold curve
    rw [if_pos h1, if_neg (not_le.mpr h2)]
  · intro h1 h2
    have hneg : -(1 - o.Bias) * (1 - o.Knee) < 0 := by nlinarith
    unfold curve
    rw [if_neg (by linarith), if_pos h2, if_neg (not_le.mpr h1)]

/-- C40: after `ComputeCoeff` on an overdrive with volume `V`, knee `0 < k < 1` and bias
`b < 1`, the quadratic branch equals `V * X` at `X = 1 - k` and `V` at `X = 1 + k`, and the
negative quadratic branch equals `V * X` at `X = -(1 - b)(1 - k)` and `-(1 - b) * V` at
`X = -(1 - b)(1 + k)`; at each of the four boundaries the static curve itself takes that
common value. -/
theorem curve_continuous_at_knees (o : OverDriveProcessor) (hk : 0 < o.Knee)
    (hk1 : o.Knee < 1) (hb : o.Bias < 1) :
    (upperKnee (ComputeCoeff o) (1 - o.Knee) = o.Volume * (1 - o.Knee) ∧
     curve (ComputeCoeff o) (1 - o.Knee) = o.Volume * (1 - o.Knee)) ∧
    (upperKnee (ComputeCoeff o) (1 + o.Knee) = o.Volume ∧
     curve (ComputeCoeff o) (1 + o.Knee) = o.Volume) ∧
    (lowerKnee (ComputeCoeff o) (-(1 - o.Bias) * (1 - o.Knee))
       = o.Volume * (-(1 - o.Bias) * (1 - o.Knee)) ∧
     curve (ComputeCoeff o) (-(1 - o.Bias) * (1 - o.Knee))
       = o.Volume * (-(1 - o.Bias) * (1 - o.Knee))) ∧
    (lowerKnee (ComputeCoeff o) (-(1 - o.Bias) * (1 + o.Knee)) = -(1 - o.Bias) * o.Volume ∧
     curve (ComputeCoeff o) (-(1 - o.Bias) * (1 + o.Knee)) = -(1 - o.Bias) * o.Volume) := by
  have hk0 : o.Knee ≠ 0 := hk.ne'
  have hb0 : 1 - o.Bias ≠ 0 := by linarith
  have hbp : 0 < 1 - o.Bias := by linarith
  have hkp : 0 < 1 - o.Knee := by linarith
  have hneg : -(1 - o.Bias) * (1 - o.Knee) < 0 := by nlinarith
  have hneg2 : -(1 - o.Bias) * (1 + o.Knee) < -(1 - o.Bias) * (1 - o.Knee) := by nlinarith
  refine ⟨⟨?_, ?_⟩, ⟨?_, ?_⟩, ⟨?_, ?_⟩, ⟨?_, ?_⟩⟩
  · simp only [upperKnee, ComputeCoeff]
    field_simp
    ring
  · show (if 1 - o.Knee > 1 - o.Knee then _ else _) = _
    rw [if_neg (lt_irrefl _)]
    show (if -(1 - o.Bias) * (1 - o.Knee) > 1 - o.Knee then _ else _) = _
    rw [if_neg (by linarith)]
    simp only [ComputeCoeff]
    ring
  · simp only [upperKnee, ComputeCoeff]
    field_simp
    ring
  · show (if 1 + o.Knee > 1 - o.Knee then (if 1 + o.Knee ≥ 1 + o.Knee then _ else _) else _) = _
    rw [if_pos (by linarith), if_pos (le_refl _)]
    rfl
  · simp only [lowerKnee, ComputeCoeff]
    field_simp
    ring
  · show (if -(1 - o.Bias) * (1 - o.Knee) > 1 - o.Knee then _
      else (if -(1 - o.Bias) * (1 - o.Knee) < -(1 - o.Bias) * (1 - o.Knee) then _ else _)) = _
    rw [if_neg (by linarith), if_neg (lt_irrefl _)]
    simp only [ComputeCoeff]
    ring
  · simp only [lowerKnee, ComputeCoeff]
    field_simp
    ring
  · show (if -(1 - o.Bias) * (1 + o.Knee) > 1 - o.Knee then _
      else (if -(1 - o.Bias) * (1 + o.Knee) < -(1 - o.Bias) * (1 - o.Knee) then
        (if -(1 - o.Bias) * (1 + o.Knee) ≤ -(1 - o.Bias) * (1 + o.Knee) then _ else _)
        else _)) = _
    rw [if_neg (by linarith), if_pos hneg2, if_pos (le_refl _)]
    rfl

/-- C40, evaluated at volume 2, knee 1/2, bias 1/2: the quadratic branches meet the linear
part at `X = 1/2` (value 1) and `X = -1/4` (value `-1/2`), and the flat parts at `X = 3/2`
(value 2) and `X = -3/4` (value `-1`). -/
theorem curve_continuous_at_knees_witness :
    (0 : ℚ) < 1 / 2 ∧ (1 : ℚ) / 2 < 1 ∧
    (upperKnee (ComputeCoeff { Volume := 2, Knee := 1 / 2, Bias := 1 / 2 }) (1 - 1 / 2)
       = 2 * (1 - 1 / 2) ∧
     curve (ComputeCoeff { Volume := 2, Knee := 1 / 2, Bias := 1 / 2 }) (1 - 1 / 2)
       = 2 * (1 - 1 / 2)) ∧
    (upperKnee (ComputeCoeff { Volume := 2, Knee := 1 / 2, Bias := 1 / 2 }) (1 + 1 / 2) = 2 ∧
     curve (ComputeCoeff { Volume := 2, Knee := 1 / 2, Bias := 1 / 2 }) (1 + 1 / 2) = 2) ∧
    (lowerKnee (ComputeCoeff { Volume := 2, Knee := 1 / 2, Bias := 1 / 2 })
        (-(1 - 1 / 2) * (1 - 1 / 2)) = 2 * (-(1 - 1 / 2) * (1 - 1 / 2)) ∧
     curve (ComputeCoeff { Volume := 2, Knee := 1 / 2, Bias := 1 / 2 })
        (-(1 - 1 / 2) * (1 - 1 / 2)) = 2 * (-(1 - 1 / 2) * (1 - 1 / 2))) ∧
    (lowerKnee (ComputeCoeff { Volume := 2, Knee := 1 / 2, Bias := 1 / 2 })
        (-(1 - 1 / 2) * (1 + 1 / 2)) = -(1 - 1 / 2) * 2 ∧
     curve (ComputeCoeff { Volume := 2, Knee := 1 / 2, Bias := 1 / 2 })
        (-(1 - 1 / 2) * (1 + 1 / 2)) = -(1 - 1 / 2) * 2) :=
  ⟨by norm_num, by norm_num,
    curve_continuous_at_knees { Volume := 2, Knee := 1 / 2, Bias := 1 / 2 }
      (by norm_num) (by norm_num) (by norm_num)⟩

end OverDriveProcessor

end nemlib

/-! ## Stereo panner -/

namespace nemlib

namespace StereoPanner

/-- The constructor and `SetPan` store `min(1, InPanParam)`: the second assignment
overwrites the first, so only the upper bound is enforced. -/
theorem pan_stored (s : StereoPanner) (p : ℚ) :
    (new p).pan = min 1 p ∧ (SetPan s p).pan = min 1 p ∧
    (new p).pan ≤ 1 ∧ (SetPan s p).pan ≤ 1 :=
  ⟨rfl, rfl, min_le_left _ _, min_le_left _ _⟩

/-- C39, evaluated at the argument -3: `StereoPanner(-3)` and `SetPan(-3)` both store
`pan = -3`, which is below -1, and with the triangle-wave `Libm` (exact at the multiples of
`pi / 2`) the mono `ProcessSample` then has the gains `cos(-pi/2) = 0` and
`sin(-pi/2) = -1`: the input 1 comes out as `{0, -1}`, the right gain is negative. -/
theorem lower_pan_bound_not_enforced :
    (new (-3)).pan = -3 ∧
    (∀ s : StereoPanner, (SetPan s (-3)).pan = -3) ∧
    Libm.triangle.sin (((new (-3)).pan + 1) * Libm.triangle.pi / 4) = -1 ∧
    ProcessSample Libm.triangle (new (-3)) 1 = [0, -1] := by
  have hp : (new (-3)).pan = -3 := by
    show min (1 : ℚ) (-3) = -3
    norm_num
  have hs : ∀ s : StereoPanner, (SetPan s (-3)).pan = -3 := by
    intro s
    show min (1 : ℚ) (-3) = -3
    norm_num
  have hfr : Int.fract (0 : ℚ) = 0 := Int.fract_zero
  have hfr2 : Int.fract ((1 : ℚ) / 4) = 1 / 4 := by
    rw [Int.fract_eq_iff]
    refine ⟨by norm_num, by norm_num, 0, by norm_num⟩
  have hsin : Libm.triangle.sin ((-3 + 1) * Libm.triangle.pi / 4) = -1 := by
    show 1 - 4 * |Int.fract ((-3 + 1) * (355 / 113 : ℚ) / 4 / (2 * (355 / 113)) + 1 / 4) - 1 / 2|
      = -1
    rw [show (-3 + 1) * (355 / 113 : ℚ) / 4 / (2 * (355 / 113)) + 1 / 4 = 0 by norm_num, hfr]
    norm_num [abs_of_pos]
  have hcos : Libm.triangle.cos ((-3 + 1) * Libm.triangle.pi / 4) = 0 := by
    show 1 - 4 * |Int.fract ((-3 + 1) * (355 / 113 : ℚ) / 4 / (2 * (355 / 113)) + 1 / 2) - 1 / 2|
      = 0
    rw [show (-3 + 1) * (355 / 113 : ℚ) / 4 / (2 * (355 / 113)) + 1 / 2 = 1 / 4 by norm_num,
      hfr2]
    rw [show (1 : ℚ) / 4 - 1 / 2 = -(1 / 4) by norm_num, abs_neg,
      abs_of_pos (by norm_num : (0 : ℚ) < 1 / 4)]
    norm_num
  refine ⟨hp, hs, ?_, ?_⟩
  · rw [hp]; exact hsin
  · simp only [ProcessSample, hp, hsin, hcos]
    norm_num

end StereoPanner

end nemlib

/-! ## One-pole filters: the argument of `1 / cos(K)` -/

namespace nemlib

/-- For a sample rate of at least 1 and a positive `pi`, the `K` of `OnePoleLPF` lies
strictly between 0 and `pi / 2`, whatever the cutoff. -/
theorem OnePoleLPF.K_mem (L : Libm) (sr : Int) (f : ℚ) (hpi : 0 < L.pi) (hsr : 1 ≤ sr) :
    0 < OnePoleLPF.K L sr f ∧ OnePoleLPF.K L sr f < L.pi / 2 := by
  have hs : (1 : ℚ) ≤ (sr : ℚ) := by exact_mod_cast hsr
  have hs0 : (0 : ℚ) < (sr : ℚ) := by linarith
  have hc1 : Clamp f 1 ((sr : ℚ) / 4 - 1 / 1000) ≤ (sr : ℚ) / 4 - 1 / 1000 := min_le_right _ _
  have hc0 : 0 < Clamp f 1 ((sr : ℚ) / 4 - 1 / 1000) := by
    unfold Clamp
    exact lt_min (lt_of_lt_of_le one_pos (le_max_right _ _)) (by linarith)
  unfold OnePoleLPF.K
  constructor
  · exact div_pos (mul_pos (mul_pos two_pos hpi) hc0) hs0
  · rw [div_lt_iff₀ hs0]
    nlinarith

/-- For a sample rate of at least 1 and a positive `pi`, the `K` of `OnePoleHPF` is the
quarter turn `pi / 2` exactly when the sample rate is 4 and the cutoff argument is below
1: the clamp then raises the frequency to 1, a quarter of the sample rate, and the guard,
which compares the argument, does not fire. -/
theorem OnePoleHPF.K_eq_quarter_turn_iff (L : Libm) (sr : Int) (f : ℚ) (hpi : 0 < L.pi)
    (hsr : 1 ≤ sr) : OnePoleHPF.K L sr f = L.pi / 2 ↔ sr = 4 ∧ f < 1 := by
  have hs : (1 : ℚ) ≤ (sr : ℚ) := by exact_mod_cast hsr
  have hs0 : (0 : ℚ) < (sr : ℚ) := by linarith
  unfold OnePoleHPF.K
  simp only []
  constructor
  · intro h
    by_cases hg : f = (sr : ℚ) / 4
    · rw [if_pos hg] at h
      linarith
    · rw [if_neg hg, div_eq_iff hs0.ne'] at h
      have hc : Clamp f 1 ((sr : ℚ) / 2 - 1 / 1000) = (sr : ℚ) / 4 := by
        have h2 : L.pi * (2 * Clamp f 1 ((sr : ℚ) / 2 - 1 / 1000))
            = L.pi * ((sr : ℚ) / 2) := by linarith
        have h3 := mul_left_cancel₀ hpi.ne' h2
        linarith
      unfold Clamp at hc
      rcases min_choice (max f 1) ((sr : ℚ) / 2 - 1 / 1000) with hm | hm
      · rw [hm] at hc
        rcases max_choice f 1 with hx | hx
        · rw [hx] at hc
          exact absurd hc hg
        · rw [hx] at hc
          have hsr4 : (sr : ℚ) = 4 := by linarith
          have hf1 : f ≤ 1 := by
            have := le_max_left f 1
            rw [hx] at this
            exact this
          refine ⟨by exact_mod_cast hsr4, lt_of_le_of_ne hf1 ?_⟩
          intro hf
          apply hg
          rw [hf, hsr4]
          norm_num
      · rw [hm] at hc
        linarith
  · rintro ⟨h4, hf⟩
    have hsr4 : (sr : ℚ) = 4 := by exact_mod_cast h4
    rw [hsr4, if_neg (by intro h; rw [h] at hf; norm_num at hf)]
    have hc : Clamp f 1 ((4 : ℚ) / 2 - 1 / 1000) = 1 := by
      unfold Clamp
      rw [max_eq_right hf.le]
      norm_num
    rw [hc]
    ring

end nemlib

/-! ## Curve envelope: subscripts -/

namespace nemlib

/-- A checked read that succeeds returns what the unchecked read returns. -/
theorem vecRead_eq_some (v : List ℚ) (i : Int) (a : ℚ) (h : vecRead v i = some a) :
    vecGet v i = a := by
  unfold vecRead at h
  unfold vecGet
  by_cases hi : 0 ≤ i
  · rw [if_pos hi] at h
    rw [if_pos hi, List.getD_eq_getElem?_getD, ← List.get?_eq_getElem?, h]
    rfl
  · rw [if_neg hi] at h
    exact absurd h (by simp)

namespace CurveEnvelope

/-- The envelope `CurveEnvelope(1, {0, 1}, {0.5})`: two values, one duration, per-segment
mode. -/
theorem newTimes_two_values :
    newTimes 1 [0, 1] [1 / 2] =
      { Values := [0, 1], Time := 1 / 2, Times := [1 / 2], EnvPos := 0, EnvPosInc := 1
        Boundary := 1 / 2, HasStarted := false, NumOfValues := 2, Counter := 1
        SampleRate := 1 } := by
  simp [newTimes, vecGet]

/-- When the last element exists, `Values.back()` returns it. -/
theorem back_of_getLast (v : List ℚ) (l : ℚ) (h : v.getLast? = some l) : back v = l := by
  unfold back
  rw [List.getLastD_eq_getLast?, h]
  rfl

/-- When every subscript of the three-argument constructor is inside its vector, the
checked constructor returns the envelope `newTimes` builds. -/
theorem newTimesChecked_refines (sr : Int) (v t : List ℚ) (c : CurveEnvelope)
    (h : newTimesChecked sr v t = some c) : newTimes sr v t = c := by
  unfold newTimesChecked at h
  simp only [Option.map_eq_some'] at h
  obtain ⟨b, hb, rfl⟩ := h
  have e := vecRead_eq_some _ _ _ hb
  subst e
  rfl

/-- When its subscript is inside `Times`, the checked `ResetEnvelope` returns the envelope
`ResetEnvelope` returns. -/
theorem ResetEnvelopeChecked_refines (c r : CurveEnvelope)
    (h : ResetEnvelopeChecked c = some r) : ResetEnvelope c = r := by
  unfold ResetEnvelopeChecked at h
  unfold ResetEnvelope
  dsimp only at h ⊢
  split_ifs at h ⊢
  · simp only [Option.some.injEq] at h
    exact h
  · simp only [Option.map_eq_some'] at h
    obtain ⟨b, hb, rfl⟩ := h
    have e := vecRead_eq_some _ _ _ hb
    subst e
    rfl

/-- When every subscript is inside its vector, the checked `GetNextEnvelopePoint` returns
what `GetNextEnvelopePoint` returns. -/
theorem GetNextEnvelopePointChecked_refines (c : CurveEnvelope) (r : ℚ × CurveEnvelope)
    (h : GetNextEnvelopePointChecked c = some r) : GetNextEnvelopePoint c = r := by
  unfold GetNextEnvelopePointChecked at h
  unfold GetNextEnvelopePoint
  dsimp only at h ⊢
  simp only [Option.bind_eq_some] at h
  obtain ⟨v0, h0, h⟩ := h
  have e0 := vecRead_eq_some _ _ _ h0
  split_ifs at h ⊢ <;>
    simp only [Option.bind_eq_some, Option.map_eq_some', Option.some.injEq] at h
  all_goals first
    | (obtain ⟨_, ⟨_, h1, _, h2, rfl⟩, rfl⟩ := h
       have e1 := vecRead_eq_some _ _ _ h1
       have e2 := vecRead_eq_some _ _ _ h2
       subst e1 e2
       rfl)
    | (obtain ⟨_, ⟨_, h1, _, h2, _, h3, rfl⟩, rfl⟩ := h
       have e1 := vecRead_eq_some _ _ _ h1
       have e2 := vecRead_eq_some _ _ _ h2
       have e3 := vecRead_eq_some _ _ _ h3
       subst e1 e2 e3
       rfl)
    | (obtain ⟨_, ⟨_, h0, _, h1, _, h2, _, h3, rfl⟩, rfl⟩ := h
       have e0 := vecRead_eq_some _ _ _ h0
       have e1 := vecRead_eq_some _ _ _ h1
       have e2 := vecRead_eq_some _ _ _ h2
       have e3 := vecRead_eq_some _ _ _ h3
       subst e0 e1 e2 e3
       rfl)
    | (obtain ⟨_, ⟨_, h0, _, hl, rfl⟩, rfl⟩ := h
       have e0 := vecRead_eq_some _ _ _ h0
       have el := back_of_getLast _ _ hl
       subst e0 el
       rfl)
    | (obtain ⟨_, ⟨_, hl, rfl⟩, rfl⟩ := h
       have el := back_of_getLast _ _ hl
       subst el
       rfl)
    | (obtain ⟨_, hl, rfl⟩ := h
       have el := back_of_getLast _ _ hl
       subst el
       rfl)
    | (subst h; subst e0; rfl)

end CurveEnvelope

end nemlib

namespace nemlib

namespace CurveEnvelope

/-- C32, evaluated at two inputs.  (1) `CurveEnvelope(48000, {0, 1, 0}, {0.1})`: the one
duration does not match the three values, `Times` is left empty, and the constructor's
last statement reads `Times[0]` outside it.  (2) `CurveEnvelope(1, {0, 1}, {0.5})`, a
per-segment envelope with `Times.size() = NumOfValues - 1 = 1`: the constructor,
`ResetEnvelope` and the first `GetNextEnvelopePoint` (which returns 0) stay inside the
vectors, and the second `GetNextEnvelopePoint`, which leaves the last segment, increments
`Counter` to 2 and reads `Times[Counter - 1] = Times[1]` outside `Times`. -/
theorem subscript_outside_Times :
    (newTimes 48000 [0, 1, 0] [1 / 10]).Times = [] ∧
    newTimesChecked 48000 [0, 1, 0] [1 / 10] = none ∧
    newTimesChecked 1 [0, 1] [1 / 2] = some (newTimes 1 [0, 1] [1 / 2]) ∧
    ((newTimes 1 [0, 1] [1 / 2]).Times.length : Int)
      = (newTimes 1 [0, 1] [1 / 2]).NumOfValues - 1 ∧
    ResetEnvelopeChecked (newTimes 1 [0, 1] [1 / 2])
      = some (ResetEnvelope (newTimes 1 [0, 1] [1 / 2])) ∧
    GetNextEnvelopePointChecked (ResetEnvelope (newTimes 1 [0, 1] [1 / 2]))
      = some (GetNextEnvelopePoint (ResetEnvelope (newTimes 1 [0, 1] [1 / 2]))) ∧
    (GetNextEnvelopePoint (ResetEnvelope (newTimes 1 [0, 1] [1 / 2]))).1 = 0 ∧
    (GetNextEnvelopePoint (ResetEnvelope (newTimes 1 [0, 1] [1 / 2]))).2.Counter + 1 - 1
      = ((newTimes 1 [0, 1] [1 / 2]).Times.length : Int) ∧
    GetNextEnvelopePointChecked
      (GetNextEnvelopePoint (ResetEnvelope (newTimes 1 [0, 1] [1 / 2]))).2 = none := by
  have hr : ResetEnvelope (newTimes 1 [0, 1] [1 / 2]) =
      { Values := [0, 1], Time := 1 / 2, Times := [1 / 2], EnvPos := 0, EnvPosInc := 1
        Boundary := 1 / 2, HasStarted := true, NumOfValues := 2, Counter := 1
        SampleRate := 1 } := by
    rw [newTimes_two_values]
    simp [ResetEnvelope, vecGet]
  have hg : GetNextEnvelopePoint (ResetEnvelope (newTimes 1 [0, 1] [1 / 2])) =
      (0, { Values := [0, 1], Time := 1 / 2, Times := [1 / 2], EnvPos := 1, EnvPosInc := 1
            Boundary := 1 / 2, HasStarted := true, NumOfValues := 2, Counter := 1
            SampleRate := 1 }) := by
    rw [hr]
    norm_num [GetNextEnvelopePoint, vecGet]
  refine ⟨?_, ?_, ?_, ?_, ?_, ?_, ?_, ?_, ?_⟩
  · simp [newTimes]
  · simp [newTimesChecked, newTimes, vecRead]
  · simp only [newTimesChecked]
    rw [newTimes_two_values]
    simp [vecRead]
  · rw [newTimes_two_values]
    rfl
  · rw [hr, newTimes_two_values]
    simp [ResetEnvelopeChecked, vecRead]
  · rw [hg, hr]
    norm_num [GetNextEnvelopePointChecked, vecRead]
  · rw [hg]
  · rw [hg, newTimes_two_values]
    rfl
  · rw [hg]
    norm_num [GetNextEnvelopePointChecked, vecRead]

end CurveEnvelope

end nemlib

/-! ## Filter bank: band subscripts -/

namespace nemlib

namespace FilterBank

/-- C36, evaluated at `FilterBank(48000, 5)` and the grass mode (`nModes = 3 ≤ 5`): the bank
has 5 filters and 5 gains, the first loop of `InitialiseFilterBank` stays inside them, and
the second loop, which runs `i` from `nModes` up to 8 whatever the size of the bank,
leaves them: the write `FilterBandGains[5] = 0` is outside every vector of 5 gains.  On a
bank of 9 bands the same call stays inside. -/
theorem InitialiseFilterBank_leaves_small_bank (L : Libm) :
    (new L 48000 5).Filters.length = 5 ∧
    (new L 48000 5).FilterBandGains.length = 5 ∧
    (Generator.mode 3).nModes = 3 ∧
    ((List.range (Generator.mode 3).nModes.toNat).foldl
      (fun (b : Option FilterBank) (k : Nat) =>
        b.bind fun b => initBandChecked L (Generator.mode 3) b (k : Int))
      (some (new L 48000 5))).isSome = true ∧
    (∀ fb : FilterBank, fb.FilterBandGains.length = 5 → zeroBandChecked fb 5 = none) ∧
    InitialiseFilterBankChecked L (new L 48000 5) (Generator.mode 3) = none ∧
    InitialiseFilterBankChecked L (new L 48000 9) (Generator.mode 3)
      = some (InitialiseFilterBank L (new L 48000 9) (Generator.mode 3)) := by
  have hm : Generator.mode 3 = ⟨3, [1, 2, 0], [890, 2023, 3000], [35 / 10, 2, 2],
      [5 / 100, 5 / 100, 5 / 100]⟩ := rfl
  have hr3 : List.range (3 : Int).toNat = [0, 1, 2] := rfl
  have hr6 : List.range ((9 : Int) - 3).toNat = [0, 1, 2, 3, 4, 5] := rfl
  refine ⟨?_, ?_, ?_, ?_, ?_, ?_, ?_⟩
  · simp [new]
  · simp [new]
  · rfl
  · rw [hm]
    simp only [hr3]
    simp [new, initBandChecked, updAtChecked, vecWrite, List.replicate]
  · intro fb hfb
    simp [zeroBandChecked, vecWrite, hfb]
  · rw [hm]
    simp only [InitialiseFilterBankChecked, hr3, hr6]
    simp [new, initBandChecked, zeroBandChecked, updAtChecked, vecWrite, List.replicate]
  · rw [hm]
    simp only [InitialiseFilterBankChecked, InitialiseFilterBank, hr3, hr6]
    simp [new, initBandChecked, zeroBandChecked, initBand, zeroBand, updAtChecked, updAt,
      vecWrite, vecSet, List.replicate]

end FilterBank

end nemlib

/-! ## Delay line: the delay set by `SetDelay` -/

namespace nemlib

/-- The clamp of `SetDelay` does not change the whole number of samples of a delay that
fits the buffer: if `floor(t * SampleRate)` is `D` with `0 ≤ D < 5 * SampleRate`, the
stored delay time has the same floor. -/
theorem Delay.SetDelay_floor (d : Delay) (t : ℚ) (D : Nat) (hsr : 1 ≤ d.SampleRate)
    (hD : ⌊t * (d.SampleRate : ℚ)⌋ = (D : Int)) (hDC : (D : Int) < 5 * d.SampleRate) :
    ⌊(d.SetDelay t).DelayTime * ((d.SetDelay t).SampleRate : ℚ)⌋ = (D : Int) := by
  have hs : (1 : ℚ) ≤ (d.SampleRate : ℚ) := by exact_mod_cast hsr
  have hs0 : (0 : ℚ) < (d.SampleRate : ℚ) := by linarith
  have hfl : ((D : Int) : ℚ) ≤ t * (d.SampleRate : ℚ) := by
    rw [← hD]; exact Int.floor_le _
  have hD0 : (0 : ℚ) ≤ ((D : Int) : ℚ) := by exact_mod_cast Int.natCast_nonneg D
  have ht0 : 0 ≤ t := by
    by_contra hneg
    have : t * (d.SampleRate : ℚ) < 0 := mul_neg_of_neg_of_pos (not_le.mp hneg) hs0
    linarith
  show ⌊Clamp t 0 (MAX_DELAY_TIME - 1 / (d.SampleRate : ℚ)) * (d.SampleRate : ℚ)⌋ = (D : Int)
  unfold Clamp MAX_DELAY_TIME
  rw [max_eq_left ht0]
  by_cases hle : t ≤ 5 - 1 / (d.SampleRate : ℚ)
  · rw [min_eq_left hle]
    exact hD
  · rw [min_eq_right (le_of_not_le hle)]
    have hprod : (5 - 1 / (d.SampleRate : ℚ)) * (d.SampleRate : ℚ)
        = ((5 * d.SampleRate - 1 : Int) : ℚ) := by
      push_cast
      field_simp
    rw [hprod, Int.floor_intCast]
    have hgt : ((5 * d.SampleRate - 1 : Int) : ℚ) < t * (d.SampleRate : ℚ) := by
      rw [← hprod]
      exact mul_lt_mul_of_pos_right (not_le.mp hle) hs0
    have hge : 5 * d.SampleRate - 1 ≤ ⌊t * (d.SampleRate : ℚ)⌋ := Int.le_floor.mpr hgt.le
    rw [hD] at hge
    omega

/-- C35: let a delay have its buffer of `C = 5 * SampleRate` cells and its write pointer
inside it, and let `SetDelay(t)` be called with `D = floor(t * SampleRate)`, `D < C`.  If
`1 ≤ D`, call number `k` of the `ProcessSample` calls that follow (counted from 0) returns
the input of call `k - D`, for every `k ≥ D` and whatever the buffer held.  If `D = 0`, call
`k` returns the cell written `C` calls earlier: for `k < C` the content the buffer had at
`SetDelay`, at the cell `k` places after the write pointer, and the input of call `k - C`
for `k ≥ C`. -/
theorem Delay.SetDelay_delays_exactly (d : Delay) (t : ℚ) (x : Nat → ℚ) (C D w : Nat)
    (hC : MAX_DELAY_TIME_INT * d.SampleRate = (C : Int))
    (hlen : d.DelayBuffer.length = C)
    (hw : d.WritePointer = (w : Int)) (hwlt : w < C)
    (hD : ⌊t * (d.SampleRate : ℚ)⌋ = (D : Int)) (hDC : D < C) :
    (1 ≤ D → ∀ k : Nat, D ≤ k → Delay.output x k (d.SetDelay t) = x (k - D)) ∧
    (D = 0 → ∀ k : Nat, Delay.output x k (d.SetDelay t)
      = if k < C then d.DelayBuffer.getD ((w + k) % C) 0 else x (k - C)) := by
  have hpos : 0 < C := by omega
  have hC5 : 5 * d.SampleRate = (C : Int) := by rw [← MAX_DELAY_TIME_INT_eq]; exact hC
  have hsr : 1 ≤ d.SampleRate := by omega
  obtain ⟨g1, g2, _, g4⟩ := Delay.SetDelay_gap d t hsr (by rw [hw]; omega)
    (by rw [hw, hC]; exact_mod_cast hwlt)
  rw [Delay.SetDelay_floor d t D hsr hD (by rw [hC5]; exact_mod_cast hDC), hC] at g4
  rw [hC] at g2
  have hW : (d.SetDelay t).WritePointer = (w : Int) := hw
  rw [hW] at g4
  obtain ⟨rp, hrp⟩ := Int.eq_ofNat_of_zero_le g1
  rw [hrp] at g2 g4
  have hrlt : rp < C := by exact_mod_cast g2
  have hC' : MAX_DELAY_TIME_INT * (d.SetDelay t).SampleRate = (C : Int) := hC
  have hlen' : (d.SetDelay t).DelayBuffer.length = C := hlen
  have hcase : w = rp + D ∨ rp + D = w + C := by
    by_cases hle : rp ≤ w
    · left
      have h1 : ((w : Int) - (rp : Int)) % (C : Int) = (w : Int) - (rp : Int) :=
        Int.emod_eq_of_lt (by omega) (by omega)
      rw [h1] at g4
      omega
    · right
      have h1 : ((w : Int) - (rp : Int)) % (C : Int) = (w : Int) - (rp : Int) + (C : Int) := by
        rw [← Int.add_emod_self]
        exact Int.emod_eq_of_lt (by omega) (by omega)
      rw [h1] at g4
      omega
  have hout := fun k => (Delay.run_succ (d.SetDelay t) C w rp x hC' hpos hlen' hW hwlt hrp hrlt k).1
  constructor
  · intro hD1 k hk
    rw [hout]
    have hidx : (rp + k) % C = (w + (k - D)) % C := by
      rcases hcase with h | h
      · rw [show w + (k - D) = rp + k by omega]
      · rw [show rp + k = w + (k - D) + C by omega, Nat.add_mod_right]
    have hk2 := Delay.cell_kept (d.SetDelay t) C w rp x hC' hpos hlen' hW hwlt hrp hrlt (k - D)
      (D - 1) (by omega)
    rw [show k - D + 1 + (D - 1) = k by omega] at hk2
    rw [hidx]
    exact hk2
  · intro hD0 k
    have hrw : rp = w := by
      rcases hcase with h | h
      · omega
      · omega
    rw [hout, hrw]
    by_cases hk : k < C
    · rw [if_pos hk, Delay.cell_untouched (d.SetDelay t) C w rp x hC' hpos hlen' hW hwlt hrp hrlt
        ((w + k) % C) k
        (by
          intro j hj
          have := Delay.cell_ne C (w + j) (k - j - 1) (by omega)
          rw [show w + j + 1 + (k - j - 1) = w + k by omega] at this
          exact fun h => this h.symm)]
      rfl
    · rw [if_neg hk]
      have hk2 := Delay.cell_kept (d.SetDelay t) C w rp x hC' hpos hlen' hW hwlt hrp hrlt (k - C)
        (C - 1) (by omega)
      rw [show k - C + 1 + (C - 1) = k by omega] at hk2
      rw [show w + k = w + (k - C) + C by omega, Nat.add_mod_right]
      exact hk2

end nemlib

namespace nemlib

/-- C35, evaluated at `Delay(1000, 0.1f)` followed by `SetDelay(0.05f)`, where
`floor(0.05 * 1000) = 50` and the capacity is 5000: fed the inputs 0, 1, 2, ..., call `k`
returns `k - 50` for every `k ≥ 50`. -/
theorem Delay.SetDelay_delays_exactly_witness :
    ⌊(1 / 20 : ℚ) * ((Delay.new 1000 (1 / 10)).SampleRate : ℚ)⌋ = ((50 : Nat) : Int) ∧
    (1 ≤ 50 → ∀ k : Nat, 50 ≤ k →
      Delay.output (fun n => (n : ℚ)) k ((Delay.new 1000 (1 / 10)).SetDelay (1 / 20))
        = ((k - 50 : Nat) : ℚ)) ∧
    (50 = 0 → ∀ k : Nat,
      Delay.output (fun n => (n : ℚ)) k ((Delay.new 1000 (1 / 10)).SetDelay (1 / 20))
        = if k < 5000 then (Delay.new 1000 (1 / 10)).DelayBuffer.getD ((0 + k) % 5000) 0
          else ((k - 5000 : Nat) : ℚ)) :=
  have hfl : ⌊(1 / 20 : ℚ) * ((Delay.new 1000 (1 / 10)).SampleRate : ℚ)⌋ = ((50 : Nat) : Int) := by
    rw [Delay.new_1000.1]
    norm_num
  ⟨hfl,
    Delay.SetDelay_delays_exactly (Delay.new 1000 (1 / 10)) (1 / 20) (fun n => (n : ℚ)) 5000 50 0
      (by rw [Delay.new_1000.1, MAX_DELAY_TIME_INT_eq]; rfl)
      (by rw [Delay.new_1000.2.2.1, List.length_replicate])
      (by rw [Delay.new_1000.2.2.2.1]; rfl)
      (by decide) hfl (by decide)⟩

end nemlib

/-! ## The crunch layer and the dirty flags along a block -/

namespace nemlib

/-- An envelope that has not been started returns `Values[0]` and does not move. -/
theorem CurveEnvelope.GetNextEnvelopePoint_idle (c : CurveEnvelope)
    (h : c.HasStarted = false) :
    CurveEnvelope.GetNextEnvelopePoint c = (vecGet c.Values 0, c) := by
  simp [CurveEnvelope.GetNextEnvelopePoint, h]

end nemlib

namespace Generator

/-- The function `UpdateStepEnvelope` leaves the crunch members and the dirty flags alone. -/
theorem UpdateStepEnvelope_crunch (L : Libm) (g : Generator) (r : Rand) :
    (UpdateStepEnvelope L g r).1.crunchState = g.crunchState ∧
    (UpdateStepEnvelope L g r).1.changedFlags = g.changedFlags := by
  obtain ⟨F, hF⟩ := VaryFilterBank_frame L g r
  obtain ⟨a, b, hP⟩ := UpdatePaceModifiers_frame { g with Filters := F } (60 / g.StepCounter)
  simp only [UpdateStepEnvelope, hF, hP]
  split_ifs <;> exact ⟨rfl, rfl⟩

/-- The function `CrunchLoop` leaves the dirty flags alone and starts the crunch envelope. -/
theorem CrunchLoop_starts (L : Libm) (g : Generator) (r : Rand) :
    (CrunchLoop L g r).1.changedFlags = g.changedFlags ∧
    (CrunchLoop L g r).1.CrunchEnv.HasStarted = true := by
  refine ⟨rfl, ?_⟩
  simp only [CrunchLoop, CurveEnvelope.SetTimes, CurveEnvelope.SetValues,
    CurveEnvelope.ResetEnvelope]
  split_ifs <;> rfl

/-- The timer part of `IncrementTheModelChannel` leaves the dirty flags alone, and with
`CrunchFlag` false it leaves the crunch members alone. -/
theorem IncrementTheModelChannel.timers_frame (L : Libm) (g : Generator) (r : Rand) :
    (IncrementTheModelChannel.timers L g r).1.changedFlags = g.changedFlags ∧
    (g.CrunchFlag = false →
      (IncrementTheModelChannel.timers L g r).1.crunchState = g.crunchState) := by
  have hu := UpdateStepEnvelope_crunch L { g with StepTimer := g.StepTimer.checkTime.2 } r
  have hc : (UpdateStepEnvelope L { g with StepTimer := g.StepTimer.checkTime.2 } r).1.CrunchFlag
      = g.CrunchFlag := congrArg (fun t : Bool × ℚ × Timer × CurveEnvelope => t.1) hu.1
  constructor
  · unfold IncrementTheModelChannel.timers
    dsimp only
    split_ifs <;> first | rfl | exact hu.2
  · intro hf
    unfold IncrementTheModelChannel.timers
    dsimp only
    rw [hf] at hc
    split_ifs <;> first | rfl | exact hu.1 | simp_all

/-- The function `IncrementTheModelChannel` leaves the dirty flags alone. -/
theorem IncrementTheModelChannel_flags (L : Libm) (g : Generator) (r : Rand) :
    (IncrementTheModelChannel L g r).2.1.changedFlags = g.changedFlags :=
  (IncrementTheModelChannel.timers_frame L g r).1

/-- With `CrunchFlag` false, `CrunchOut` zero and the crunch envelope not started,
`IncrementTheModelChannel` leaves the crunch members as they are, and its local `Crunch`
is 0. -/
theorem IncrementTheModelChannel_quiet (L : Libm) (g : Generator) (r : Rand) (T : Timer)
    (E : CurveEnvelope) (hE : E.HasStarted = false) (h : g.crunchState = (false, 0, T, E)) :
    (IncrementTheModelChannel L g r).2.1.crunchState = (false, 0, T, E) ∧
    IncrementTheModelChannel.Crunch L g r = 0 := by
  have hf : g.CrunchFlag = false := congrArg (fun t : Bool × ℚ × Timer × CurveEnvelope => t.1) h
  have ht := (IncrementTheModelChannel.timers_frame L g r).2 hf
  rw [h] at ht
  have hq : (IncrementTheModelChannel.timers L g r).1.CrunchOut = 0 :=
    congrArg (fun t : Bool × ℚ × Timer × CurveEnvelope => t.2.1) ht
  have he : (IncrementTheModelChannel.timers L g r).1.CrunchEnv = E :=
    congrArg (fun t : Bool × ℚ × Timer × CurveEnvelope => t.2.2.2) ht
  constructor
  · show ((IncrementTheModelChannel.timers L g r).1.CrunchFlag,
      (IncrementTheModelChannel.timers L g r).1.CrunchOut,
      (IncrementTheModelChannel.timers L g r).1.CrunchTimer,
      ((IncrementTheModelChannel.timers L g r).1.CrunchEnv.GetNextEnvelopePoint).2) = _
    rw [he, CurveEnvelope.GetNextEnvelopePoint_idle E hE, hq,
      show (IncrementTheModelChannel.timers L g r).1.CrunchFlag = false from
        congrArg (fun t : Bool × ℚ × Timer × CurveEnvelope => t.1) ht,
      show (IncrementTheModelChannel.timers L g r).1.CrunchTimer = T from
        congrArg (fun t : Bool × ℚ × Timer × CurveEnvelope => t.2.2.1) ht]
  · show (IncrementTheModelChannel.timers L g r).1.CrunchOut * _ * _ = 0
    rw [hq, zero_mul, zero_mul]

/-- Every round of the output loop keeps the crunch members (when the crunch layer is off)
and the dirty flags. -/
theorem ExcuteModel.iterate_quiet (L : Libm) (T : Timer) (E : CurveEnvelope)
    (hE : E.HasStarted = false) (k : Nat) :
    ∀ s : ExcuteLocals,
      (s.g.crunchState = (false, 0, T, E) →
        ((ExcuteModel.body L)^[k] s).g.crunchState = (false, 0, T, E)) ∧
      ((ExcuteModel.body L)^[k] s).g.changedFlags = s.g.changedFlags := by
  induction k with
  | zero => intro s; exact ⟨fun h => h, rfl⟩
  | succ k ih =>
    intro s
    rw [Function.iterate_succ_apply]
    obtain ⟨i1, i2⟩ := ih (ExcuteModel.body L s)
    constructor
    · intro h
      exact i1 (IncrementTheModelChannel_quiet L (ExcuteModel.atSample s) s.rnd T E hE h).1
    · rw [i2]
      exact IncrementTheModelChannel_flags L (ExcuteModel.atSample s) s.rnd

/-- The blocks of the "Ramp Block", one by one: each clears its own dirty flags and leaves
the other flags and the crunch members alone. -/
theorem ExcuteModel.ramp_blocks_flags (g : Generator) (n : Fin 65536) :
    ((ExcuteModel.clearFlags g).changedFlags
        = ((g.changedFlags.set 0 false).set 1 false).set 2 false ∧
      (ExcuteModel.clearFlags g).crunchState = g.crunchState) ∧
    ((ExcuteModel.rampPace g n).1.changedFlags = g.changedFlags.set 3 false ∧
      (ExcuteModel.rampPace g n).1.crunchState = g.crunchState) ∧
    ((ExcuteModel.rampFirmness g n).1.changedFlags = g.changedFlags.set 4 false ∧
      (ExcuteModel.rampFirmness g n).1.crunchState = g.crunchState) ∧
    ((ExcuteModel.rampSteadiness g n).1.changedFlags = g.changedFlags.set 5 false ∧
      (ExcuteModel.rampSteadiness g n).1.crunchState = g.crunchState) ∧
    ((if g.m_AutomatedChanged = true then { g with m_AutomatedChanged := false }
        else g).changedFlags = g.changedFlags.set 6 false ∧
      (if g.m_AutomatedChanged = true then { g with m_AutomatedChanged := false }
        else g).crunchState = g.crunchState) := by
  refine ⟨⟨?_, ?_⟩, ⟨?_, ?_⟩, ⟨?_, ?_⟩, ⟨?_, ?_⟩, ⟨?_, ?_⟩⟩
  · unfold ExcuteModel.clearFlags
    dsimp only
    split_ifs with h1 h2 h3 <;> simp_all [changedFlags]
  · unfold ExcuteModel.clearFlags
    dsimp only
    split_ifs <;> rfl
  · unfold ExcuteModel.rampPace
    dsimp only
    split_ifs with h1 <;> simp_all [changedFlags]
  · unfold ExcuteModel.rampPace
    dsimp only
    split_ifs <;> rfl
  · unfold ExcuteModel.rampFirmness
    dsimp only
    split_ifs with h1 <;> simp_all [changedFlags]
  · unfold ExcuteModel.rampFirmness
    dsimp only
    split_ifs <;> rfl
  · unfold ExcuteModel.rampSteadiness
    dsimp only
    split_ifs with h1 <;> simp_all [changedFlags]
  · unfold ExcuteModel.rampSteadiness
    dsimp only
    split_ifs <;> rfl
  · split_ifs with h1 <;> simp_all [changedFlags]
  · split_ifs <;> rfl

/-- The "Ramp Block" clears the seven dirty flags and leaves the crunch members alone. -/
theorem ExcuteModel.rampBlock_clears (g : Generator) (n : Fin 65536) (r : Rand) :
    (ExcuteModel.rampBlock g n r).g.changedFlags
      = [false, false, false, false, false, false, false] ∧
    (ExcuteModel.rampBlock g n r).g.crunchState = g.crunchState ∧
    (ExcuteModel.rampBlock g n r).rnd = r ∧
    (ExcuteModel.rampBlock g n r).uFramesProduced = 0 := by
  have c := (ExcuteModel.ramp_blocks_flags g n).1
  have p := (ExcuteModel.ramp_blocks_flags (ExcuteModel.clearFlags g) n).2.1
  have f := (ExcuteModel.ramp_blocks_flags
    (ExcuteModel.rampPace (ExcuteModel.clearFlags g) n).1 n).2.2.1
  have s := (ExcuteModel.ramp_blocks_flags (ExcuteModel.rampFirmness
    (ExcuteModel.rampPace (ExcuteModel.clearFlags g) n).1 n).1 n).2.2.2.1
  have a := (ExcuteModel.ramp_blocks_flags (ExcuteModel.rampSteadiness (ExcuteModel.rampFirmness
    (ExcuteModel.rampPace (ExcuteModel.clearFlags g) n).1 n).1 n).1 n).2.2.2.2
  refine ⟨?_, ?_, rfl, rfl⟩
  · show (if _ then _ else _ : Generator).changedFlags = _
    rw [a.1, s.1, f.1, p.1, c.1]
    rfl
  · show (if _ then _ else _ : Generator).crunchState = _
    rw [a.2, s.2, f.2, p.2, c.2]

end Generator

namespace Generator

/-- The samples `ExcuteModel` writes: after `k` rounds the buffer holds, in order, the
samples `IncrementTheModelChannel` returned at the generator states of the rounds
`0 .. k - 1`. -/
theorem ExcuteModel.iterate_pBuf (L : Libm) (s : ExcuteLocals) (k : Nat) :
    ((ExcuteModel.body L)^[k] s).pBuf = s.pBuf ++ (List.range k).map (fun j =>
      (IncrementTheModelChannel L (ExcuteModel.atSample ((ExcuteModel.body L)^[j] s))
        ((ExcuteModel.body L)^[j] s).rnd).1) := by
  induction k with
  | zero => simp
  | succ k ih =>
    rw [Function.iterate_succ_apply', List.range_succ, List.map_append, ← List.append_assoc,
      ← ih]
    rfl

/-- The state `ExcuteModel` returns, in terms of the rounds of its loop. -/
theorem ExcuteModel_eq_iterate (L : Libm) (g : Generator) (n : Fin 65536) (r : Rand) :
    ExcuteModel L g n r =
      (((ExcuteModel.body L)^[n.val] (ExcuteModel.rampBlock g n r)).pBuf,
       { ((ExcuteModel.body L)^[n.val] (ExcuteModel.rampBlock g n r)).g with
         m_Pace := ((ExcuteModel.body L)^[n.val] (ExcuteModel.rampBlock g n r)).m_PaceBegin
         m_Firmness :=
           ((ExcuteModel.body L)^[n.val] (ExcuteModel.rampBlock g n r)).m_FirmnessBegin
         m_Steadiness :=
           ((ExcuteModel.body L)^[n.val] (ExcuteModel.rampBlock g n r)).m_SteadinessBegin },
       ((ExcuteModel.body L)^[n.val] (ExcuteModel.rampBlock g n r)).rnd) := by
  unfold ExcuteModel
  rw [ExcuteModel.loop_eq_iterate L n n.val (ExcuteModel.rampBlock g n r)
    (by simp [ExcuteModel.rampBlock])]

/-- The function `ExcuteModel` keeps the crunch members when the crunch layer is off, and
returns with the seven dirty flags cleared. -/
theorem ExcuteModel_quiet (L : Libm) (g : Generator) (n : Fin 65536) (r : Rand) (T : Timer)
    (E : CurveEnvelope) (hE : E.HasStarted = false) :
    (g.crunchState = (false, 0, T, E) →
      (ExcuteModel L g n r).2.1.crunchState = (false, 0, T, E)) ∧
    (ExcuteModel L g n r).2.1.changedFlags
      = [false, false, false, false, false, false, false] := by
  obtain ⟨c1, c2, _, _⟩ := ExcuteModel.rampBlock_clears g n r
  obtain ⟨i1, i2⟩ := ExcuteModel.iterate_quiet L T E hE n.val (ExcuteModel.rampBlock g n r)
  rw [ExcuteModel_eq_iterate]
  constructor
  · intro h
    exact i1 (c2.trans h)
  · exact i2.trans c1

/-- The seven setters leave the crunch members alone. -/
theorem setters_keep_crunch (g : Generator) (k : Int) (v : ℚ) (b : Bool) :
    (SetShoeType g k).crunchState = g.crunchState ∧
    (SetSurfaceType g k).crunchState = g.crunchState ∧
    (SetTerrain g k).crunchState = g.crunchState ∧
    (SetPace g v).crunchState = g.crunchState ∧
    (SetFirmness g v).crunchState = g.crunchState ∧
    (SetSteadiness g v).crunchState = g.crunchState ∧
    (SetAutomeated g b).crunchState = g.crunchState := by
  obtain ⟨s, hs⟩ := UpdateShoeModifiers_frame { g with m_ShoeType := k } k
  obtain ⟨a, c, hp⟩ := UpdatePaceModifiers_frame { g with m_Pace := v } v
  refine ⟨?_, ?_, ?_, ?_, ?_, ?_, ?_⟩
  · unfold SetShoeType
    rw [hs]
    split_ifs <;> rfl
  · unfold SetSurfaceType
    split_ifs <;> rfl
  · unfold SetTerrain
    split_ifs <;> rfl
  · unfold SetPace
    rw [hp]
    split_ifs <;> rfl
  · unfold SetFirmness
    split_ifs <;> rfl
  · unfold SetSteadiness
    split_ifs <;> rfl
  · unfold SetAutomeated
    split_ifs <;> rfl

/-- After `PrepareModel` on the freshly constructed generator the crunch layer is off:
`CrunchFlag` is false, `CrunchOut` is 0, the crunch timer is the one just built and the
crunch envelope is the one just built, not started. -/
theorem PrepareModel_crunch (L : Libm) (sr : Nat) (r : Rand) :
    (PrepareModel L (new L) sr r).1.crunchState
      = (false, 0, (Timer.new (toInt32 sr) (1 / 10)).ResumeTimer,
          CurveEnvelope.new (toInt32 sr) [] 0) := by
  have hs : (UpdateShoeModifiers
      (UpdatePaceModifiers (PrepareModel.init L (new L) (toInt32 sr))
        (PrepareModel.init L (new L) (toInt32 sr)).m_Pace)
      (UpdatePaceModifiers (PrepareModel.init L (new L) (toInt32 sr))
        (PrepareModel.init L (new L) (toInt32 sr)).m_Pace).m_ShoeType).m_SurfaceType = 0 := by
    rw [(PrepareModel.blocks_keep L _ 0 _ 0).2.1.2.1, (PrepareModel.blocks_keep L _ _ 0 0).1.2.1]
    rfl
  have hstart : ∀ x : Generator, (PrepareModel.start x).crunchState = x.crunchState := by
    intro x
    unfold PrepareModel.start
    dsimp only
    split_ifs <;> rfl
  obtain ⟨a, c, hp⟩ := UpdatePaceModifiers_frame (PrepareModel.init L (new L) (toInt32 sr))
    (PrepareModel.init L (new L) (toInt32 sr)).m_Pace
  simp only [PrepareModel, hs, UpdateSurfaceModifiers_wood]
  rw [hstart, (UpdateStepEnvelope_crunch L _ _).1]
  rw [hp]
  obtain ⟨s, hsh⟩ := UpdateShoeModifiers_frame
    { PrepareModel.init L (new L) (toInt32 sr) with RollSpeedPercentage := a, HeelToBallRatio := c }
    ({ PrepareModel.init L (new L) (toInt32 sr) with
        RollSpeedPercentage := a, HeelToBallRatio := c } : Generator).m_ShoeType
  rw [hsh]
  rfl

/-- The crunch members stay as `PrepareModel` left them along every sequence of setter and
`ExcuteModel` calls. -/
theorem calls_quiet (L : Libm) (T : Timer) (E : CurveEnvelope) (hE : E.HasStarted = false)
    (cs : List Call) :
    ∀ s : Generator × Rand, s.1.crunchState = (false, 0, T, E) →
      (calls L s cs).1.crunchState = (false, 0, T, E) := by
  induction cs with
  | nil => intro s h; exact h
  | cons c cs ih =>
    intro s h
    show (cs.foldl (call L) (call L s c)).1.crunchState = _
    apply ih
    cases c with
    | SetShoeType k => exact ((setters_keep_crunch s.1 k 0 false).1).trans h
    | SetSurfaceType k => exact ((setters_keep_crunch s.1 k 0 false).2.1).trans h
    | SetTerrain k => exact ((setters_keep_crunch s.1 k 0 false).2.2.1).trans h
    | SetPace v => exact ((setters_keep_crunch s.1 0 v false).2.2.2.1).trans h
    | SetFirmness v => exact ((setters_keep_crunch s.1 0 v false).2.2.2.2.1).trans h
    | SetSteadiness v => exact ((setters_keep_crunch s.1 0 v false).2.2.2.2.2.1).trans h
    | SetAutomeated b => exact ((setters_keep_crunch s.1 0 0 b).2.2.2.2.2.2).trans h
    | ExcuteModel n => exact (ExcuteModel_quiet L s.1 n s.2 T E hE).1 h

/-- C33: after construction and one `PrepareModel`, along every sequence of setter and
`ExcuteModel` calls, whatever their arguments (the surface type among them):
`CrunchFlag` is false, `CrunchOut` is 0, and the crunch timer and the crunch envelope are
the ones `PrepareModel` built, the envelope not started, so `CrunchLoop`, which resets the
one and starts the other, has not run; and in every round `k` of a further `ExcuteModel`
the generator that produces the sample has these same crunch members and the local
`Crunch` of `IncrementTheModelChannel` is exactly 0. -/
theorem crunch_layer_stays_off (L : Libm) (sr : Nat) (r : Rand) (cs : List Call) :
    (calls L (PrepareModel L (new L) sr r) cs).1.crunchState
      = (false, 0, (Timer.new (toInt32 sr) (1 / 10)).ResumeTimer,
          CurveEnvelope.new (toInt32 sr) [] 0) ∧
    (CurveEnvelope.new (toInt32 sr) [] 0).HasStarted = false ∧
    (∀ (g : Generator) (r1 : Rand), (CrunchLoop L g r1).1.CrunchEnv.HasStarted = true) ∧
    ∀ (n : Fin 65536) (k : Nat),
      (ExcuteModel.atSample ((ExcuteModel.body L)^[k] (ExcuteModel.rampBlock
        (calls L (PrepareModel L (new L) sr r) cs).1 n
        (calls L (PrepareModel L (new L) sr r) cs).2))).crunchState
        = (false, 0, (Timer.new (toInt32 sr) (1 / 10)).ResumeTimer,
            CurveEnvelope.new (toInt32 sr) [] 0) ∧
      IncrementTheModelChannel.Crunch L
        (ExcuteModel.atSample ((ExcuteModel.body L)^[k] (ExcuteModel.rampBlock
          (calls L (PrepareModel L (new L) sr r) cs).1 n
          (calls L (PrepareModel L (new L) sr r) cs).2)))
        ((ExcuteModel.body L)^[k] (ExcuteModel.rampBlock
          (calls L (PrepareModel L (new L) sr r) cs).1 n
          (calls L (PrepareModel L (new L) sr r) cs).2)).rnd = 0 := by
  have hE : (CurveEnvelope.new (toInt32 sr) [] 0).HasStarted = false := rfl
  have h0 := calls_quiet L _ _ hE cs (PrepareModel L (new L) sr r) (PrepareModel_crunch L sr r)
  refine ⟨h0, hE, fun g r1 => (CrunchLoop_starts L g r1).2, ?_⟩
  intro n k
  obtain ⟨_, c2, _, _⟩ := ExcuteModel.rampBlock_clears
    (calls L (PrepareModel L (new L) sr r) cs).1 n (calls L (PrepareModel L (new L) sr r) cs).2
  have hk := (ExcuteModel.iterate_quiet L _ _ hE k (ExcuteModel.rampBlock
    (calls L (PrepareModel L (new L) sr r) cs).1 n
    (calls L (PrepareModel L (new L) sr r) cs).2)).1 (c2.trans h0)
  have hat : (ExcuteModel.atSample ((ExcuteModel.body L)^[k] (ExcuteModel.rampBlock
      (calls L (PrepareModel L (new L) sr r) cs).1 n
      (calls L (PrepareModel L (new L) sr r) cs).2))).crunchState
      = (false, 0, (Timer.new (toInt32 sr) (1 / 10)).ResumeTimer,
          CurveEnvelope.new (toInt32 sr) [] 0) := hk
  exact ⟨hat, (IncrementTheModelChannel_quiet L _ _ _ _ hE hat).2⟩

/-- C34: for every generator state and every frame count `n`, `ExcuteModel` returns with
`m_Pace`, `m_Firmness` and `m_Steadiness` equal to their values on entry and with the seven
dirty flags false; the `n` samples it writes are, in order, the values of
`IncrementTheModelChannel` at the generator states of the rounds `0 .. n - 1`, and in
every round the three members have exactly their entry values. -/
theorem ExcuteModel_keeps_controls (L : Libm) (g : Generator) (n : Fin 65536) (r : Rand) :
    (ExcuteModel L g n r).2.1.m_Pace = g.m_Pace ∧
    (ExcuteModel L g n r).2.1.m_Firmness = g.m_Firmness ∧
    (ExcuteModel L g n r).2.1.m_Steadiness = g.m_Steadiness ∧
    (ExcuteModel L g n r).2.1.changedFlags
      = [false, false, false, false, false, false, false] ∧
    (ExcuteModel L g n r).1 = (List.range n.val).map (fun k =>
      (IncrementTheModelChannel L
        (ExcuteModel.atSample ((ExcuteModel.body L)^[k] (ExcuteModel.rampBlock g n r)))
        ((ExcuteModel.body L)^[k] (ExcuteModel.rampBlock g n r)).rnd).1) ∧
    ∀ k : Nat,
      (ExcuteModel.atSample ((ExcuteModel.body L)^[k] (ExcuteModel.rampBlock g n r))).m_Pace
        = g.m_Pace ∧
      (ExcuteModel.atSample ((ExcuteModel.body L)^[k]
        (ExcuteModel.rampBlock g n r))).m_Firmness = g.m_Firmness ∧
      (ExcuteModel.atSample ((ExcuteModel.body L)^[k]
        (ExcuteModel.rampBlock g n r))).m_Steadiness = g.m_Steadiness := by
  obtain ⟨f1, f2, f3, f4, f5, f6⟩ := ExcuteModel.rampBlock_flat g n r
  have hall : ∀ k : Nat,
      ((ExcuteModel.body L)^[k] (ExcuteModel.rampBlock g n r)).m_PaceBegin = g.m_Pace ∧
      ((ExcuteModel.body L)^[k] (ExcuteModel.rampBlock g n r)).m_FirmnessBegin = g.m_Firmness ∧
      ((ExcuteModel.body L)^[k] (ExcuteModel.rampBlock g n r)).m_SteadinessBegin
        = g.m_Steadiness := by
    intro k
    obtain ⟨_, _, _, i4, i5, i6⟩ := ExcuteModel.iterate_body L (ExcuteModel.rampBlock g n r) k
    rw [i4, i5, i6, f1, f2, f3, f4, f5, f6]
    simp
  have hbuf := ExcuteModel.iterate_pBuf L (ExcuteModel.rampBlock g n r) n.val
  rw [ExcuteModel_eq_iterate]
  refine ⟨(hall n.val).1, (hall n.val).2.1, (hall n.val).2.2, ?_, ?_, hall⟩
  · have h := (ExcuteModel_quiet L g n r {} {} rfl).2
    rw [ExcuteModel_eq_iterate] at h
    exact h
  · rw [hbuf]
    rfl

end Generator

/-! ## Filter bank: every bank of fewer than 9 bands -/

namespace nemlib

namespace FilterBank

/-- A checked write keeps the length of the vector, and fails at an index outside it. -/
theorem vecWrite_length (v : List ℚ) (i : Int) (x : ℚ) :
    (∀ w, vecWrite v i x = some w → w.length = v.length) ∧
    (¬ (0 ≤ i ∧ i.toNat < v.length) → vecWrite v i x = none) := by
  unfold vecWrite
  constructor
  · intro w h
    split_ifs at h
    simp only [Option.some.injEq] at h
    rw [← h, List.length_set]
  · intro h
    rw [if_neg h]

/-- The checked loop bodies keep the number of gains, and fail at a band index outside the
gains. -/
theorem bands_checked (L : Libm) (M : Mode) (b : FilterBank) (i : Int) :
    (∀ b1, initBandChecked L M b i = some b1 →
      b1.FilterBandGains.length = b.FilterBandGains.length) ∧
    (∀ b1, zeroBandChecked b i = some b1 →
      b1.FilterBandGains.length = b.FilterBandGains.length) ∧
    (¬ (0 ≤ i ∧ i.toNat < b.FilterBandGains.length) →
      initBandChecked L M b i = none ∧ zeroBandChecked b i = none) := by
  refine ⟨?_, ?_, ?_⟩
  · intro b1 h
    unfold initBandChecked at h
    simp only [Option.bind_eq_some, Option.some.injEq] at h
    obtain ⟨F, _, G, hG, rfl⟩ := h
    exact (vecWrite_length _ _ _).1 G hG
  · intro b1 h
    unfold zeroBandChecked at h
    simp only [Option.map_eq_some'] at h
    obtain ⟨G, hG, rfl⟩ := h
    exact (vecWrite_length _ _ _).1 G hG
  · intro h
    constructor
    · unfold initBandChecked
      rw [(vecWrite_length _ _ _).2 h]
      cases updAtChecked b.Filters i _ <;> rfl
    · unfold zeroBandChecked
      rw [(vecWrite_length _ _ _).2 h]
      rfl

/-- A checked loop over band indices: the number of gains is kept, and the loop fails as
soon as one of its indices is outside the gains. -/
theorem loop_checked (g : FilterBank → Nat → Option FilterBank) (idx : Nat → Int) (m : Nat)
    (hlen : ∀ b k b1, g b k = some b1 → b1.FilterBandGains.length = b.FilterBandGains.length)
    (hbad : ∀ b k, b.FilterBandGains.length = m → ¬ (0 ≤ idx k ∧ (idx k).toNat < m) →
      g b k = none)
    (l : List Nat) :
    ∀ o : Option FilterBank, (∀ b, o = some b → b.FilterBandGains.length = m) →
      (∀ b1, l.foldl (fun (b : Option FilterBank) (k : Nat) => b.bind fun b => g b k) o
          = some b1 → b1.FilterBandGains.length = m) ∧
      ((∃ k ∈ l, ¬ (0 ≤ idx k ∧ (idx k).toNat < m)) →
        l.foldl (fun (b : Option FilterBank) (k : Nat) => b.bind fun b => g b k) o = none) := by
  have hN : ∀ l : List Nat,
      l.foldl (fun (b : Option FilterBank) (k : Nat) => b.bind fun b => g b k) none = none := by
    intro l
    induction l with
    | nil => rfl
    | cons c l ih2 => exact ih2
  induction l with
  | nil =>
    intro o ho
    exact ⟨fun b1 h => ho b1 h, fun ⟨k, hk, _⟩ => absurd hk (List.not_mem_nil k)⟩
  | cons a l ih =>
    intro o ho
    rw [List.foldl_cons]
    have hnext : ∀ b, (o.bind fun b => g b a) = some b → b.FilterBandGains.length = m := by
      intro b hb
      cases o with
      | none => simp at hb
      | some b0 =>
        simp only [Option.some_bind] at hb
        rw [hlen b0 a b hb]
        exact ho b0 rfl
    obtain ⟨i1, i2⟩ := ih (o.bind fun b => g b a) hnext
    refine ⟨i1, ?_⟩
    rintro ⟨k, hk, hbadk⟩
    rcases List.mem_cons.mp hk with rfl | hk
    · have hnone : (o.bind fun b => g b k) = none := by
        cases o with
        | none => rfl
        | some b0 =>
          simp only [Option.some_bind]
          exact hbad b0 k (ho b0 rfl) hbadk
      rw [hnone]
      exact hN l
    · exact i2 ⟨k, hk, hbadk⟩

/-- On every bank with fewer than 9 gains, and for every mode, `InitialiseFilterBank`
subscripts a band outside the bank: the second loop runs up to index 8, and when it does
not run (`nModes ≥ 9`) the first loop runs past the bank. -/
theorem InitialiseFilterBankChecked_small (L : Libm) (fb : FilterBank) (M : Mode)
    (h : fb.FilterBandGains.length < 9) : InitialiseFilterBankChecked L fb M = none := by
  have h1 := loop_checked (fun b k => initBandChecked L M b (k : Int)) (fun k => (k : Int))
    fb.FilterBandGains.length
    (fun b k b1 hb => (bands_checked L M b (k : Int)).1 b1 hb)
    (fun b k hb hbad => ((bands_checked L M b (k : Int)).2.2 (by rw [hb]; exact hbad)).1)
    (List.range M.nModes.toNat) (some fb) (fun b hb => by
      simp only [Option.some.injEq] at hb
      rw [← hb])
  have h2 := loop_checked (fun b k => zeroBandChecked b (M.nModes + (k : Int)))
    (fun k => M.nModes + (k : Int)) fb.FilterBandGains.length
    (fun b k b1 hb => (bands_checked L M b (M.nModes + (k : Int))).2.1 b1 hb)
    (fun b k hb hbad =>
      ((bands_checked L M b (M.nModes + (k : Int))).2.2 (by rw [hb]; exact hbad)).2)
    (List.range (9 - M.nModes).toNat) _ h1.1
  unfold InitialiseFilterBankChecked
  dsimp only
  by_cases hn : M.nModes < 9
  · rw [h2.2 ?_]
    · rfl
    · by_cases hneg : M.nModes < 0
      · exact ⟨0, List.mem_range.mpr (by omega), by beta_reduce; omega⟩
      · exact ⟨(8 - M.nModes).toNat, List.mem_range.mpr (by omega), by beta_reduce; omega⟩
  · rw [h1.2 ⟨fb.FilterBandGains.length, List.mem_range.mpr (by omega),
      by beta_reduce; omega⟩]
    have hempty : List.range (9 - M.nModes).toNat = [] := by
      rw [show (9 - M.nModes).toNat = 0 by omega]
      rfl
    rw [hempty]
    rfl

end FilterBank

end nemlib

/-! ## Curve envelope: leaving the last segment -/

namespace nemlib

namespace CurveEnvelope

/-- In per-segment mode (`Times.size() = NumOfValues - 1`, `Times` not empty), the call of
`GetNextEnvelopePoint` that finds the position past the boundary of the last segment
(`Counter = NumOfValues - 1`) reads `Times[NumOfValues - 1]`, outside `Times`, whatever
the values and durations. -/
theorem GetNextEnvelopePointChecked_last_segment (c : CurveEnvelope)
    (hs : c.HasStarted = true) (ht : c.Times.isEmpty = false)
    (hlen : (c.Times.length : Int) = c.NumOfValues - 1) (hc : c.Counter = c.NumOfValues - 1)
    (hp : ¬ c.EnvPos ≤ c.Boundary) : GetNextEnvelopePointChecked c = none := by
  have hread : vecRead c.Times (c.Counter + 1 - 1) = none := by
    unfold vecRead
    have h0 : (0 : Int) ≤ c.Counter + 1 - 1 := by omega
    rw [if_pos h0, List.get?_eq_none]
    omega
  unfold GetNextEnvelopePointChecked
  cases vecRead c.Values 0 with
  | none => rfl
  | some v0 =>
    simp only [Option.some_bind]
    rw [if_pos hs, if_neg (by rw [ht]; simp), if_pos (le_of_eq hc), if_neg hp, hread]
    rfl

end CurveEnvelope

end nemlib

/-! ## Delay line: the buffer and the write pointer -/

namespace nemlib

/-- A delay built by the constructor with a sample rate of at least 1 has its buffer of
`5 * SampleRate` cells and its write pointer at 0, and `SetDelay` and `ProcessSample` keep
the buffer length and keep the write pointer inside the buffer. -/
theorem Delay.buffer_invariant (sr : Int) (t0 : ℚ) (hsr : 1 ≤ sr) :
    ((Delay.new sr t0).DelayBuffer.length : Int)
      = MAX_DELAY_TIME_INT * (Delay.new sr t0).SampleRate ∧
    (Delay.new sr t0).WritePointer = 0 ∧
    (∀ (d : Delay) (t : ℚ), (d.SetDelay t).DelayBuffer = d.DelayBuffer ∧
      (d.SetDelay t).WritePointer = d.WritePointer ∧ (d.SetDelay t).SampleRate = d.SampleRate) ∧
    (∀ (d : Delay) (v : ℚ), (d.ProcessSample v).2.SampleRate = d.SampleRate ∧
      (0 ≤ d.WritePointer → d.WritePointer < MAX_DELAY_TIME_INT * d.SampleRate →
        (d.ProcessSample v).2.DelayBuffer.length = d.DelayBuffer.length ∧
        0 ≤ (d.ProcessSample v).2.WritePointer ∧
        (d.ProcessSample v).2.WritePointer < MAX_DELAY_TIME_INT * d.SampleRate)) := by
  refine ⟨?_, rfl, fun d t => ⟨rfl, rfl, rfl⟩, ?_⟩
  · show ((List.replicate (MAX_DELAY_TIME_INT * sr).toNat (0 : ℚ)).length : Int) = _
    rw [List.length_replicate, MAX_DELAY_TIME_INT_eq]
    show (((5 * sr).toNat : Nat) : Int) = 5 * sr
    omega
  · intro d v
    refine ⟨rfl, fun h0 hC => ?_⟩
    refine ⟨?_, ?_, ?_⟩
    · show (vecSet d.DelayBuffer d.WritePointer v).length = _
      unfold vecSet
      rw [if_pos h0, List.length_set]
    · show 0 ≤ (if d.WritePointer + 1 ≥ MAX_DELAY_TIME_INT * d.SampleRate then 0
        else d.WritePointer + 1)
      split_ifs <;> omega
    · show (if d.WritePointer + 1 ≥ MAX_DELAY_TIME_INT * d.SampleRate then 0
        else d.WritePointer + 1) < _
      split_ifs <;> omega

end nemlib

namespace nemlib

/-! ## Binary32 rounding: order properties -/

theorem natLog2_spec : ∀ (fuel n : Nat), n ≤ fuel → 1 ≤ n →
    2 ^ natLog2 fuel n ≤ n ∧ n < 2 ^ (natLog2 fuel n + 1)
  | 0, n, h, h1 => by omega
  | fuel + 1, n, h, h1 => by
    unfold natLog2
    split_ifs with h2
    · constructor <;> simp <;> omega
    · have ih := natLog2_spec fuel (n / 2) (by omega) (by omega)
      rw [pow_succ, pow_succ]
      constructor <;> omega

/-- The binary exponent brackets a non-zero rational. -/
theorem ilog2_spec (x : ℚ) (hx : x ≠ 0) :
    (2 : ℚ) ^ ilog2 x ≤ |x| ∧ |x| < (2 : ℚ) ^ (ilog2 x + 1) := by
  have ha1 : 1 ≤ x.num.natAbs := by
    have : x.num ≠ 0 := Rat.num_ne_zero.mpr hx
    omega
  have hd1 : 1 ≤ x.den := x.den_pos
  obtain ⟨ha, ha'⟩ := natLog2_spec x.num.natAbs x.num.natAbs le_rfl ha1
  obtain ⟨hd, hd'⟩ := natLog2_spec x.den x.den le_rfl hd1
  have habs : |x| = (x.num.natAbs : ℚ) / (x.den : ℚ) := by
    conv_lhs => rw [← Rat.num_div_den x]
    rw [abs_div, Nat.abs_cast, Nat.cast_natAbs, Int.cast_abs]
  have hdq : (0 : ℚ) < x.den := by exact_mod_cast hd1
  have haq : ((2 : ℚ) ^ natLog2 x.num.natAbs x.num.natAbs) ≤ (x.num.natAbs : ℚ) := by
    exact_mod_cast ha
  have haq' : (x.num.natAbs : ℚ) < (2 : ℚ) ^ (natLog2 x.num.natAbs x.num.natAbs + 1) := by
    exact_mod_cast ha'
  have hdq1 : ((2 : ℚ) ^ natLog2 x.den x.den) ≤ (x.den : ℚ) := by exact_mod_cast hd
  have hdq' : (x.den : ℚ) < (2 : ℚ) ^ (natLog2 x.den x.den + 1) := by exact_mod_cast hd'
  have h2 : (2 : ℚ) ≠ 0 := by norm_num
  have hpa : (0 : ℚ) < (2 : ℚ) ^ natLog2 x.num.natAbs x.num.natAbs := by positivity
  have hpd : (0 : ℚ) < (2 : ℚ) ^ natLog2 x.den x.den := by positivity
  have he0 : (2 : ℚ) ^ ((natLog2 x.num.natAbs x.num.natAbs : Int) - (natLog2 x.den x.den : Int))
      = (2 : ℚ) ^ natLog2 x.num.natAbs x.num.natAbs / (2 : ℚ) ^ natLog2 x.den x.den := by
    rw [zpow_sub₀ h2, zpow_natCast, zpow_natCast]
  unfold ilog2
  simp only
  split_ifs with hc
  · refine ⟨hc, ?_⟩
    rw [zpow_add_one₀ h2, he0, habs, div_mul_eq_mul_div, div_lt_div_iff₀ hdq hpd]
    rw [pow_succ] at haq'
    nlinarith
  · constructor
    · rw [zpow_sub_one₀ h2, he0, habs, div_mul_eq_mul_div, ← div_eq_mul_inv, div_div,
        div_le_div_iff₀ (by positivity) hdq]
      rw [pow_succ] at hdq'
      nlinarith
    · rw [sub_add_cancel]
      exact lt_of_not_le hc


theorem roundHalfEven_le (x : ℚ) : (roundHalfEven x : ℚ) ≤ x + 1 / 2 := by
  have h1 := Int.floor_le x
  unfold roundHalfEven
  simp only
  split_ifs <;> push_cast <;> linarith

theorem roundHalfEven_ge (x : ℚ) : x - 1 / 2 ≤ (roundHalfEven x : ℚ) := by
  have h1 := Int.floor_le x
  have h2 := Int.lt_floor_add_one x
  unfold roundHalfEven
  simp only
  split_ifs <;> push_cast <;> linarith

theorem roundHalfEven_intCast (m : Int) : roundHalfEven (m : ℚ) = m := by
  unfold roundHalfEven
  simp

theorem roundHalfEven_mono {x y : ℚ} (h : x ≤ y) : roundHalfEven x ≤ roundHalfEven y := by
  by_contra hc
  have hc1 : roundHalfEven y + 1 ≤ roundHalfEven x := by omega
  have hc2 : (roundHalfEven y : ℚ) + 1 ≤ (roundHalfEven x : ℚ) := by exact_mod_cast hc1
  have hx := roundHalfEven_le x
  have hy := roundHalfEven_ge y
  have hxy : x = y := by linarith
  subst hxy
  omega

theorem roundHalfEven_neg (x : ℚ) : roundHalfEven (-x) = -roundHalfEven x := by
  have h1 := Int.floor_le x
  have h2 := Int.lt_floor_add_one x
  by_cases hi : (⌊x⌋ : ℚ) = x
  · rw [← hi, ← Int.cast_neg, roundHalfEven_intCast, roundHalfEven_intCast]
  · have hlt : (⌊x⌋ : ℚ) < x := lt_of_le_of_ne h1 hi
    have hf : ⌊-x⌋ = -⌊x⌋ - 1 := by
      rw [Int.floor_eq_iff]
      push_cast
      constructor <;> linarith
    unfold roundHalfEven
    simp only [hf]
    push_cast
    split_ifs <;> first | omega | (exfalso; linarith)


theorem ilog2_neg (x : ℚ) : ilog2 (-x) = ilog2 x := by
  unfold ilog2
  simp only [Rat.neg_num, Int.natAbs_neg, Rat.neg_den, abs_neg]

theorem fl32_neg (x : ℚ) : fl32 (-x) = -fl32 x := by
  unfold fl32
  by_cases h : x = 0
  · simp [h]
  · rw [if_neg h, if_neg (neg_ne_zero.mpr h)]
    simp only [ilog2_neg, neg_div, roundHalfEven_neg]
    push_cast
    ring

theorem fl32_zero : fl32 0 = 0 := by
  unfold fl32
  simp

theorem fl32_nonneg {x : ℚ} (h : 0 ≤ x) : 0 ≤ fl32 x := by
  unfold fl32
  split_ifs with h0
  · exact le_rfl
  · simp only
    have hq : (0 : ℚ) < (2 : ℚ) ^ (max (ilog2 x) (-126) - 23) := by positivity
    have h1 : roundHalfEven ((0 : Int) : ℚ) ≤ roundHalfEven (x / (2 : ℚ) ^ (max (ilog2 x) (-126) - 23)) :=
      roundHalfEven_mono (by push_cast; positivity)
    rw [roundHalfEven_intCast] at h1
    have h2 : (0 : ℚ) ≤ (roundHalfEven (x / (2 : ℚ) ^ (max (ilog2 x) (-126) - 23)) : ℚ) := by
      exact_mod_cast h1
    positivity

/-- On a positive normal number the rounding stays within the binade, ends included. -/
theorem fl32_normal {x : ℚ} (h : 0 < x) (he : -126 ≤ ilog2 x) :
    (2 : ℚ) ^ ilog2 x ≤ fl32 x ∧ fl32 x ≤ (2 : ℚ) ^ (ilog2 x + 1) := by
  obtain ⟨hl, hu⟩ := ilog2_spec x h.ne'
  rw [abs_of_pos h] at hl hu
  have h2 : (2 : ℚ) ≠ 0 := by norm_num
  unfold fl32
  rw [if_neg h.ne']
  simp only
  rw [max_eq_left he]
  have hq : (0 : ℚ) < (2 : ℚ) ^ (ilog2 x - 23) := by positivity
  have e1 : (2 : ℚ) ^ ilog2 x = (((2 : Int) ^ 23 : Int) : ℚ) * (2 : ℚ) ^ (ilog2 x - 23) := by
    rw [zpow_sub₀ h2]
    push_cast
    field_simp
    norm_num
    ring
  have e2 : (2 : ℚ) ^ (ilog2 x + 1) = (((2 : Int) ^ 24 : Int) : ℚ) * (2 : ℚ) ^ (ilog2 x - 23) := by
    rw [zpow_sub₀ h2, zpow_add_one₀ h2]
    push_cast
    field_simp
    norm_num
    ring
  constructor
  · have h1 : roundHalfEven ((((2 : Int) ^ 23 : Int)) : ℚ) ≤
        roundHalfEven (x / (2 : ℚ) ^ (ilog2 x - 23)) := by
      apply roundHalfEven_mono
      rw [le_div_iff₀ hq, ← e1]
      exact hl
    rw [roundHalfEven_intCast] at h1
    have h1q : ((((2 : Int) ^ 23 : Int)) : ℚ) ≤ (roundHalfEven (x / (2 : ℚ) ^ (ilog2 x - 23)) : ℚ) := by
      exact_mod_cast h1
    rw [e1]
    exact mul_le_mul_of_nonneg_right h1q hq.le
  · have h1 : roundHalfEven (x / (2 : ℚ) ^ (ilog2 x - 23)) ≤
        roundHalfEven ((((2 : Int) ^ 24 : Int)) : ℚ) := by
      apply roundHalfEven_mono
      rw [div_le_iff₀ hq, ← e2]
      exact hu.le
    rw [roundHalfEven_intCast] at h1
    have h1q : (roundHalfEven (x / (2 : ℚ) ^ (ilog2 x - 23)) : ℚ) ≤ ((((2 : Int) ^ 24 : Int)) : ℚ) := by
      exact_mod_cast h1
    rw [e2]
    exact mul_le_mul_of_nonneg_right h1q hq.le

/-- Below the normal range the rounding does not exceed the least normal number. -/
theorem fl32_subnormal {x : ℚ} (h : 0 < x) (he : ilog2 x < -126) :
    fl32 x ≤ (2 : ℚ) ^ (-126 : Int) := by
  obtain ⟨_, hu⟩ := ilog2_spec x h.ne'
  rw [abs_of_pos h] at hu
  have h2 : (2 : ℚ) ≠ 0 := by norm_num
  unfold fl32
  rw [if_neg h.ne']
  simp only
  rw [max_eq_right he.le]
  have hq : (0 : ℚ) < (2 : ℚ) ^ ((-126 : Int) - 23) := by positivity
  have e2 : (2 : ℚ) ^ (-126 : Int) = (((2 : Int) ^ 23 : Int) : ℚ) * (2 : ℚ) ^ ((-126 : Int) - 23) := by
    rw [zpow_sub₀ h2]
    push_cast
    field_simp
    norm_num
  have hx : x ≤ (2 : ℚ) ^ (-126 : Int) :=
    hu.le.trans (zpow_le_zpow_right₀ (by norm_num) (by omega))
  have h1 : roundHalfEven (x / (2 : ℚ) ^ ((-126 : Int) - 23)) ≤
      roundHalfEven ((((2 : Int) ^ 23 : Int)) : ℚ) := by
    apply roundHalfEven_mono
    rw [div_le_iff₀ hq, ← e2]
    exact hx
  rw [roundHalfEven_intCast] at h1
  have h1q : (roundHalfEven (x / (2 : ℚ) ^ ((-126 : Int) - 23)) : ℚ) ≤ ((((2 : Int) ^ 23 : Int)) : ℚ) := by
    exact_mod_cast h1
  rw [e2]
  exact mul_le_mul_of_nonneg_right h1q hq.le

theorem ilog2_mono {x y : ℚ} (hx : 0 < x) (h : x ≤ y) : ilog2 x ≤ ilog2 y := by
  obtain ⟨hl, _⟩ := ilog2_spec x hx.ne'
  obtain ⟨_, hu⟩ := ilog2_spec y (hx.trans_le h).ne'
  rw [abs_of_pos hx] at hl
  rw [abs_of_pos (hx.trans_le h)] at hu
  have : (2 : ℚ) ^ ilog2 x < (2 : ℚ) ^ (ilog2 y + 1) := lt_of_le_of_lt (hl.trans h) hu
  have := (zpow_lt_zpow_iff_right₀ (by norm_num : (1 : ℚ) < 2)).mp this
  omega

theorem fl32_mono_pos {x y : ℚ} (hx : 0 < x) (h : x ≤ y) : fl32 x ≤ fl32 y := by
  have hy : 0 < y := hx.trans_le h
  have hxy := ilog2_mono hx h
  by_cases hE : max (ilog2 x) (-126) = max (ilog2 y) (-126)
  · unfold fl32
    rw [if_neg hx.ne', if_neg hy.ne']
    simp only
    rw [hE]
    have hq : (0 : ℚ) < (2 : ℚ) ^ (max (ilog2 y) (-126) - 23) := by positivity
    have h1 : roundHalfEven (x / (2 : ℚ) ^ (max (ilog2 y) (-126) - 23)) ≤
        roundHalfEven (y / (2 : ℚ) ^ (max (ilog2 y) (-126) - 23)) :=
      roundHalfEven_mono (div_le_div_of_nonneg_right h hq.le)
    have h1q : (roundHalfEven (x / (2 : ℚ) ^ (max (ilog2 y) (-126) - 23)) : ℚ) ≤
        (roundHalfEven (y / (2 : ℚ) ^ (max (ilog2 y) (-126) - 23)) : ℚ) := by exact_mod_cast h1
    exact mul_le_mul_of_nonneg_right h1q hq.le
  · have hy126 : -126 ≤ ilog2 y := by
      by_contra hc
      apply hE
      rw [max_eq_right (by omega), max_eq_right (by omega)]
    have hlt : max (ilog2 x) (-126) < ilog2 y := by
      rcases le_total (ilog2 x) (-126) with h1 | h1
      · rw [max_eq_right h1] at hE ⊢
        rw [max_eq_left hy126] at hE
        omega
      · rw [max_eq_left h1] at hE ⊢
        rw [max_eq_left hy126] at hE
        omega
    have hyl := (fl32_normal hy hy126).1
    have hxu : fl32 x ≤ (2 : ℚ) ^ (max (ilog2 x) (-126) + 1) := by
      rcases lt_or_le (ilog2 x) (-126) with h1 | h1
      · rw [max_eq_right h1.le]
        exact (fl32_subnormal hx h1).trans (zpow_le_zpow_right₀ (by norm_num) (by omega))
      · rw [max_eq_left h1]
        exact (fl32_normal hx h1).2
    exact hxu.trans ((zpow_le_zpow_right₀ (by norm_num) (by omega)).trans hyl)

/-- Rounding to binary32 is monotone. -/
theorem fl32_mono {x y : ℚ} (h : x ≤ y) : fl32 x ≤ fl32 y := by
  rcases lt_trichotomy x 0 with hx | hx | hx
  · rcases lt_or_le y 0 with hy | hy
    · have := fl32_mono_pos (neg_pos.mpr hy) (neg_le_neg h)
      rw [fl32_neg, fl32_neg] at this
      linarith
    · have h1 := fl32_nonneg (neg_pos.mpr hx).le
      rw [fl32_neg] at h1
      have h2 := fl32_nonneg hy
      linarith
  · subst hx
    rw [fl32_zero]
    exact fl32_nonneg h
  · exact fl32_mono_pos hx h

end nemlib

/-! ## Timer in binary32 -/

namespace nemlib

namespace Timer

/-- The increment of a 48 kHz timer in binary32, `1.0f / 48000.0f`. -/
theorem new32_48000 (T : ℚ) (hT : 0 ≤ T) :
    (new32 48000 T).ResetTimer.ResumeTimer
      = { SampleRate := 48000, Inc := 5726623 / 274877906944, Counter := 0, Time := T
          Play := true } := by
  have h : fdiv 1 (fl32 ((max (48000 : Int) 1 : Int) : ℚ)) = 5726623 / 274877906944 := by
    decide!
  simp only [new32, ResetTimer, ResumeTimer, h, max_eq_left hT]
  rfl

/-- A 600 s timer at 48 kHz in binary32: the counter never exceeds 512, where adding the
increment no longer changes it. -/
theorem calls32_stalled (n : Nat) :
    ∃ c : ℚ, c ≤ 512 ∧ calls32 n (new32 48000 600).ResetTimer.ResumeTimer
      = { SampleRate := 48000, Inc := 5726623 / 274877906944, Counter := c, Time := 600
          Play := true } := by
  induction n with
  | zero => exact ⟨0, by norm_num, new32_48000 600 (by norm_num)⟩
  | succ n ih =>
    obtain ⟨c, hc, hs⟩ := ih
    refine ⟨fadd c (5726623 / 274877906944), ?_, ?_⟩
    · have h512 : fl32 (512 + 5726623 / 274877906944) = 512 := by decide!
      have := fl32_mono (add_le_add_right hc (5726623 / 274877906944))
      rw [h512] at this
      exact this
    · show (checkTime32 (calls32 n _)).2 = _
      rw [hs]
      have hlt : ¬ (c ≥ 600) := by
        intro h
        linarith
      simp only [checkTime32, if_true, if_neg hlt]

end Timer

/-- C6: in binary32 `checkTime()` does not return true at the call the count predicts.
(1) `Timer(48000, 600.0f)`, reset and playing: no call ever returns true, because the
counter stops growing at 512.  (2) `Timer(48000, 0.005f)`, reset and playing: 240 is the
least `n` with `n / 48000 ≥ Time`, yet call 240 returns false and call 241 is the one that
returns true. -/
theorem Timer.checkTime32_misses_expiry :
    (∀ n : Nat, (Timer.checkTime32
      (Timer.calls32 n (Timer.new32 48000 600).ResetTimer.ResumeTimer)).1 = false) ∧
    (Timer.new32 48000 (fl32 (5 / 1000))).Time ≤ (240 : ℚ) / 48000 ∧
    (239 : ℚ) / 48000 < (Timer.new32 48000 (fl32 (5 / 1000))).Time ∧
    (Timer.checkTime32
      (Timer.calls32 240 (Timer.new32 48000 (fl32 (5 / 1000))).ResetTimer.ResumeTimer)).1
        = false ∧
    (Timer.checkTime32
      (Timer.calls32 241 (Timer.new32 48000 (fl32 (5 / 1000))).ResetTimer.ResumeTimer)).1
        = true := by
  have hT : fl32 (5 / 1000) = 5368709 / 1073741824 := by decide!
  have hTime : (Timer.new32 48000 (fl32 (5 / 1000))).Time = 5368709 / 1073741824 := by
    rw [hT]
    show max (5368709 / 1073741824 : ℚ) 0 = _
    exact max_eq_left (by norm_num)
  have h240 : Timer.calls32 240 (Timer.new32 48000 (fl32 (5 / 1000))).ResetTimer.ResumeTimer
      = { SampleRate := 48000, Inc := 5726623 / 274877906944
          Counter := 10737383 / 2147483648, Time := 5368709 / 1073741824, Play := true } := by
    rw [hT]
    decide!
  refine ⟨fun n => ?_, ?_, ?_, ?_, ?_⟩
  · obtain ⟨c, hc, hs⟩ := Timer.calls32_stalled n
    rw [hs]
    have hlt : ¬ (c ≥ 600) := by
      intro h
      linarith
    simp only [Timer.checkTime32, if_true, if_neg hlt]
  · rw [hTime]
    norm_num
  · rw [hTime]
    norm_num
  · rw [h240]
    decide!
  · show (Timer.checkTime32 (Timer.checkTime32 (Timer.calls32 240 _)).2).1 = true
    rw [h240]
    decide!

end nemlib

/-! ## Curve envelope: past the final breakpoint -/

namespace nemlib

namespace CurveEnvelope

/-- C8: the last value is not always held past the final breakpoint.
(1) Single-duration mode, `CurveEnvelope(4, {0, 1, 0}, 0.01f)` started by `ResetEnvelope`:
the constructor's lower bound `3.0f * (float)(NumOfValues / SampleRate)` is an integer
division, here `3 * (3 / 4) = 0`, so `Time` stays 0.01 s; the position after the first call
is 1/4 s, past the final breakpoint (1/150 s) and past `Time`, yet the next call returns
-73, not the last value 0.
(2) Per-segment mode, `CurveEnvelope(4, {0, 1, 0}, {0.25f, 0.25f})` started by
`ResetEnvelope`, with `Times.size() = NumOfValues - 1` and both durations equal to
`1 / SampleRate`: the constructor, `ResetEnvelope` and calls 0, 1 and 2 (which return 0, 1
and 0) stay inside the vectors; call 3 finds the position 3/4 s past the final breakpoint
1/2 s, increments `Counter` to 3 and reads `Times[2]`, outside `Times`. -/
theorem final_breakpoint_not_held :
    3 * ((Int.tdiv 3 4 : Int) : ℚ) = 0 ∧
    (new 4 [0, 1, 0] (1 / 100)).Time = 1 / 100 ∧
    (new 4 [0, 1, 0] (1 / 100)).Times = [] ∧
    (new 4 [0, 1, 0] (1 / 100)).ResetEnvelope.HasStarted = true ∧
    (new 4 [0, 1, 0] (1 / 100)).finalBreakpoint = 1 / 150 ∧
    (calls 1 (new 4 [0, 1, 0] (1 / 100)).ResetEnvelope).EnvPos = 1 / 4 ∧
    (GetNextEnvelopePoint (calls 1 (new 4 [0, 1, 0] (1 / 100)).ResetEnvelope)).1 = -73 ∧
    back (new 4 [0, 1, 0] (1 / 100)).Values = 0 ∧
    newTimesChecked 4 [0, 1, 0] [1 / 4, 1 / 4] = some (newTimes 4 [0, 1, 0] [1 / 4, 1 / 4]) ∧
    (newTimes 4 [0, 1, 0] [1 / 4, 1 / 4]).Times = [1 / 4, 1 / 4] ∧
    (newTimes 4 [0, 1, 0] [1 / 4, 1 / 4]).NumOfValues = 3 ∧
    (newTimes 4 [0, 1, 0] [1 / 4, 1 / 4]).EnvPosInc = 1 / 4 ∧
    (newTimes 4 [0, 1, 0] [1 / 4, 1 / 4]).finalBreakpoint = 1 / 2 ∧
    ResetEnvelopeChecked (newTimes 4 [0, 1, 0] [1 / 4, 1 / 4])
      = some (newTimes 4 [0, 1, 0] [1 / 4, 1 / 4]).ResetEnvelope ∧
    GetNextEnvelopePointChecked (calls 0 (newTimes 4 [0, 1, 0] [1 / 4, 1 / 4]).ResetEnvelope)
      = some (0, calls 1 (newTimes 4 [0, 1, 0] [1 / 4, 1 / 4]).ResetEnvelope) ∧
    GetNextEnvelopePointChecked (calls 1 (newTimes 4 [0, 1, 0] [1 / 4, 1 / 4]).ResetEnvelope)
      = some (1, calls 2 (newTimes 4 [0, 1, 0] [1 / 4, 1 / 4]).ResetEnvelope) ∧
    GetNextEnvelopePointChecked (calls 2 (newTimes 4 [0, 1, 0] [1 / 4, 1 / 4]).ResetEnvelope)
      = some (0, calls 3 (newTimes 4 [0, 1, 0] [1 / 4, 1 / 4]).ResetEnvelope) ∧
    (calls 3 (newTimes 4 [0, 1, 0] [1 / 4, 1 / 4]).ResetEnvelope).EnvPos = 3 / 4 ∧
    (calls 3 (newTimes 4 [0, 1, 0] [1 / 4, 1 / 4]).ResetEnvelope).Counter = 2 ∧
    GetNextEnvelopePointChecked (calls 3 (newTimes 4 [0, 1, 0] [1 / 4, 1 / 4]).ResetEnvelope)
      = none := by
  refine ⟨?_, ?_, ?_, ?_, ?_, ?_, ?_, ?_, ?_, ?_, ?_, ?_, ?_, ?_, ?_, ?_, ?_, ?_, ?_, ?_⟩
  all_goals decide!

end CurveEnvelope

end nemlib

/-! ## Biquad filter in binary32: the low shelf at a very low gain -/

namespace nemlib

namespace BiquadFilter

/-- The low-shelf `A0 = V + 1.0f + 2.0f * sqrt(V) * AS + (V - 1.0f) * Wc` in binary32 is 0
as soon as `Wc` is 1 and `V` and `2 * sqrt(V) * AS` are too small to change 1. -/
theorem lowshelf_A0_absorbed (V sqrtV AS : ℚ) (hV0 : 0 ≤ V) (hV : V ≤ 1 / 67108864)
    (hs0 : 0 ≤ sqrtV) (hs : sqrtV ≤ 1 / 8192) (hA0 : 0 ≤ AS) (hA : AS ≤ 1 / 4096) :
    fadd (fadd (fadd V 1) (fmul (fmul 2 sqrtV) AS)) (fmul (fsub V 1) 1) = 0 := by
  have e1 : fl32 1 = 1 := by decide!
  have hV1 : fadd V 1 = 1 := by
    have e2 : fl32 (1 / 67108864 + 1) = 1 := by decide!
    have h1 := fl32_mono (show (1 : ℚ) ≤ V + 1 by linarith)
    have h2 := fl32_mono (show V + 1 ≤ 1 / 67108864 + 1 by linarith)
    rw [e1] at h1
    rw [e2] at h2
    exact le_antisymm h2 h1
  have hVm : fsub V 1 = -1 := by
    have e2 : fl32 (1 / 67108864 - 1) = -1 := by decide!
    have e3 : fl32 (-1) = -1 := by decide!
    have h1 := fl32_mono (show (-1 : ℚ) ≤ V - 1 by linarith)
    have h2 := fl32_mono (show V - 1 ≤ 1 / 67108864 - 1 by linarith)
    rw [e3] at h1
    rw [e2] at h2
    exact le_antisymm h2 h1
  have h2s0 : 0 ≤ fmul 2 sqrtV := fl32_nonneg (by positivity)
  have h2s : fmul 2 sqrtV ≤ 1 / 4096 := by
    have e2 : fl32 (1 / 4096) = 1 / 4096 := by decide!
    have h := fl32_mono (show 2 * sqrtV ≤ 1 / 4096 by linarith)
    rw [e2] at h
    exact h
  have hP0 : 0 ≤ fmul (fmul 2 sqrtV) AS := fl32_nonneg (by positivity)
  have hP : fmul (fmul 2 sqrtV) AS ≤ 1 / 16777216 := by
    have e2 : fl32 (1 / 16777216) = 1 / 16777216 := by decide!
    have h := fl32_mono (show fmul 2 sqrtV * AS ≤ 1 / 16777216 by nlinarith)
    rw [e2] at h
    exact h
  have hsum : fadd 1 (fmul (fmul 2 sqrtV) AS) = 1 := by
    have e2 : fl32 (1 + 1 / 16777216) = 1 := by decide!
    have h1 := fl32_mono (show (1 : ℚ) ≤ 1 + fmul (fmul 2 sqrtV) AS by linarith)
    have h2 := fl32_mono (show 1 + fmul (fmul 2 sqrtV) AS ≤ 1 + 1 / 16777216 by linarith)
    rw [e1] at h1
    rw [e2] at h2
    exact le_antisymm h2 h1
  rw [hV1, hsum, hVm]
  decide!

/-- C15: in binary32 the low shelf at 1 Hz and 48 kHz with a very low peak gain has
`A0 = 0`, and `ProcessSample` divides by it.  For a `Libm` with `0 ≤ pi ≤ 4`, with
`0 ≤ sin x ≤ 2^-12` and `1 - 2^-25 ≤ cos x ≤ 1` for `0 ≤ x ≤ 2^-12`, with
`0 ≤ sqrt x ≤ 2^-13` for `0 ≤ x ≤ 2^-26` and `sqrt 2 ≥ 1`, and a peak gain `g` with
`0 ≤ pow(10, g / 40) ≤ 2^-26` (the real functions have these properties for every
`g ≤ -320`), the filter `BiquadFilter(48000, 1.0f, q, g, bq_type_lowshelf)` has `A0 = 0`. -/
theorem A0_zero_at_low_gain (L : Libm) (q g : ℚ)
    (hpi : 0 ≤ L.pi ∧ L.pi ≤ 4)
    (hsin : ∀ x : ℚ, 0 ≤ x → x ≤ 1 / 4096 → 0 ≤ L.sin x ∧ L.sin x ≤ 1 / 4096)
    (hcos : ∀ x : ℚ, 0 ≤ x → x ≤ 1 / 4096 → 1 - 1 / 33554432 ≤ L.cos x ∧ L.cos x ≤ 1)
    (hsqrt : ∀ x : ℚ, 0 ≤ x → x ≤ 1 / 67108864 → 0 ≤ L.sqrt x ∧ L.sqrt x ≤ 1 / 8192)
    (hsqrt2 : 1 ≤ L.sqrt 2)
    (hpow : 0 ≤ L.pow 10 (fdiv g 40) ∧ L.pow 10 (fdiv g 40) ≤ 1 / 67108864) :
    (new32 L 48000 1 q g 5).A0 = 0 ∧
    ∀ x : ℚ, ProcessSample32 (new32 L 48000 1 q g 5) x = none := by
  have e1 : fl32 1 = 1 := by decide!
  have e0 : fl32 0 = 0 := fl32_zero
  -- the angular frequency
  have hInc : min (fdiv (max (1 : ℚ) 1) (fl32 ((max (48000 : Int) 1 : Int) : ℚ)))
      (fl32 (499 / 1000)) = 5726623 / 274877906944 := by decide!
  have hp0 : 0 ≤ fl32 L.pi := fl32_nonneg hpi.1
  have hp4 : fl32 L.pi ≤ 4 := by
    have e4 : fl32 4 = 4 := by decide!
    have h := fl32_mono hpi.2
    rw [e4] at h
    exact h
  have h2p0 : 0 ≤ fmul 2 (fl32 L.pi) := fl32_nonneg (by positivity)
  have h2p : fmul 2 (fl32 L.pi) ≤ 8 := by
    have e8 : fl32 8 = 8 := by decide!
    have h := fl32_mono (show 2 * fl32 L.pi ≤ 8 by linarith)
    rw [e8] at h
    exact h
  have hW0 : 0 ≤ fmul (fmul 2 (fl32 L.pi)) (5726623 / 274877906944) :=
    fl32_nonneg (by positivity)
  have hW : fmul (fmul 2 (fl32 L.pi)) (5726623 / 274877906944) ≤ 1 / 4096 := by
    have e : fl32 (8 * (5726623 / 274877906944)) ≤ 1 / 4096 := by decide!
    have h := fl32_mono (show fmul 2 (fl32 L.pi) * (5726623 / 274877906944)
      ≤ 8 * (5726623 / 274877906944) by nlinarith)
    exact h.trans e
  -- the library values
  have hc := hcos _ hW0 hW
  have hWc : fl32 (L.cos (fmul (fmul 2 (fl32 L.pi)) (5726623 / 274877906944))) = 1 := by
    have e2 : fl32 (1 - 1 / 33554432) = 1 := by decide!
    have h1 := fl32_mono hc.1
    have h2 := fl32_mono hc.2
    rw [e2] at h1
    rw [e1] at h2
    exact le_antisymm h2 h1
  have hsn := hsin _ hW0 hW
  have hS0 : 0 ≤ fl32 (L.sin (fmul (fmul 2 (fl32 L.pi)) (5726623 / 274877906944))) :=
    fl32_nonneg hsn.1
  have hS : fl32 (L.sin (fmul (fmul 2 (fl32 L.pi)) (5726623 / 274877906944))) ≤ 1 / 4096 := by
    have e2 : fl32 (1 / 4096) = 1 / 4096 := by decide!
    have h := fl32_mono hsn.2
    rw [e2] at h
    exact h
  have hr2 : 1 ≤ fl32 (L.sqrt 2) := by
    have h := fl32_mono hsqrt2
    rw [e1] at h
    exact h
  have hAS0 : 0 ≤ fdiv (fl32 (L.sin (fmul (fmul 2 (fl32 L.pi)) (5726623 / 274877906944))))
      (fl32 (L.sqrt 2)) := fl32_nonneg (div_nonneg hS0 (by linarith))
  have hAS : fdiv (fl32 (L.sin (fmul (fmul 2 (fl32 L.pi)) (5726623 / 274877906944))))
      (fl32 (L.sqrt 2)) ≤ 1 / 4096 := by
    have e2 : fl32 (1 / 4096) = 1 / 4096 := by decide!
    have hq : fl32 (L.sin (fmul (fmul 2 (fl32 L.pi)) (5726623 / 274877906944)))
        / fl32 (L.sqrt 2) ≤ 1 / 4096 := by
      rw [div_le_iff₀ (by linarith)]
      nlinarith
    have h := fl32_mono hq
    rw [e2] at h
    exact h
  have hV0 : 0 ≤ fl32 (L.pow 10 (fdiv g 40)) := fl32_nonneg hpow.1
  have hV : fl32 (L.pow 10 (fdiv g 40)) ≤ 1 / 67108864 := by
    have e2 : fl32 (1 / 67108864) = 1 / 67108864 := by decide!
    have h := fl32_mono hpow.2
    rw [e2] at h
    exact h
  have hq := hsqrt _ hV0 hV
  have hs0 : 0 ≤ fl32 (L.sqrt (fl32 (L.pow 10 (fdiv g 40)))) := fl32_nonneg hq.1
  have hs : fl32 (L.sqrt (fl32 (L.pow 10 (fdiv g 40)))) ≤ 1 / 8192 := by
    have e2 : fl32 (1 / 8192) = 1 / 8192 := by decide!
    have h := fl32_mono hq.2
    rw [e2] at h
    exact h
  have hA0 : (new32 L 48000 1 q g 5).A0 = 0 := by
    simp only [new32, ComputeCoeff32, hInc]
    norm_num only [if_true, if_false]
    rw [hWc]
    exact lowshelf_A0_absorbed _ _ _ hV0 hV hs0 hs hAS0 hAS
  refine ⟨hA0, fun x => ?_⟩
  unfold ProcessSample32
  rw [if_pos hA0]

/-- C15 in binary32, evaluated at `BiquadFilter(48000, 1.0f, 1.0f, -320.0f, bq_type_lowshelf)`
on the sample `Libm` with `pow` returning `10^-8`: `A0 = 0`. -/
theorem A0_zero_at_low_gain_witness :
    (new32 { Libm.sample with pow := fun _ _ => 1 / 100000000 } 48000 1 1 (-320) 5).A0 = 0 ∧
    ProcessSample32
      (new32 { Libm.sample with pow := fun _ _ => 1 / 100000000 } 48000 1 1 (-320) 5) 1
      = none :=
  have h := (A0_zero_at_low_gain { Libm.sample with pow := fun _ _ => 1 / 100000000 } 1 (-320)
    (by norm_num [Libm.sample])
    (fun x h0 h1 => ⟨h0, h1⟩)
    (fun x _ _ => by norm_num [Libm.sample])
    (fun x h0 h1 => ⟨h0, by
      show x ≤ 1 / 8192
      linarith⟩)
    (by norm_num [Libm.sample])
    (by norm_num [Libm.sample]))
  ⟨h.1, h.2 1⟩

end BiquadFilter

end nemlib

/-! ## Linear ADSR envelope in binary32 -/

namespace nemlib

namespace LinEnvelope

theorem calls32_add (e : LinEnvelope) (m : Nat) :
    ∀ n : Nat, calls32 (m + n) e = calls32 n (calls32 m e)
  | 0 => rfl
  | n + 1 => by
    show (GetNextEnvelopePoint32 (calls32 (m + n) e)).2 = (GetNextEnvelopePoint32 _).2
    rw [calls32_add e m n]

/-- The members of `LinEnvelope(1000, 0.1f, 0.0f, 0.1f, 0.5f, 0.1f)` in binary32. -/
theorem adsr32_eq (p : ℚ) :
    adsr32 p = { Attack := 13421773 / 134217728, Hold := 0, Decay := 13421773 / 134217728
                 Sustain := 1 / 2, Release := 13421773 / 134217728, EnvPos := p
                 EnvPosInc := 8589935 / 8589934592, Min := 0, Max := 1
                 HasStarted := true } := by
  have h : (new32 1000 (fl32 (1 / 10)) 0 (fl32 (1 / 10)) (1 / 2) (fl32 (1 / 10))).ResetEnvelope
      = { Attack := 13421773 / 134217728, Hold := 0, Decay := 13421773 / 134217728
          Sustain := 1 / 2, Release := 13421773 / 134217728, EnvPos := 0
          EnvPosInc := 8589935 / 8589934592, Min := 0, Max := 1, HasStarted := true } := by
    decide!
  unfold adsr32
  rw [h]

/-- The positions of the started envelope `LinEnvelope(1000, 0.1f, 0.0f, 0.1f, 0.5f, 0.1f)`
in binary32 after 100, 199, 200, 201, 300 and 301 calls of `GetNextEnvelopePoint`. -/
theorem calls32_adsr32 :
    calls32 100 (adsr32 0) = adsr32 (838861 / 8388608) ∧
    calls32 199 (adsr32 0) = adsr32 (13354679 / 67108864) ∧
    calls32 200 (adsr32 0) = adsr32 (3355447 / 16777216) ∧
    calls32 201 (adsr32 0) = adsr32 (13488897 / 67108864) ∧
    calls32 300 (adsr32 0) = adsr32 (10066319 / 33554432) ∧
    calls32 301 (adsr32 0) = adsr32 (10099873 / 33554432) := by
  have h100 : calls32 100 (adsr32 0) = adsr32 (838861 / 8388608) := by
    rw [adsr32_eq, adsr32_eq]
    decide!
  have h199 : calls32 199 (adsr32 0) = adsr32 (13354679 / 67108864) := by
    rw [show 199 = 100 + 99 from rfl, calls32_add, h100, adsr32_eq, adsr32_eq]
    decide!
  have h200 : calls32 200 (adsr32 0) = adsr32 (3355447 / 16777216) := by
    show (GetNextEnvelopePoint32 (calls32 199 (adsr32 0))).2 = _
    rw [h199, adsr32_eq, adsr32_eq]
    decide!
  have h201 : calls32 201 (adsr32 0) = adsr32 (13488897 / 67108864) := by
    show (GetNextEnvelopePoint32 (calls32 200 (adsr32 0))).2 = _
    rw [h200, adsr32_eq, adsr32_eq]
    decide!
  have h300 : calls32 300 (adsr32 0) = adsr32 (10066319 / 33554432) := by
    rw [show 300 = 201 + 99 from rfl, calls32_add, h201, adsr32_eq, adsr32_eq]
    decide!
  have h301 : calls32 301 (adsr32 0) = adsr32 (10099873 / 33554432) := by
    show (GetNextEnvelopePoint32 (calls32 300 (adsr32 0))).2 = _
    rw [h300, adsr32_eq, adsr32_eq]
    decide!
  exact ⟨h100, h199, h200, h201, h300, h301⟩

/-- C21: in binary32 the envelope of the claim's own example,
`LinEnvelope(1000, 0.1f, 0.0f, 0.1f, 0.5f, 0.1f)` started by `ResetEnvelope`, does not return
`Sustain = 0.5` at call 200 or next to it.  Call 0 returns 0 and call 100 returns
0.9999999.  The position that call 200 finds, 0.20000023, is already past
`Attack + Hold + Decay = 0.2f`, so call 200 takes the release branch, which starts at
`2 * Sustain - Min`, and returns 0.999999; call 199 returns 0.505 and call 201 returns
0.995.  Call 300 returns 0.5000017 and call 301 returns `Min = 0`. -/
theorem sustain_breakpoint_missed :
    output32 0 (new32 1000 (fl32 (1 / 10)) 0 (fl32 (1 / 10)) (1 / 2)
      (fl32 (1 / 10))).ResetEnvelope = 0 ∧
    output32 100 (new32 1000 (fl32 (1 / 10)) 0 (fl32 (1 / 10)) (1 / 2)
      (fl32 (1 / 10))).ResetEnvelope = 8388607 / 8388608 ∧
    output32 199 (new32 1000 (fl32 (1 / 10)) 0 (fl32 (1 / 10)) (1 / 2)
      (fl32 (1 / 10))).ResetEnvelope = 2118119 / 4194304 ∧
    (calls32 200 (new32 1000 (fl32 (1 / 10)) 0 (fl32 (1 / 10)) (1 / 2)
      (fl32 (1 / 10))).ResetEnvelope).EnvPos = 3355447 / 16777216 ∧
    fadd (fadd (fl32 (1 / 10)) 0) (fl32 (1 / 10)) = 13421773 / 67108864 ∧
    (13421773 / 67108864 : ℚ) < 3355447 / 16777216 ∧
    output32 200 (new32 1000 (fl32 (1 / 10)) 0 (fl32 (1 / 10)) (1 / 2)
      (fl32 (1 / 10))).ResetEnvelope = 8388599 / 8388608 ∧
    output32 201 (new32 1000 (fl32 (1 / 10)) 0 (fl32 (1 / 10)) (1 / 2)
      (fl32 (1 / 10))).ResetEnvelope = 260833 / 262144 ∧
    output32 300 (new32 1000 (fl32 (1 / 10)) 0 (fl32 (1 / 10)) (1 / 2)
      (fl32 (1 / 10))).ResetEnvelope = 2097159 / 4194304 ∧
    output32 301 (new32 1000 (fl32 (1 / 10)) 0 (fl32 (1 / 10)) (1 / 2)
      (fl32 (1 / 10))).ResetEnvelope = 0 := by
  have he : (new32 1000 (fl32 (1 / 10)) 0 (fl32 (1 / 10)) (1 / 2) (fl32 (1 / 10))).ResetEnvelope
      = adsr32 0 := rfl
  obtain ⟨h100, h199, h200, h201, h300, h301⟩ := calls32_adsr32
  rw [he]
  unfold output32
  rw [h100, h199, h200, h201, h300, h301]
  simp only [adsr32_eq, calls32]
  refine ⟨?_, ?_, ?_, ?_, ?_, ?_, ?_, ?_, ?_, ?_⟩
  all_goals decide!

end LinEnvelope

end nemlib

/-! ## Rescale in binary32: an empty old range far from zero -/

namespace nemlib

/-- C27: in binary32 the guard `oldMin -= 0.01f` does not always make the divisor non-zero.
At `oldMin = oldMax = 300000` the spacing of binary32 values is 1/32, the subtraction
`300000.0f - 0.01f` rounds back to `300000.0f`, the divisor `oldMax - oldMin` is 0, and
`Rescale` divides by zero whatever the other three arguments are. -/
theorem Rescale32_divides_by_zero (value newMin newMax : ℚ) :
    fl32 300000 = 300000 ∧
    Rescale32.oldMin 300000 300000 = 300000 ∧
    fsub 300000 (Rescale32.oldMin 300000 300000) = 0 ∧
    Rescale32 value newMin newMax 300000 300000 = none := by
  have h1 : Rescale32.oldMin 300000 300000 = 300000 := by decide!
  have h2 : fsub 300000 300000 = 0 := by decide!
  refine ⟨by decide!, h1, by rw [h1, h2], ?_⟩
  unfold Rescale32
  simp only [h1]
  rw [if_pos h2]

end nemlib

/-! ## One-pole filters: the cosine of `K` -/

namespace nemlib

/-- The cosine of a rational number is not zero, because `π` is irrational. -/
theorem cos_ratCast_ne_zero (x : ℚ) : Real.cos (x : ℝ) ≠ 0 := by
  intro h
  obtain ⟨k, hk⟩ := Real.cos_eq_zero_iff.mp h
  have hk2 : ((2 * k + 1 : Int) : ℝ) ≠ 0 := by
    exact_mod_cast (by omega : (2 * k + 1 : Int) ≠ 0)
  have hpi : Real.pi = ((2 * x / ((2 * k + 1 : Int) : ℚ) : ℚ) : ℝ) := by
    push_cast
    push_cast at hk2
    field_simp
    linarith
  exact irrational_pi.ne_rat _ hpi

/-- C31: for a `Libm` whose `cos` is zero only where the real cosine is zero, the
coefficient computations of `OnePoleLPF` and `OnePoleHPF` (constructor and `SetFrequency`)
evaluate `1 / cos(K)` with `cos(K) ≠ 0`, for every sample rate and every cut-off frequency:
`K` is a `float`, hence a rational number, and the cosine has no rational zero.  The same
holds of `cos` at every other `float`. -/
theorem cos_K_ne_zero (L : Libm)
    (hcos : ∀ x : ℚ, L.cos x = 0 → Real.cos (x : ℝ) = 0) (sr : Int) (f : ℚ) :
    L.cos (OnePoleLPF.K L (max sr 1) f) ≠ 0 ∧
    (OnePoleLPF.new L sr f).Coeff
      = min (1 - 1 / L.cos (OnePoleLPF.K L (max sr 1) f)
          + L.tan (OnePoleLPF.K L (max sr 1) f)) (999 / 1000) ∧
    L.cos (OnePoleHPF.K L (max sr 1) f) ≠ 0 ∧
    (OnePoleHPF.new L sr f).Coeff
      = min (1 - 1 / L.cos (OnePoleHPF.K L (max sr 1) f)
          + L.tan (OnePoleHPF.K L (max sr 1) f)) (1999 / 1000) ∧
    (∀ g : OnePoleLPF, L.cos (OnePoleLPF.K L g.SampleRate f) ≠ 0 ∧
      (g.SetFrequency L f).Coeff
        = min (1 - 1 / L.cos (OnePoleLPF.K L g.SampleRate f)
            + L.tan (OnePoleLPF.K L g.SampleRate f)) (999 / 1000)) ∧
    (∀ g : OnePoleHPF, L.cos (OnePoleHPF.K L g.SampleRate f) ≠ 0 ∧
      (g.SetFrequency L f).Coeff
        = min (1 - 1 / L.cos (OnePoleHPF.K L g.SampleRate f)
            + L.tan (OnePoleHPF.K L g.SampleRate f)) (1999 / 1000)) ∧
    ∀ x : ℚ, L.cos x ≠ 0 := by
  have h : ∀ x : ℚ, L.cos x ≠ 0 := fun x hx => cos_ratCast_ne_zero x (hcos x hx)
  exact ⟨h _, rfl, h _, rfl, fun g => ⟨h _, rfl⟩, fun g => ⟨h _, rfl⟩, h⟩

/-- C31, evaluated on the sample `Libm`, whose `cos` is constantly 1, at
`OnePoleHPF(4, 0.5f)`, where the clamped frequency is a quarter of the sample rate. -/
theorem cos_K_ne_zero_witness :
    (∀ x : ℚ, Libm.sample.cos x = 0 → Real.cos (x : ℝ) = 0) ∧
    Libm.sample.cos (OnePoleHPF.K Libm.sample (max 4 1) (1 / 2)) ≠ 0 :=
  ⟨fun x hx => absurd hx (by norm_num [Libm.sample]),
   (cos_K_ne_zero Libm.sample (fun x hx => absurd hx (by norm_num [Libm.sample])) 4
    (1 / 2)).2.2.1⟩

end nemlib
